import Mathlib

/-!
# XYHSoftRenderer: a verification development

A shallow embedding of the software rasterizer's core (`Vector.h`, `Shader.h`,
`Buffer.cpp`, `Renderer.cpp`, `Matrix.cpp`, `Texture.cpp`) together with theorems
about it.

Modelling conventions.

* The C++ `float` is idealised as an arbitrary linearly ordered field `F` with a
  floor function (exact arithmetic, no rounding, no NaN or infinities).  Every
  definition is computable and can be evaluated at `F := ℚ`.  Where the rounding of
  a `float` operation changes what the code does, the function has a second
  definition `*.rounded` in which every operation passes through a rounding function
  `fl : F → F`; `roundFloat` is the rounding to binary32 on `ℚ`.
* `std::sqrt`, `tanf` and `std::log2` are library functions; they are passed to the
  code that calls them as parameters `sqrtf`, `tanf`, `log2f : F → F`.
* `int` and `unsigned int` are idealised as `ℤ` and `ℕ` (no wrap-around); the
  conversion of a `float` to `int` in the bounding box of `DrawTriangle` is the
  32-bit conversion `toInt32`.
* A C++ reference parameter that is written by the callee (`float& w1`) becomes an
  argument that is threaded through and returned.
-/

namespace XYHSoftRenderer

/-! ## Vector.h -/

/-- The `EPSILON` constant of `Vector.h`, `0.000001f`. -/
def EPSILON {F : Type} [LinearOrderedField F] : F := 1 / 1000000

/-- The class template `Vector2<T>`. -/
structure Vector2 (T : Type) where
  x : T
  y : T
deriving DecidableEq

/-- The class template `Vector3<T>`; it carries a fourth member `w`. -/
structure Vector3 (T : Type) where
  x : T
  y : T
  z : T
  w : T
deriving DecidableEq

/-- The class template `Vector4<T>`. -/
structure Vector4 (T : Type) where
  x : T
  y : T
  z : T
  w : T
deriving DecidableEq

section VectorOps

variable {F : Type} [LinearOrderedField F]

/-- Constructor `Vector2()`. -/
def Vector2.default : Vector2 F := ⟨0, 0⟩

/-- Operator `Vector2<T>::operator-(const Vector2<T>&)`. -/
def Vector2.sub (a b : Vector2 F) : Vector2 F := ⟨a.x - b.x, a.y - b.y⟩

/-- Constructor `Vector3(T x, T y, T z)`, which sets `w` to one. -/
def Vector3.mk3 (x y z : F) : Vector3 F := ⟨x, y, z, 1⟩

/-- Constructor `Vector3()`. -/
def Vector3.default : Vector3 F := ⟨0, 0, 0, 1⟩

/-- The constant `Vector3<T>::zero`, built by `Vector3f(0.0f, 0.0f, 0.0f)`. -/
def Vector3.zero : Vector3 F := Vector3.mk3 0 0 0

/-- Operator `Vector3<T>::operator+`. -/
def Vector3.add (a b : Vector3 F) : Vector3 F :=
  Vector3.mk3 (a.x + b.x) (a.y + b.y) (a.z + b.z)

/-- Operator `Vector3<T>::operator-(const Vector3<T>&)`. -/
def Vector3.sub (a b : Vector3 F) : Vector3 F :=
  Vector3.mk3 (a.x - b.x) (a.y - b.y) (a.z - b.z)

/-- Operator `Vector3<T>::operator*(const float&)`. -/
def Vector3.smul (a : Vector3 F) (scalar : F) : Vector3 F :=
  Vector3.mk3 (a.x * scalar) (a.y * scalar) (a.z * scalar)

/-- Operator `Vector3<T>::operator/(const float&)`: the zero vector when
`|scalar| < EPSILON`. -/
def Vector3.div (a : Vector3 F) (scalar : F) : Vector3 F :=
  if |scalar| < EPSILON then Vector3.zero
  else
    let invScalar := 1 / scalar
    Vector3.mk3 (a.x * invScalar) (a.y * invScalar) (a.z * invScalar)

/-- Method `Vector3<T>::magnitudeSquared`. -/
def Vector3.magnitudeSquared (a : Vector3 F) : F := a.x * a.x + a.y * a.y + a.z * a.z

/-- Method `Vector3<T>::magnitude`. -/
def Vector3.magnitude (sqrtf : F → F) (a : Vector3 F) : F := sqrtf a.magnitudeSquared

/-- Method `Vector3<T>::normalize`: unchanged when the magnitude is below `EPSILON`,
otherwise `*this = *this / mag`. -/
def Vector3.normalize (sqrtf : F → F) (a : Vector3 F) : Vector3 F :=
  let mag := a.magnitude sqrtf
  if mag < EPSILON then a else a.div mag

/-- Method `Vector3<T>::dot`. -/
def Vector3.dot (a b : Vector3 F) : F := a.x * b.x + a.y * b.y + a.z * b.z

/-- Static method `Vector3<T>::cross`. -/
def Vector3.cross (a b : Vector3 F) : Vector3 F :=
  Vector3.mk3 (a.y * b.z - a.z * b.y) (a.z * b.x - a.x * b.z) (a.x * b.y - a.y * b.x)

/-- Constructor `Vector4()`. -/
def Vector4.default : Vector4 F := ⟨0, 0, 0, 1⟩

/-- The `float` division `a / b` as a partial operation: it has no value for a zero
divisor. -/
def checkedDiv (a b : F) : Option F := if b = 0 then none else some (a / b)

/-- The constant `Vector2<T>::zero`. -/
def Vector2.zero : Vector2 F := ⟨0, 0⟩

/-- Operator `Vector2<T>::operator/(const float&)`: the zero vector when
`|scalar| < EPSILON`. -/
def Vector2.div (a : Vector2 F) (scalar : F) : Vector2 F :=
  if |scalar| < EPSILON then Vector2.zero
  else
    let invScalar := 1 / scalar
    ⟨a.x * invScalar, a.y * invScalar⟩

/-- Operator `Vector2<T>::operator/=(const float&)`: the vector after the call,
unchanged when `|scalar| < EPSILON`. -/
def Vector2.divAssign (a : Vector2 F) (scalar : F) : Vector2 F :=
  if |scalar| < EPSILON then a
  else
    let invScalar := 1 / scalar
    ⟨a.x * invScalar, a.y * invScalar⟩

/-- Method `Vector2<T>::magnitudeSquared`. -/
def Vector2.magnitudeSquared (a : Vector2 F) : F := a.x * a.x + a.y * a.y

/-- Method `Vector2<T>::magnitude`. -/
def Vector2.magnitude (sqrtf : F → F) (a : Vector2 F) : F := sqrtf a.magnitudeSquared

/-- Method `Vector2<T>::normalize`: unchanged when the magnitude is below `EPSILON`,
otherwise `*this /= mag`. -/
def Vector2.normalize (sqrtf : F → F) (a : Vector2 F) : Vector2 F :=
  let mag := a.magnitude sqrtf
  if mag < EPSILON then a else a.divAssign mag

/-- Operator `Vector3<T>::operator/=(const float&)`: the vector after the call; the
member `w` is not written. -/
def Vector3.divAssign (a : Vector3 F) (scalar : F) : Vector3 F :=
  if |scalar| < EPSILON then a
  else
    let invScalar := 1 / scalar
    ⟨a.x * invScalar, a.y * invScalar, a.z * invScalar, a.w⟩

/-- The constant `Vector4<T>::zero`. -/
def Vector4.zero : Vector4 F := ⟨0, 0, 0, 0⟩

/-- Operator `Vector4<T>::operator/(const float&)`: the zero vector when
`|scalar| < EPSILON`. -/
def Vector4.div (a : Vector4 F) (scalar : F) : Vector4 F :=
  if |scalar| < EPSILON then Vector4.zero
  else
    let invScalar := 1 / scalar
    ⟨a.x * invScalar, a.y * invScalar, a.z * invScalar, a.w * invScalar⟩

/-- Operator `Vector4<T>::operator/=(const float&)`: the vector after the call,
unchanged when `|scalar| < EPSILON`. -/
def Vector4.divAssign (a : Vector4 F) (scalar : F) : Vector4 F :=
  if |scalar| < EPSILON then a
  else
    let invScalar := 1 / scalar
    ⟨a.x * invScalar, a.y * invScalar, a.z * invScalar, a.w * invScalar⟩

/-- Method `Vector4<T>::magnitudeSquared`. -/
def Vector4.magnitudeSquared (a : Vector4 F) : F :=
  a.x * a.x + a.y * a.y + a.z * a.z + a.w * a.w

/-- Method `Vector4<T>::magnitude`. -/
def Vector4.magnitude (sqrtf : F → F) (a : Vector4 F) : F := sqrtf a.magnitudeSquared

/-- Method `Vector4<T>::normalize`: unchanged when the magnitude is below `EPSILON`,
otherwise `*this /= mag`. -/
def Vector4.normalize (sqrtf : F → F) (a : Vector4 F) : Vector4 F :=
  let mag := a.magnitude sqrtf
  if mag < EPSILON then a else a.divAssign mag

/-! The same operators and methods with the division `1.0f / scalar` read as the
partial operation `checkedDiv`: the result is `none` when the code divides by
zero. -/

/-- Operator `Vector2<T>::operator/(const float&)`, divisions checked. -/
def Vector2.div.checked (a : Vector2 F) (scalar : F) : Option (Vector2 F) :=
  if |scalar| < EPSILON then some Vector2.zero
  else (checkedDiv 1 scalar).map (fun invScalar => ⟨a.x * invScalar, a.y * invScalar⟩)

/-- Operator `Vector2<T>::operator/=(const float&)`, divisions checked. -/
def Vector2.divAssign.checked (a : Vector2 F) (scalar : F) : Option (Vector2 F) :=
  if |scalar| < EPSILON then some a
  else (checkedDiv 1 scalar).map (fun invScalar => ⟨a.x * invScalar, a.y * invScalar⟩)

/-- Method `Vector2<T>::normalize`, divisions checked. -/
def Vector2.normalize.checked (sqrtf : F → F) (a : Vector2 F) : Option (Vector2 F) :=
  let mag := a.magnitude sqrtf
  if mag < EPSILON then some a else Vector2.divAssign.checked a mag

/-- Operator `Vector3<T>::operator/(const float&)`, divisions checked. -/
def Vector3.div.checked (a : Vector3 F) (scalar : F) : Option (Vector3 F) :=
  if |scalar| < EPSILON then some Vector3.zero
  else (checkedDiv 1 scalar).map (fun invScalar =>
    Vector3.mk3 (a.x * invScalar) (a.y * invScalar) (a.z * invScalar))

/-- Operator `Vector3<T>::operator/=(const float&)`, divisions checked. -/
def Vector3.divAssign.checked (a : Vector3 F) (scalar : F) : Option (Vector3 F) :=
  if |scalar| < EPSILON then some a
  else (checkedDiv 1 scalar).map (fun invScalar =>
    ⟨a.x * invScalar, a.y * invScalar, a.z * invScalar, a.w⟩)

/-- Method `Vector3<T>::normalize`, divisions checked. -/
def Vector3.normalize.checked (sqrtf : F → F) (a : Vector3 F) : Option (Vector3 F) :=
  let mag := a.magnitude sqrtf
  if mag < EPSILON then some a else Vector3.div.checked a mag

/-- Operator `Vector4<T>::operator/(const float&)`, divisions checked. -/
def Vector4.div.checked (a : Vector4 F) (scalar : F) : Option (Vector4 F) :=
  if |scalar| < EPSILON then some Vector4.zero
  else (checkedDiv 1 scalar).map (fun invScalar =>
    ⟨a.x * invScalar, a.y * invScalar, a.z * invScalar, a.w * invScalar⟩)

/-- Operator `Vector4<T>::operator/=(const float&)`, divisions checked. -/
def Vector4.divAssign.checked (a : Vector4 F) (scalar : F) : Option (Vector4 F) :=
  if |scalar| < EPSILON then some a
  else (checkedDiv 1 scalar).map (fun invScalar =>
    ⟨a.x * invScalar, a.y * invScalar, a.z * invScalar, a.w * invScalar⟩)

/-- Method `Vector4<T>::normalize`, divisions checked. -/
def Vector4.normalize.checked (sqrtf : F → F) (a : Vector4 F) : Option (Vector4 F) :=
  let mag := a.magnitude sqrtf
  if mag < EPSILON then some a else Vector4.divAssign.checked a mag

end VectorOps

/-! ## Shader.h: the vertex stage output -/

/-- The struct `VertexOutput` of `Shader.h`. -/
structure VertexOutput (F : Type) where
  position : Vector4 F
  color : Vector4 F
  normal : Vector3 F
  texcoord : Vector2 F
  worldPos : Vector3 F
deriving DecidableEq

section RendererMath

variable {F : Type} [LinearOrderedField F]

/-- A default-constructed `VertexOutput result;`. -/
def VertexOutput.default : VertexOutput F :=
  ⟨Vector4.default, Vector4.default, Vector3.default, Vector2.default, Vector3.default⟩

/-! ## Renderer.cpp -/

/-- Method `Renderer::ProcessVertexOutput`: perspective divide (with `|w| < 0.001`
replaced by `0.001`) followed by the viewport transform.  `position.w` is not
written. -/
def ProcessVertexOutput (m_width m_height : ℤ) (vertex : VertexOutput F) : VertexOutput F :=
  let w0 := vertex.position.w
  let w := if |w0| < 1 / 1000 then 1 / 1000 else w0
  let x1 := vertex.position.x / w
  let y1 := vertex.position.y / w
  let z1 := vertex.position.z / w
  let x2 := (x1 + 1) * (m_width : F) * (1 / 2)
  let y2 := (1 - y1) * (m_height : F) * (1 / 2)
  let z2 := z1 * (1 / 2) + 1 / 2
  { vertex with position := ⟨x2, y2, z2, vertex.position.w⟩ }

/-- The free function `EdgeFunction`. -/
def EdgeFunction (a b c : Vector2 F) : F :=
  (c.x - a.x) * (b.y - a.y) - (c.y - a.y) * (b.x - a.x)

/-- Method `Renderer::PointInTriangle`.  The reference parameters `w1 w2 w3` are
passed in and returned next to the boolean result, each with the value it holds
when the function returns. -/
def PointInTriangle (x y : F) (v1 v2 v3 : Vector2 F) (w1 w2 w3 : F) : Bool × F × F × F :=
  let area := EdgeFunction v1 v2 v3
  if |area| < 1 / 100000 then (false, w1, w2, w3)
  else
    let invArea := 1 / area
    let w1 := EdgeFunction v2 v3 ⟨x, y⟩ * invArea
    if w1 < 0 then (false, w1, w2, w3)
    else
      let w2 := EdgeFunction v3 v1 ⟨x, y⟩ * invArea
      if w2 < 0 then (false, w1, w2, w3)
      else
        let w3 := 1 - w1 - w2
        (decide (0 ≤ w3), w1, w2, w3)

/-- Method `Renderer::InterpolateVertex`. -/
def InterpolateVertex (sqrtf : F → F) (v1 v2 v3 : VertexOutput F) (w1 w2 w3 : F) :
    VertexOutput F :=
  let z1 := v1.position.z
  let z2 := v2.position.z
  let z3 := v3.position.z
  let rz := w1 * z1 + w2 * z2 + w3 * z3
  let correctionW1 := w1 / v1.position.w
  let correctionW2 := w2 / v2.position.w
  let correctionW3 := w3 / v3.position.w
  let normalizer := 1 / (correctionW1 + correctionW2 + correctionW3)
  let color : Vector4 F :=
    ⟨(correctionW1 * v1.color.x + correctionW2 * v2.color.x + correctionW3 * v3.color.x) * normalizer,
     (correctionW1 * v1.color.y + correctionW2 * v2.color.y + correctionW3 * v3.color.y) * normalizer,
     (correctionW1 * v1.color.z + correctionW2 * v2.color.z + correctionW3 * v3.color.z) * normalizer,
     (correctionW1 * v1.color.w + correctionW2 * v2.color.w + correctionW3 * v3.color.w) * normalizer⟩
  let normal : Vector3 F :=
    ⟨(correctionW1 * v1.normal.x + correctionW2 * v2.normal.x + correctionW3 * v3.normal.x) * normalizer,
     (correctionW1 * v1.normal.y + correctionW2 * v2.normal.y + correctionW3 * v3.normal.y) * normalizer,
     (correctionW1 * v1.normal.z + correctionW2 * v2.normal.z + correctionW3 * v3.normal.z) * normalizer,
     1⟩
  let normal := normal.normalize sqrtf
  let texcoord : Vector2 F :=
    ⟨(correctionW1 * v1.texcoord.x + correctionW2 * v2.texcoord.x + correctionW3 * v3.texcoord.x) * normalizer,
     (correctionW1 * v1.texcoord.y + correctionW2 * v2.texcoord.y + correctionW3 * v3.texcoord.y) * normalizer⟩
  let worldPos : Vector3 F :=
    ⟨(correctionW1 * v1.worldPos.x + correctionW2 * v2.worldPos.x + correctionW3 * v3.worldPos.x) * normalizer,
     (correctionW1 * v1.worldPos.y + correctionW2 * v2.worldPos.y + correctionW3 * v3.worldPos.y) * normalizer,
     (correctionW1 * v1.worldPos.z + correctionW2 * v2.worldPos.z + correctionW3 * v3.worldPos.z) * normalizer,
     1⟩
  let rx := w1 * v1.position.x + w2 * v2.position.x + w3 * v3.position.x
  let ry := w1 * v1.position.y + w2 * v2.position.y + w3 * v3.position.y
  { position := ⟨rx, ry, rz, 1⟩, color := color, normal := normal,
    texcoord := texcoord, worldPos := worldPos }

/-- Method `Renderer::ClipAgainstNearPlane`: the intersection of the segment from
`v1` to `v2` with the plane `w = NEAR_PLANE`, where `NEAR_PLANE = 0.1f`. -/
def ClipAgainstNearPlane (sqrtf : F → F) (v1 v2 : VertexOutput F) : VertexOutput F :=
  let NEAR_PLANE : F := 1 / 10
  let t := (NEAR_PLANE - v1.position.w) / (v2.position.w - v1.position.w)
  let position : Vector4 F :=
    ⟨v1.position.x + t * (v2.position.x - v1.position.x),
     v1.position.y + t * (v2.position.y - v1.position.y),
     v1.position.z + t * (v2.position.z - v1.position.z),
     NEAR_PLANE⟩
  let worldPos : Vector3 F :=
    ⟨v1.worldPos.x + t * (v2.worldPos.x - v1.worldPos.x),
     v1.worldPos.y + t * (v2.worldPos.y - v1.worldPos.y),
     v1.worldPos.z + t * (v2.worldPos.z - v1.worldPos.z),
     1⟩
  let texcoord : Vector2 F :=
    ⟨v1.texcoord.x + t * (v2.texcoord.x - v1.texcoord.x),
     v1.texcoord.y + t * (v2.texcoord.y - v1.texcoord.y)⟩
  let normal : Vector3 F :=
    ⟨v1.normal.x + t * (v2.normal.x - v1.normal.x),
     v1.normal.y + t * (v2.normal.y - v1.normal.y),
     v1.normal.z + t * (v2.normal.z - v1.normal.z),
     1⟩
  let normal := normal.normalize sqrtf
  let color : Vector4 F :=
    ⟨v1.color.x + t * (v2.color.x - v1.color.x),
     v1.color.y + t * (v2.color.y - v1.color.y),
     v1.color.z + t * (v2.color.z - v1.color.z),
     v1.color.w + t * (v2.color.w - v1.color.w)⟩
  { position := position, color := color, normal := normal,
    texcoord := texcoord, worldPos := worldPos }

/-- The element type `std::array<VertexOutput, 3>` of the clipper's result. -/
abbrev Triangle (F : Type) : Type := VertexOutput F × VertexOutput F × VertexOutput F

/-- Method `Renderer::ClipTriangleAgainstNearPlane`: the list of triangles pushed
onto `result`, in order. -/
def ClipTriangleAgainstNearPlane (sqrtf : F → F) (v1 v2 v3 : VertexOutput F) :
    List (Triangle F) :=
  let NEAR_PLANE : F := 1 / 10
  let v1Inside : Bool := decide (NEAR_PLANE ≤ v1.position.w)
  let v2Inside : Bool := decide (NEAR_PLANE ≤ v2.position.w)
  let v3Inside : Bool := decide (NEAR_PLANE ≤ v3.position.w)
  let insideCount : ℤ :=
    (if v1Inside then 1 else 0) + (if v2Inside then 1 else 0) + (if v3Inside then 1 else 0)
  if insideCount = 0 then []
  else if insideCount = 3 then [(v1, v2, v3)]
  else if insideCount = 1 then
    if v1Inside then
      let newV2 := ClipAgainstNearPlane sqrtf v1 v2
      let newV3 := ClipAgainstNearPlane sqrtf v1 v3
      [(v1, newV2, newV3)]
    else if v2Inside then
      let newV1 := ClipAgainstNearPlane sqrtf v2 v1
      let newV3 := ClipAgainstNearPlane sqrtf v2 v3
      [(newV1, v2, newV3)]
    else
      let newV1 := ClipAgainstNearPlane sqrtf v3 v1
      let newV2 := ClipAgainstNearPlane sqrtf v3 v2
      [(newV1, newV2, v3)]
  else
    if !v1Inside then
      let newV1A := ClipAgainstNearPlane sqrtf v2 v1
      let newV1B := ClipAgainstNearPlane sqrtf v3 v1
      [(newV1A, v2, v3), (newV1A, v3, newV1B)]
    else if !v2Inside then
      let newV2A := ClipAgainstNearPlane sqrtf v1 v2
      let newV2B := ClipAgainstNearPlane sqrtf v3 v2
      [(v1, newV2A, v3), (newV2A, newV2B, v3)]
    else
      let newV3A := ClipAgainstNearPlane sqrtf v1 v3
      let newV3B := ClipAgainstNearPlane sqrtf v2 v3
      [(v1, v2, newV3A), (v2, newV3B, newV3A)]

/-- Method `Renderer::ClipTriangleAgainstNearPlane` with its calls recorded: next to
the list of triangles, the argument pairs `(v1, v2)` of the calls
`ClipAgainstNearPlane(v1, v2)` it makes, in order. -/
def ClipTriangleAgainstNearPlane.traced (sqrtf : F → F) (v1 v2 v3 : VertexOutput F) :
    List (Triangle F) × List (VertexOutput F × VertexOutput F) :=
  let NEAR_PLANE : F := 1 / 10
  let v1Inside : Bool := decide (NEAR_PLANE ≤ v1.position.w)
  let v2Inside : Bool := decide (NEAR_PLANE ≤ v2.position.w)
  let v3Inside : Bool := decide (NEAR_PLANE ≤ v3.position.w)
  let insideCount : ℤ :=
    (if v1Inside then 1 else 0) + (if v2Inside then 1 else 0) + (if v3Inside then 1 else 0)
  if insideCount = 0 then ([], [])
  else if insideCount = 3 then ([(v1, v2, v3)], [])
  else if insideCount = 1 then
    if v1Inside then
      let newV2 := ClipAgainstNearPlane sqrtf v1 v2
      let newV3 := ClipAgainstNearPlane sqrtf v1 v3
      ([(v1, newV2, newV3)], [(v1, v2), (v1, v3)])
    else if v2Inside then
      let newV1 := ClipAgainstNearPlane sqrtf v2 v1
      let newV3 := ClipAgainstNearPlane sqrtf v2 v3
      ([(newV1, v2, newV3)], [(v2, v1), (v2, v3)])
    else
      let newV1 := ClipAgainstNearPlane sqrtf v3 v1
      let newV2 := ClipAgainstNearPlane sqrtf v3 v2
      ([(newV1, newV2, v3)], [(v3, v1), (v3, v2)])
  else
    if !v1Inside then
      let newV1A := ClipAgainstNearPlane sqrtf v2 v1
      let newV1B := ClipAgainstNearPlane sqrtf v3 v1
      ([(newV1A, v2, v3), (newV1A, v3, newV1B)], [(v2, v1), (v3, v1)])
    else if !v2Inside then
      let newV2A := ClipAgainstNearPlane sqrtf v1 v2
      let newV2B := ClipAgainstNearPlane sqrtf v3 v2
      ([(v1, newV2A, v3), (newV2A, newV2B, v3)], [(v1, v2), (v3, v2)])
    else
      let newV3A := ClipAgainstNearPlane sqrtf v1 v3
      let newV3B := ClipAgainstNearPlane sqrtf v2 v3
      ([(v1, v2, newV3A), (v2, newV3B, newV3A)], [(v1, v3), (v2, v3)])

end RendererMath

/-! ## Color.h, Matrix.h, Object.h, Shader.h: the data the draw call consumes -/

/-- The class `Color`: four `float` channels. -/
structure Color (F : Type) where
  r : F
  g : F
  b : F
  a : F
deriving DecidableEq

/-- The class `Matrix`: the member `float m[4][4]`, indexed `m[row][column]`. -/
structure Matrix (F : Type) where
  m : Fin 4 → Fin 4 → F

/-- The class `Vertex` of `Object.h`. -/
structure Vertex (F : Type) where
  pos : Vector4 F
  color : Vector4 F
  normal : Vector3 F
  texcoord : Vector2 F
deriving DecidableEq

/-- The struct `VertexShaderInput` of `Shader.h`. -/
structure VertexShaderInput (F : Type) where
  position : Vector4 F
  color : Vector4 F
  normal : Vector3 F
  texcoord : Vector2 F
  modelMatrix : Matrix F
  viewMatrix : Matrix F
  projMatrix : Matrix F

/-- The abstract class `Shader`: its two virtual stages, as functions of their
arguments. -/
structure Shader (F : Type) where
  VertexShader : VertexShaderInput F → VertexOutput F
  FragmentShader : VertexOutput F → F → F → Color F

/-! ## Buffer.h, Buffer.cpp -/

/-- The class `ColorBuffer` (a `Buffer` with four channels).  The heap block
`unsigned char* buffer` is a map from byte offset to byte value; the code reads and
writes it only at offsets it has checked against `BUFFER_SIZE`. -/
structure ColorBuffer where
  BUFFER_SIZE : ℕ
  channel : ℕ
  width : ℕ
  height : ℕ
  buffer : ℕ → ℕ

/-- The class `DepthBuffer`; `float* buffer` is a map from index to depth. -/
structure DepthBuffer (F : Type) where
  BUFFER_SIZE : ℕ
  width : ℕ
  height : ℕ
  buffer : ℕ → F

/-- The class `FrameBuffer`. -/
structure FrameBuffer (F : Type) where
  colorBuffer : ColorBuffer
  depthBuffer : DepthBuffer F

section Buffers

variable {F : Type} [LinearOrderedField F] [FloorRing F]

/-- The function `clamp` of `MyMath.h`. -/
def clamp (value _min _max : F) : F :=
  if value < _min then _min
  else if value > _max then _max
  else value

/-- The function `clamp01` of `MyMath.h`. -/
def clamp01 (value : F) : F := clamp value 0 1

/-- The conversion `static_cast<BYTE>(v)` of a `float`: the fractional part is
discarded (rounding toward zero) and the low eight bits are kept.  For `v` outside
`(-1, 256)` the C++ conversion is undefined; the model then follows the usual route
through `int`. -/
def toBYTE (v : F) : ℕ :=
  let t : ℤ := if 0 ≤ v then ⌊v⌋ else ⌈v⌉
  (t % 256).toNat

/-- Method `ColorBuffer::SetPixel(unsigned int, unsigned int, const Color&)`. -/
def ColorBuffer.SetPixel (cb : ColorBuffer) (x y : ℕ) (color : Color F) : ColorBuffer :=
  if x ≥ cb.width ∨ y ≥ cb.height then cb
  else
    let index := (y * cb.width + x) * 4
    if index + 3 < cb.BUFFER_SIZE then
      let b0 := Function.update cb.buffer index (toBYTE (color.r * 255))
      let b1 := Function.update b0 (index + 1) (toBYTE (color.g * 255))
      let b2 := Function.update b1 (index + 2) (toBYTE (color.b * 255))
      let b3 := Function.update b2 (index + 3) (toBYTE (color.a * 255))
      { cb with buffer := b3 }
    else cb

/-- Method `DepthBuffer::SetDepth`: the depth is clamped to `[0, 1]` before it is
stored. -/
def DepthBuffer.SetDepth (db : DepthBuffer F) (x y : ℕ) (depth : F) : DepthBuffer F :=
  let depth := clamp01 depth
  if x ≥ db.width ∨ y ≥ db.height then db
  else
    let index := y * db.width + x
    if index < db.BUFFER_SIZE then { db with buffer := Function.update db.buffer index depth }
    else db

/-- Method `DepthBuffer::GetDepth`. -/
def DepthBuffer.GetDepth (db : DepthBuffer F) (x y : ℕ) : F :=
  if x ≥ db.width ∨ y ≥ db.height then 1
  else
    let index := y * db.width + x
    if index < db.BUFFER_SIZE then db.buffer index else 1

end Buffers

/-! ## Renderer.h, Renderer.cpp: the draw call -/

/-- The enumeration `Renderer::CullMode`. -/
inductive CullMode where
  | CULL_BACK
  | CULL_FRONT
  | CULL_NONE
deriving DecidableEq

/-- The enumeration `Renderer::FrontFace`. -/
inductive FrontFace where
  | COUNTER_CLOCKWISE
  | CLOCKWISE
deriving DecidableEq

/-- The members of the class `Renderer` that `DrawTriangle` reads or writes.
`m_currentFrameBuffer` is a pointer in the source; the record holds the frame
buffer it points to. -/
structure Renderer (F : Type) where
  m_width : ℤ
  m_height : ℤ
  m_modelMatrix : Matrix F
  m_viewMatrix : Matrix F
  m_projMatrix : Matrix F
  m_viewPosition : Vector3 F
  m_cullMode : CullMode
  m_frontFace : FrontFace
  m_currentFrameBuffer : FrameBuffer F

/-- The constant `BLOCK_SIZE` of `Renderer::DrawTriangle`. -/
def BLOCK_SIZE : ℤ := 8

/-- The loop `for (int k = i; k <= hi; k += BLOCK_SIZE) body(k)` over a state. -/
def forBlocks {σ : Type} (i hi : ℤ) (body : ℤ → σ → σ) (s : σ) : σ :=
  if i ≤ hi then forBlocks (i + BLOCK_SIZE) hi body (body i s) else s
termination_by (hi + 1 - i).toNat
decreasing_by
  simp only [BLOCK_SIZE]
  omega

/-- The loop `for (int k = i; k < stop; k++) body(k)` over a state. -/
def forPixels {σ : Type} (i stop : ℤ) (body : ℤ → σ → σ) (s : σ) : σ :=
  if i < stop then forPixels (i + 1) stop body (body i s) else s
termination_by (stop - i).toNat
decreasing_by omega

/-- The loop `for (unsigned int k = i; k < stop; k++) body(k)` over a state. -/
def forCount {σ : Type} (i stop : ℕ) (body : ℕ → σ → σ) (s : σ) : σ :=
  if i < stop then forCount (i + 1) stop body (body i s) else s
termination_by stop - i

section BufferInit

variable {F : Type} [LinearOrderedField F] [FloorRing F]

/-- Method `ColorBuffer::GetPixelColor`. -/
def ColorBuffer.GetPixelColor (cb : ColorBuffer) (x y : ℕ) : Color F :=
  if x ≥ cb.width ∨ y ≥ cb.height then ⟨0, 0, 0, 0⟩
  else
    let index := (y * cb.width + x) * 4
    if index + 3 < cb.BUFFER_SIZE then
      ⟨(cb.buffer index : F) / 255, (cb.buffer (index + 1) : F) / 255,
       (cb.buffer (index + 2) : F) / 255, (cb.buffer (index + 3) : F) / 255⟩
    else ⟨0, 0, 0, 0⟩

/-- Method `ColorBuffer::InitWithColor(const Color&)`.  The two loops only write the
heap block, so they run over the map of bytes. -/
def ColorBuffer.InitWithColor (cb : ColorBuffer) (color : Color F) : ColorBuffer :=
  let r := toBYTE (color.r * 255)
  let g := toBYTE (color.g * 255)
  let b := toBYTE (color.b * 255)
  let a := toBYTE (color.a * 255)
  { cb with buffer :=
      forCount 0 cb.height (fun i buffer =>
        forCount 0 cb.width (fun j buffer =>
          let index := (i * cb.width + j) * 4
          if index + 3 < cb.BUFFER_SIZE then
            let b0 := Function.update buffer index r
            let b1 := Function.update b0 (index + 1) g
            let b2 := Function.update b1 (index + 2) b
            Function.update b2 (index + 3) a
          else buffer) buffer) cb.buffer }

/-- Method `DepthBuffer::InitWithDepth`: the depth is clamped to `[0, 1]` before it
is stored. -/
def DepthBuffer.InitWithDepth (db : DepthBuffer F) (depth : F) : DepthBuffer F :=
  let depth := clamp01 depth
  { db with buffer :=
      forCount 0 db.height (fun i buffer =>
        forCount 0 db.width (fun j buffer =>
          let index := i * db.width + j
          if index < db.BUFFER_SIZE then Function.update buffer index depth
          else buffer) buffer) db.buffer }

/-- Method `FrameBuffer::InitWithColorAndDepth(const Color&, float)`. -/
def FrameBuffer.InitWithColorAndDepth (fb : FrameBuffer F) (color : Color F) (depth : F) :
    FrameBuffer F :=
  { colorBuffer := fb.colorBuffer.InitWithColor color,
    depthBuffer := fb.depthBuffer.InitWithDepth depth }

/-- The class `BufferManager`: the two frame buffers and the background colour in
its two representations (`COLORREF` and `Color`). -/
structure BufferManager (F : Type) where
  m_frontBuffer : FrameBuffer F
  m_backBuffer : FrameBuffer F
  m_backgroundColor : ℕ
  m_backgroundColorObj : Color F

/-- Method `BufferManager::SwapBuffers`: the six `std::swap` calls exchange the
`buffer` pointers and the members `width`, `height` of the colour buffers and of the
depth buffers.  Each pointer owns its heap block, so exchanging two pointers
exchanges the two maps; `BUFFER_SIZE` and `channel` are not exchanged. -/
def BufferManager.SwapBuffers (bm : BufferManager F) : BufferManager F :=
  let front := bm.m_frontBuffer
  let back := bm.m_backBuffer
  { bm with
    m_frontBuffer :=
      { colorBuffer :=
          { front.colorBuffer with buffer := back.colorBuffer.buffer,
                                   width := back.colorBuffer.width,
                                   height := back.colorBuffer.height },
        depthBuffer :=
          { front.depthBuffer with buffer := back.depthBuffer.buffer,
                                   width := back.depthBuffer.width,
                                   height := back.depthBuffer.height } },
    m_backBuffer :=
      { colorBuffer :=
          { back.colorBuffer with buffer := front.colorBuffer.buffer,
                                  width := front.colorBuffer.width,
                                  height := front.colorBuffer.height },
        depthBuffer :=
          { back.depthBuffer with buffer := front.depthBuffer.buffer,
                                  width := front.depthBuffer.width,
                                  height := front.depthBuffer.height } } }

end BufferInit

section Draw

variable {F : Type} [LinearOrderedField F] [FloorRing F]

/-- The conversion `(int)v` of a `float` `v` whose value is the integer `z` (in
`DrawTriangle` the result of `std::floor` or `std::ceil`).  An `int` has 32 bits: for
`z` outside `[-2^31, 2^31)` the C++ conversion is undefined, and the model returns
`INT_MIN = -2^31`, which the conversion instructions of x86 give and the renderer,
built for Windows, gets. -/
def toInt32 (z : ℤ) : ℤ := if -2 ^ 31 ≤ z ∧ z < 2 ^ 31 then z else -2 ^ 31

/-- Lines 662 to 670 of `Renderer::DrawTriangle`: the depth test of one interpolated
fragment against the stored depth and, when it passes, the fragment stage and the
two buffer writes.  The loop variables `x`, `y` are `int`s; they are non-negative
when the code converts them to `unsigned int`. -/
def DrawTriangle.depthTestAndWrite (shader : Shader F) (duvdx duvdy : F) (x y : ℤ)
    (pixelVertex : VertexOutput F) (fb : FrameBuffer F) : FrameBuffer F :=
  if pixelVertex.position.z ≤ fb.depthBuffer.GetDepth x.toNat y.toNat then
    let pixelColor := shader.FragmentShader pixelVertex duvdx duvdy
    let colorBuffer := fb.colorBuffer.SetPixel x.toNat y.toNat pixelColor
    let depthBuffer := fb.depthBuffer.SetDepth x.toNat y.toNat pixelVertex.position.z
    { colorBuffer := colorBuffer, depthBuffer := depthBuffer }
  else fb

/-- The body of the innermost loop of `Renderer::DrawTriangle` (lines 649 to 671)
for the pixel `(x, y)`.  `alpha`, `beta`, `gamma` are declared without a value in
the source and are read only after `PointInTriangle` has written them. -/
def DrawTriangle.pixel (sqrtf : F → F) (shader : Shader F)
    (screenVs_out1 screenVs_out2 screenVs_out3 : VertexOutput F) (w1 w2 w3 : F)
    (v1Pos v2Pos v3Pos : Vector2 F) (duvdx duvdy : F) (x y : ℤ) (fb : FrameBuffer F) :
    FrameBuffer F :=
  let pixelX := (x : F) + 1 / 2
  let pixelY := (y : F) + 1 / 2
  let r := PointInTriangle pixelX pixelY v1Pos v2Pos v3Pos 0 0 0
  if r.1 then
    let alpha := r.2.1
    let beta := r.2.2.1
    let gamma := r.2.2.2
    let s1 := { screenVs_out1 with position := { screenVs_out1.position with w := w1 } }
    let s2 := { screenVs_out2 with position := { screenVs_out2.position with w := w2 } }
    let s3 := { screenVs_out3 with position := { screenVs_out3.position with w := w3 } }
    let pixelVertex := InterpolateVertex sqrtf s1 s2 s3 alpha beta gamma
    DrawTriangle.depthTestAndWrite shader duvdx duvdy x y pixelVertex fb
  else fb

/-- The body of the loop over `clippedTriangles` in `Renderer::DrawTriangle` (lines
589 to 675): perspective divide, bounding box, UV derivatives and the tiled
traversal. -/
def DrawTriangle.rasterize (sqrtf : F → F) (m_width m_height : ℤ) (shader : Shader F)
    (triangle : Triangle F) (fb : FrameBuffer F) : FrameBuffer F :=
  let clipVs_out1 := triangle.1
  let clipVs_out2 := triangle.2.1
  let clipVs_out3 := triangle.2.2
  let w1 := clipVs_out1.position.w
  let w2 := clipVs_out2.position.w
  let w3 := clipVs_out3.position.w
  let screenVs_out1 := ProcessVertexOutput m_width m_height clipVs_out1
  let screenVs_out2 := ProcessVertexOutput m_width m_height clipVs_out2
  let screenVs_out3 := ProcessVertexOutput m_width m_height clipVs_out3
  let minX : ℤ := max 0 (toInt32
    ⌊min (min screenVs_out1.position.x screenVs_out2.position.x) screenVs_out3.position.x⌋)
  let maxX : ℤ := min (m_width - 1) (toInt32
    ⌈max (max screenVs_out1.position.x screenVs_out2.position.x) screenVs_out3.position.x⌉)
  let minY : ℤ := max 0 (toInt32
    ⌊min (min screenVs_out1.position.y screenVs_out2.position.y) screenVs_out3.position.y⌋)
  let maxY : ℤ := min (m_height - 1) (toInt32
    ⌈max (max screenVs_out1.position.y screenVs_out2.position.y) screenVs_out3.position.y⌉)
  let v1Pos : Vector2 F := ⟨screenVs_out1.position.x, screenVs_out1.position.y⟩
  let v2Pos : Vector2 F := ⟨screenVs_out2.position.x, screenVs_out2.position.y⟩
  let v3Pos : Vector2 F := ⟨screenVs_out3.position.x, screenVs_out3.position.y⟩
  let edge12 := v2Pos.sub v1Pos
  let edge13 := v3Pos.sub v1Pos
  let texEdge12 := screenVs_out2.texcoord.sub screenVs_out1.texcoord
  let texEdge13 := screenVs_out3.texcoord.sub screenVs_out1.texcoord
  let det := edge12.x * edge13.y - edge12.y * edge13.x
  let invDet : F := if |det| < EPSILON then 1 else 1 / det
  let dudx := (edge13.y * texEdge12.x - edge12.y * texEdge13.x) * invDet
  let dvdx := (edge13.y * texEdge12.y - edge12.y * texEdge13.y) * invDet
  let dudy := (edge12.x * texEdge13.x - edge13.x * texEdge12.x) * invDet
  let dvdy := (edge12.x * texEdge13.y - edge13.x * texEdge12.y) * invDet
  let duvdx := sqrtf (dudx * dudx + dvdx * dvdx)
  let duvdy := sqrtf (dudy * dudy + dvdy * dvdy)
  forBlocks minY maxY (fun blockY fb =>
    forBlocks minX maxX (fun blockX fb =>
      let endX := min (blockX + BLOCK_SIZE) (maxX + 1)
      let endY := min (blockY + BLOCK_SIZE) (maxY + 1)
      forPixels blockY endY (fun y fb =>
        forPixels blockX endX (fun x fb =>
          DrawTriangle.pixel sqrtf shader screenVs_out1 screenVs_out2 screenVs_out3
            w1 w2 w3 v1Pos v2Pos v3Pos duvdx duvdy x y fb) fb) fb) fb) fb

/-- Stage 3 of `Renderer::DrawTriangle` (lines 548 to 577): whether the triangle
with the given vertex-stage outputs is culled. -/
def DrawTriangle.culled (sqrtf : F → F) (m_viewPosition : Vector3 F)
    (m_cullMode : CullMode) (m_frontFace : FrontFace)
    (vs_out1 vs_out2 vs_out3 : VertexOutput F) : Bool :=
  if m_cullMode ≠ CullMode.CULL_NONE then
    let edge1 := vs_out2.worldPos.sub vs_out1.worldPos
    let edge2 := vs_out3.worldPos.sub vs_out1.worldPos
    let normal := (Vector3.cross edge1 edge2).normalize sqrtf
    let triangleCenter := ((vs_out1.worldPos.add vs_out2.worldPos).add vs_out3.worldPos).div 3
    let viewDir := m_viewPosition.sub triangleCenter
    let dotProduct := Vector3.dot normal viewDir
    let isFrontFacing : Bool :=
      if m_frontFace = FrontFace.COUNTER_CLOCKWISE then decide (dotProduct > EPSILON)
      else decide (dotProduct < -EPSILON)
    (m_cullMode = CullMode.CULL_BACK && !isFrontFacing) ||
      (m_cullMode = CullMode.CULL_FRONT && isFrontFacing)
  else false

/-- Method `Renderer::DrawTriangle`.  The null `Shader*` is `none`.  The result is
the renderer after the call; only the frame buffer can differ. -/
def DrawTriangle (sqrtf : F → F) (r : Renderer F) (v1 v2 v3 : Vertex F)
    (shader : Option (Shader F)) : Renderer F :=
  match shader with
  | none => r
  | some shader =>
    let vs_in1 : VertexShaderInput F :=
      ⟨v1.pos, v1.color, v1.normal, v1.texcoord, r.m_modelMatrix, r.m_viewMatrix, r.m_projMatrix⟩
    let vs_in2 : VertexShaderInput F :=
      ⟨v2.pos, v2.color, v2.normal, v2.texcoord, r.m_modelMatrix, r.m_viewMatrix, r.m_projMatrix⟩
    let vs_in3 : VertexShaderInput F :=
      ⟨v3.pos, v3.color, v3.normal, v3.texcoord, r.m_modelMatrix, r.m_viewMatrix, r.m_projMatrix⟩
    let vs_out1 := shader.VertexShader vs_in1
    let vs_out2 := shader.VertexShader vs_in2
    let vs_out3 := shader.VertexShader vs_in3
    if DrawTriangle.culled sqrtf r.m_viewPosition r.m_cullMode r.m_frontFace
        vs_out1 vs_out2 vs_out3 then r
    else
      let clippedTriangles := ClipTriangleAgainstNearPlane sqrtf vs_out1 vs_out2 vs_out3
      if clippedTriangles.isEmpty then r
      else
        let fb := clippedTriangles.foldl
          (fun fb triangle =>
            DrawTriangle.rasterize sqrtf r.m_width r.m_height shader triangle fb)
          r.m_currentFrameBuffer
        { r with m_currentFrameBuffer := fb }

/-- Lines 609 to 613 of `Renderer::DrawTriangle`: the bounding box
`(minX, maxX, minY, maxY)` of the three screen-space vertices, clipped to the
screen.  The results of `std::floor` and `std::ceil` are converted to `int` before
they are clipped (`toInt32`). -/
def DrawTriangle.boundingBox (m_width m_height : ℤ)
    (screenVs_out1 screenVs_out2 screenVs_out3 : VertexOutput F) : ℤ × ℤ × ℤ × ℤ :=
  let minX : ℤ := max 0 (toInt32
    ⌊min (min screenVs_out1.position.x screenVs_out2.position.x) screenVs_out3.position.x⌋)
  let maxX : ℤ := min (m_width - 1) (toInt32
    ⌈max (max screenVs_out1.position.x screenVs_out2.position.x) screenVs_out3.position.x⌉)
  let minY : ℤ := max 0 (toInt32
    ⌊min (min screenVs_out1.position.y screenVs_out2.position.y) screenVs_out3.position.y⌋)
  let maxY : ℤ := min (m_height - 1) (toInt32
    ⌈max (max screenVs_out1.position.y screenVs_out2.position.y) screenVs_out3.position.y⌉)
  (minX, maxX, minY, maxY)

/-- Lines 616 to 632 of `Renderer::DrawTriangle`: the four partial derivatives
`(dudx, dvdx, dudy, dvdy)` of the texture coordinates along the screen axes. -/
def DrawTriangle.derivatives (screenVs_out1 screenVs_out2 screenVs_out3 : VertexOutput F) :
    F × F × F × F :=
  let v1Pos : Vector2 F := ⟨screenVs_out1.position.x, screenVs_out1.position.y⟩
  let v2Pos : Vector2 F := ⟨screenVs_out2.position.x, screenVs_out2.position.y⟩
  let v3Pos : Vector2 F := ⟨screenVs_out3.position.x, screenVs_out3.position.y⟩
  let edge12 := v2Pos.sub v1Pos
  let edge13 := v3Pos.sub v1Pos
  let texEdge12 := screenVs_out2.texcoord.sub screenVs_out1.texcoord
  let texEdge13 := screenVs_out3.texcoord.sub screenVs_out1.texcoord
  let det := edge12.x * edge13.y - edge12.y * edge13.x
  let invDet : F := if |det| < EPSILON then 1 else 1 / det
  let dudx := (edge13.y * texEdge12.x - edge12.y * texEdge13.x) * invDet
  let dvdx := (edge13.y * texEdge12.y - edge12.y * texEdge13.y) * invDet
  let dudy := (edge12.x * texEdge13.x - edge13.x * texEdge12.x) * invDet
  let dvdy := (edge12.x * texEdge13.y - edge13.x * texEdge12.y) * invDet
  (dudx, dvdx, dudy, dvdy)

/-- Lines 639 to 674 of `Renderer::DrawTriangle`: the tiled traversal of the box
`minX..maxX` by `minY..maxY`, with the body of the innermost loop as a parameter. -/
def DrawTriangle.traverse {σ : Type} (minX maxX minY maxY : ℤ) (body : ℤ → ℤ → σ → σ)
    (s : σ) : σ :=
  forBlocks minY maxY (fun blockY s =>
    forBlocks minX maxX (fun blockX s =>
      let endX := min (blockX + BLOCK_SIZE) (maxX + 1)
      let endY := min (blockY + BLOCK_SIZE) (maxY + 1)
      forPixels blockY endY (fun y s =>
        forPixels blockX endX (fun x s => body x y s) s) s) s) s

end Draw

/-! ## Matrix.cpp -/

section MatrixOps

variable {F : Type} [LinearOrderedField F]

/-- Constructor `Matrix::Matrix()`: all sixteen entries zero. -/
def Matrix.zero : Matrix F := ⟨fun _ _ => 0⟩

/-- Static method `Matrix::identity`: ones on the diagonal of the zero matrix. -/
def Matrix.identity : Matrix F := ⟨fun i j => if i = j then 1 else 0⟩

/-- Operator `Matrix::operator*(const Matrix&)`, the unrolled product: the sixteen
assignments of the source, row by row. -/
def Matrix.mul (A B : Matrix F) : Matrix F :=
  let a00 := A.m 0 0; let a01 := A.m 0 1; let a02 := A.m 0 2; let a03 := A.m 0 3
  let b00 := B.m 0 0; let b10 := B.m 1 0; let b20 := B.m 2 0; let b30 := B.m 3 0
  let b01 := B.m 0 1; let b11 := B.m 1 1; let b21 := B.m 2 1; let b31 := B.m 3 1
  let b02 := B.m 0 2; let b12 := B.m 1 2; let b22 := B.m 2 2; let b32 := B.m 3 2
  let b03 := B.m 0 3; let b13 := B.m 1 3; let b23 := B.m 2 3; let b33 := B.m 3 3
  let a10 := A.m 1 0; let a11 := A.m 1 1; let a12 := A.m 1 2; let a13 := A.m 1 3
  let a20 := A.m 2 0; let a21 := A.m 2 1; let a22 := A.m 2 2; let a23 := A.m 2 3
  let a30 := A.m 3 0; let a31 := A.m 3 1; let a32 := A.m 3 2; let a33 := A.m 3 3
  ⟨![![a00 * b00 + a01 * b10 + a02 * b20 + a03 * b30,
       a00 * b01 + a01 * b11 + a02 * b21 + a03 * b31,
       a00 * b02 + a01 * b12 + a02 * b22 + a03 * b32,
       a00 * b03 + a01 * b13 + a02 * b23 + a03 * b33],
     ![a10 * b00 + a11 * b10 + a12 * b20 + a13 * b30,
       a10 * b01 + a11 * b11 + a12 * b21 + a13 * b31,
       a10 * b02 + a11 * b12 + a12 * b22 + a13 * b32,
       a10 * b03 + a11 * b13 + a12 * b23 + a13 * b33],
     ![a20 * b00 + a21 * b10 + a22 * b20 + a23 * b30,
       a20 * b01 + a21 * b11 + a22 * b21 + a23 * b31,
       a20 * b02 + a21 * b12 + a22 * b22 + a23 * b32,
       a20 * b03 + a21 * b13 + a22 * b23 + a23 * b33],
     ![a30 * b00 + a31 * b10 + a32 * b20 + a33 * b30,
       a30 * b01 + a31 * b11 + a32 * b21 + a33 * b31,
       a30 * b02 + a31 * b12 + a32 * b22 + a33 * b32,
       a30 * b03 + a31 * b13 + a32 * b23 + a33 * b33]]⟩

/-- Method `Matrix::transpose`. -/
def Matrix.transpose (M : Matrix F) : Matrix F := ⟨fun i j => M.m j i⟩

/-- The local variable `det` of `Matrix::inverse`: the expansion by the six
sub-determinants `s0..s5` of rows 0, 1 and `c0..c5` of rows 2, 3. -/
def Matrix.inverse.det (M : Matrix F) : F :=
  let m := M.m
  let s0 := m 0 0 * m 1 1 - m 1 0 * m 0 1
  let s1 := m 0 0 * m 1 2 - m 1 0 * m 0 2
  let s2 := m 0 0 * m 1 3 - m 1 0 * m 0 3
  let s3 := m 0 1 * m 1 2 - m 1 1 * m 0 2
  let s4 := m 0 1 * m 1 3 - m 1 1 * m 0 3
  let s5 := m 0 2 * m 1 3 - m 1 2 * m 0 3
  let c5 := m 2 2 * m 3 3 - m 3 2 * m 2 3
  let c4 := m 2 1 * m 3 3 - m 3 1 * m 2 3
  let c3 := m 2 1 * m 3 2 - m 3 1 * m 2 2
  let c2 := m 2 0 * m 3 3 - m 3 0 * m 2 3
  let c1 := m 2 0 * m 3 2 - m 3 0 * m 2 2
  let c0 := m 2 0 * m 3 1 - m 3 0 * m 2 1
  s0 * c5 - s1 * c4 + s2 * c3 + s3 * c2 - s4 * c1 + s5 * c0

/-- Method `Matrix::inverse`: the identity when `|det| < EPSILON`, otherwise the
sixteen cofactor expressions times `1 / det`. -/
def Matrix.inverse (M : Matrix F) : Matrix F :=
  let m := M.m
  let s0 := m 0 0 * m 1 1 - m 1 0 * m 0 1
  let s1 := m 0 0 * m 1 2 - m 1 0 * m 0 2
  let s2 := m 0 0 * m 1 3 - m 1 0 * m 0 3
  let s3 := m 0 1 * m 1 2 - m 1 1 * m 0 2
  let s4 := m 0 1 * m 1 3 - m 1 1 * m 0 3
  let s5 := m 0 2 * m 1 3 - m 1 2 * m 0 3
  let c5 := m 2 2 * m 3 3 - m 3 2 * m 2 3
  let c4 := m 2 1 * m 3 3 - m 3 1 * m 2 3
  let c3 := m 2 1 * m 3 2 - m 3 1 * m 2 2
  let c2 := m 2 0 * m 3 3 - m 3 0 * m 2 3
  let c1 := m 2 0 * m 3 2 - m 3 0 * m 2 2
  let c0 := m 2 0 * m 3 1 - m 3 0 * m 2 1
  let det := s0 * c5 - s1 * c4 + s2 * c3 + s3 * c2 - s4 * c1 + s5 * c0
  if |det| < EPSILON then Matrix.identity
  else
    let invDet := 1 / det
    ⟨![![( m 1 1 * c5 - m 1 2 * c4 + m 1 3 * c3) * invDet,
         (-m 0 1 * c5 + m 0 2 * c4 - m 0 3 * c3) * invDet,
         ( m 3 1 * s5 - m 3 2 * s4 + m 3 3 * s3) * invDet,
         (-m 2 1 * s5 + m 2 2 * s4 - m 2 3 * s3) * invDet],
       ![(-m 1 0 * c5 + m 1 2 * c2 - m 1 3 * c1) * invDet,
         ( m 0 0 * c5 - m 0 2 * c2 + m 0 3 * c1) * invDet,
         (-m 3 0 * s5 + m 3 2 * s2 - m 3 3 * s1) * invDet,
         ( m 2 0 * s5 - m 2 2 * s2 + m 2 3 * s1) * invDet],
       ![( m 1 0 * c4 - m 1 1 * c2 + m 1 3 * c0) * invDet,
         (-m 0 0 * c4 + m 0 1 * c2 - m 0 3 * c0) * invDet,
         ( m 3 0 * s4 - m 3 1 * s2 + m 3 3 * s0) * invDet,
         (-m 2 0 * s4 + m 2 1 * s2 - m 2 3 * s0) * invDet],
       ![(-m 1 0 * c3 + m 1 1 * c1 - m 1 2 * c0) * invDet,
         ( m 0 0 * c3 - m 0 1 * c1 + m 0 2 * c0) * invDet,
         (-m 3 0 * s3 + m 3 1 * s1 - m 3 2 * s0) * invDet,
         ( m 2 0 * s3 - m 2 1 * s1 + m 2 2 * s0) * invDet]]⟩

/-- Operator `Matrix::operator*(const Vector4f&)`. -/
def Matrix.mulVec (M : Matrix F) (vector : Vector4 F) : Vector4 F :=
  let x := vector.x; let y := vector.y; let z := vector.z; let w := vector.w
  let m00 := M.m 0 0; let m01 := M.m 0 1; let m02 := M.m 0 2; let m03 := M.m 0 3
  let m10 := M.m 1 0; let m11 := M.m 1 1; let m12 := M.m 1 2; let m13 := M.m 1 3
  let m20 := M.m 2 0; let m21 := M.m 2 1; let m22 := M.m 2 2; let m23 := M.m 2 3
  let m30 := M.m 3 0; let m31 := M.m 3 1; let m32 := M.m 3 2; let m33 := M.m 3 3
  ⟨m00 * x + m01 * y + m02 * z + m03 * w,
   m10 * x + m11 * y + m12 * z + m13 * w,
   m20 * x + m21 * y + m22 * z + m23 * w,
   m30 * x + m31 * y + m32 * z + m33 * w⟩

/-- Static method `Matrix::perspective`; `tanf` is the library tangent. -/
def Matrix.perspective (tanf : F → F) (fov aspect nearZ farZ : F) : Matrix F :=
  let tanHalfFov := tanf (fov / 2)
  ⟨![![1 / (aspect * tanHalfFov), 0, 0, 0],
     ![0, 1 / tanHalfFov, 0, 0],
     ![0, 0, (nearZ + farZ) / (nearZ - farZ), (2 * nearZ * farZ) / (nearZ - farZ)],
     ![0, 0, -1, 0]]⟩

/-! ## Shader.h: the built-in colour shader -/

/-- Method `ColorShader::VertexShader`. -/
def ColorShader.VertexShader (sqrtf : F → F) (input : VertexShaderInput F) : VertexOutput F :=
  let mvp := (input.projMatrix.mul input.viewMatrix).mul input.modelMatrix
  let position := mvp.mulVec input.position
  let worldPos := input.modelMatrix.mulVec input.position
  let normalMatrix := input.modelMatrix.transpose.inverse
  let worldNormal := normalMatrix.mulVec ⟨input.normal.x, input.normal.y, input.normal.z, 0⟩
  let normal := (Vector3.mk3 worldNormal.x worldNormal.y worldNormal.z).normalize sqrtf
  { position := position, color := input.color, normal := normal,
    texcoord := input.texcoord, worldPos := Vector3.mk3 worldPos.x worldPos.y worldPos.z }

/-- Method `ColorShader::FragmentShader`. -/
def ColorShader.FragmentShader (input : VertexOutput F) (_dudx _dvdy : F) : Color F :=
  ⟨input.color.x, input.color.y, input.color.z, input.color.w⟩

/-- The class `ColorShader` as a `Shader`. -/
def ColorShader (sqrtf : F → F) : Shader F :=
  ⟨ColorShader.VertexShader sqrtf, ColorShader.FragmentShader⟩

end MatrixOps

/-! ## Texture.h, Texture.cpp -/

/-- The enumeration `TextureFilterMode`. -/
inductive TextureFilterMode where
  | NEAREST
  | BILINEAR
  | TRILINEAR
deriving DecidableEq

/-- The enumeration `TextureWrapMode`. -/
inductive TextureWrapMode where
  | REPEAT
  | CLAMP
  | MIRROR
deriving DecidableEq

/-- The class `Texture`.  `Color* textureData` is `none` for `nullptr` and otherwise
the pixel array as a map from index to colour; `mipmaps` holds the pointed-to
textures. -/
structure Texture (F : Type) where
  width : ℤ
  height : ℤ
  textureData : Option (ℕ → Color F)
  filterMode : TextureFilterMode
  wrapMode : TextureWrapMode
  mipmaps : List (Texture F)
  hasMipmaps : Bool

section TextureOps

variable {F : Type} [LinearOrderedField F] [FloorRing F]

/-- The constant `Color::black`. -/
def Color.black : Color F := ⟨0, 0, 0, 1⟩

/-- The constant `Color::white`. -/
def Color.white : Color F := ⟨1, 1, 1, 1⟩

/-- The constant `Color::red`. -/
def Color.red : Color F := ⟨1, 0, 0, 1⟩

/-- The constant `Color::green`. -/
def Color.green : Color F := ⟨0, 1, 0, 1⟩

/-- The conversion `static_cast<int>(v)` of a `float` (also the implicit conversion
on assignment to an `int`): the fractional part is discarded, rounding toward
zero. -/
def toInt (v : F) : ℤ := if 0 ≤ v then ⌊v⌋ else ⌈v⌉

/-- Method `Texture::GetIndex`.  `clamp` is the `float` function of `MyMath.h`: its
`int` arguments are converted to `float` and the result back to `int`. -/
def Texture.GetIndex (t : Texture F) (x y : ℤ) : ℤ :=
  let x := toInt (clamp (x : F) 0 ((t.width - 1 : ℤ) : F))
  let y := toInt (clamp (y : F) 0 ((t.height - 1 : ℤ) : F))
  y * t.width + x

/-- Method `Texture::GetPixel`: `Color::black` when the data pointer is null or the
coordinates are outside the grid. -/
def Texture.GetPixel (t : Texture F) (x y : ℤ) : Color F :=
  match t.textureData with
  | some data =>
    if 0 ≤ x ∧ x < t.width ∧ 0 ≤ y ∧ y < t.height then data (t.GetIndex x y).toNat
    else Color.black
  | none => Color.black

/-- Method `Texture::WrapCoordinates`; the reference parameters `u`, `v` are
returned as a pair.  `%` is the truncating remainder of C++.  In exact arithmetic
`u - floor(u)` is below one; the `float` subtraction can round it to one, which
`Texture.WrapCoordinates.rounded` models. -/
def Texture.WrapCoordinates (t : Texture F) (u v : F) : F × F :=
  match t.wrapMode with
  | TextureWrapMode.REPEAT => (u - (⌊u⌋ : ℤ), v - (⌊v⌋ : ℤ))
  | TextureWrapMode.CLAMP => (clamp01 u, clamp01 v)
  | TextureWrapMode.MIRROR =>
    let u := u - (⌊u⌋ : ℤ)
    let v := v - (⌊v⌋ : ℤ)
    let u := if Int.tmod ⌊u + 1 / 2⌋ 2 = 1 then 1 - u else u
    let v := if Int.tmod ⌊v + 1 / 2⌋ 2 = 1 then 1 - v else v
    (u, v)

/-- Method `Texture::NearestSample`. -/
def Texture.NearestSample (t : Texture F) (u v : F) : Color F :=
  let uv := t.WrapCoordinates u v
  let x := toInt (uv.1 * (t.width : F))
  let y := toInt (uv.2 * (t.height : F))
  t.GetPixel x y

/-- Method `Texture::BilinearSample`. -/
def Texture.BilinearSample (t : Texture F) (u v : F) : Color F :=
  let uv := t.WrapCoordinates u v
  let u := uv.1
  let v := uv.2
  let fx := u * (t.width : F) - 1 / 2
  let fy := v * (t.height : F) - 1 / 2
  let x0 : ℤ := ⌊fx⌋
  let y0 : ℤ := ⌊fy⌋
  let x1 := x0 + 1
  let y1 := y0 + 1
  let wx1 := fx - (x0 : F)
  let wy1 := fy - (y0 : F)
  let wx0 := 1 - wx1
  let wy0 := 1 - wy1
  let c00 := t.GetPixel x0 y0
  let c10 := t.GetPixel x1 y0
  let c01 := t.GetPixel x0 y1
  let c11 := t.GetPixel x1 y1
  ⟨c00.r * wx0 * wy0 + c10.r * wx1 * wy0 + c01.r * wx0 * wy1 + c11.r * wx1 * wy1,
   c00.g * wx0 * wy0 + c10.g * wx1 * wy0 + c01.g * wx0 * wy1 + c11.g * wx1 * wy1,
   c00.b * wx0 * wy0 + c10.b * wx1 * wy0 + c01.b * wx0 * wy1 + c11.b * wx1 * wy1,
   c00.a * wx0 * wy0 + c10.a * wx1 * wy0 + c01.a * wx0 * wy1 + c11.a * wx1 * wy1⟩

/-- Operator `Color::operator+`. -/
def Color.add (c d : Color F) : Color F := ⟨c.r + d.r, c.g + d.g, c.b + d.b, c.a + d.a⟩

/-- Operator `Color::operator-`. -/
def Color.sub (c d : Color F) : Color F := ⟨c.r - d.r, c.g - d.g, c.b - d.b, c.a - d.a⟩

/-- Operator `Color::operator*(const float&)`. -/
def Color.smul (c : Color F) (scalar : F) : Color F :=
  ⟨c.r * scalar, c.g * scalar, c.b * scalar, c.a * scalar⟩

/-- Static method `Color::lerp`. -/
def Color.lerp (color1 color2 : Color F) (weight : F) : Color F :=
  color1.add ((color2.sub color1).smul weight)

/-- Method `Texture::ClearMipmaps`. -/
def Texture.ClearMipmaps (t : Texture F) : Texture F :=
  { t with mipmaps := [], hasMipmaps := false }

/-- Method `Texture::Clear`. -/
def Texture.Clear (t : Texture F) : Texture F :=
  { t.ClearMipmaps with textureData := none, width := 0, height := 0 }

/-- Method `Texture::Create`: the returned flag and the texture afterwards. -/
def Texture.Create (t : Texture F) (w h : ℤ) : Bool × Texture F :=
  if w ≤ 0 ∨ h ≤ 0 then (false, t)
  else (true, { t.Clear with width := w, height := h, textureData := some (fun _ => Color.black) })

/-- Constructor `Texture::Texture(int width, int height)`. -/
def Texture.new (width height : ℤ) : Texture F :=
  (Texture.Create
    ⟨0, 0, none, TextureFilterMode.BILINEAR, TextureWrapMode.REPEAT, [], false⟩ width height).2

/-- Method `Texture::SetPixel`. -/
def Texture.SetPixel (t : Texture F) (x y : ℤ) (color : Color F) : Texture F :=
  match t.textureData with
  | some data =>
    if 0 ≤ x ∧ x < t.width ∧ 0 ≤ y ∧ y < t.height then
      { t with textureData := some (Function.update data (t.GetIndex x y).toNat color) }
    else t
  | none => t

/-- Method `Texture::Sample(float, float)`.  Both arms of the `TRILINEAR` case call
`BilinearSample`. -/
def Texture.Sample (t : Texture F) (u v : F) : Color F :=
  if t.textureData.isNone ∨ t.width ≤ 0 ∨ t.height ≤ 0 then Color.black
  else
    match t.filterMode with
    | TextureFilterMode.NEAREST => t.NearestSample u v
    | TextureFilterMode.BILINEAR => t.BilinearSample u v
    | TextureFilterMode.TRILINEAR =>
      if t.hasMipmaps then t.BilinearSample u v else t.BilinearSample u v

/-- Method `Texture::CalculateMipmapLevel`; `std::log2` is the parameter `log2f`. -/
def Texture.CalculateMipmapLevel (log2f : F → F) (t : Texture F) (dudx dvdy : F) : F :=
  let dx := dudx * (t.width : F)
  let dy := dvdy * (t.height : F)
  let maxDelta := max |dx| |dy|
  let level := log2f maxDelta
  clamp level 0 ((t.mipmaps.length : ℕ) : F)

/-- Method `Texture::TrilinearSample`.  An access `mipmaps[i]` outside the vector is
undefined in C++; the model then returns `none`. -/
def Texture.TrilinearSample (t : Texture F) (u v level : F) : Option (Color F) :=
  if level ≤ 0 then some (t.BilinearSample u v)
  else
    let level0 : ℤ := ⌊level⌋
    let level1 := level0 + 1
    let factor := level - (level0 : F)
    let size : ℤ := (t.mipmaps.length : ℕ)
    let color0 : Option (Color F) :=
      if level0 = 0 then some (t.BilinearSample u v)
      else if level0 < size then
        (t.mipmaps[(level0 - 1).toNat]?).map (fun mip => mip.BilinearSample u v)
      else (t.mipmaps[t.mipmaps.length - 1]?).map (fun mip => mip.BilinearSample u v)
    let color1 : Option (Color F) :=
      if level1 ≤ size then
        (t.mipmaps[(level1 - 1).toNat]?).map (fun mip => mip.BilinearSample u v)
      else (t.mipmaps[t.mipmaps.length - 1]?).map (fun mip => mip.BilinearSample u v)
    match color0, color1 with
    | some c0, some c1 => some (Color.lerp c0 c1 factor)
    | _, _ => none

/-- Method `Texture::Sample(float, float, float, float)`, the overload with the
derivatives. -/
def Texture.SampleWithDerivatives (log2f : F → F) (t : Texture F) (u v dudx dvdy : F) :
    Option (Color F) :=
  if t.textureData.isNone ∨ t.width ≤ 0 ∨ t.height ≤ 0 then some Color.black
  else if t.hasMipmaps = true ∧ t.filterMode = TextureFilterMode.TRILINEAR ∧
      t.mipmaps.length > 0 then
    let level := t.CalculateMipmapLevel log2f dudx dvdy
    t.TrilinearSample u v level
  else some (t.Sample u v)

/-- The body of the `while` loop of `Texture::GenerateMipmaps` up to the `push_back`
(lines 492 to 521): the next level, of size `newWidth` by `newHeight`, each pixel the
average of four `GetPixel` reads of the previous level. -/
def Texture.GenerateMipmaps.level (filterMode : TextureFilterMode) (wrapMode : TextureWrapMode)
    (prevMip : Texture F) (newWidth newHeight : ℤ) : Texture F :=
  let mip : Texture F := Texture.new newWidth newHeight
  let mip := { mip with filterMode := filterMode, wrapMode := wrapMode }
  forPixels 0 newHeight (fun y mip =>
    forPixels 0 newWidth (fun x mip =>
      let x0 := x * 2
      let y0 := y * 2
      let c00 := prevMip.GetPixel x0 y0
      let c10 := prevMip.GetPixel (x0 + 1) y0
      let c01 := prevMip.GetPixel x0 (y0 + 1)
      let c11 := prevMip.GetPixel (x0 + 1) (y0 + 1)
      let avgColor : Color F :=
        ⟨(c00.r + c10.r + c01.r + c11.r) * (1 / 4), (c00.g + c10.g + c01.g + c11.g) * (1 / 4),
         (c00.b + c10.b + c01.b + c11.b) * (1 / 4), (c00.a + c10.a + c01.a + c11.a) * (1 / 4)⟩
      mip.SetPixel x y avgColor) mip) mip

/-- The `while` loop of `Texture::GenerateMipmaps`: the vector `mipmaps` after the
loop.  The division is the truncating division of C++. -/
def Texture.GenerateMipmaps.loop (filterMode : TextureFilterMode) (wrapMode : TextureWrapMode)
    (currentWidth currentHeight : ℤ) (prevMip : Texture F) (mipmaps : List (Texture F)) :
    List (Texture F) :=
  if currentWidth > 1 ∨ currentHeight > 1 then
    let newWidth := max 1 (Int.tdiv currentWidth 2)
    let newHeight := max 1 (Int.tdiv currentHeight 2)
    let mip := Texture.GenerateMipmaps.level filterMode wrapMode prevMip newWidth newHeight
    Texture.GenerateMipmaps.loop filterMode wrapMode newWidth newHeight mip (mipmaps ++ [mip])
  else mipmaps
termination_by (max currentWidth 1 + max currentHeight 1).toNat
decreasing_by
  have key : ∀ a : ℤ, max 1 (Int.tdiv a 2) ≤ max a 1 ∧ (1 < a → max 1 (Int.tdiv a 2) < a) := by
    intro a
    rcases le_or_lt 0 a with h | h
    · rw [Int.tdiv_eq_ediv h (by norm_num)]
      constructor
      · omega
      · intro; omega
    · have e : Int.tdiv a 2 = -((-a) / 2) := by
        rw [← Int.tdiv_eq_ediv (by omega) (by norm_num), Int.neg_tdiv, neg_neg]
      rw [e]
      constructor
      · omega
      · intro; omega
  have h1 := key currentWidth
  have h2 := key currentHeight
  rename_i hc
  omega

/-- Method `Texture::GenerateMipmaps`. -/
def Texture.GenerateMipmaps (t : Texture F) : Texture F :=
  let t := t.ClearMipmaps
  if t.textureData.isNone ∨ t.width ≤ 1 ∨ t.height ≤ 1 then t
  else
    let mipmaps := Texture.GenerateMipmaps.loop t.filterMode t.wrapMode t.width t.height t []
    { t with mipmaps := mipmaps, hasMipmaps := decide (mipmaps.length > 0) }

/-- The indices `i` of the accesses `mipmaps[i]` that `Texture::TrilinearSample`
performs for a level, in order (none when `level <= 0`).  `mipmaps.size() - 1` is
taken in `ℤ`: it is `-1` for an empty vector. -/
def Texture.TrilinearSample.accesses (t : Texture F) (level : F) : List ℤ :=
  if level ≤ 0 then []
  else
    let level0 : ℤ := ⌊level⌋
    let level1 := level0 + 1
    let size : ℤ := (t.mipmaps.length : ℕ)
    (if level0 = 0 then []
      else if level0 < size then [level0 - 1]
      else [size - 1]) ++
    (if level1 ≤ size then [level1 - 1] else [size - 1])

/-- Method `Texture::WrapCoordinates` with the rounding of its `float` operations
written out: `fl` maps the exact result of an operation to the `float` that the
operation returns (`std::floor` is exact).  With `fl` the identity this is
`Texture.WrapCoordinates`. -/
def Texture.WrapCoordinates.rounded (fl : F → F) (t : Texture F) (u v : F) : F × F :=
  match t.wrapMode with
  | TextureWrapMode.REPEAT => (fl (u - (⌊u⌋ : ℤ)), fl (v - (⌊v⌋ : ℤ)))
  | TextureWrapMode.CLAMP => (clamp01 u, clamp01 v)
  | TextureWrapMode.MIRROR =>
    let u := fl (u - (⌊u⌋ : ℤ))
    let v := fl (v - (⌊v⌋ : ℤ))
    let u := if Int.tmod ⌊fl (u + 1 / 2)⌋ 2 = 1 then fl (1 - u) else u
    let v := if Int.tmod ⌊fl (v + 1 / 2)⌋ 2 = 1 then fl (1 - v) else v
    (u, v)

/-- Method `Texture::NearestSample` with the rounding of its `float` operations
written out: the conversion of `width` and `height` to `float` and the two products
are rounded by `fl`.  With `fl` the identity this is `Texture.NearestSample`. -/
def Texture.NearestSample.rounded (fl : F → F) (t : Texture F) (u v : F) : Color F :=
  let uv := Texture.WrapCoordinates.rounded fl t u v
  let x := toInt (fl (uv.1 * fl (t.width : F)))
  let y := toInt (fl (uv.2 * fl (t.height : F)))
  t.GetPixel x y

end TextureOps

/-! ## Vocabulary of the specification

The specification describes the two-inside clip case by naming triangles up to
rotation of their vertex triples; the following definitions follow its words. -/

section SpecVocabulary

variable {F : Type} [LinearOrderedField F]

/-- Rotation of a vertex triple: `(a, b, c)` becomes `(b, c, a)`. -/
def Triangle.rotate (t : Triangle F) : Triangle F := (t.2.1, t.2.2, t.1)

/-- Two triangles are the same up to rotation of the triple. -/
def Triangle.SameUpToRotation (t u : Triangle F) : Prop :=
  t = u ∨ t = Triangle.rotate u ∨ t = Triangle.rotate (Triangle.rotate u)

/-- A result list consists of exactly two triangles which are, in this order and up
to rotation of each triple, the two given ones. -/
def MatchesUpToRotation (ts : List (Triangle F)) (p : Triangle F × Triangle F) : Prop :=
  ∃ t1 t2, ts = [t1, t2] ∧ Triangle.SameUpToRotation t1 p.1 ∧ Triangle.SameUpToRotation t2 p.2

/-- The quad split the specification names for outside vertex `C`:
`{A, B, clip(A,C)}` and `{B, clip(B,C), clip(A,C)}`. -/
def quadSplitSpec (sqrtf : F → F) (A B C : VertexOutput F) : Triangle F × Triangle F :=
  ((A, B, ClipAgainstNearPlane sqrtf A C),
   (B, ClipAgainstNearPlane sqrtf B C, ClipAgainstNearPlane sqrtf A C))

/-- The split of the same quad along its other diagonal:
`{A, B, clip(B,C)}` and `{A, clip(B,C), clip(A,C)}`. -/
def quadSplitOther (sqrtf : F → F) (A B C : VertexOutput F) : Triangle F × Triangle F :=
  ((A, B, ClipAgainstNearPlane sqrtf B C),
   (A, ClipAgainstNearPlane sqrtf B C, ClipAgainstNearPlane sqrtf A C))

/-- The values that the loop variable of `for (int k = i; k < stop; k++)` takes, in
order. -/
def pixelRange (i stop : ℤ) : List ℤ :=
  (List.range (stop - i).toNat).map (fun k : ℕ => i + (k : ℤ))

/-- The values that the loop variable of
`for (int k = i; k <= hi; k += BLOCK_SIZE)` takes, in order. -/
def blockStarts (i hi : ℤ) : List ℤ :=
  (List.range ((hi + BLOCK_SIZE - i) / BLOCK_SIZE).toNat).map
    (fun k : ℕ => i + BLOCK_SIZE * (k : ℤ))

/-- The pixels that the tiled traversal of `Renderer::DrawTriangle` visits, in the
order of the visits: the traversal run with a body that records its pixel. -/
def DrawTriangle.visited (minX maxX minY maxY : ℤ) : List (ℤ × ℤ) :=
  DrawTriangle.traverse minX maxX minY maxY (fun x y acc => acc ++ [(x, y)]) []

/-- The plain scan of the box `minX..maxX` by `minY..maxY`, row by row:
`for (y = minY; y <= maxY; y++) for (x = minX; x <= maxX; x++) body(x, y)`. -/
def plainScan {σ : Type} (minX maxX minY maxY : ℤ) (body : ℤ → ℤ → σ → σ) (s : σ) : σ :=
  forPixels minY (maxY + 1) (fun y s =>
    forPixels minX (maxX + 1) (fun x s => body x y s) s) s

/-- The pixels that the plain scan visits, in the order of the visits. -/
def plainScan.visited (minX maxX minY maxY : ℤ) : List (ℤ × ℤ) :=
  plainScan minX maxX minY maxY (fun x y acc => acc ++ [(x, y)]) []

end SpecVocabulary

/-! ## Fragment sequences

What a draw call does to the frame buffer, as data: the list of fragments it
depth-tests, in order, and the history of one depth cell and one colour byte under
such a list. -/

section FragmentSequences

variable {F : Type} [LinearOrderedField F]

/-- One step of the single-pixel machine: an active fragment with `z ≤ d` stores its
payload and, when depth writes are enabled, the clamped depth. -/
def cellStep {β : Type} (wd : Bool) (s : F × β) (a : Bool × F × β) : F × β :=
  if a.1 = true ∧ a.2.1 ≤ s.1 then (if wd = true then clamp01 a.2.1 else s.1, a.2.2) else s

/-- A run of the single-pixel machine. -/
def cellRun {β : Type} (wd : Bool) (l : List (Bool × F × β)) (s : F × β) : F × β :=
  l.foldl (cellStep wd) s

/-- A fragment about to be depth-tested: pixel coordinates, depth and shaded colour. -/
structure FragOp (F : Type) where
  x : ℕ
  y : ℕ
  z : F
  c : Color F

/-- The depth test and write of one fragment (lines 662 to 670 of
`Renderer::DrawTriangle` with the fragment colour already computed). -/
def FragOp.apply [FloorRing F] (o : FragOp F) (fb : FrameBuffer F) : FrameBuffer F :=
  if o.z ≤ fb.depthBuffer.GetDepth o.x o.y then
    { colorBuffer := fb.colorBuffer.SetPixel o.x o.y o.c,
      depthBuffer := fb.depthBuffer.SetDepth o.x o.y o.z }
  else fb

/-- A sequence of fragments applied in order. -/
def runOps [FloorRing F] (L : List (FragOp F)) (fb : FrameBuffer F) : FrameBuffer F :=
  L.foldl (fun fb o => o.apply fb) fb

/-- The fragment's pixel lies inside a depth buffer of the given capacity and size. -/
def FragOp.inDepth (o : FragOp F) (dS dw dh : ℕ) : Bool :=
  decide (o.x < dw ∧ o.y < dh ∧ o.y * dw + o.x < dS)

/-- The fragment's pixel lies inside the depth buffer and its depth cell is `k`. -/
def FragOp.hitsDepth (o : FragOp F) (dS dw dh k : ℕ) : Bool :=
  decide (o.x < dw ∧ o.y < dh ∧ o.y * dw + o.x < dS ∧ o.y * dw + o.x = k)

/-- The fragment's pixel lies inside the colour buffer and byte `j` is one of its
four bytes. -/
def FragOp.coversColor (o : FragOp F) (cS cw ch j : ℕ) : Bool :=
  decide (o.x < cw ∧ o.y < ch ∧ (o.y * cw + o.x) * 4 + 3 < cS ∧
    (o.y * cw + o.x) * 4 ≤ j ∧ j ≤ (o.y * cw + o.x) * 4 + 3)

/-- The byte that `SetPixel` stores at offset `j` for this fragment. -/
def FragOp.byteAt [FloorRing F] (o : FragOp F) (cw j : ℕ) : ℕ :=
  if j = (o.y * cw + o.x) * 4 + 3 then toBYTE (o.c.a * 255)
  else if j = (o.y * cw + o.x) * 4 + 2 then toBYTE (o.c.b * 255)
  else if j = (o.y * cw + o.x) * 4 + 1 then toBYTE (o.c.g * 255)
  else toBYTE (o.c.r * 255)

/-- The capacities and sizes of the two buffers of a frame buffer. -/
def HasDims (fb : FrameBuffer F) (cS cw ch dS dw dh : ℕ) : Prop :=
  fb.colorBuffer.BUFFER_SIZE = cS ∧ fb.colorBuffer.width = cw ∧ fb.colorBuffer.height = ch ∧
  fb.depthBuffer.BUFFER_SIZE = dS ∧ fb.depthBuffer.width = dw ∧ fb.depthBuffer.height = dh

/-- The cells of pixel `(x, y)` of a frame buffer: the stored depth and the four
colour bytes R, G, B, A. -/
def pixelCells (fb : FrameBuffer F) (x y : ℕ) : F × ℕ × ℕ × ℕ × ℕ :=
  (fb.depthBuffer.buffer (y * fb.depthBuffer.width + x),
   fb.colorBuffer.buffer ((y * fb.colorBuffer.width + x) * 4),
   fb.colorBuffer.buffer ((y * fb.colorBuffer.width + x) * 4 + 1),
   fb.colorBuffer.buffer ((y * fb.colorBuffer.width + x) * 4 + 2),
   fb.colorBuffer.buffer ((y * fb.colorBuffer.width + x) * 4 + 3))

/-- The fragment that the innermost loop body of `Renderer::DrawTriangle` depth-tests
at the pixel `(x, y)` when the pixel centre passes `PointInTriangle`: the pixel, the
interpolated depth and the fragment-shader colour. -/
def DrawTriangle.fragment (sqrtf : F → F) (shader : Shader F)
    (screenVs_out1 screenVs_out2 screenVs_out3 : VertexOutput F) (w1 w2 w3 : F)
    (v1Pos v2Pos v3Pos : Vector2 F) (duvdx duvdy : F) (x y : ℤ) : FragOp F :=
  let r := PointInTriangle ((x : F) + 1 / 2) ((y : F) + 1 / 2) v1Pos v2Pos v3Pos 0 0 0
  let s1 := { screenVs_out1 with position := { screenVs_out1.position with w := w1 } }
  let s2 := { screenVs_out2 with position := { screenVs_out2.position with w := w2 } }
  let s3 := { screenVs_out3 with position := { screenVs_out3.position with w := w3 } }
  let pixelVertex := InterpolateVertex sqrtf s1 s2 s3 r.2.1 r.2.2.1 r.2.2.2
  ⟨x.toNat, y.toNat, pixelVertex.position.z, shader.FragmentShader pixelVertex duvdx duvdy⟩

end FragmentSequences

/-! ## Mipmap chains

The vocabulary of the claims about `Texture::GenerateMipmaps`. -/

section MipmapVocabulary

variable {F : Type} [LinearOrderedField F]

/-- The average that `Texture::GenerateMipmaps` stores at pixel `(x, y)` of the next
level: a quarter of the channel-wise sum of the four `GetPixel` reads of the level
`a` at `(2x, 2y)`, `(2x+1, 2y)`, `(2x, 2y+1)`, `(2x+1, 2y+1)`. -/
def Texture.blockAverage [FloorRing F] (a : Texture F) (x y : ℤ) : Color F :=
  ⟨((a.GetPixel (x * 2) (y * 2)).r + (a.GetPixel (x * 2 + 1) (y * 2)).r
      + (a.GetPixel (x * 2) (y * 2 + 1)).r + (a.GetPixel (x * 2 + 1) (y * 2 + 1)).r) * (1 / 4),
   ((a.GetPixel (x * 2) (y * 2)).g + (a.GetPixel (x * 2 + 1) (y * 2)).g
      + (a.GetPixel (x * 2) (y * 2 + 1)).g + (a.GetPixel (x * 2 + 1) (y * 2 + 1)).g) * (1 / 4),
   ((a.GetPixel (x * 2) (y * 2)).b + (a.GetPixel (x * 2 + 1) (y * 2)).b
      + (a.GetPixel (x * 2) (y * 2 + 1)).b + (a.GetPixel (x * 2 + 1) (y * 2 + 1)).b) * (1 / 4),
   ((a.GetPixel (x * 2) (y * 2)).a + (a.GetPixel (x * 2 + 1) (y * 2)).a
      + (a.GetPixel (x * 2) (y * 2 + 1)).a + (a.GetPixel (x * 2 + 1) (y * 2 + 1)).a) * (1 / 4)⟩

/-- The relation between a level `a` of a mipmap chain and the next level `b`: the
halved sizes, floored at one, pixel data, and every pixel the block average. -/
def Texture.IsNextLevel [FloorRing F] (a b : Texture F) : Prop :=
  b.width = max 1 (a.width / 2) ∧ b.height = max 1 (a.height / 2) ∧
  b.textureData.isSome = true ∧
  ∀ x y : ℤ, 0 ≤ x → x < b.width → 0 ≤ y → y < b.height → b.GetPixel x y = a.blockAverage x y

end MipmapVocabulary

/-! ## Concrete inputs over `ℚ` -/

/-- A square root on `ℚ` rounded down to 23 fractional bits, standing for
`std::sqrt` when the code is evaluated on concrete rational inputs. -/
def sqrtQ (x : ℚ) : ℚ := (Nat.sqrt (⌊x * 2 ^ 46⌋).toNat : ℚ) / 2 ^ 23

/-- A `VertexOutput` with the given clip-space position and default-constructed
attributes. -/
def exVertex (x y z w : ℚ) : VertexOutput ℚ :=
  { (VertexOutput.default : VertexOutput ℚ) with position := ⟨x, y, z, w⟩ }

/-- Clip-space vertex `(0, 0, 0)` with `w = 2`. -/
def exP : VertexOutput ℚ := exVertex 0 0 0 2

/-- Clip-space vertex `(1, 0, 0)` with `w = 2`. -/
def exQ : VertexOutput ℚ := exVertex 1 0 0 2

/-- Clip-space vertex `(0, 1, 0)` with `w = -0.5`, behind the near plane. -/
def exR : VertexOutput ℚ := exVertex 0 1 0 (-1 / 2)

/-- Clip-space vertex `(0, 1, 1)` with `w = 4`. -/
def exT : VertexOutput ℚ := exVertex 0 1 1 4

/-- A shader whose vertex stage copies the vertex attributes to the output and
whose fragment stage returns the interpolated colour. -/
def exShader : Shader ℚ where
  VertexShader := fun i =>
    { position := i.position, color := i.color, normal := i.normal, texcoord := i.texcoord,
      worldPos := Vector3.mk3 i.position.x i.position.y i.position.z }
  FragmentShader := fun v _ _ => ⟨v.color.x, v.color.y, v.color.z, v.color.w⟩

/-- An 800 by 600 frame buffer cleared to black bytes and depth one, with the
capacities of `Buffer.h` (`1920 * 1080` pixels). -/
def exFrameBuffer : FrameBuffer ℚ where
  colorBuffer := ⟨1920 * 1080 * 4, 4, 800, 600, fun _ => 0⟩
  depthBuffer := ⟨1920 * 1080, 800, 600, fun _ => 1⟩

/-- The identity matrix. -/
def exIdentity : Matrix ℚ := ⟨fun i j => if i = j then 1 else 0⟩

/-- A renderer in its constructor state (identity matrices, view position
`(0, 0, 10)`, back-face culling, counter-clockwise front faces) drawing into
`exFrameBuffer`. -/
def exRenderer : Renderer ℚ where
  m_width := 800
  m_height := 600
  m_modelMatrix := exIdentity
  m_viewMatrix := exIdentity
  m_projMatrix := exIdentity
  m_viewPosition := Vector3.mk3 0 0 10
  m_cullMode := CullMode.CULL_BACK
  m_frontFace := FrontFace.COUNTER_CLOCKWISE
  m_currentFrameBuffer := exFrameBuffer

/-- A mesh vertex with the given position and default-constructed attributes. -/
def exMeshVertex (x y z w : ℚ) : Vertex ℚ :=
  ⟨⟨x, y, z, w⟩, Vector4.default, Vector3.default, Vector2.default⟩

/-- The vertex-stage output of `exShader` for a mesh vertex drawn by `exRenderer`. -/
def exVsOut (v : Vertex ℚ) : VertexOutput ℚ :=
  exShader.VertexShader ⟨v.pos, v.color, v.normal, v.texcoord,
    exRenderer.m_modelMatrix, exRenderer.m_viewMatrix, exRenderer.m_projMatrix⟩

/-- A fragment at depth `z` with the given colour and default-constructed other
attributes. -/
def exFragment (z : ℚ) (c : Vector4 ℚ) : VertexOutput ℚ :=
  { exVertex 0 0 z 1 with color := c }

/-- The frame buffer `exFrameBuffer` with every stored depth equal to `3`, a value
outside the range `[0, 1]` that `InitWithDepth` and `SetDepth` store. -/
def exDeepFrameBuffer : FrameBuffer ℚ where
  colorBuffer := ⟨1920 * 1080 * 4, 4, 800, 600, fun _ => 0⟩
  depthBuffer := ⟨1920 * 1080, 800, 600, fun _ => 3⟩

/-- A matrix with determinant `2`: a scaling of `x` by two with a translation. -/
def exMatrix : Matrix ℚ := ⟨![![2, 0, 0, 1], ![0, 1, 0, 0], ![0, 0, 1, 0], ![0, 0, 0, 1]]⟩

/-- A 2 by 1 texture with texels red, green, sampled bilinearly with `MIRROR`
wrapping. -/
def exTexMirror : Texture ℚ where
  width := 2
  height := 1
  textureData := some (fun i =>
    if i = 0 then Color.red else if i = 1 then Color.green else Color.black)
  filterMode := TextureFilterMode.BILINEAR
  wrapMode := TextureWrapMode.MIRROR
  mipmaps := []
  hasMipmaps := false

/-- A 2 by 2 texture of uniform white, sampled bilinearly with `REPEAT` wrapping. -/
def exTexWhite : Texture ℚ where
  width := 2
  height := 2
  textureData := some (fun _ => Color.white)
  filterMode := TextureFilterMode.BILINEAR
  wrapMode := TextureWrapMode.REPEAT
  mipmaps := []
  hasMipmaps := false

/-- A 2 by 2 texture of uniform white, sampled with the nearest filter and `CLAMP`
wrapping. -/
def exTexClamp : Texture ℚ where
  width := 2
  height := 2
  textureData := some (fun _ => Color.white)
  filterMode := TextureFilterMode.NEAREST
  wrapMode := TextureWrapMode.CLAMP
  mipmaps := []
  hasMipmaps := false

/-- A 2 by 2 checker (red, green; green, red), sampled with the nearest filter and
`REPEAT` wrapping. -/
def exTexChecker : Texture ℚ where
  width := 2
  height := 2
  textureData := some (fun i => if i = 0 ∨ i = 3 then Color.red else Color.green)
  filterMode := TextureFilterMode.NEAREST
  wrapMode := TextureWrapMode.REPEAT
  mipmaps := []
  hasMipmaps := false

/-- A 4 by 2 texture of uniform white. -/
def exTex42 : Texture ℚ where
  width := 4
  height := 2
  textureData := some (fun _ => Color.white)
  filterMode := TextureFilterMode.BILINEAR
  wrapMode := TextureWrapMode.REPEAT
  mipmaps := []
  hasMipmaps := false

/-- A 2 by 4 texture of uniform white. -/
def exTex24 : Texture ℚ where
  width := 2
  height := 4
  textureData := some (fun _ => Color.white)
  filterMode := TextureFilterMode.BILINEAR
  wrapMode := TextureWrapMode.REPEAT
  mipmaps := []
  hasMipmaps := false

/-- The first level that `GenerateMipmaps` builds for `exTex42`, 2 by 1. -/
def exTex42Level1 : Texture ℚ :=
  Texture.GenerateMipmaps.level TextureFilterMode.BILINEAR TextureWrapMode.REPEAT
    exTex42.ClearMipmaps 2 1

/-- The second level that `GenerateMipmaps` builds for `exTex42`, 1 by 1. -/
def exTex42Level2 : Texture ℚ :=
  Texture.GenerateMipmaps.level TextureFilterMode.BILINEAR TextureWrapMode.REPEAT
    exTex42Level1 1 1

/-- The first level that `GenerateMipmaps` builds for `exTex24`, 1 by 2. -/
def exTex24Level1 : Texture ℚ :=
  Texture.GenerateMipmaps.level TextureFilterMode.BILINEAR TextureWrapMode.REPEAT
    exTex24.ClearMipmaps 1 2

/-- The second level that `GenerateMipmaps` builds for `exTex24`, 1 by 1. -/
def exTex24Level2 : Texture ℚ :=
  Texture.GenerateMipmaps.level TextureFilterMode.BILINEAR TextureWrapMode.REPEAT
    exTex24Level1 1 1

/-- A 1 by 4 texture of uniform white. -/
def exTex14 : Texture ℚ where
  width := 1
  height := 4
  textureData := some (fun _ => Color.white)
  filterMode := TextureFilterMode.BILINEAR
  wrapMode := TextureWrapMode.REPEAT
  mipmaps := []
  hasMipmaps := false

/-- A 1 by 1 texture of uniform red. -/
def exTexMip : Texture ℚ where
  width := 1
  height := 1
  textureData := some (fun _ => Color.red)
  filterMode := TextureFilterMode.TRILINEAR
  wrapMode := TextureWrapMode.REPEAT
  mipmaps := []
  hasMipmaps := false

/-- A 2 by 2 texture of uniform white in `TRILINEAR` mode whose chain holds one
level, `exTexMip`. -/
def exTexTrilinear : Texture ℚ where
  width := 2
  height := 2
  textureData := some (fun _ => Color.white)
  filterMode := TextureFilterMode.TRILINEAR
  wrapMode := TextureWrapMode.REPEAT
  mipmaps := [exTexMip]
  hasMipmaps := true

/-- A base-two logarithm on `ℚ`, exact at the powers of two from one on, standing
for `std::log2` when the code is evaluated on concrete rational inputs. -/
def log2Q (x : ℚ) : ℚ := (Nat.log 2 ⌊x⌋.toNat : ℚ)

/-- A colour buffer after `UpdateBufferSize(2000, 1100)`: more pixels than the block
of `1920 * 1080` pixels holds. -/
def exWideColorBuffer : ColorBuffer := ⟨1920 * 1080 * 4, 4, 2000, 1100, fun _ => 0⟩

/-- A frame buffer after a resize to 2000 by 1100, with colour bytes and depths zero:
more pixels than the blocks of `1920 * 1080` pixels hold. -/
def exWideFrameBuffer : FrameBuffer ℚ where
  colorBuffer := exWideColorBuffer
  depthBuffer := ⟨1920 * 1080, 2000, 1100, fun _ => 0⟩

/-- A mesh vertex with the given position, the colour red and the normal
`(0, 0, 1)`. -/
def exRedVertex (x y z w : ℚ) : Vertex ℚ :=
  ⟨⟨x, y, z, w⟩, ⟨1, 0, 0, 1⟩, Vector3.mk3 0 0 1, Vector2.default⟩

/-- The renderer `exRenderer` with its 800 by 600 frame buffer cleared to
`Color::black` and depth one. -/
def exClearedRenderer : Renderer ℚ :=
  { exRenderer with
    m_currentFrameBuffer := exFrameBuffer.InitWithColorAndDepth Color.black 1 }

/-- A `Vector2` of magnitude `2⁻²³`, below `EPSILON`. -/
def exTiny2 : Vector2 ℚ := ⟨1 / 2 ^ 23, 0⟩

/-- A `Vector3` of magnitude `2⁻²³`, below `EPSILON`. -/
def exTiny3 : Vector3 ℚ := Vector3.mk3 (1 / 2 ^ 23) 0 0

/-- A `Vector4` of magnitude `2⁻²³`, below `EPSILON`. -/
def exTiny4 : Vector4 ℚ := ⟨1 / 2 ^ 23, 0, 0, 0⟩

/-- A `Vector2` of magnitude four. -/
def exLong2 : Vector2 ℚ := ⟨4, 0⟩

/-- A `Vector3` of magnitude four. -/
def exLong3 : Vector3 ℚ := Vector3.mk3 0 0 4

/-- A `Vector4` of magnitude four. -/
def exLong4 : Vector4 ℚ := ⟨0, 4, 0, 0⟩

/-- A screen-space vertex at `(x, y)` with texture coordinates `(u, v)`. -/
def exTexVertex (x y u v : ℚ) : VertexOutput ℚ :=
  { exVertex x y 0 1 with texcoord := ⟨u, v⟩ }

/-- The screen vertex `(0, 0)` with texture coordinates `(0, 0)`. -/
def exUV1 : VertexOutput ℚ := exTexVertex 0 0 0 0

/-- The screen vertex `(4, 0)` with texture coordinates `(1, 0)`. -/
def exUV2 : VertexOutput ℚ := exTexVertex 4 0 1 0

/-- The screen vertex `(0, 4)` with texture coordinates `(0, 1)`. -/
def exUV3 : VertexOutput ℚ := exTexVertex 0 4 0 1

/-- A model matrix with a small determinant: the scaling by `(1/100, 1/100, 1/200)`,
whose determinant is `1/2000000`, below `EPSILON`. -/
def exDiag : Matrix ℚ :=
  ⟨![![1 / 100, 0, 0, 0], ![0, 1 / 100, 0, 0], ![0, 0, 1 / 200, 0], ![0, 0, 0, 1]]⟩

/-- The inverse of `exDiag`: the scaling by `(100, 100, 200)`. -/
def exDiagInv : Matrix ℚ :=
  ⟨![![100, 0, 0, 0], ![0, 100, 0, 0], ![0, 0, 200, 0], ![0, 0, 0, 1]]⟩

/-- Rounding of a rational to the nearest `float` (IEEE 754 binary32): the result
has 24 significant bits, and a tie goes to the even significand.  The exponent is
not limited: overflow and subnormal numbers are not modelled. -/
def roundFloat (q : ℚ) : ℚ :=
  if q = 0 then 0
  else
    let ulp : ℚ := 2 ^ (Int.log 2 |q| - 23)
    let n : ℚ := q / ulp
    let f : ℤ := ⌊n⌋
    let k : ℤ :=
      if n - f < 1 / 2 then f
      else if 1 / 2 < n - f then f + 1
      else if f % 2 = 0 then f else f + 1
    k * ulp

/-! ## Theorems -/

section Theorems

variable {F : Type} [LinearOrderedField F]

/-! ### The eight classifications of `ClipTriangleAgainstNearPlane` -/

/-- All three vertices inside: the input triangle is returned. -/
theorem clipTriangle_iii (sqrtf : F → F) (v1 v2 v3 : VertexOutput F)
    (h1 : 1 / 10 ≤ v1.position.w) (h2 : 1 / 10 ≤ v2.position.w)
    (h3 : 1 / 10 ≤ v3.position.w) :
    ClipTriangleAgainstNearPlane sqrtf v1 v2 v3 = [(v1, v2, v3)] := by
  simp only [ClipTriangleAgainstNearPlane, h1, h2, h3, decide_True, if_true]
  norm_num

/-- All three vertices outside: nothing is returned. -/
theorem clipTriangle_ooo (sqrtf : F → F) (v1 v2 v3 : VertexOutput F)
    (h1 : v1.position.w < 1 / 10) (h2 : v2.position.w < 1 / 10)
    (h3 : v3.position.w < 1 / 10) :
    ClipTriangleAgainstNearPlane sqrtf v1 v2 v3 = [] := by
  simp only [ClipTriangleAgainstNearPlane, not_le.mpr h1, not_le.mpr h2, not_le.mpr h3,
    decide_False]
  norm_num

/-- Only `v1` inside: one triangle `{v1, clip(v1,v2), clip(v1,v3)}`. -/
theorem clipTriangle_ioo (sqrtf : F → F) (v1 v2 v3 : VertexOutput F)
    (h1 : 1 / 10 ≤ v1.position.w) (h2 : v2.position.w < 1 / 10)
    (h3 : v3.position.w < 1 / 10) :
    ClipTriangleAgainstNearPlane sqrtf v1 v2 v3
      = [(v1, ClipAgainstNearPlane sqrtf v1 v2, ClipAgainstNearPlane sqrtf v1 v3)] := by
  simp only [ClipTriangleAgainstNearPlane, h1, not_le.mpr h2, not_le.mpr h3,
    decide_True, decide_False, if_true]
  norm_num

/-- Only `v2` inside: one triangle `{clip(v2,v1), v2, clip(v2,v3)}`. -/
theorem clipTriangle_oio (sqrtf : F → F) (v1 v2 v3 : VertexOutput F)
    (h1 : v1.position.w < 1 / 10) (h2 : 1 / 10 ≤ v2.position.w)
    (h3 : v3.position.w < 1 / 10) :
    ClipTriangleAgainstNearPlane sqrtf v1 v2 v3
      = [(ClipAgainstNearPlane sqrtf v2 v1, v2, ClipAgainstNearPlane sqrtf v2 v3)] := by
  simp only [ClipTriangleAgainstNearPlane, h2, not_le.mpr h1, not_le.mpr h3,
    decide_True, decide_False, if_true]
  norm_num

/-- Only `v3` inside: one triangle `{clip(v3,v1), clip(v3,v2), v3}`. -/
theorem clipTriangle_ooi (sqrtf : F → F) (v1 v2 v3 : VertexOutput F)
    (h1 : v1.position.w < 1 / 10) (h2 : v2.position.w < 1 / 10)
    (h3 : 1 / 10 ≤ v3.position.w) :
    ClipTriangleAgainstNearPlane sqrtf v1 v2 v3
      = [(ClipAgainstNearPlane sqrtf v3 v1, ClipAgainstNearPlane sqrtf v3 v2, v3)] := by
  simp only [ClipTriangleAgainstNearPlane, h3, not_le.mpr h1, not_le.mpr h2,
    decide_True, decide_False, if_true]
  norm_num

/-- Only `v1` outside: the two triangles of the `!v1Inside` branch. -/
theorem clipTriangle_oii (sqrtf : F → F) (v1 v2 v3 : VertexOutput F)
    (h1 : v1.position.w < 1 / 10) (h2 : 1 / 10 ≤ v2.position.w)
    (h3 : 1 / 10 ≤ v3.position.w) :
    ClipTriangleAgainstNearPlane sqrtf v1 v2 v3
      = [(ClipAgainstNearPlane sqrtf v2 v1, v2, v3),
         (ClipAgainstNearPlane sqrtf v2 v1, v3, ClipAgainstNearPlane sqrtf v3 v1)] := by
  simp only [ClipTriangleAgainstNearPlane, h2, h3, not_le.mpr h1,
    decide_True, decide_False, if_true]
  norm_num

/-- Only `v2` outside: the two triangles of the `!v2Inside` branch. -/
theorem clipTriangle_ioi (sqrtf : F → F) (v1 v2 v3 : VertexOutput F)
    (h1 : 1 / 10 ≤ v1.position.w) (h2 : v2.position.w < 1 / 10)
    (h3 : 1 / 10 ≤ v3.position.w) :
    ClipTriangleAgainstNearPlane sqrtf v1 v2 v3
      = [(v1, ClipAgainstNearPlane sqrtf v1 v2, v3),
         (ClipAgainstNearPlane sqrtf v1 v2, ClipAgainstNearPlane sqrtf v3 v2, v3)] := by
  simp only [ClipTriangleAgainstNearPlane, h1, h3, not_le.mpr h2,
    decide_True, decide_False, if_true]
  norm_num

/-- Only `v3` outside: the two triangles of the final branch. -/
theorem clipTriangle_iio (sqrtf : F → F) (v1 v2 v3 : VertexOutput F)
    (h1 : 1 / 10 ≤ v1.position.w) (h2 : 1 / 10 ≤ v2.position.w)
    (h3 : v3.position.w < 1 / 10) :
    ClipTriangleAgainstNearPlane sqrtf v1 v2 v3
      = [(v1, v2, ClipAgainstNearPlane sqrtf v1 v3),
         (v2, ClipAgainstNearPlane sqrtf v2 v3, ClipAgainstNearPlane sqrtf v1 v3)] := by
  simp only [ClipTriangleAgainstNearPlane, h1, h2, not_le.mpr h3,
    decide_True, decide_False, if_true]
  norm_num

/-- The vertex generated by `ClipAgainstNearPlane` has `position.w = 0.1`. -/
theorem clipAgainstNearPlane_w (sqrtf : F → F) (p q : VertexOutput F) :
    (ClipAgainstNearPlane sqrtf p q).position.w = 1 / 10 := rfl

/-- C3. `PointInTriangle` returns true exactly when the triangle's doubled signed
area `E(v1,v2,v3)` has absolute value at least `0.00001` and the three normalized edge
functions `E(v2,v3,p)/area`, `E(v3,v1,p)/area`, `E(v1,v2,p)/area` are all
non-negative; and whenever the area test passes, the shortcut `1 - w1 - w2` that
the code stores in `w3` is the third normalized edge function.  No assumption on
the winding (the sign of the area). -/
theorem pointInTriangle_iff_edge_functions (x y : F) (v1 v2 v3 : Vector2 F) (a b c : F) :
    ((PointInTriangle x y v1 v2 v3 a b c).1 = true ↔
      (1 / 100000 ≤ |EdgeFunction v1 v2 v3| ∧
        0 ≤ EdgeFunction v2 v3 ⟨x, y⟩ / EdgeFunction v1 v2 v3 ∧
        0 ≤ EdgeFunction v3 v1 ⟨x, y⟩ / EdgeFunction v1 v2 v3 ∧
        0 ≤ EdgeFunction v1 v2 ⟨x, y⟩ / EdgeFunction v1 v2 v3)) ∧
    (1 / 100000 ≤ |EdgeFunction v1 v2 v3| →
      1 - EdgeFunction v2 v3 ⟨x, y⟩ * (1 / EdgeFunction v1 v2 v3)
          - EdgeFunction v3 v1 ⟨x, y⟩ * (1 / EdgeFunction v1 v2 v3)
        = EdgeFunction v1 v2 ⟨x, y⟩ / EdgeFunction v1 v2 v3) ∧
    ((PointInTriangle x y v1 v2 v3 a b c).1 = true →
      (PointInTriangle x y v1 v2 v3 a b c).2.2.2
        = EdgeFunction v1 v2 ⟨x, y⟩ / EdgeFunction v1 v2 v3) := by
  have key : 1 / 100000 ≤ |EdgeFunction v1 v2 v3| →
      1 - EdgeFunction v2 v3 ⟨x, y⟩ * (1 / EdgeFunction v1 v2 v3)
          - EdgeFunction v3 v1 ⟨x, y⟩ * (1 / EdgeFunction v1 v2 v3)
        = EdgeFunction v1 v2 ⟨x, y⟩ / EdgeFunction v1 v2 v3 := by
    intro h
    have hne : EdgeFunction v1 v2 v3 ≠ 0 := by
      intro h0
      rw [h0, abs_zero] at h
      norm_num at h
    have e : EdgeFunction v2 v3 ⟨x, y⟩ + EdgeFunction v3 v1 ⟨x, y⟩ + EdgeFunction v1 v2 ⟨x, y⟩
        = EdgeFunction v1 v2 v3 := by
      simp only [EdgeFunction]; ring
    field_simp
    linear_combination (-1 : F) * e
  have hdiv : ∀ n : F, n * (1 / EdgeFunction v1 v2 v3) = n / EdgeFunction v1 v2 v3 := by
    intro n; rw [mul_one_div]
  refine ⟨?_, key, ?_⟩
  · unfold PointInTriangle
    by_cases hA : |EdgeFunction v1 v2 v3| < 1 / 100000
    · simp only [hA, if_true]
      constructor
      · intro h; exact absurd h (by simp)
      · intro h; exact absurd hA (not_lt.mpr h.1)
    · have hA2 := not_lt.mp hA
      have k := key hA2
      simp only [hdiv] at k
      simp only [hA, if_false, hdiv]
      by_cases h1 : EdgeFunction v2 v3 ⟨x, y⟩ / EdgeFunction v1 v2 v3 < 0
      · simp only [h1, if_true]
        constructor
        · intro h; exact absurd h (by simp)
        · intro h; exact absurd h1 (not_lt.mpr h.2.1)
      · simp only [h1, if_false]
        by_cases h2 : EdgeFunction v3 v1 ⟨x, y⟩ / EdgeFunction v1 v2 v3 < 0
        · simp only [h2, if_true]
          constructor
          · intro h; exact absurd h (by simp)
          · intro h; exact absurd h2 (not_lt.mpr h.2.2.1)
        · simp only [h2, if_false, decide_eq_true_eq, k]
          exact ⟨fun h => ⟨hA2, not_lt.mp h1, not_lt.mp h2, h⟩, fun h => h.2.2.2⟩
  · unfold PointInTriangle
    by_cases hA : |EdgeFunction v1 v2 v3| < 1 / 100000
    · simp only [hA, if_true]
      intro h; exact absurd h (by simp)
    · have k := key (not_lt.mp hA)
      simp only [hA, if_false]
      by_cases h1 : EdgeFunction v2 v3 ⟨x, y⟩ * (1 / EdgeFunction v1 v2 v3) < 0
      · simp only [h1, if_true]
        intro h; exact absurd h (by simp)
      · simp only [h1, if_false]
        by_cases h2 : EdgeFunction v3 v1 ⟨x, y⟩ * (1 / EdgeFunction v1 v2 v3) < 0
        · simp only [h2, if_true]
          intro h; exact absurd h (by simp)
        · simp only [h2, if_false]
          intro _
          exact k

/-- The denominator `α/w0 + β/w1 + γ/w2` of the perspective correction is positive
and at most `1000` when the three `w` are at least `0.001` and the weights are
non-negative and sum to one. -/
theorem persp_denominator_bounds (w0 w1 w2 α β γ : F)
    (h0 : 1 / 1000 ≤ w0) (h1 : 1 / 1000 ≤ w1) (h2 : 1 / 1000 ≤ w2)
    (hα : 0 ≤ α) (hβ : 0 ≤ β) (hγ : 0 ≤ γ) (hsum : α + β + γ = 1) :
    0 < α / w0 + β / w1 + γ / w2 ∧ α / w0 + β / w1 + γ / w2 ≤ 1000 := by
  have p0 : 0 < w0 := lt_of_lt_of_le (by norm_num) h0
  have p1 : 0 < w1 := lt_of_lt_of_le (by norm_num) h1
  have p2 : 0 < w2 := lt_of_lt_of_le (by norm_num) h2
  have u0 : α / w0 ≤ α * 1000 := by
    rw [div_le_iff₀ p0]; nlinarith
  have u1 : β / w1 ≤ β * 1000 := by
    rw [div_le_iff₀ p1]; nlinarith
  have u2 : γ / w2 ≤ γ * 1000 := by
    rw [div_le_iff₀ p2]; nlinarith
  have hM : 0 < w0 + w1 + w2 := by linarith
  have l0 : α / (w0 + w1 + w2) ≤ α / w0 :=
    div_le_div_of_nonneg_left hα p0 (by linarith)
  have l1 : β / (w0 + w1 + w2) ≤ β / w1 :=
    div_le_div_of_nonneg_left hβ p1 (by linarith)
  have l2 : γ / (w0 + w1 + w2) ≤ γ / w2 :=
    div_le_div_of_nonneg_left hγ p2 (by linarith)
  have hl : 0 < α / (w0 + w1 + w2) + β / (w0 + w1 + w2) + γ / (w0 + w1 + w2) := by
    rw [← add_div, ← add_div, hsum]
    exact div_pos one_pos hM
  have e : α * 1000 + β * 1000 + γ * 1000 = 1000 := by
    rw [← add_mul, ← add_mul, hsum, one_mul]
  constructor
  · exact lt_of_lt_of_le hl (add_le_add (add_le_add l0 l1) l2)
  · exact e ▸ add_le_add (add_le_add u0 u1) u2

/-- `ProcessVertexOutput` on a vertex whose `w` is at least `0.001`: the divide uses
`w` itself. -/
theorem processVertexOutput_of_le (W H : ℤ) (v : VertexOutput F)
    (hw : 1 / 1000 ≤ v.position.w) :
    ProcessVertexOutput W H v =
      { v with position :=
          ⟨(v.position.x / v.position.w + 1) * (W : F) * (1 / 2),
           (1 - v.position.y / v.position.w) * (H : F) * (1 / 2),
           v.position.z / v.position.w * (1 / 2) + 1 / 2,
           v.position.w⟩ } := by
  have hpos : (0 : F) < 1 / 1000 := by norm_num
  have habs : ¬ |v.position.w| < 1 / 1000 := by
    rw [abs_of_pos (lt_of_lt_of_le hpos hw)]
    exact not_lt.mpr hw
  simp only [ProcessVertexOutput, habs, if_false]

/-- The weight `λ = (a / w) / D` times `w` is `a / D`. -/
theorem persp_weight_mul_w (a w D : F) (hw : w ≠ 0) : a / w / D * w = a / D := by
  rw [div_right_comm, div_mul_cancel₀ _ hw]

/-- Dividing the `λ`-combination by `1 / D` gives the `bary / w` combination. -/
theorem persp_combination_div (a b c x0 x1 x2 w0 w1 w2 D : F) (hD : D ≠ 0) :
    (a / w0 / D * x0 + b / w1 / D * x1 + c / w2 / D * x2) / (1 / D)
      = a * (x0 / w0) + b * (x1 / w1) + c * (x2 / w2) := by
  have e0 : a / w0 / D * D = a / w0 := div_mul_cancel₀ _ hD
  have e1 : b / w1 / D * D = b / w1 := div_mul_cancel₀ _ hD
  have e2 : c / w2 / D * D = c / w2 := div_mul_cancel₀ _ hD
  rw [div_div_eq_mul_div, div_one]
  linear_combination x0 * e0 + x1 * e1 + x2 * e2

/-- C1. Perspective-correct interpolation recovers the point that projects to the
pixel.  For clip-space vertices `c0 c1 c2` with `w ≥ 0.001` and screen barycentrics
`α β γ ≥ 0` summing to one, with `λᵢ = (baryᵢ / wᵢ) / (α/w0 + β/w1 + γ/w2)`:
the `λᵢ` sum to one; `InterpolateVertex` on the three processed vertices returns
`worldPos = Σ λᵢ · worldPosᵢ`; and the clip-space point `Σ λᵢ · clipᵢ`, pushed through
`ProcessVertexOutput`, has screen `x`, `y` equal to `Σ baryᵢ · screenᵢ` (which is
also the `x`, `y` that `InterpolateVertex` returns) and depth equal to the linearly
interpolated `z` that `InterpolateVertex` returns. -/
theorem perspective_correct_recovers_pixel (sqrtf : F → F) (W H : ℤ)
    (c0 c1 c2 : VertexOutput F) (α β γ : F)
    (h0 : 1 / 1000 ≤ c0.position.w) (h1 : 1 / 1000 ≤ c1.position.w)
    (h2 : 1 / 1000 ≤ c2.position.w)
    (hα : 0 ≤ α) (hβ : 0 ≤ β) (hγ : 0 ≤ γ) (hsum : α + β + γ = 1) :
    let D := α / c0.position.w + β / c1.position.w + γ / c2.position.w
    let l0 := α / c0.position.w / D
    let l1 := β / c1.position.w / D
    let l2 := γ / c2.position.w / D
    let s0 := ProcessVertexOutput W H c0
    let s1 := ProcessVertexOutput W H c1
    let s2 := ProcessVertexOutput W H c2
    let pixel := InterpolateVertex sqrtf s0 s1 s2 α β γ
    let P : VertexOutput F :=
      { c0 with position :=
          ⟨l0 * c0.position.x + l1 * c1.position.x + l2 * c2.position.x,
           l0 * c0.position.y + l1 * c1.position.y + l2 * c2.position.y,
           l0 * c0.position.z + l1 * c1.position.z + l2 * c2.position.z,
           l0 * c0.position.w + l1 * c1.position.w + l2 * c2.position.w⟩ }
    let q := ProcessVertexOutput W H P
    l0 + l1 + l2 = 1 ∧
    pixel.worldPos
      = ((c0.worldPos.smul l0).add (c1.worldPos.smul l1)).add (c2.worldPos.smul l2) ∧
    q.position.x = α * s0.position.x + β * s1.position.x + γ * s2.position.x ∧
    q.position.y = α * s0.position.y + β * s1.position.y + γ * s2.position.y ∧
    q.position.x = pixel.position.x ∧
    q.position.y = pixel.position.y ∧
    q.position.z = pixel.position.z := by
  intro D l0 l1 l2 s0 s1 s2 pixel P q
  obtain ⟨hD, hD'⟩ := persp_denominator_bounds _ _ _ α β γ h0 h1 h2 hα hβ hγ hsum
  have hk : (0 : F) < 1 / 1000 := by norm_num
  have p0 : 0 < c0.position.w := lt_of_lt_of_le hk h0
  have p1 : 0 < c1.position.w := lt_of_lt_of_le hk h1
  have p2 : 0 < c2.position.w := lt_of_lt_of_le hk h2
  have hDne : D ≠ 0 := ne_of_gt hD
  have hPw : P.position.w = 1 / D := by
    show l0 * c0.position.w + l1 * c1.position.w + l2 * c2.position.w = 1 / D
    simp only [l0, l1, l2]
    rw [persp_weight_mul_w _ _ _ (ne_of_gt p0), persp_weight_mul_w _ _ _ (ne_of_gt p1),
      persp_weight_mul_w _ _ _ (ne_of_gt p2), ← add_div, ← add_div, hsum]
  have hPw' : 1 / 1000 ≤ P.position.w := by
    rw [hPw]
    exact one_div_le_one_div_of_le hD hD'
  have es0 : s0 = _ := processVertexOutput_of_le W H c0 h0
  have es1 : s1 = _ := processVertexOutput_of_le W H c1 h1
  have es2 : s2 = _ := processVertexOutput_of_le W H c2 h2
  have eq : q = _ := processVertexOutput_of_le W H P hPw'
  have hsum' : l0 + l1 + l2 = 1 := by
    simp only [l0, l1, l2]
    rw [← add_div, ← add_div]
    exact div_self hDne
  have hx : q.position.x = α * s0.position.x + β * s1.position.x + γ * s2.position.x := by
    rw [eq, es0, es1, es2]
    show (P.position.x / P.position.w + 1) * (W : F) * (1 / 2) = _
    rw [hPw]
    show ((α / c0.position.w / D * c0.position.x + β / c1.position.w / D * c1.position.x
        + γ / c2.position.w / D * c2.position.x) / (1 / D) + 1) * (W : F) * (1 / 2) = _
    rw [persp_combination_div _ _ _ _ _ _ _ _ _ D hDne]
    linear_combination (-((W : F) / 2)) * hsum
  have hy : q.position.y = α * s0.position.y + β * s1.position.y + γ * s2.position.y := by
    rw [eq, es0, es1, es2]
    show (1 - P.position.y / P.position.w) * (H : F) * (1 / 2) = _
    rw [hPw]
    show (1 - (α / c0.position.w / D * c0.position.y + β / c1.position.w / D * c1.position.y
        + γ / c2.position.w / D * c2.position.y) / (1 / D)) * (H : F) * (1 / 2) = _
    rw [persp_combination_div _ _ _ _ _ _ _ _ _ D hDne]
    linear_combination (-((H : F) / 2)) * hsum
  have hz : q.position.z = α * s0.position.z + β * s1.position.z + γ * s2.position.z := by
    rw [eq, es0, es1, es2]
    show P.position.z / P.position.w * (1 / 2) + 1 / 2 = _
    rw [hPw]
    show (α / c0.position.w / D * c0.position.z + β / c1.position.w / D * c1.position.z
        + γ / c2.position.w / D * c2.position.z) / (1 / D) * (1 / 2) + 1 / 2 = _
    rw [persp_combination_div _ _ _ _ _ _ _ _ _ D hDne]
    linear_combination (-(1 / 2 : F)) * hsum
  refine ⟨hsum', ?_, hx, hy, hx, hy, hz⟩
  simp only [pixel, es0, es1, es2, InterpolateVertex, Vector3.add, Vector3.smul, Vector3.mk3,
    l0, l1, l2, D]
  congr 1 <;> ring

/-- C2. For every varying attribute among color (4 components), texcoord (2) and
worldPos (3), whenever the denominator `α/w0 + β/w1 + γ/w2` is non-zero,
`InterpolateVertex` returns
`(α·A0/w0 + β·A1/w1 + γ·A2/w2) / (α/w0 + β/w1 + γ/w2)` in each component; the
normal is that same expression followed by `normalize`. -/
theorem interpolateVertex_perspective_formula (sqrtf : F → F) (v1 v2 v3 : VertexOutput F)
    (α β γ : F)
    (_hD : α / v1.position.w + β / v2.position.w + γ / v3.position.w ≠ 0) :
    let D := α / v1.position.w + β / v2.position.w + γ / v3.position.w
    let A := fun a0 a1 a2 : F =>
      (α * a0 / v1.position.w + β * a1 / v2.position.w + γ * a2 / v3.position.w) / D
    let r := InterpolateVertex sqrtf v1 v2 v3 α β γ
    r.color = ⟨A v1.color.x v2.color.x v3.color.x, A v1.color.y v2.color.y v3.color.y,
               A v1.color.z v2.color.z v3.color.z, A v1.color.w v2.color.w v3.color.w⟩ ∧
    r.texcoord = ⟨A v1.texcoord.x v2.texcoord.x v3.texcoord.x,
                  A v1.texcoord.y v2.texcoord.y v3.texcoord.y⟩ ∧
    r.worldPos = Vector3.mk3 (A v1.worldPos.x v2.worldPos.x v3.worldPos.x)
                   (A v1.worldPos.y v2.worldPos.y v3.worldPos.y)
                   (A v1.worldPos.z v2.worldPos.z v3.worldPos.z) ∧
    r.normal = (Vector3.mk3 (A v1.normal.x v2.normal.x v3.normal.x)
                   (A v1.normal.y v2.normal.y v3.normal.y)
                   (A v1.normal.z v2.normal.z v3.normal.z)).normalize sqrtf := by
  intro D A r
  have key : ∀ a0 a1 a2 : F,
      (α / v1.position.w * a0 + β / v2.position.w * a1 + γ / v3.position.w * a2)
          * (1 / (α / v1.position.w + β / v2.position.w + γ / v3.position.w))
        = A a0 a1 a2 := by
    intro a0 a1 a2
    simp only [A, D]
    ring
  refine ⟨?_, ?_, ?_, ?_⟩
  · simp only [r, InterpolateVertex, key]
  · simp only [r, InterpolateVertex, key]
  · simp only [r, InterpolateVertex, key, Vector3.mk3]
  · simp only [r, InterpolateVertex, key, Vector3.mk3]

/-- C4. A triangle whose three clip-space vertices all have `position.w ≥ 0.1` is
returned by `ClipTriangleAgainstNearPlane` as exactly one triangle whose vertices
are the inputs, in the same order. -/
theorem clipTriangle_all_inside (sqrtf : F → F) (v1 v2 v3 : VertexOutput F)
    (h1 : 1 / 10 ≤ v1.position.w) (h2 : 1 / 10 ≤ v2.position.w)
    (h3 : 1 / 10 ≤ v3.position.w) :
    ClipTriangleAgainstNearPlane sqrtf v1 v2 v3 = [(v1, v2, v3)] :=
  clipTriangle_iii sqrtf v1 v2 v3 h1 h2 h3

/-- C5. A triangle whose three clip-space vertices all have `position.w < 0.1` is
clipped to the empty list; and a `DrawTriangle` call whose vertex stage produces
these three vertices returns the renderer unchanged, so the colour and depth
buffers are unchanged. -/
theorem clipTriangle_all_outside [FloorRing F] (sqrtf : F → F) (v1 v2 v3 : VertexOutput F)
    (h1 : v1.position.w < 1 / 10) (h2 : v2.position.w < 1 / 10)
    (h3 : v3.position.w < 1 / 10) :
    ClipTriangleAgainstNearPlane sqrtf v1 v2 v3 = [] ∧
    ∀ (r : Renderer F) (a b c : Vertex F) (shader : Shader F),
      shader.VertexShader ⟨a.pos, a.color, a.normal, a.texcoord,
          r.m_modelMatrix, r.m_viewMatrix, r.m_projMatrix⟩ = v1 →
      shader.VertexShader ⟨b.pos, b.color, b.normal, b.texcoord,
          r.m_modelMatrix, r.m_viewMatrix, r.m_projMatrix⟩ = v2 →
      shader.VertexShader ⟨c.pos, c.color, c.normal, c.texcoord,
          r.m_modelMatrix, r.m_viewMatrix, r.m_projMatrix⟩ = v3 →
      DrawTriangle sqrtf r a b c (some shader) = r := by
  have hclip : ClipTriangleAgainstNearPlane sqrtf v1 v2 v3 = [] :=
    clipTriangle_ooo sqrtf v1 v2 v3 h1 h2 h3
  refine ⟨hclip, ?_⟩
  intro r a b c shader e1 e2 e3
  simp only [DrawTriangle, e1, e2, e3, hclip, List.isEmpty_nil, if_true, ite_self]

/-- C8. Every vertex of every triangle returned by `ClipTriangleAgainstNearPlane`
has `position.w ≥ 0.1`, for every input triangle. -/
theorem clipTriangle_vertices_inside (sqrtf : F → F) (v1 v2 v3 : VertexOutput F) :
    ∀ t ∈ ClipTriangleAgainstNearPlane sqrtf v1 v2 v3,
      1 / 10 ≤ t.1.position.w ∧ 1 / 10 ≤ t.2.1.position.w ∧ 1 / 10 ≤ t.2.2.position.w := by
  have hc : ∀ p q : VertexOutput F, (1 / 10 : F) ≤ (ClipAgainstNearPlane sqrtf p q).position.w :=
    fun p q => le_of_eq (clipAgainstNearPlane_w sqrtf p q).symm
  intro t ht
  rcases le_or_lt (1 / 10) v1.position.w with h1 | h1 <;>
  rcases le_or_lt (1 / 10) v2.position.w with h2 | h2 <;>
  rcases le_or_lt (1 / 10) v3.position.w with h3 | h3
  · rw [clipTriangle_iii sqrtf v1 v2 v3 h1 h2 h3, List.mem_singleton] at ht
    subst ht; exact ⟨h1, h2, h3⟩
  · rw [clipTriangle_iio sqrtf v1 v2 v3 h1 h2 h3] at ht
    simp only [List.mem_cons, List.mem_singleton, List.not_mem_nil, or_false] at ht
    rcases ht with ht | ht <;> subst ht
    · exact ⟨h1, h2, hc _ _⟩
    · exact ⟨h2, hc _ _, hc _ _⟩
  · rw [clipTriangle_ioi sqrtf v1 v2 v3 h1 h2 h3] at ht
    simp only [List.mem_cons, List.mem_singleton, List.not_mem_nil, or_false] at ht
    rcases ht with ht | ht <;> subst ht
    · exact ⟨h1, hc _ _, h3⟩
    · exact ⟨hc _ _, hc _ _, h3⟩
  · rw [clipTriangle_ioo sqrtf v1 v2 v3 h1 h2 h3, List.mem_singleton] at ht
    subst ht; exact ⟨h1, hc _ _, hc _ _⟩
  · rw [clipTriangle_oii sqrtf v1 v2 v3 h1 h2 h3] at ht
    simp only [List.mem_cons, List.mem_singleton, List.not_mem_nil, or_false] at ht
    rcases ht with ht | ht <;> subst ht
    · exact ⟨hc _ _, h2, h3⟩
    · exact ⟨hc _ _, h3, hc _ _⟩
  · rw [clipTriangle_oio sqrtf v1 v2 v3 h1 h2 h3, List.mem_singleton] at ht
    subst ht; exact ⟨hc _ _, h2, hc _ _⟩
  · rw [clipTriangle_ooi sqrtf v1 v2 v3 h1 h2 h3, List.mem_singleton] at ht
    subst ht; exact ⟨hc _ _, hc _ _, h3⟩
  · rw [clipTriangle_ooo sqrtf v1 v2 v3 h1 h2 h3] at ht
    exact absurd ht (List.not_mem_nil t)

/-- C9. For `P` inside (`P.w ≥ 0.1`) and `Q` outside (`Q.w < 0.1`),
`ClipAgainstNearPlane P Q` is the vertex whose position (all four components),
worldPos, texcoord and color equal `P + t·(Q − P)` with
`t = (0.1 − P.w)/(Q.w − P.w)`; the lerped `w` equals the constant `0.1` that the code
assigns; the normal is `normalize(P.normal + t·(Q.normal − P.normal))`. -/
theorem clipAgainstNearPlane_is_lerp (sqrtf : F → F) (P Q : VertexOutput F)
    (hP : 1 / 10 ≤ P.position.w) (hQ : Q.position.w < 1 / 10) :
    let t := (1 / 10 - P.position.w) / (Q.position.w - P.position.w)
    let r := ClipAgainstNearPlane sqrtf P Q
    r.position = ⟨P.position.x + t * (Q.position.x - P.position.x),
                  P.position.y + t * (Q.position.y - P.position.y),
                  P.position.z + t * (Q.position.z - P.position.z),
                  P.position.w + t * (Q.position.w - P.position.w)⟩ ∧
    P.position.w + t * (Q.position.w - P.position.w) = 1 / 10 ∧
    r.worldPos = P.worldPos.add ((Q.worldPos.sub P.worldPos).smul t) ∧
    r.texcoord = ⟨P.texcoord.x + t * (Q.texcoord.x - P.texcoord.x),
                  P.texcoord.y + t * (Q.texcoord.y - P.texcoord.y)⟩ ∧
    r.color = ⟨P.color.x + t * (Q.color.x - P.color.x),
               P.color.y + t * (Q.color.y - P.color.y),
               P.color.z + t * (Q.color.z - P.color.z),
               P.color.w + t * (Q.color.w - P.color.w)⟩ ∧
    r.normal = (P.normal.add ((Q.normal.sub P.normal).smul t)).normalize sqrtf := by
  intro t r
  have hne : Q.position.w - P.position.w ≠ 0 := by
    have : Q.position.w - P.position.w < 0 := by linarith
    exact ne_of_lt this
  have hw : P.position.w + t * (Q.position.w - P.position.w) = 1 / 10 := by
    simp only [t]
    rw [div_mul_cancel₀ _ hne]
    ring
  refine ⟨?_, hw, ?_, rfl, rfl, ?_⟩
  · simp only [r, ClipAgainstNearPlane, hw]
  · simp only [r, ClipAgainstNearPlane, Vector3.add, Vector3.sub, Vector3.smul, Vector3.mk3]
    congr 1 <;> ring
  · simp only [r, ClipAgainstNearPlane, Vector3.add, Vector3.sub, Vector3.smul, Vector3.mk3]
    congr 2 <;> ring

/-- C6 (amended). With exactly two vertices inside the near plane, two triangles
are returned.  When the outside vertex is the third or the first one they are, up
to rotation of each triple, `{A, B, clip(A,C)}` and `{B, clip(B,C), clip(A,C)}`
(`A`, `B`, `C` in cyclic order, `C` outside).  When the outside vertex is the second
one they are `{A, B, clip(B,C)}` and `{A, clip(B,C), clip(A,C)}`: the same quad,
split along its other diagonal. -/
theorem clipTriangle_two_inside (sqrtf : F → F) (v1 v2 v3 : VertexOutput F) :
    (1 / 10 ≤ v1.position.w → 1 / 10 ≤ v2.position.w → v3.position.w < 1 / 10 →
      MatchesUpToRotation (ClipTriangleAgainstNearPlane sqrtf v1 v2 v3)
        (quadSplitSpec sqrtf v1 v2 v3)) ∧
    (v1.position.w < 1 / 10 → 1 / 10 ≤ v2.position.w → 1 / 10 ≤ v3.position.w →
      MatchesUpToRotation (ClipTriangleAgainstNearPlane sqrtf v1 v2 v3)
        (quadSplitSpec sqrtf v2 v3 v1)) ∧
    (1 / 10 ≤ v1.position.w → v2.position.w < 1 / 10 → 1 / 10 ≤ v3.position.w →
      MatchesUpToRotation (ClipTriangleAgainstNearPlane sqrtf v1 v2 v3)
        (quadSplitOther sqrtf v3 v1 v2)) := by
  refine ⟨fun h1 h2 h3 => ?_, fun h1 h2 h3 => ?_, fun h1 h2 h3 => ?_⟩
  · rw [clipTriangle_iio sqrtf v1 v2 v3 h1 h2 h3]
    exact ⟨_, _, rfl, Or.inl rfl, Or.inl rfl⟩
  · rw [clipTriangle_oii sqrtf v1 v2 v3 h1 h2 h3]
    exact ⟨_, _, rfl, Or.inr (Or.inr rfl), Or.inr (Or.inr rfl)⟩
  · rw [clipTriangle_ioi sqrtf v1 v2 v3 h1 h2 h3]
    exact ⟨_, _, rfl, Or.inr (Or.inl rfl), Or.inr (Or.inl rfl)⟩

/-- C7 (amended). A triangle whose vertices have clip-space `w = (2, 2, −0.5)` is
clipped into exactly two triangles, `{v1, v2, clip(v1,v3)}` and
`{v2, clip(v2,v3), clip(v1,v3)}`, and the two generated vertices have `w = 0.1`. -/
theorem clipTriangle_w_2_2_neg_half (sqrtf : F → F) (v1 v2 v3 : VertexOutput F)
    (h1 : v1.position.w = 2) (h2 : v2.position.w = 2) (h3 : v3.position.w = -1 / 2) :
    ClipTriangleAgainstNearPlane sqrtf v1 v2 v3
      = [(v1, v2, ClipAgainstNearPlane sqrtf v1 v3),
         (v2, ClipAgainstNearPlane sqrtf v2 v3, ClipAgainstNearPlane sqrtf v1 v3)] ∧
    (ClipTriangleAgainstNearPlane sqrtf v1 v2 v3).length = 2 ∧
    (ClipAgainstNearPlane sqrtf v1 v3).position.w = 1 / 10 ∧
    (ClipAgainstNearPlane sqrtf v2 v3).position.w = 1 / 10 := by
  have e := clipTriangle_iio sqrtf v1 v2 v3 (by rw [h1]; norm_num) (by rw [h2]; norm_num)
    (by rw [h3]; norm_num)
  refine ⟨e, ?_, rfl, rfl⟩
  rw [e]
  rfl

/-- C10 (amended). The depth test and write for the pixel `(x, y)` of a frame buffer
that holds the pixel (both buffers have `x < width`, `y < height` and the pixel's
offsets below `BUFFER_SIZE`).  If the interpolated `z` satisfies `z ≤ depth[x,y]`,
then afterwards the four colour bytes of the pixel are the quantized
fragment-shader colour and `depth[x,y]` equals `z` clamped to `[0, 1]`, which is `z`
itself when `0 ≤ z ≤ 1`.  If `z > depth[x,y]`, the frame buffer is unchanged. -/
theorem depthTestAndWrite_pixel [FloorRing F] (shader : Shader F) (duvdx duvdy : F)
    (x y : ℕ) (pixelVertex : VertexOutput F) (fb : FrameBuffer F)
    (hcx : x < fb.colorBuffer.width) (hcy : y < fb.colorBuffer.height)
    (hci : (y * fb.colorBuffer.width + x) * 4 + 3 < fb.colorBuffer.BUFFER_SIZE)
    (hdx : x < fb.depthBuffer.width) (hdy : y < fb.depthBuffer.height)
    (hdi : y * fb.depthBuffer.width + x < fb.depthBuffer.BUFFER_SIZE) :
    let z := pixelVertex.position.z
    let fb' := DrawTriangle.depthTestAndWrite shader duvdx duvdy (x : ℤ) (y : ℤ) pixelVertex fb
    let c := shader.FragmentShader pixelVertex duvdx duvdy
    let i := (y * fb.colorBuffer.width + x) * 4
    (z ≤ fb.depthBuffer.GetDepth x y →
      fb'.colorBuffer.buffer i = toBYTE (c.r * 255) ∧
      fb'.colorBuffer.buffer (i + 1) = toBYTE (c.g * 255) ∧
      fb'.colorBuffer.buffer (i + 2) = toBYTE (c.b * 255) ∧
      fb'.colorBuffer.buffer (i + 3) = toBYTE (c.a * 255) ∧
      fb'.depthBuffer.GetDepth x y = clamp01 z ∧
      (0 ≤ z → z ≤ 1 → fb'.depthBuffer.GetDepth x y = z)) ∧
    (fb.depthBuffer.GetDepth x y < z → fb' = fb) := by
  intro z fb' c i
  have hc1 : ¬ (x ≥ fb.colorBuffer.width ∨ y ≥ fb.colorBuffer.height) := by
    rintro (h | h) <;> omega
  have hd1 : ¬ (x ≥ fb.depthBuffer.width ∨ y ≥ fb.depthBuffer.height) := by
    rintro (h | h) <;> omega
  constructor
  · intro hz
    have hfb : fb' = { colorBuffer := fb.colorBuffer.SetPixel x y c,
                       depthBuffer := fb.depthBuffer.SetDepth x y z } := by
      simp only [fb', DrawTriangle.depthTestAndWrite, Int.toNat_ofNat]
      rw [if_pos hz]
    have hdepth : fb'.depthBuffer.GetDepth x y = clamp01 z := by
      rw [hfb]
      simp only [DepthBuffer.SetDepth, hd1, if_false, hdi, if_true, DepthBuffer.GetDepth,
        Function.update_same]
    refine ⟨?_, ?_, ?_, ?_, hdepth, ?_⟩
    · rw [hfb]
      simp only [ColorBuffer.SetPixel, hc1, if_false, hci, if_true, i]
      simp
    · rw [hfb]
      simp only [ColorBuffer.SetPixel, hc1, if_false, hci, if_true, i]
      simp
    · rw [hfb]
      simp only [ColorBuffer.SetPixel, hc1, if_false, hci, if_true, i]
      simp
    · rw [hfb]
      simp only [ColorBuffer.SetPixel, hc1, if_false, hci, if_true, i]
      simp
    · intro h0 h1
      rw [hdepth]
      simp only [clamp01, clamp, not_lt.mpr h0, if_false, gt_iff_lt, not_lt.mpr h1]
  · intro hz
    simp only [fb', DrawTriangle.depthTestAndWrite, Int.toNat_ofNat]
    rw [if_neg (not_le.mpr hz)]

/-! ### Depth test: submission order and repetition -/

theorem clamp01_nonneg (z : F) : 0 ≤ clamp01 z := by
  simp only [clamp01, clamp, gt_iff_lt]
  split_ifs with h1 h2
  · exact le_refl 0
  · exact zero_le_one
  · exact not_lt.mp h1

theorem clamp01_le_one (z : F) : clamp01 z ≤ 1 := by
  simp only [clamp01, clamp, gt_iff_lt]
  split_ifs with h1 h2
  · exact zero_le_one
  · exact le_refl 1
  · exact not_lt.mp h2

theorem clamp01_mono {a b : F} (h : a ≤ b) : clamp01 a ≤ clamp01 b := by
  simp only [clamp01, clamp, gt_iff_lt]
  split_ifs <;> linarith

theorem clamp01_of_mem (e : F) (h0 : 0 ≤ e) (h1 : e ≤ 1) : clamp01 e = e := by
  simp only [clamp01, clamp, gt_iff_lt, not_lt.mpr h0, not_lt.mpr h1, if_false]

theorem le_clamp01_self (z : F) (h : z ≤ 1) : z ≤ clamp01 z := by
  simp only [clamp01, clamp, gt_iff_lt, not_lt.mpr h, if_false]
  split_ifs with h1
  · exact h1.le
  · exact le_refl z

theorem clamp01_le_of_nonneg (d : F) (h : 0 ≤ d) : clamp01 d ≤ d := by
  simp only [clamp01, clamp, not_lt.mpr h, if_false, gt_iff_lt]
  split_ifs with h1
  · exact h1.le
  · exact le_refl d

/-- A second `SetPixel` at the same pixel overwrites the first. -/
theorem ColorBuffer.SetPixel_SetPixel [FloorRing F] (cb : ColorBuffer) (x y : ℕ) (c1 c2 : Color F) :
    (cb.SetPixel x y c2).SetPixel x y c1 = cb.SetPixel x y c1 := by
  unfold ColorBuffer.SetPixel
  by_cases h : x ≥ cb.width ∨ y ≥ cb.height
  · simp only [h, if_true]
  · simp only [h, if_false]
    by_cases hi : (y * cb.width + x) * 4 + 3 < cb.BUFFER_SIZE
    · simp only [hi, if_true, h, if_false]
      congr 1
      funext j
      simp only [Function.update_apply]
      split_ifs <;> rfl
    · simp only [hi, if_false, h]

/-- A second `SetDepth` at the same pixel overwrites the first. -/
theorem DepthBuffer.SetDepth_SetDepth (db : DepthBuffer F) (x y : ℕ) (z1 z2 : F) :
    (db.SetDepth x y z2).SetDepth x y z1 = db.SetDepth x y z1 := by
  unfold DepthBuffer.SetDepth
  by_cases h : x ≥ db.width ∨ y ≥ db.height
  · simp only [h, if_true]
  · simp only [h, if_false]
    by_cases hi : y * db.width + x < db.BUFFER_SIZE
    · simp only [hi, if_true, h, if_false]
      congr 1
      funext j
      simp only [Function.update_apply]
      split_ifs <;> rfl
    · simp only [hi, if_false, h]

/-- Reading back the depth just stored at a pixel inside the buffer gives the clamped
depth. -/
theorem DepthBuffer.GetDepth_SetDepth (db : DepthBuffer F) (x y : ℕ) (z : F)
    (hdx : x < db.width) (hdy : y < db.height) (hdi : y * db.width + x < db.BUFFER_SIZE) :
    (db.SetDepth x y z).GetDepth x y = clamp01 z := by
  have hd1 : ¬ (x ≥ db.width ∨ y ≥ db.height) := by
    rintro (h | h) <;> omega
  simp only [DepthBuffer.SetDepth, hd1, if_false, hdi, if_true, DepthBuffer.GetDepth,
    Function.update_same]

/-- The depth test passes: the fragment is shaded and both buffers are written. -/
theorem depthTestAndWrite_pass [FloorRing F] (shader : Shader F) (duvdx duvdy : F) (x y : ℕ)
    (pv : VertexOutput F) (fb : FrameBuffer F)
    (h : pv.position.z ≤ fb.depthBuffer.GetDepth x y) :
    DrawTriangle.depthTestAndWrite shader duvdx duvdy (x : ℤ) (y : ℤ) pv fb
      = { colorBuffer := fb.colorBuffer.SetPixel x y (shader.FragmentShader pv duvdx duvdy),
          depthBuffer := fb.depthBuffer.SetDepth x y pv.position.z } := by
  simp only [DrawTriangle.depthTestAndWrite, Int.toNat_ofNat]
  rw [if_pos h]

/-- The depth test fails: the frame buffer is unchanged. -/
theorem depthTestAndWrite_fail [FloorRing F] (shader : Shader F) (duvdx duvdy : F) (x y : ℕ)
    (pv : VertexOutput F) (fb : FrameBuffer F)
    (h : fb.depthBuffer.GetDepth x y < pv.position.z) :
    DrawTriangle.depthTestAndWrite shader duvdx duvdy (x : ℤ) (y : ℤ) pv fb = fb := by
  simp only [DrawTriangle.depthTestAndWrite, Int.toNat_ofNat]
  rw [if_neg (not_le.mpr h)]

/-- A depth `z1` in `[0, 1]` is at most the clamp of every larger depth. -/
theorem le_clamp01_of_lt (z1 z2 : F) (h0 : 0 ≤ z1) (h1 : z1 ≤ 1) (hlt : z1 < z2) :
    z1 ≤ clamp01 z2 := by
  have h2 : ¬ z2 < 0 := not_lt.mpr (le_trans h0 hlt.le)
  simp only [clamp01, clamp, h2, if_false, gt_iff_lt]
  split_ifs with h3
  · exact h1
  · exact hlt.le

/-- The clamp of a depth stays below every larger positive depth. -/
theorem clamp01_lt_of_lt (z1 z2 : F) (hlt : z1 < z2) (h2 : 0 < z2) : clamp01 z1 < z2 := by
  rcases lt_or_le z1 0 with h | h
  · simp only [clamp01, clamp, h, if_true]
    exact h2
  · exact lt_of_le_of_lt (clamp01_le_of_nonneg _ h) hlt

/-- A depth `z1 ≤ 1` is at most the clamp of every larger depth. -/
theorem le_clamp01_of_le_one (z1 z2 : F) (h1 : z1 ≤ 1) (hlt : z1 < z2) : z1 ≤ clamp01 z2 := by
  rcases lt_or_le z1 0 with h | h
  · exact le_trans h.le (clamp01_nonneg z2)
  · exact le_clamp01_of_lt z1 z2 h h1 hlt

/-- C11 (amended). At a pixel `(x, y)` held by both buffers, for every initial state
of the pixel with stored depth `d` and every two fragments with depths `z1 < z2`
such that `0 < z2` or the nearer fragment fails against `d` (`d < z1`), and such that
`z1 ≤ 1` or the farther fragment fails against `d` (`d < z2`): applying the depth
test and write of the two fragments in either order leaves the same frame buffer
(the same colour and the same stored depth), and when the nearer fragment passes
against the initial depth the colour left is that of the nearer fragment and the
stored depth is `z1` clamped to `[0, 1]`.  The nearer depth may be negative. -/
theorem depthTest_order_independent [FloorRing F] (sh1 sh2 : Shader F) (du1 dv1 du2 dv2 : F)
    (x y : ℕ) (pv1 pv2 : VertexOutput F) (fb : FrameBuffer F)
    (hcx : x < fb.colorBuffer.width) (hcy : y < fb.colorBuffer.height)
    (hci : (y * fb.colorBuffer.width + x) * 4 + 3 < fb.colorBuffer.BUFFER_SIZE)
    (hdx : x < fb.depthBuffer.width) (hdy : y < fb.depthBuffer.height)
    (hdi : y * fb.depthBuffer.width + x < fb.depthBuffer.BUFFER_SIZE)
    (hlt : pv1.position.z < pv2.position.z)
    (h0 : 0 < pv2.position.z ∨ fb.depthBuffer.GetDepth x y < pv1.position.z)
    (h1 : pv1.position.z ≤ 1 ∨ fb.depthBuffer.GetDepth x y < pv2.position.z) :
    let step1 := DrawTriangle.depthTestAndWrite sh1 du1 dv1 (x : ℤ) (y : ℤ) pv1
    let step2 := DrawTriangle.depthTestAndWrite sh2 du2 dv2 (x : ℤ) (y : ℤ) pv2
    let c1 := sh1.FragmentShader pv1 du1 dv1
    let i := (y * fb.colorBuffer.width + x) * 4
    step2 (step1 fb) = step1 (step2 fb) ∧
    (pv1.position.z ≤ fb.depthBuffer.GetDepth x y →
      (step2 (step1 fb)).colorBuffer.buffer i = toBYTE (c1.r * 255) ∧
      (step2 (step1 fb)).colorBuffer.buffer (i + 1) = toBYTE (c1.g * 255) ∧
      (step2 (step1 fb)).colorBuffer.buffer (i + 2) = toBYTE (c1.b * 255) ∧
      (step2 (step1 fb)).colorBuffer.buffer (i + 3) = toBYTE (c1.a * 255) ∧
      (step2 (step1 fb)).depthBuffer.GetDepth x y = clamp01 pv1.position.z) := by
  intro step1 step2 c1 i
  have hc1 : ¬ (x ≥ fb.colorBuffer.width ∨ y ≥ fb.colorBuffer.height) := by
    rintro (h | h) <;> omega
  -- the state after the nearer fragment has been written
  have key : pv1.position.z ≤ fb.depthBuffer.GetDepth x y →
      step2 (step1 fb) = { colorBuffer := fb.colorBuffer.SetPixel x y c1,
                           depthBuffer := fb.depthBuffer.SetDepth x y pv1.position.z } ∧
      step1 (step2 fb) = { colorBuffer := fb.colorBuffer.SetPixel x y c1,
                           depthBuffer := fb.depthBuffer.SetDepth x y pv1.position.z } := by
    intro hz
    have e1 : step1 fb = _ := depthTestAndWrite_pass sh1 du1 dv1 x y pv1 fb hz
    have hpos : 0 < pv2.position.z := by
      rcases h0 with h | h
      · exact h
      · exact absurd hz (not_le.mpr h)
    constructor
    · rw [e1]
      apply depthTestAndWrite_fail
      show (fb.depthBuffer.SetDepth x y pv1.position.z).GetDepth x y < pv2.position.z
      rw [DepthBuffer.GetDepth_SetDepth _ _ _ _ hdx hdy hdi]
      exact clamp01_lt_of_lt _ _ hlt hpos
    · rcases le_or_lt pv2.position.z (fb.depthBuffer.GetDepth x y) with h2 | h2
      · have e2 : step2 fb = _ := depthTestAndWrite_pass sh2 du2 dv2 x y pv2 fb h2
        rw [e2]
        have hz1 : pv1.position.z ≤ 1 := by
          rcases h1 with h | h
          · exact h
          · exact absurd h2 (not_le.mpr h)
        have hpass : pv1.position.z ≤
            (fb.depthBuffer.SetDepth x y pv2.position.z).GetDepth x y := by
          rw [DepthBuffer.GetDepth_SetDepth _ _ _ _ hdx hdy hdi]
          exact le_clamp01_of_le_one _ _ hz1 hlt
        have e3 := depthTestAndWrite_pass sh1 du1 dv1 x y pv1
          { colorBuffer := fb.colorBuffer.SetPixel x y (sh2.FragmentShader pv2 du2 dv2),
            depthBuffer := fb.depthBuffer.SetDepth x y pv2.position.z } hpass
        show DrawTriangle.depthTestAndWrite sh1 du1 dv1 (x : ℤ) (y : ℤ) pv1 _ = _
        rw [e3, ColorBuffer.SetPixel_SetPixel, DepthBuffer.SetDepth_SetDepth]
      · have e2 : step2 fb = fb := depthTestAndWrite_fail sh2 du2 dv2 x y pv2 fb h2
        rw [e2]
        exact e1
  constructor
  · rcases le_or_lt pv1.position.z (fb.depthBuffer.GetDepth x y) with hz | hz
    · rw [(key hz).1, (key hz).2]
    · have e1 : step1 fb = fb := depthTestAndWrite_fail sh1 du1 dv1 x y pv1 fb hz
      have e2 : step2 fb = fb :=
        depthTestAndWrite_fail sh2 du2 dv2 x y pv2 fb (lt_trans hz hlt)
      rw [e1, e2, e1]
  · intro hz
    rw [(key hz).1]
    refine ⟨?_, ?_, ?_, ?_, ?_⟩
    · simp only [ColorBuffer.SetPixel, hc1, if_false, hci, if_true, i]
      simp
    · simp only [ColorBuffer.SetPixel, hc1, if_false, hci, if_true, i]
      simp
    · simp only [ColorBuffer.SetPixel, hc1, if_false, hci, if_true, i]
      simp
    · simp only [ColorBuffer.SetPixel, hc1, if_false, hci, if_true, i]
      simp
    · exact DepthBuffer.GetDepth_SetDepth _ _ _ _ hdx hdy hdi

theorem cellRun_append {β : Type} (wd : Bool) (l1 l2 : List (Bool × F × β)) (s : F × β) :
    cellRun wd (l1 ++ l2) s = cellRun wd l2 (cellRun wd l1 s) := by
  simp only [cellRun, List.foldl_append]

/-- After a run, every active fragment at or below the stored depth clamps to at
least the stored depth. -/
theorem cellRun_invariant {β : Type} (l : List (Bool × F × β)) (s : F × β) :
    ∀ a ∈ l, a.1 = true → a.2.1 ≤ (cellRun true l s).1 → (cellRun true l s).1 ≤ clamp01 a.2.1 := by
  induction l using List.reverseRecOn with
  | nil => intro a ha; exact absurd ha (List.not_mem_nil a)
  | append_singleton l0 o ih =>
    intro a ha hact hle
    rw [cellRun_append] at hle ⊢
    simp only [cellRun, List.foldl_cons, List.foldl_nil] at hle ⊢
    have ih' := ih
    simp only [cellRun] at ih'
    by_cases hp : o.1 = true ∧ o.2.1 ≤ (List.foldl (cellStep true) s l0).1
    · have e : cellStep true (List.foldl (cellStep true) s l0) o = (clamp01 o.2.1, o.2.2) := by
        simp only [cellStep, hp, and_self, if_true]
      rw [e] at hle ⊢
      simp only at hle ⊢
      rcases List.mem_append.mp ha with h | h
      · rcases le_or_lt a.2.1 (List.foldl (cellStep true) s l0).1 with h1 | h1
        · have h2 := ih' a h hact h1
          rcases le_or_lt 0 (List.foldl (cellStep true) s l0).1 with h3 | h3
          · exact le_trans (le_trans (clamp01_mono hp.2) (clamp01_le_of_nonneg _ h3)) h2
          · have : clamp01 o.2.1 = 0 := by
              apply le_antisymm _ (clamp01_nonneg _)
              have := clamp01_mono (le_trans hp.2 h3.le)
              rwa [clamp01_of_mem 0 (le_refl 0) zero_le_one] at this
            rw [this]
            exact clamp01_nonneg _
        · exact clamp01_mono (le_trans hp.2 h1.le)
      · rw [List.mem_singleton] at h
        subst h
        exact le_refl _
    · have e : cellStep true (List.foldl (cellStep true) s l0) o
          = List.foldl (cellStep true) s l0 := by
        simp only [cellStep, hp, if_false]
      rw [e] at hle ⊢
      rcases List.mem_append.mp ha with h | h
      · exact ih' a h hact hle
      · rw [List.mem_singleton] at h
        subst h
        exact absurd ⟨hact, hle⟩ hp

/-- If every active fragment at or below `e` clamps to `e`, a run from depth `e`
ends at depth `e`. -/
theorem cellRun_depth_fixed {β : Type} (l : List (Bool × F × β)) (e : F) :
    (∀ a ∈ l, a.1 = true → a.2.1 ≤ e → clamp01 a.2.1 = e) →
    ∀ v : β, (cellRun true l (e, v)).1 = e := by
  induction l with
  | nil => intro _ v; rfl
  | cons o l ih =>
    intro h v
    have ih' := ih (fun a ha => h a (List.mem_cons_of_mem _ ha))
    simp only [cellRun, List.foldl_cons] at ih' ⊢
    by_cases hp : o.1 = true ∧ o.2.1 ≤ e
    · have e1 : cellStep true (e, v) o = (e, o.2.2) := by
        simp only [cellStep, hp, and_self, if_true, h o (List.mem_cons_self _ _) hp.1 hp.2]
      rw [e1]
      exact ih' _
    · have e1 : cellStep true (e, v) o = (e, v) := by
        simp only [cellStep, hp, if_false]
      rw [e1]
      exact ih' _

/-- If every active fragment lies above the stored depth, a run changes nothing. -/
theorem cellRun_no_pass {β : Type} (wd : Bool) (l : List (Bool × F × β)) (s : F × β) :
    (∀ a ∈ l, a.1 = true → s.1 < a.2.1) → cellRun wd l s = s := by
  induction l with
  | nil => intro _; rfl
  | cons o l ih =>
    intro h
    simp only [cellRun, List.foldl_cons]
    have hp : ¬ (o.1 = true ∧ o.2.1 ≤ s.1) := by
      rintro ⟨h1, h2⟩
      exact absurd h2 (not_le.mpr (h o (List.mem_cons_self _ _) h1))
    have e1 : cellStep wd s o = s := by
      simp only [cellStep, hp, if_false]
    rw [e1]
    exact ih (fun a ha => h a (List.mem_cons_of_mem _ ha))

/-- Without depth writes the stored depth never changes. -/
theorem cellRun_depth_const {β : Type} (l : List (Bool × F × β)) (s : F × β) :
    (cellRun false l s).1 = s.1 := by
  induction l generalizing s with
  | nil => rfl
  | cons o l ih =>
    simp only [cellRun, List.foldl_cons]
    have ih' := ih (cellStep false s o)
    simp only [cellRun] at ih'
    rw [ih']
    simp only [cellStep, Bool.false_eq_true, if_false]
    split_ifs <;> rfl

/-- Running the same fragments a second time changes nothing. -/
theorem cellRun_idempotent {β : Type} (wd : Bool) (l : List (Bool × F × β)) (s : F × β) :
    cellRun wd l (cellRun wd l s) = cellRun wd l s := by
  induction l using List.reverseRecOn with
  | nil => rfl
  | append_singleton l0 o ih =>
    have hsplit : ∀ u : F × β, cellRun wd (l0 ++ [o]) u = cellStep wd (cellRun wd l0 u) o := by
      intro u
      rw [cellRun_append]
      rfl
    rw [hsplit s, hsplit]
    by_cases hp : o.1 = true ∧ o.2.1 ≤ (cellRun wd l0 s).1
    · cases wd with
      | false =>
        have e1 : cellStep false (cellRun false l0 s) o = ((cellRun false l0 s).1, o.2.2) := by
          simp only [cellStep, hp, and_self, if_true, Bool.false_eq_true, if_false]
        rw [e1]
        have hd : (cellRun false l0 ((cellRun false l0 s).1, o.2.2)).1 = (cellRun false l0 s).1 :=
          cellRun_depth_const l0 _
        have hp2 : o.1 = true ∧ o.2.1 ≤ (cellRun false l0 ((cellRun false l0 s).1, o.2.2)).1 := by
          rw [hd]; exact hp
        have e2 : cellStep false (cellRun false l0 ((cellRun false l0 s).1, o.2.2)) o
            = ((cellRun false l0 ((cellRun false l0 s).1, o.2.2)).1, o.2.2) := by
          simp only [cellStep, hp2, and_self, if_true, Bool.false_eq_true, if_false]
        rw [e2, hd]
      | true =>
        have e1 : cellStep true (cellRun true l0 s) o = (clamp01 o.2.1, o.2.2) := by
          simp only [cellStep, hp, and_self, if_true]
        rw [e1]
        have hQ := cellRun_invariant l0 s
        rcases le_or_lt o.2.1 1 with hz | hz
        · have hR : ∀ a ∈ l0, a.1 = true → a.2.1 ≤ clamp01 o.2.1 →
              clamp01 a.2.1 = clamp01 o.2.1 := by
            intro a ha hact hle
            apply le_antisymm
            · have := clamp01_mono hle
              rwa [clamp01_of_mem _ (clamp01_nonneg _) (clamp01_le_one _)] at this
            · rcases le_or_lt 0 (cellRun true l0 s).1 with h3 | h3
              · have h4 : clamp01 o.2.1 ≤ (cellRun true l0 s).1 :=
                  le_trans (clamp01_mono hp.2) (clamp01_le_of_nonneg _ h3)
                exact le_trans h4 (hQ a ha hact (le_trans hle h4))
              · have : clamp01 o.2.1 = 0 := by
                  apply le_antisymm _ (clamp01_nonneg _)
                  have := clamp01_mono (le_trans hp.2 h3.le)
                  rwa [clamp01_of_mem 0 (le_refl 0) zero_le_one] at this
                rw [this]
                exact clamp01_nonneg _
          have hd := cellRun_depth_fixed l0 (clamp01 o.2.1) hR o.2.2
          have hp2 : o.1 = true ∧ o.2.1 ≤ (cellRun true l0 (clamp01 o.2.1, o.2.2)).1 := by
            rw [hd]; exact ⟨hp.1, le_clamp01_self _ hz⟩
          simp only [cellStep, hp2, and_self, if_true]
        · have hc : clamp01 o.2.1 = 1 := by
            apply le_antisymm (clamp01_le_one _)
            have := clamp01_mono hz.le
            rwa [clamp01_of_mem 1 zero_le_one (le_refl 1)] at this
          rw [hc]
          have hB : ∀ a ∈ l0, a.1 = true → ((1 : F), o.2.2).1 < a.2.1 := by
            intro a ha hact
            show (1 : F) < a.2.1
            by_contra hcon
            have h5 : a.2.1 ≤ 1 := not_lt.mp hcon
            have h6 : (1 : F) < (cellRun true l0 s).1 := lt_of_lt_of_le hz hp.2
            have h7 := hQ a ha hact (le_trans h5 h6.le)
            exact absurd (lt_of_lt_of_le h6 (le_trans h7 (clamp01_le_one _))) (lt_irrefl _)
          rw [cellRun_no_pass true l0 _ hB]
          have hp3 : ¬ (o.1 = true ∧ o.2.1 ≤ ((1 : F), o.2.2).1) := by
            rintro ⟨_, h8⟩
            exact absurd h8 (not_le.mpr hz)
          simp only [cellStep, hp3, if_false]
    · have e1 : cellStep wd (cellRun wd l0 s) o = cellRun wd l0 s := by
        simp only [cellStep, hp, if_false]
      rw [e1, ih, e1]

theorem SetDepth_dims (db : DepthBuffer F) (x y : ℕ) (z : F) :
    (db.SetDepth x y z).BUFFER_SIZE = db.BUFFER_SIZE ∧ (db.SetDepth x y z).width = db.width ∧
    (db.SetDepth x y z).height = db.height := by
  unfold DepthBuffer.SetDepth
  simp only []
  split_ifs <;> exact ⟨rfl, rfl, rfl⟩

theorem SetPixel_dims [FloorRing F] (cb : ColorBuffer) (x y : ℕ) (c : Color F) :
    (cb.SetPixel x y c).BUFFER_SIZE = cb.BUFFER_SIZE ∧ (cb.SetPixel x y c).width = cb.width ∧
    (cb.SetPixel x y c).height = cb.height ∧ (cb.SetPixel x y c).channel = cb.channel := by
  unfold ColorBuffer.SetPixel
  simp only []
  split_ifs <;> exact ⟨rfl, rfl, rfl, rfl⟩

theorem HasDims.apply [FloorRing F] {fb : FrameBuffer F} {cS cw ch dS dw dh : ℕ}
    (h : HasDims fb cS cw ch dS dw dh) (o : FragOp F) : HasDims (o.apply fb) cS cw ch dS dw dh := by
  unfold FragOp.apply
  split_ifs
  · obtain ⟨h1, h2, h3, h4, h5, h6⟩ := h
    obtain ⟨a1, a2, a3, _⟩ := SetPixel_dims fb.colorBuffer o.x o.y o.c
    obtain ⟨b1, b2, b3⟩ := SetDepth_dims fb.depthBuffer o.x o.y o.z
    exact ⟨a1.trans h1, a2.trans h2, a3.trans h3, b1.trans h4, b2.trans h5, b3.trans h6⟩
  · exact h

theorem apply_channel [FloorRing F] (o : FragOp F) (fb : FrameBuffer F) :
    (o.apply fb).colorBuffer.channel = fb.colorBuffer.channel := by
  unfold FragOp.apply
  split_ifs
  · exact (SetPixel_dims fb.colorBuffer o.x o.y o.c).2.2.2
  · rfl

theorem runOps_dims [FloorRing F] (L : List (FragOp F)) (fb : FrameBuffer F)
    {cS cw ch dS dw dh : ℕ} (h : HasDims fb cS cw ch dS dw dh) :
    HasDims (runOps L fb) cS cw ch dS dw dh ∧
    (runOps L fb).colorBuffer.channel = fb.colorBuffer.channel := by
  induction L generalizing fb with
  | nil => exact ⟨h, rfl⟩
  | cons o L ih =>
    have := ih (o.apply fb) (h.apply o)
    exact ⟨this.1, this.2.trans (apply_channel o fb)⟩

/-- The depth read by a fragment, by cell. -/
theorem GetDepth_cell (o : FragOp F) (fb : FrameBuffer F) {cS cw ch dS dw dh : ℕ}
    (h : HasDims fb cS cw ch dS dw dh) :
    fb.depthBuffer.GetDepth o.x o.y
      = if o.inDepth dS dw dh = true then fb.depthBuffer.buffer (o.y * dw + o.x) else 1 := by
  obtain ⟨-, -, -, h4, h5, h6⟩ := h
  simp only [DepthBuffer.GetDepth, FragOp.inDepth, h4, h5, h6, decide_eq_true_eq, ge_iff_le]
  split_ifs <;> first | rfl | omega

/-- The depth cells after `SetDepth`. -/
theorem SetDepth_cell (o : FragOp F) (fb : FrameBuffer F) {cS cw ch dS dw dh : ℕ}
    (h : HasDims fb cS cw ch dS dw dh) (k : ℕ) :
    (fb.depthBuffer.SetDepth o.x o.y o.z).buffer k
      = if o.hitsDepth dS dw dh k = true then clamp01 o.z else fb.depthBuffer.buffer k := by
  obtain ⟨-, -, -, h4, h5, h6⟩ := h
  simp only [DepthBuffer.SetDepth, FragOp.hitsDepth, h4, h5, h6, decide_eq_true_eq, ge_iff_le]
  split_ifs <;>
    first
      | rfl
      | omega
      | (simp only [Function.update_apply]; split_ifs <;> first | rfl | omega)

/-- The colour bytes after `SetPixel`. -/
theorem SetPixel_cell [FloorRing F] (o : FragOp F) (fb : FrameBuffer F) {cS cw ch dS dw dh : ℕ}
    (h : HasDims fb cS cw ch dS dw dh) (j : ℕ) :
    (fb.colorBuffer.SetPixel o.x o.y o.c).buffer j
      = if o.coversColor cS cw ch j = true then o.byteAt cw j else fb.colorBuffer.buffer j := by
  obtain ⟨h1, h2, h3, -, -, -⟩ := h
  simp only [ColorBuffer.SetPixel, FragOp.coversColor, FragOp.byteAt, h1, h2, h3,
    decide_eq_true_eq, ge_iff_le]
  split_ifs <;>
    first
      | rfl
      | omega
      | (simp only [Function.update_apply]; split_ifs <;> first | rfl | omega)

theorem cellStep_hit {β : Type} (wd : Bool) (s : F × β) (z : F) (b : β) :
    cellStep wd s (true, z, b)
      = if z ≤ s.1 then (if wd = true then clamp01 z else s.1, b) else s := by
  simp only [cellStep, true_and]

theorem cellStep_miss {β : Type} (wd : Bool) (s : F × β) (z : F) (b : β) :
    cellStep wd s (false, z, b) = s := by
  simp only [cellStep, Bool.false_eq_true, false_and, if_false]

/-- One fragment, seen from a depth cell and a colour byte of the same pixel. -/
theorem apply_cell_pair [FloorRing F] (o : FragOp F) (fb : FrameBuffer F)
    {cS cw ch dS dw dh : ℕ} (h : HasDims fb cS cw ch dS dw dh) (k j : ℕ)
    (hc : o.coversColor cS cw ch j = o.hitsDepth dS dw dh k) :
    ((o.apply fb).depthBuffer.buffer k, (o.apply fb).colorBuffer.buffer j)
      = cellStep true (fb.depthBuffer.buffer k, fb.colorBuffer.buffer j)
          (o.hitsDepth dS dw dh k, o.z, o.byteAt cw j) := by
  unfold FragOp.apply
  rw [GetDepth_cell o fb h]
  cases hit : o.hitsDepth dS dw dh k
  · rw [hit] at hc
    rw [cellStep_miss]
    split_ifs <;>
      first
        | rfl
        | simp only [SetDepth_cell o fb h, SetPixel_cell o fb h, hit, hc, Bool.false_eq_true,
            if_false]
  · have hit2 := hit
    simp only [FragOp.hitsDepth, decide_eq_true_eq] at hit2
    have hin : o.inDepth dS dw dh = true := by
      simp only [FragOp.inDepth, decide_eq_true_eq]
      exact ⟨hit2.1, hit2.2.1, hit2.2.2.1⟩
    rw [hit] at hc
    rw [cellStep_hit, if_pos hin, hit2.2.2.2]
    by_cases hz : o.z ≤ fb.depthBuffer.buffer k
    · simp only [if_pos hz, SetDepth_cell o fb h, SetPixel_cell o fb h, hit, hc, if_true]
    · simp only [if_neg hz]

/-- One fragment, seen from a colour byte whose pixel is outside the depth buffer. -/
theorem apply_cell_color [FloorRing F] (o : FragOp F) (fb : FrameBuffer F)
    {cS cw ch dS dw dh : ℕ} (h : HasDims fb cS cw ch dS dw dh) (j : ℕ)
    (hc : o.coversColor cS cw ch j = true → o.inDepth dS dw dh = false) :
    ((1 : F), (o.apply fb).colorBuffer.buffer j)
      = cellStep false ((1 : F), fb.colorBuffer.buffer j)
          (o.coversColor cS cw ch j, o.z, o.byteAt cw j) := by
  unfold FragOp.apply
  rw [GetDepth_cell o fb h]
  cases hcov : o.coversColor cS cw ch j
  · rw [cellStep_miss]
    split_ifs <;>
      first
        | rfl
        | simp only [SetPixel_cell o fb h, hcov, Bool.false_eq_true, if_false]
  · have hin := hc hcov
    rw [cellStep_hit, hin]
    simp only [Bool.false_eq_true, if_false]
    by_cases hz : o.z ≤ 1
    · simp only [if_pos hz, SetPixel_cell o fb h, hcov, if_true]
    · simp only [if_neg hz]

/-- One fragment, seen from a depth cell alone. -/
theorem apply_cell_depth [FloorRing F] (o : FragOp F) (fb : FrameBuffer F)
    {cS cw ch dS dw dh : ℕ} (h : HasDims fb cS cw ch dS dw dh) (k : ℕ) :
    ((o.apply fb).depthBuffer.buffer k, ())
      = cellStep true (fb.depthBuffer.buffer k, ()) (o.hitsDepth dS dw dh k, o.z, ()) := by
  unfold FragOp.apply
  rw [GetDepth_cell o fb h]
  cases hit : o.hitsDepth dS dw dh k
  · rw [cellStep_miss]
    split_ifs <;>
      first
        | rfl
        | simp only [SetDepth_cell o fb h, hit, Bool.false_eq_true, if_false]
  · have hit2 := hit
    simp only [FragOp.hitsDepth, decide_eq_true_eq] at hit2
    have hin : o.inDepth dS dw dh = true := by
      simp only [FragOp.inDepth, decide_eq_true_eq]
      exact ⟨hit2.1, hit2.2.1, hit2.2.2.1⟩
    rw [cellStep_hit, if_pos hin, hit2.2.2.2]
    by_cases hz : o.z ≤ fb.depthBuffer.buffer k
    · simp only [if_pos hz, SetDepth_cell o fb h, hit, if_true]
    · simp only [if_neg hz]

theorem runOps_cell_depth [FloorRing F] (L : List (FragOp F)) (fb : FrameBuffer F)
    {cS cw ch dS dw dh : ℕ} (h : HasDims fb cS cw ch dS dw dh) (k : ℕ) :
    ((runOps L fb).depthBuffer.buffer k, ())
      = cellRun true (L.map (fun o => (o.hitsDepth dS dw dh k, o.z, ())))
          (fb.depthBuffer.buffer k, ()) := by
  induction L generalizing fb with
  | nil => rfl
  | cons o L ih =>
    have h1 := ih (o.apply fb) (h.apply o)
    have h2 := apply_cell_depth o fb h k
    simp only [runOps, List.foldl_cons, List.map_cons, cellRun] at h1 ⊢
    rw [h1, h2]

theorem runOps_cell_pair [FloorRing F] (L : List (FragOp F)) (fb : FrameBuffer F)
    {cS cw ch dS dw dh : ℕ} (h : HasDims fb cS cw ch dS dw dh) (k j : ℕ)
    (hc : ∀ o ∈ L, o.coversColor cS cw ch j = o.hitsDepth dS dw dh k) :
    ((runOps L fb).depthBuffer.buffer k, (runOps L fb).colorBuffer.buffer j)
      = cellRun true (L.map (fun o => (o.hitsDepth dS dw dh k, o.z, o.byteAt cw j)))
          (fb.depthBuffer.buffer k, fb.colorBuffer.buffer j) := by
  induction L generalizing fb with
  | nil => rfl
  | cons o L ih =>
    have h1 := ih (o.apply fb) (h.apply o) (fun p hp => hc p (List.mem_cons_of_mem _ hp))
    have h2 := apply_cell_pair o fb h k j (hc o (List.mem_cons_self _ _))
    simp only [runOps, List.foldl_cons, List.map_cons, cellRun] at h1 ⊢
    rw [h1, h2]

theorem runOps_cell_color [FloorRing F] (L : List (FragOp F)) (fb : FrameBuffer F)
    {cS cw ch dS dw dh : ℕ} (h : HasDims fb cS cw ch dS dw dh) (j : ℕ)
    (hc : ∀ o ∈ L, o.coversColor cS cw ch j = true → o.inDepth dS dw dh = false) :
    ((1 : F), (runOps L fb).colorBuffer.buffer j)
      = cellRun false (L.map (fun o => (o.coversColor cS cw ch j, o.z, o.byteAt cw j)))
          ((1 : F), fb.colorBuffer.buffer j) := by
  induction L generalizing fb with
  | nil => rfl
  | cons o L ih =>
    have h1 := ih (o.apply fb) (h.apply o) (fun p hp => hc p (List.mem_cons_of_mem _ hp))
    have h2 := apply_cell_color o fb h j (hc o (List.mem_cons_self _ _))
    simp only [runOps, List.foldl_cons, List.map_cons, cellRun] at h1 ⊢
    rw [h1, h2]

/-- A row-major index with the column below the width determines the pixel. -/
theorem pixel_of_index {w x y x' y' : ℕ} (hx : x < w) (hx' : x' < w)
    (h : y * w + x = y' * w + x') : x = x' ∧ y = y' := by
  have e1 : (y * w + x) % w = x := by
    rw [Nat.add_comm, Nat.add_mul_mod_self_right, Nat.mod_eq_of_lt hx]
  have e2 : (y' * w + x') % w = x' := by
    rw [Nat.add_comm, Nat.add_mul_mod_self_right, Nat.mod_eq_of_lt hx']
  have hxx : x = x' := by rw [← e1, ← e2, h]
  subst hxx
  have hw : 0 < w := lt_of_le_of_lt (Nat.zero_le _) hx
  exact ⟨rfl, Nat.eq_of_mul_eq_mul_right hw (Nat.add_right_cancel h)⟩

theorem FrameBuffer.ext_cells {G : Type} {a b : FrameBuffer G}
    (h1 : a.colorBuffer.BUFFER_SIZE = b.colorBuffer.BUFFER_SIZE)
    (h2 : a.colorBuffer.width = b.colorBuffer.width)
    (h3 : a.colorBuffer.height = b.colorBuffer.height)
    (h4 : a.colorBuffer.channel = b.colorBuffer.channel)
    (h5 : a.depthBuffer.BUFFER_SIZE = b.depthBuffer.BUFFER_SIZE)
    (h6 : a.depthBuffer.width = b.depthBuffer.width)
    (h7 : a.depthBuffer.height = b.depthBuffer.height)
    (hc : ∀ j, a.colorBuffer.buffer j = b.colorBuffer.buffer j)
    (hd : ∀ k, a.depthBuffer.buffer k = b.depthBuffer.buffer k) : a = b := by
  obtain ⟨⟨cS, cw, ch, cc, cbuf⟩, ⟨dS, dw, dh, dbuf⟩⟩ := a
  obtain ⟨⟨cS', cw', ch', cc', cbuf'⟩, ⟨dS', dw', dh', dbuf'⟩⟩ := b
  simp only at h1 h2 h3 h4 h5 h6 h7 hc hd
  have e1 : cbuf = cbuf' := funext hc
  have e2 : dbuf = dbuf' := funext hd
  subst h1 h2 h3 h4 h5 h6 h7 e1 e2
  rfl

/-- Applying a sequence of fragments a second time changes nothing. -/
theorem runOps_idempotent [FloorRing F] (L : List (FragOp F)) (fb : FrameBuffer F) :
    runOps L (runOps L fb) = runOps L fb := by
  have hD : HasDims fb fb.colorBuffer.BUFFER_SIZE fb.colorBuffer.width fb.colorBuffer.height
      fb.depthBuffer.BUFFER_SIZE fb.depthBuffer.width fb.depthBuffer.height :=
    ⟨rfl, rfl, rfl, rfl, rfl, rfl⟩
  have hD1 := runOps_dims L fb hD
  have hD2 := runOps_dims L (runOps L fb) hD1.1
  obtain ⟨a1, a2, a3, a4, a5, a6⟩ := hD1.1
  obtain ⟨b1, b2, b3, b4, b5, b6⟩ := hD2.1
  refine FrameBuffer.ext_cells (b1.trans a1.symm) (b2.trans a2.symm) (b3.trans a3.symm) hD2.2
    (b4.trans a4.symm) (b5.trans a5.symm) (b6.trans a6.symm) ?_ ?_
  · intro j
    by_cases hall : ∀ o ∈ L, o.coversColor fb.colorBuffer.BUFFER_SIZE fb.colorBuffer.width
        fb.colorBuffer.height j = true →
        o.inDepth fb.depthBuffer.BUFFER_SIZE fb.depthBuffer.width fb.depthBuffer.height = false
    · have r1 := runOps_cell_color L fb hD j hall
      have r2 := runOps_cell_color L (runOps L fb) hD1.1 j hall
      rw [r1, cellRun_idempotent, ← r1] at r2
      exact (Prod.mk.inj r2).2
    · push_neg at hall
      obtain ⟨p, -, hpc, hpd⟩ := hall
      have hpd1 : p.inDepth fb.depthBuffer.BUFFER_SIZE fb.depthBuffer.width
          fb.depthBuffer.height = true := by
        cases hb : p.inDepth fb.depthBuffer.BUFFER_SIZE fb.depthBuffer.width
          fb.depthBuffer.height
        · exact absurd hb hpd
        · rfl
      simp only [FragOp.coversColor, decide_eq_true_eq] at hpc
      simp only [FragOp.inDepth, decide_eq_true_eq] at hpd1
      have hcons : ∀ o ∈ L, o.coversColor fb.colorBuffer.BUFFER_SIZE fb.colorBuffer.width
          fb.colorBuffer.height j = o.hitsDepth fb.depthBuffer.BUFFER_SIZE fb.depthBuffer.width
            fb.depthBuffer.height (p.y * fb.depthBuffer.width + p.x) := by
        intro o _
        rw [Bool.eq_iff_iff]
        simp only [FragOp.coversColor, FragOp.hitsDepth, decide_eq_true_eq]
        constructor
        · intro ho
          have hi : o.y * fb.colorBuffer.width + o.x = p.y * fb.colorBuffer.width + p.x := by
            omega
          obtain ⟨ex, ey⟩ := pixel_of_index ho.1 hpc.1 hi
          rw [ex, ey]
          exact ⟨hpd1.1, hpd1.2.1, hpd1.2.2, rfl⟩
        · intro ho
          obtain ⟨ex, ey⟩ := pixel_of_index ho.1 hpd1.1 ho.2.2.2
          rw [ex, ey]
          exact hpc
      have r1 := runOps_cell_pair L fb hD _ j hcons
      have r2 := runOps_cell_pair L (runOps L fb) hD1.1 _ j hcons
      rw [r1, cellRun_idempotent, ← r1] at r2
      exact (Prod.mk.inj r2).2
  · intro k
    have r1 := runOps_cell_depth L fb hD k
    have r2 := runOps_cell_depth L (runOps L fb) hD1.1 k
    rw [r1, cellRun_idempotent, ← r1] at r2
    exact (Prod.mk.inj r2).1

theorem runOps_append [FloorRing F] (L1 L2 : List (FragOp F)) (fb : FrameBuffer F) :
    runOps (L1 ++ L2) fb = runOps L2 (runOps L1 fb) := by
  simp only [runOps, List.foldl_append]

/-- A `forPixels` loop whose body is a fixed sequence of fragments is one. -/
theorem forPixels_frag [FloorRing F] (i stop : ℤ) (body : ℤ → FrameBuffer F → FrameBuffer F)
    (hb : ∀ k, ∃ L : List (FragOp F), ∀ fb, body k fb = runOps L fb) :
    ∃ L : List (FragOp F), ∀ fb, forPixels i stop body fb = runOps L fb := by
  have key : ∀ (n : ℕ) (i : ℤ), (stop - i).toNat ≤ n →
      ∃ L : List (FragOp F), ∀ fb, forPixels i stop body fb = runOps L fb := by
    intro n
    induction n with
    | zero =>
      intro i hn
      have h : ¬ i < stop := by omega
      exact ⟨[], fun fb => by rw [forPixels, if_neg h]; rfl⟩
    | succ n ih =>
      intro i hn
      by_cases h : i < stop
      · obtain ⟨L1, h1⟩ := hb i
        obtain ⟨L2, h2⟩ := ih (i + 1) (by omega)
        exact ⟨L1 ++ L2, fun fb => by rw [forPixels, if_pos h, h2, h1, runOps_append]⟩
      · exact ⟨[], fun fb => by rw [forPixels, if_neg h]; rfl⟩
  exact key _ i le_rfl

/-- A `forBlocks` loop whose body is a fixed sequence of fragments is one. -/
theorem forBlocks_frag [FloorRing F] (i hi : ℤ) (body : ℤ → FrameBuffer F → FrameBuffer F)
    (hb : ∀ k, ∃ L : List (FragOp F), ∀ fb, body k fb = runOps L fb) :
    ∃ L : List (FragOp F), ∀ fb, forBlocks i hi body fb = runOps L fb := by
  have key : ∀ (n : ℕ) (i : ℤ), (hi + 1 - i).toNat ≤ n →
      ∃ L : List (FragOp F), ∀ fb, forBlocks i hi body fb = runOps L fb := by
    intro n
    induction n with
    | zero =>
      intro i hn
      have h : ¬ i ≤ hi := by omega
      exact ⟨[], fun fb => by rw [forBlocks, if_neg h]; rfl⟩
    | succ n ih =>
      intro i hn
      by_cases h : i ≤ hi
      · obtain ⟨L1, h1⟩ := hb i
        obtain ⟨L2, h2⟩ := ih (i + BLOCK_SIZE) (by simp only [BLOCK_SIZE]; omega)
        exact ⟨L1 ++ L2, fun fb => by rw [forBlocks, if_pos h, h2, h1, runOps_append]⟩
      · exact ⟨[], fun fb => by rw [forBlocks, if_neg h]; rfl⟩
  exact key _ i le_rfl

theorem depthTestAndWrite_runOps [FloorRing F] (shader : Shader F) (du dv : F) (x y : ℤ)
    (pv : VertexOutput F) (fb : FrameBuffer F) :
    DrawTriangle.depthTestAndWrite shader du dv x y pv fb
      = runOps [⟨x.toNat, y.toNat, pv.position.z, shader.FragmentShader pv du dv⟩] fb := rfl

/-- The innermost loop body of `DrawTriangle` is at most one fragment. -/
theorem pixel_frag [FloorRing F] (sqrtf : F → F) (shader : Shader F)
    (s1 s2 s3 : VertexOutput F) (w1 w2 w3 : F) (p1 p2 p3 : Vector2 F) (du dv : F) (x y : ℤ) :
    ∃ L : List (FragOp F), ∀ fb,
      DrawTriangle.pixel sqrtf shader s1 s2 s3 w1 w2 w3 p1 p2 p3 du dv x y fb = runOps L fb := by
  by_cases hin : (PointInTriangle ((x : F) + 1 / 2) ((y : F) + 1 / 2) p1 p2 p3 0 0 0).1 = true
  · simp only [DrawTriangle.pixel, hin, if_true]
    exact ⟨_, fun fb => depthTestAndWrite_runOps shader du dv x y _ fb⟩
  · exact ⟨[], fun fb => by simp only [DrawTriangle.pixel, hin, Bool.false_eq_true, if_false]; rfl⟩

/-- The rasterisation of one clipped triangle is a fixed sequence of fragments. -/
theorem rasterize_frag [FloorRing F] (sqrtf : F → F) (W H : ℤ) (shader : Shader F)
    (triangle : Triangle F) :
    ∃ L : List (FragOp F), ∀ fb,
      DrawTriangle.rasterize sqrtf W H shader triangle fb = runOps L fb := by
  simp only [DrawTriangle.rasterize]
  apply forBlocks_frag
  intro blockY
  apply forBlocks_frag
  intro blockX
  apply forPixels_frag
  intro y
  apply forPixels_frag
  intro x
  apply pixel_frag

theorem rasterizeAll_frag [FloorRing F] (sqrtf : F → F) (W H : ℤ) (shader : Shader F)
    (tris : List (Triangle F)) :
    ∃ L : List (FragOp F), ∀ fb,
      tris.foldl (fun fb triangle => DrawTriangle.rasterize sqrtf W H shader triangle fb) fb
        = runOps L fb := by
  induction tris with
  | nil => exact ⟨[], fun fb => rfl⟩
  | cons t tris ih =>
    obtain ⟨L1, h1⟩ := rasterize_frag sqrtf W H shader t
    obtain ⟨L2, h2⟩ := ih
    exact ⟨L1 ++ L2, fun fb => by rw [List.foldl_cons, h2, h1, runOps_append]⟩

/-- What `DrawTriangle` does to the frame buffer is a fixed sequence of fragments that
does not depend on the frame buffer. -/
theorem DrawTriangle_frag [FloorRing F] (sqrtf : F → F) (r : Renderer F) (v1 v2 v3 : Vertex F)
    (shader : Option (Shader F)) :
    ∃ L : List (FragOp F), ∀ fb,
      DrawTriangle sqrtf { r with m_currentFrameBuffer := fb } v1 v2 v3 shader
        = { r with m_currentFrameBuffer := runOps L fb } := by
  cases shader with
  | none => exact ⟨[], fun fb => rfl⟩
  | some shader =>
    simp only [DrawTriangle]
    split_ifs with hc he
    · exact ⟨[], fun fb => rfl⟩
    · exact ⟨[], fun fb => rfl⟩
    · obtain ⟨L, hL⟩ := rasterizeAll_frag sqrtf r.m_width r.m_height shader
        (ClipTriangleAgainstNearPlane sqrtf
          (shader.VertexShader ⟨v1.pos, v1.color, v1.normal, v1.texcoord, r.m_modelMatrix,
            r.m_viewMatrix, r.m_projMatrix⟩)
          (shader.VertexShader ⟨v2.pos, v2.color, v2.normal, v2.texcoord, r.m_modelMatrix,
            r.m_viewMatrix, r.m_projMatrix⟩)
          (shader.VertexShader ⟨v3.pos, v3.color, v3.normal, v3.texcoord, r.m_modelMatrix,
            r.m_viewMatrix, r.m_projMatrix⟩))
      exact ⟨L, fun fb => by rw [hL]⟩

/-- C12. For every renderer state, every triangle and every shader (a pair of pure
functions), calling `DrawTriangle` twice in a row with the same arguments leaves the
renderer, and so its colour buffer and its depth buffer, identical to calling it
once.  `DrawTriangle` is total, so both sides are results the code returns. -/
theorem drawTriangle_twice_eq_once [FloorRing F] (sqrtf : F → F) (r : Renderer F) (v1 v2 v3 : Vertex F)
    (shader : Option (Shader F)) :
    DrawTriangle sqrtf (DrawTriangle sqrtf r v1 v2 v3 shader) v1 v2 v3 shader
      = DrawTriangle sqrtf r v1 v2 v3 shader := by
  obtain ⟨L, hL⟩ := DrawTriangle_frag sqrtf r v1 v2 v3 shader
  have h1 : DrawTriangle sqrtf r v1 v2 v3 shader
      = { r with m_currentFrameBuffer := runOps L r.m_currentFrameBuffer } :=
    hL r.m_currentFrameBuffer
  rw [h1, hL, runOps_idempotent]


/-- Swapping the arguments of `Vector3::cross` negates the three components. -/
theorem cross_swap (a b : Vector3 F) :
    Vector3.cross b a
      = Vector3.mk3 (-(Vector3.cross a b).x) (-(Vector3.cross a b).y) (-(Vector3.cross a b).z) := by
  simp only [Vector3.cross, Vector3.mk3]
  congr 1 <;> ring

/-- The sum of three vectors does not depend on the order of the last two. -/
theorem add_add_swap (a b c : Vector3 F) : (a.add c).add b = (a.add b).add c := by
  simp only [Vector3.add, Vector3.mk3]
  congr 1 <;> ring

/-- Normalizing the negated vector negates the dot product with any vector. -/
theorem dot_normalize_neg (sqrtf : F → F) (a d : Vector3 F) :
    Vector3.dot ((Vector3.mk3 (-a.x) (-a.y) (-a.z)).normalize sqrtf) d
      = -Vector3.dot (a.normalize sqrtf) d := by
  have hm : (Vector3.mk3 (-a.x) (-a.y) (-a.z)).magnitudeSquared = a.magnitudeSquared := by
    simp only [Vector3.magnitudeSquared, Vector3.mk3]
    ring
  simp only [Vector3.normalize, Vector3.magnitude, hm]
  by_cases h1 : sqrtf a.magnitudeSquared < EPSILON
  · simp only [h1, if_true, Vector3.dot, Vector3.mk3]
    ring
  · simp only [h1, if_false, Vector3.div]
    by_cases h2 : |sqrtf a.magnitudeSquared| < EPSILON
    · simp only [h2, if_true, Vector3.dot, Vector3.zero, Vector3.mk3]
      ring
    · simp only [h2, if_false, Vector3.dot, Vector3.mk3]
      ring

/-- C13. With `CULL_BACK` and counter-clockwise front faces, a triangle whose
world-space face normal `n = normalize((wp2 − wp1) × (wp3 − wp1))` and view vector
`d = viewPos − centroid` satisfy `n·d > EPSILON` is not culled, so `DrawTriangle`
goes on to clip and rasterize it; the triangle in the reversed order `(v1, v3, v2)`
is culled and `DrawTriangle` returns the renderer unchanged (no pixel is written).
The reversal exactly negates `n·d`. -/
theorem backface_cull_ccw [FloorRing F] (sqrtf : F → F) (viewPos : Vector3 F)
    (o1 o2 o3 : VertexOutput F)
    (hdot : EPSILON <
      Vector3.dot
        ((Vector3.cross (o2.worldPos.sub o1.worldPos) (o3.worldPos.sub o1.worldPos)).normalize sqrtf)
        (viewPos.sub (((o1.worldPos.add o2.worldPos).add o3.worldPos).div 3))) :
    DrawTriangle.culled sqrtf viewPos CullMode.CULL_BACK FrontFace.COUNTER_CLOCKWISE o1 o2 o3
      = false ∧
    DrawTriangle.culled sqrtf viewPos CullMode.CULL_BACK FrontFace.COUNTER_CLOCKWISE o1 o3 o2
      = true ∧
    Vector3.dot
        ((Vector3.cross (o3.worldPos.sub o1.worldPos) (o2.worldPos.sub o1.worldPos)).normalize sqrtf)
        (viewPos.sub (((o1.worldPos.add o3.worldPos).add o2.worldPos).div 3))
      = -Vector3.dot
        ((Vector3.cross (o2.worldPos.sub o1.worldPos) (o3.worldPos.sub o1.worldPos)).normalize sqrtf)
        (viewPos.sub (((o1.worldPos.add o2.worldPos).add o3.worldPos).div 3)) ∧
    ∀ (r : Renderer F) (a b c : Vertex F) (shader : Shader F),
      r.m_cullMode = CullMode.CULL_BACK → r.m_frontFace = FrontFace.COUNTER_CLOCKWISE →
      r.m_viewPosition = viewPos →
      shader.VertexShader ⟨a.pos, a.color, a.normal, a.texcoord,
          r.m_modelMatrix, r.m_viewMatrix, r.m_projMatrix⟩ = o1 →
      shader.VertexShader ⟨b.pos, b.color, b.normal, b.texcoord,
          r.m_modelMatrix, r.m_viewMatrix, r.m_projMatrix⟩ = o2 →
      shader.VertexShader ⟨c.pos, c.color, c.normal, c.texcoord,
          r.m_modelMatrix, r.m_viewMatrix, r.m_projMatrix⟩ = o3 →
      DrawTriangle sqrtf r a c b (some shader) = r ∧
      DrawTriangle sqrtf r a b c (some shader)
        = if (ClipTriangleAgainstNearPlane sqrtf o1 o2 o3).isEmpty then r
          else { r with m_currentFrameBuffer :=
                  (List.foldl
                    (fun fb triangle =>
                      DrawTriangle.rasterize sqrtf r.m_width r.m_height shader triangle fb)
                    r.m_currentFrameBuffer (ClipTriangleAgainstNearPlane sqrtf o1 o2 o3)) } := by
  have hneg : Vector3.dot
        ((Vector3.cross (o3.worldPos.sub o1.worldPos) (o2.worldPos.sub o1.worldPos)).normalize sqrtf)
        (viewPos.sub (((o1.worldPos.add o3.worldPos).add o2.worldPos).div 3))
      = -Vector3.dot
        ((Vector3.cross (o2.worldPos.sub o1.worldPos) (o3.worldPos.sub o1.worldPos)).normalize sqrtf)
        (viewPos.sub (((o1.worldPos.add o2.worldPos).add o3.worldPos).div 3)) := by
    rw [cross_swap, add_add_swap, dot_normalize_neg]
  have hpos : (0 : F) < EPSILON := by norm_num [EPSILON]
  have c1 : DrawTriangle.culled sqrtf viewPos CullMode.CULL_BACK FrontFace.COUNTER_CLOCKWISE
      o1 o2 o3 = false := by
    simp only [DrawTriangle.culled, gt_iff_lt, hdot]
    simp
  have c2 : DrawTriangle.culled sqrtf viewPos CullMode.CULL_BACK FrontFace.COUNTER_CLOCKWISE
      o1 o3 o2 = true := by
    have hlt : ¬ EPSILON < Vector3.dot
        ((Vector3.cross (o3.worldPos.sub o1.worldPos) (o2.worldPos.sub o1.worldPos)).normalize sqrtf)
        (viewPos.sub (((o1.worldPos.add o3.worldPos).add o2.worldPos).div 3)) := by
      rw [hneg]
      intro h
      linarith
    simp only [DrawTriangle.culled, gt_iff_lt, hlt]
    simp
  refine ⟨c1, c2, hneg, ?_⟩
  intro r a b c shader hc hf hv e1 e2 e3
  constructor
  · simp only [DrawTriangle, e1, e2, e3, hc, hf, hv, c2, if_true]
  · simp only [DrawTriangle, e1, e2, e3, hc, hf, hv, c1]
    simp

/-! ### Matrices -/

/-- Two matrices with equal entries are equal. -/
theorem Matrix.ext_entries {G : Type} {A B : Matrix G} (h : ∀ i j, A.m i j = B.m i j) : A = B := by
  cases A; cases B
  congr 1
  funext i j
  exact h i j

/-- Entry `(i, j)` of the unrolled product is the four-term row by column sum. -/
theorem Matrix.mul_m (A B : Matrix F) (i j : Fin 4) :
    (A.mul B).m i j
      = A.m i 0 * B.m 0 j + A.m i 1 * B.m 1 j + A.m i 2 * B.m 2 j + A.m i 3 * B.m 3 j := by
  fin_cases i <;> fin_cases j <;> rfl

/-- The six-subdeterminant expansion computed by `Matrix::inverse` is the
determinant of the matrix. -/
theorem Matrix.inverse_det_eq_det (M : Matrix F) :
    Matrix.inverse.det M = Matrix.det (Matrix.of M.m) := by
  have e3 : (Fin.succ 2 : Fin 4) = 3 := rfl
  have e2 : (Fin.castSucc 2 : Fin 4) = 2 := rfl
  have v3 : ((3 : Fin 4) : ℕ) = 3 := rfl
  rw [Matrix.det_succ_row_zero]
  simp only [Fin.sum_univ_succ, Matrix.det_fin_three]
  simp [Matrix.inverse.det, Fin.succAbove, e3, e2, v3]
  ring

/-- The computed determinant of the transpose is that of the matrix. -/
theorem Matrix.inverse_det_transpose (M : Matrix F) :
    Matrix.inverse.det M.transpose = Matrix.inverse.det M := by
  simp only [Matrix.inverse.det, Matrix.transpose]
  ring

/-- In the branch `|det| < EPSILON`, `Matrix::inverse` returns the identity. -/
theorem Matrix.inverse_of_small_det (M : Matrix F) (h : |Matrix.inverse.det M| < EPSILON) :
    M.inverse = Matrix.identity := by
  unfold Matrix.inverse
  simp only [Matrix.inverse.det] at h
  simp only [if_pos h]

/-- C15. For `0 < n < f` and every `fov`, `aspect`, `Matrix::perspective` applied to
an eye-space point `(x, y, z, 1)` yields clip `w = −z`; a point on the near plane
(`z = −n`) has post-divide `z = −1` and a point on the far plane (`z = −f`) has
post-divide `z = +1`. -/
theorem perspective_near_far (tanf : F → F) (fov aspect n f x y z : F)
    (hn : 0 < n) (hnf : n < f) :
    ((Matrix.perspective tanf fov aspect n f).mulVec ⟨x, y, z, 1⟩).w = -z ∧
    ((Matrix.perspective tanf fov aspect n f).mulVec ⟨x, y, -n, 1⟩).z
      / ((Matrix.perspective tanf fov aspect n f).mulVec ⟨x, y, -n, 1⟩).w = -1 ∧
    ((Matrix.perspective tanf fov aspect n f).mulVec ⟨x, y, -f, 1⟩).z
      / ((Matrix.perspective tanf fov aspect n f).mulVec ⟨x, y, -f, 1⟩).w = 1 := by
  have hne : n - f ≠ 0 := by
    have : n - f < 0 := by linarith
    exact ne_of_lt this
  have hn0 : n ≠ 0 := ne_of_gt hn
  have hf0 : f ≠ 0 := ne_of_gt (lt_trans hn hnf)
  refine ⟨?_, ?_, ?_⟩
  · simp only [Matrix.perspective, Matrix.mulVec, Matrix.cons_val_zero, Matrix.cons_val_one,
      Matrix.head_cons, Matrix.cons_val_two, Matrix.cons_val_three, Matrix.tail_cons]
    ring
  · simp only [Matrix.perspective, Matrix.mulVec, Matrix.cons_val_zero, Matrix.cons_val_one,
      Matrix.head_cons, Matrix.cons_val_two, Matrix.cons_val_three, Matrix.tail_cons]
    have hw : (0 : F) * x + 0 * y + -1 * -n + 0 * 1 = n := by ring
    rw [hw, div_eq_iff hn0]
    field_simp
    ring
  · simp only [Matrix.perspective, Matrix.mulVec, Matrix.cons_val_zero, Matrix.cons_val_one,
      Matrix.head_cons, Matrix.cons_val_two, Matrix.cons_val_three, Matrix.tail_cons]
    have hw : (0 : F) * x + 0 * y + -1 * -f + 0 * 1 = f := by ring
    rw [hw, div_eq_iff hf0]
    field_simp
    ring

set_option maxHeartbeats 1000000 in
/-- The product `M * M.inverse()` in the branch that divides by the determinant. -/
theorem Matrix.mul_inverse_of_det (M : Matrix F) (h : ¬ |Matrix.inverse.det M| < EPSILON) :
    M.mul M.inverse = Matrix.identity := by
  have hne : Matrix.inverse.det M ≠ 0 := by
    intro h0; apply h; rw [h0, abs_zero]; norm_num [EPSILON]
  have hd : Matrix.inverse.det M * (1 / Matrix.inverse.det M) = 1 := mul_one_div_cancel hne
  have h2 := h
  simp only [Matrix.inverse.det] at hd h2
  apply Matrix.ext_entries
  intro i j
  rw [Matrix.mul_m]
  unfold Matrix.inverse
  simp only [if_neg h2]
  fin_cases i <;> fin_cases j <;>
    simp only [Matrix.identity, Matrix.cons_val_zero, Matrix.cons_val_one, Matrix.head_cons,
      Matrix.cons_val_two, Matrix.cons_val_three, Matrix.tail_cons, Fin.zero_eta, Fin.mk_one,
      Fin.reduceFinMk, Fin.isValue, Fin.reduceEq, if_true, if_false] <;>
    first
      | linear_combination hd
      | ring

set_option maxHeartbeats 1000000 in
/-- The product `M.inverse() * M` in the branch that divides by the determinant. -/
theorem Matrix.inverse_mul_of_det (M : Matrix F) (h : ¬ |Matrix.inverse.det M| < EPSILON) :
    M.inverse.mul M = Matrix.identity := by
  have hne : Matrix.inverse.det M ≠ 0 := by
    intro h0; apply h; rw [h0, abs_zero]; norm_num [EPSILON]
  have hd : Matrix.inverse.det M * (1 / Matrix.inverse.det M) = 1 := mul_one_div_cancel hne
  have h2 := h
  simp only [Matrix.inverse.det] at hd h2
  apply Matrix.ext_entries
  intro i j
  rw [Matrix.mul_m]
  unfold Matrix.inverse
  simp only [if_neg h2]
  fin_cases i <;> fin_cases j <;>
    simp only [Matrix.identity, Matrix.cons_val_zero, Matrix.cons_val_one, Matrix.head_cons,
      Matrix.cons_val_two, Matrix.cons_val_three, Matrix.tail_cons, Fin.zero_eta, Fin.mk_one,
      Fin.reduceFinMk, Fin.isValue, Fin.reduceEq, if_true, if_false] <;>
    first
      | linear_combination hd
      | ring

/-- C16. For every 4x4 matrix whose determinant, as computed by the six-subdeterminant
expansion of `Matrix::inverse`, has `|det| ≥ 1e-6` (the test `|det| < EPSILON` fails),
`M * M.inverse()` and `M.inverse() * M` both equal the identity matrix in exact
arithmetic, and the computed determinant is the determinant of `M`. -/
theorem mul_inverse_eq_identity (M : Matrix F) (h : EPSILON ≤ |Matrix.inverse.det M|) :
    M.mul M.inverse = Matrix.identity ∧ M.inverse.mul M = Matrix.identity ∧
    Matrix.inverse.det M = Matrix.det (Matrix.of M.m) :=
  ⟨Matrix.mul_inverse_of_det M (not_lt.mpr h), Matrix.inverse_mul_of_det M (not_lt.mpr h),
    Matrix.inverse_det_eq_det M⟩

/-- C17. For every matrix whose determinant has `|det| < 1e-6`, in particular every
singular matrix, `Matrix::inverse` returns exactly the identity matrix; the function
is total and this branch performs no division. -/
theorem inverse_of_small_det_is_identity (M : Matrix F) :
    (|Matrix.inverse.det M| < EPSILON → M.inverse = Matrix.identity) ∧
    (|Matrix.det (Matrix.of M.m)| < EPSILON → M.inverse = Matrix.identity) ∧
    (Matrix.det (Matrix.of M.m) = 0 → M.inverse = Matrix.identity) := by
  refine ⟨Matrix.inverse_of_small_det M, ?_, ?_⟩
  · intro h
    rw [← Matrix.inverse_det_eq_det] at h
    exact Matrix.inverse_of_small_det M h
  · intro h
    apply Matrix.inverse_of_small_det
    rw [Matrix.inverse_det_eq_det, h, abs_zero]
    norm_num [EPSILON]

set_option maxHeartbeats 1000000 in
/-- The inverse of the transpose is the transpose of the inverse, in both branches of
`Matrix::inverse`. -/
theorem Matrix.transpose_inverse (M : Matrix F) :
    M.transpose.inverse = M.inverse.transpose := by
  have hdet := Matrix.inverse_det_transpose M
  by_cases h : |Matrix.inverse.det M| < EPSILON
  · have hT : |Matrix.inverse.det M.transpose| < EPSILON := by rw [hdet]; exact h
    rw [Matrix.inverse_of_small_det M h, Matrix.inverse_of_small_det M.transpose hT]
    apply Matrix.ext_entries
    intro i j
    simp only [Matrix.transpose, Matrix.identity, eq_comm]
  · have hT : ¬ |Matrix.inverse.det M.transpose| < EPSILON := by rw [hdet]; exact h
    simp only [Matrix.inverse.det] at h hT
    apply Matrix.ext_entries
    intro i j
    unfold Matrix.inverse
    simp only [if_neg h, if_neg hT]
    fin_cases i <;> fin_cases j <;>
      simp only [Matrix.transpose, Matrix.cons_val_zero, Matrix.cons_val_one, Matrix.head_cons,
        Matrix.cons_val_two, Matrix.cons_val_three, Matrix.tail_cons, Fin.zero_eta, Fin.mk_one,
        Fin.reduceFinMk, Fin.isValue] <;>
      ring

/-- The unrolled product is the matrix product of Mathlib. -/
theorem Matrix.of_mul (A B : Matrix F) :
    Matrix.of (A.mul B).m = Matrix.of A.m * Matrix.of B.m := by
  ext i j
  simp only [Matrix.of_apply, Matrix.mul_apply, Fin.sum_univ_four, Matrix.mul_m]

/-- The matrix `Matrix::identity()` is the unit matrix of Mathlib. -/
theorem Matrix.of_identity : Matrix.of (Matrix.identity : Matrix F).m = 1 := by
  ext i j
  simp only [Matrix.of_apply, Matrix.identity, Matrix.one_apply]

/-- In the branch that divides by the determinant, `Matrix::inverse` returns the
inverse matrix. -/
theorem Matrix.of_inverse (M : Matrix F) (h : ¬ |Matrix.inverse.det M| < EPSILON) :
    Matrix.of M.inverse.m = (Matrix.of M.m)⁻¹ := by
  have e : Matrix.of M.inverse.m * Matrix.of M.m = 1 := by
    rw [← Matrix.of_mul, Matrix.inverse_mul_of_det M h, Matrix.of_identity]
  exact (Matrix.inv_eq_left_inv e).symm

/-- Transposing twice gives the matrix back. -/
theorem Matrix.transpose_transpose_self {G : Type} (M : Matrix G) :
    M.transpose.transpose = M := rfl

/-- C18 (amended). The normal matrix of the built-in colour shader,
`modelMatrix.transpose().inverse()`, equals `M.inverse().transpose()` for every model
matrix `M`, in both branches of `Matrix::inverse`.  When `|det M| ≥ EPSILON` it is
`(M⁻¹)ᵀ`, the transpose of the inverse matrix of `M`: its transpose multiplied with
`M` on either side is the identity.  When `|det M| < EPSILON` it is the identity
matrix.  `det` is the determinant of `M`, and the normal that
`ColorShader::VertexShader` outputs is the normalized product of this matrix with
`(n, 0)`. -/
theorem normalMatrix_eq_inverse_transpose (M : Matrix F) :
    M.transpose.inverse = M.inverse.transpose ∧
    (EPSILON ≤ |Matrix.inverse.det M| →
      Matrix.of M.transpose.inverse.m = ((Matrix.of M.m)⁻¹).transpose ∧
      M.transpose.inverse.transpose.mul M = Matrix.identity ∧
      M.mul M.transpose.inverse.transpose = Matrix.identity) ∧
    (|Matrix.inverse.det M| < EPSILON → M.transpose.inverse = Matrix.identity) ∧
    Matrix.inverse.det M = Matrix.det (Matrix.of M.m) ∧
    ∀ (sqrtf : F → F) (input : VertexShaderInput F),
      (ColorShader.VertexShader sqrtf input).normal
        = (Vector3.mk3
            (input.modelMatrix.inverse.transpose.mulVec
              ⟨input.normal.x, input.normal.y, input.normal.z, 0⟩).x
            (input.modelMatrix.inverse.transpose.mulVec
              ⟨input.normal.x, input.normal.y, input.normal.z, 0⟩).y
            (input.modelMatrix.inverse.transpose.mulVec
              ⟨input.normal.x, input.normal.y, input.normal.z, 0⟩).z
          ).normalize sqrtf := by
  refine ⟨Matrix.transpose_inverse M, ?_, ?_, Matrix.inverse_det_eq_det M, ?_⟩
  · intro h
    have hn : ¬ |Matrix.inverse.det M| < EPSILON := not_lt.mpr h
    rw [Matrix.transpose_inverse M, Matrix.transpose_transpose_self]
    refine ⟨?_, Matrix.inverse_mul_of_det M hn, Matrix.mul_inverse_of_det M hn⟩
    rw [← Matrix.of_inverse M hn]
    rfl
  · intro h
    have hT : |Matrix.inverse.det M.transpose| < EPSILON := by
      rw [Matrix.inverse_det_transpose]
      exact h
    exact Matrix.inverse_of_small_det M.transpose hT
  · intro sqrtf input
    simp only [ColorShader.VertexShader, Matrix.transpose_inverse input.modelMatrix]

/-! ### Textures -/

/-- Converting an integer-valued `float` to `int` gives the integer. -/
theorem toInt_intCast [FloorRing F] (n : ℤ) : toInt (n : F) = n := by
  unfold toInt
  split_ifs <;> simp

/-- The function `clamp` returns a value already inside the range. -/
theorem clamp_of_mem (x lo hi : F) (h1 : lo ≤ x) (h2 : x ≤ hi) : clamp x lo hi = x := by
  simp only [clamp, not_lt.mpr h1, if_false, gt_iff_lt, not_lt.mpr h2]

/-- Inside the grid `GetIndex` is the row-major index. -/
theorem Texture.GetIndex_of_mem [FloorRing F] (t : Texture F) (x y : ℤ)
    (hx0 : 0 ≤ x) (hx1 : x < t.width) (hy0 : 0 ≤ y) (hy1 : y < t.height) :
    t.GetIndex x y = y * t.width + x := by
  have ex : clamp (x : F) 0 ((t.width - 1 : ℤ) : F) = x :=
    clamp_of_mem _ _ _ (by exact_mod_cast hx0) (by exact_mod_cast Int.le_sub_one_of_lt hx1)
  have ey : clamp (y : F) 0 ((t.height - 1 : ℤ) : F) = y :=
    clamp_of_mem _ _ _ (by exact_mod_cast hy0) (by exact_mod_cast Int.le_sub_one_of_lt hy1)
  simp only [Texture.GetIndex, ex, ey, toInt_intCast]

/-- The texel that `GetPixel` reads. -/
theorem Texture.GetPixel_eq [FloorRing F] (t : Texture F) (data : ℕ → Color F)
    (hd : t.textureData = some data) (x y : ℤ) :
    t.GetPixel x y
      = if 0 ≤ x ∧ x < t.width ∧ 0 ≤ y ∧ y < t.height then data (y * t.width + x).toNat
        else Color.black := by
  simp only [Texture.GetPixel, hd]
  by_cases h : 0 ≤ x ∧ x < t.width ∧ 0 ≤ y ∧ y < t.height
  · rw [if_pos h, if_pos h, Texture.GetIndex_of_mem t x y h.1 h.2.1 h.2.2.1 h.2.2.2]
  · rw [if_neg h, if_neg h]

/-- C20 (amended). In `BilinearSample`, with `(u, v)` the wrapped coordinates,
`fx = u·W − 0.5`, `fy = v·H − 0.5`, `x0 = ⌊fx⌋`, `y0 = ⌊fy⌋`, the result is the
bilinear blend, with weights `fx − x0` and `fy − y0`, of the four neighbours
`(x0, y0)`, `(x0+1, y0)`, `(x0, y0+1)`, `(x0+1, y0+1)`, where a neighbour inside the
grid `[0, W−1] × [0, H−1]` is its texel and a neighbour whose `x` or `y` falls outside
the grid is read as `Color::black`, for every wrap mode. -/
theorem bilinearSample_neighbourhood [FloorRing F] (t : Texture F) (data : ℕ → Color F)
    (hd : t.textureData = some data) (u v : F) :
    let texel := fun x y : ℤ =>
      if 0 ≤ x ∧ x < t.width ∧ 0 ≤ y ∧ y < t.height then data (y * t.width + x).toNat
      else (Color.black : Color F)
    let fx := (t.WrapCoordinates u v).1 * (t.width : F) - 1 / 2
    let fy := (t.WrapCoordinates u v).2 * (t.height : F) - 1 / 2
    let x0 : ℤ := ⌊fx⌋
    let y0 : ℤ := ⌊fy⌋
    let wx1 := fx - (x0 : F)
    let wy1 := fy - (y0 : F)
    let wx0 := 1 - wx1
    let wy0 := 1 - wy1
    t.BilinearSample u v
      = ⟨(texel x0 y0).r * wx0 * wy0 + (texel (x0 + 1) y0).r * wx1 * wy0
            + (texel x0 (y0 + 1)).r * wx0 * wy1 + (texel (x0 + 1) (y0 + 1)).r * wx1 * wy1,
         (texel x0 y0).g * wx0 * wy0 + (texel (x0 + 1) y0).g * wx1 * wy0
            + (texel x0 (y0 + 1)).g * wx0 * wy1 + (texel (x0 + 1) (y0 + 1)).g * wx1 * wy1,
         (texel x0 y0).b * wx0 * wy0 + (texel (x0 + 1) y0).b * wx1 * wy0
            + (texel x0 (y0 + 1)).b * wx0 * wy1 + (texel (x0 + 1) (y0 + 1)).b * wx1 * wy1,
         (texel x0 y0).a * wx0 * wy0 + (texel (x0 + 1) y0).a * wx1 * wy0
            + (texel x0 (y0 + 1)).a * wx0 * wy1 + (texel (x0 + 1) (y0 + 1)).a * wx1 * wy1⟩ := by
  intro texel fx fy x0 y0 wx1 wy1 wx0 wy0
  simp only [Texture.BilinearSample, Texture.GetPixel_eq t data hd]

/-- With `REPEAT` or `CLAMP` wrapping, `BilinearSample` at the centre of a pixel of the
grid returns exactly `GetPixel` of that pixel. -/
theorem Texture.BilinearSample_at_centre [FloorRing F] (t : Texture F) (x y : ℤ)
    (hx0 : 0 ≤ x) (hx1 : x < t.width) (hy0 : 0 ≤ y) (hy1 : y < t.height)
    (hw : t.wrapMode ≠ TextureWrapMode.MIRROR) :
    t.BilinearSample (((x : F) + 1 / 2) / (t.width : F)) (((y : F) + 1 / 2) / (t.height : F))
      = t.GetPixel x y := by
  have hW : (0 : F) < (t.width : F) := by exact_mod_cast lt_of_le_of_lt hx0 hx1
  have hH : (0 : F) < (t.height : F) := by exact_mod_cast lt_of_le_of_lt hy0 hy1
  have hxF : (0 : F) ≤ (x : F) := by exact_mod_cast hx0
  have hyF : (0 : F) ≤ (y : F) := by exact_mod_cast hy0
  have hx1F : (x : F) + 1 ≤ (t.width : F) := by exact_mod_cast hx1
  have hy1F : (y : F) + 1 ≤ (t.height : F) := by exact_mod_cast hy1
  have hu0 : 0 ≤ ((x : F) + 1 / 2) / (t.width : F) := div_nonneg (by linarith) hW.le
  have hu1 : ((x : F) + 1 / 2) / (t.width : F) < 1 := by
    rw [div_lt_one hW]; linarith
  have hv0 : 0 ≤ ((y : F) + 1 / 2) / (t.height : F) := div_nonneg (by linarith) hH.le
  have hv1 : ((y : F) + 1 / 2) / (t.height : F) < 1 := by
    rw [div_lt_one hH]; linarith
  have hfu : ⌊((x : F) + 1 / 2) / (t.width : F)⌋ = 0 :=
    Int.floor_eq_iff.mpr ⟨by simpa using hu0, by simpa using hu1⟩
  have hfv : ⌊((y : F) + 1 / 2) / (t.height : F)⌋ = 0 :=
    Int.floor_eq_iff.mpr ⟨by simpa using hv0, by simpa using hv1⟩
  have hwrap : t.WrapCoordinates (((x : F) + 1 / 2) / (t.width : F))
      (((y : F) + 1 / 2) / (t.height : F))
      = (((x : F) + 1 / 2) / (t.width : F), ((y : F) + 1 / 2) / (t.height : F)) := by
    unfold Texture.WrapCoordinates
    cases hm : t.wrapMode with
    | REPEAT => simp only [hfu, hfv, Int.cast_zero, sub_zero]
    | CLAMP =>
      simp only [clamp01, clamp_of_mem _ _ _ hu0 hu1.le, clamp_of_mem _ _ _ hv0 hv1.le]
    | MIRROR => exact absurd hm hw
  have efx : ((x : F) + 1 / 2) / (t.width : F) * (t.width : F) - 1 / 2 = x := by
    rw [div_mul_cancel₀ _ (ne_of_gt hW)]; ring
  have efy : ((y : F) + 1 / 2) / (t.height : F) * (t.height : F) - 1 / 2 = y := by
    rw [div_mul_cancel₀ _ (ne_of_gt hH)]; ring
  simp only [Texture.BilinearSample, hwrap, efx, efy, Int.floor_intCast, sub_self, sub_zero,
    mul_one, mul_zero, add_zero]

/-- Two fragments at one pixel that both pass, the second against the clamped depth of
the first. -/
theorem depthTestAndWrite_pass_pass [FloorRing F] (sh1 sh2 : Shader F) (du1 dv1 du2 dv2 : F)
    (x y : ℕ) (pv1 pv2 : VertexOutput F) (fb : FrameBuffer F)
    (hdx : x < fb.depthBuffer.width) (hdy : y < fb.depthBuffer.height)
    (hdi : y * fb.depthBuffer.width + x < fb.depthBuffer.BUFFER_SIZE)
    (h1 : pv1.position.z ≤ fb.depthBuffer.GetDepth x y)
    (h2 : pv2.position.z ≤ clamp01 pv1.position.z) :
    DrawTriangle.depthTestAndWrite sh2 du2 dv2 (x : ℤ) (y : ℤ) pv2
        (DrawTriangle.depthTestAndWrite sh1 du1 dv1 (x : ℤ) (y : ℤ) pv1 fb)
      = { colorBuffer := (fb.colorBuffer.SetPixel x y (sh1.FragmentShader pv1 du1 dv1)).SetPixel
            x y (sh2.FragmentShader pv2 du2 dv2),
          depthBuffer := (fb.depthBuffer.SetDepth x y pv1.position.z).SetDepth
            x y pv2.position.z } := by
  rw [depthTestAndWrite_pass sh1 du1 dv1 x y pv1 fb h1]
  apply depthTestAndWrite_pass
  show pv2.position.z ≤ (fb.depthBuffer.SetDepth x y pv1.position.z).GetDepth x y
  rw [DepthBuffer.GetDepth_SetDepth _ _ _ _ hdx hdy hdi]
  exact h2

/-- Two fragments at one pixel of which the first passes and the second fails against
the clamped depth of the first. -/
theorem depthTestAndWrite_pass_fail [FloorRing F] (sh1 sh2 : Shader F) (du1 dv1 du2 dv2 : F)
    (x y : ℕ) (pv1 pv2 : VertexOutput F) (fb : FrameBuffer F)
    (hdx : x < fb.depthBuffer.width) (hdy : y < fb.depthBuffer.height)
    (hdi : y * fb.depthBuffer.width + x < fb.depthBuffer.BUFFER_SIZE)
    (h1 : pv1.position.z ≤ fb.depthBuffer.GetDepth x y)
    (h2 : clamp01 pv1.position.z < pv2.position.z) :
    DrawTriangle.depthTestAndWrite sh2 du2 dv2 (x : ℤ) (y : ℤ) pv2
        (DrawTriangle.depthTestAndWrite sh1 du1 dv1 (x : ℤ) (y : ℤ) pv1 fb)
      = { colorBuffer := fb.colorBuffer.SetPixel x y (sh1.FragmentShader pv1 du1 dv1),
          depthBuffer := fb.depthBuffer.SetDepth x y pv1.position.z } := by
  rw [depthTestAndWrite_pass sh1 du1 dv1 x y pv1 fb h1]
  apply depthTestAndWrite_fail
  show (fb.depthBuffer.SetDepth x y pv1.position.z).GetDepth x y < pv2.position.z
  rw [DepthBuffer.GetDepth_SetDepth _ _ _ _ hdx hdy hdi]
  exact h2

/-! ### Texture sampling -/

/-- After wrapping, both coordinates lie in `[0, 1]`. -/
theorem Texture.WrapCoordinates_mem [FloorRing F] (t : Texture F) (u v : F) :
    (0 ≤ (t.WrapCoordinates u v).1 ∧ (t.WrapCoordinates u v).1 ≤ 1) ∧
    (0 ≤ (t.WrapCoordinates u v).2 ∧ (t.WrapCoordinates u v).2 ≤ 1) := by
  have fr : ∀ a : F, 0 ≤ a - (⌊a⌋ : ℤ) ∧ a - (⌊a⌋ : ℤ) < 1 := fun a =>
    ⟨sub_nonneg.mpr (Int.floor_le a), by linarith [Int.lt_floor_add_one a]⟩
  have mr : ∀ a : F, 0 ≤ a → a < 1 →
      (0 ≤ (if Int.tmod ⌊a + 1 / 2⌋ 2 = 1 then 1 - a else a) ∧
        (if Int.tmod ⌊a + 1 / 2⌋ 2 = 1 then 1 - a else a) ≤ 1) := by
    intro a h0 h1
    split_ifs
    · constructor <;> linarith
    · exact ⟨h0, h1.le⟩
  unfold Texture.WrapCoordinates
  cases t.wrapMode with
  | REPEAT => exact ⟨⟨(fr u).1, (fr u).2.le⟩, ⟨(fr v).1, (fr v).2.le⟩⟩
  | CLAMP => exact ⟨⟨clamp01_nonneg u, clamp01_le_one u⟩, ⟨clamp01_nonneg v, clamp01_le_one v⟩⟩
  | MIRROR => exact ⟨mr _ (fr u).1 (fr u).2, mr _ (fr v).1 (fr v).2⟩

/-- The conversion to `int` of a non-negative `float` is the floor. -/
theorem toInt_of_nonneg [FloorRing F] (a : F) (h : 0 ≤ a) : toInt a = ⌊a⌋ := by
  simp only [toInt, h, if_true]

/-- C21 (amended). For every texture with pixel data and every `(u, v)`, with
`(u', v')` the coordinates after the wrap mode is applied, `x = ⌊u'·W⌋` and
`y = ⌊v'·H⌋`: `NearestSample` returns the texel at `(x, y)` when `0 ≤ x < W` and
`0 ≤ y < H`, and `Color::black` otherwise; the coordinates are not clamped.  In
particular under `CLAMP`, for a texture with `W, H > 0`, `u ≥ 1` or `v ≥ 1` gives
`Color::black`. -/
theorem nearestSample_texel [FloorRing F] (t : Texture F) (data : ℕ → Color F)
    (hd : t.textureData = some data) (u v : F) :
    let x : ℤ := ⌊(t.WrapCoordinates u v).1 * (t.width : F)⌋
    let y : ℤ := ⌊(t.WrapCoordinates u v).2 * (t.height : F)⌋
    t.NearestSample u v
        = (if 0 ≤ x ∧ x < t.width ∧ 0 ≤ y ∧ y < t.height then data (y * t.width + x).toNat
           else Color.black) ∧
    (t.wrapMode = TextureWrapMode.CLAMP → 0 < t.width → 0 < t.height → (1 ≤ u ∨ 1 ≤ v) →
      t.NearestSample u v = Color.black) := by
  intro x y
  have hW := t.WrapCoordinates_mem u v
  have key : t.NearestSample u v
        = (if 0 ≤ x ∧ x < t.width ∧ 0 ≤ y ∧ y < t.height then data (y * t.width + x).toNat
           else Color.black) := by
    by_cases h0 : 0 ≤ t.width
    · by_cases h1 : 0 ≤ t.height
      · have a1 : 0 ≤ (t.WrapCoordinates u v).1 * (t.width : F) :=
          mul_nonneg hW.1.1 (by exact_mod_cast h0)
        have a2 : 0 ≤ (t.WrapCoordinates u v).2 * (t.height : F) :=
          mul_nonneg hW.2.1 (by exact_mod_cast h1)
        simp only [Texture.NearestSample, toInt_of_nonneg _ a1, toInt_of_nonneg _ a2,
          Texture.GetPixel_eq t data hd, x, y]
      · have hn : ∀ a b : ℤ, ¬ (0 ≤ a ∧ a < t.width ∧ 0 ≤ b ∧ b < t.height) := by
          intro a b hh; omega
        simp only [Texture.NearestSample, Texture.GetPixel_eq t data hd, hn, if_false]
    · have hn : ∀ a b : ℤ, ¬ (0 ≤ a ∧ a < t.width ∧ 0 ≤ b ∧ b < t.height) := by
        intro a b hh; omega
      simp only [Texture.NearestSample, Texture.GetPixel_eq t data hd, hn, if_false]
  refine ⟨key, ?_⟩
  intro hm hw hh huv
  rw [key]
  have hwF : (0 : F) < (t.width : F) := by exact_mod_cast hw
  have hhF : (0 : F) < (t.height : F) := by exact_mod_cast hh
  have hwrap : t.WrapCoordinates u v = (clamp01 u, clamp01 v) := by
    simp only [Texture.WrapCoordinates, hm]
  have c1 : ∀ a : F, 1 ≤ a → clamp01 a = 1 := by
    intro a ha
    have h1 : clamp01 (1 : F) ≤ clamp01 a := clamp01_mono ha
    have e : clamp01 (1 : F) = 1 := clamp01_of_mem 1 zero_le_one le_rfl
    rw [e] at h1
    exact le_antisymm (clamp01_le_one a) h1
  rw [if_neg]
  rintro ⟨-, hx, -, hy⟩
  rcases huv with h | h
  · have : x = t.width := by
      simp only [x, hwrap, c1 u h, one_mul, Int.floor_intCast]
    omega
  · have : y = t.height := by
      simp only [y, hwrap, c1 v h, one_mul, Int.floor_intCast]
    omega

/-- Under `MIRROR` the parity test of `WrapCoordinates` is made on the fractional part
`f`, so it holds exactly when `f ≥ 1/2`: the result is `1 − f` for `f ≥ 1/2` and `f`
otherwise, whatever the integer part of the coordinate. -/
theorem Texture.WrapCoordinates_mirror [FloorRing F] (t : Texture F)
    (hm : t.wrapMode = TextureWrapMode.MIRROR) (u v : F) :
    t.WrapCoordinates u v
      = (if 1 / 2 ≤ u - (⌊u⌋ : ℤ) then 1 - (u - (⌊u⌋ : ℤ)) else u - (⌊u⌋ : ℤ),
         if 1 / 2 ≤ v - (⌊v⌋ : ℤ) then 1 - (v - (⌊v⌋ : ℤ)) else v - (⌊v⌋ : ℤ)) := by
  have fr : ∀ a : F, 0 ≤ a - (⌊a⌋ : ℤ) ∧ a - (⌊a⌋ : ℤ) < 1 := fun a =>
    ⟨sub_nonneg.mpr (Int.floor_le a), by linarith [Int.lt_floor_add_one a]⟩
  have key : ∀ f : F, 0 ≤ f → f < 1 →
      (if Int.tmod ⌊f + 1 / 2⌋ 2 = 1 then 1 - f else f) = (if 1 / 2 ≤ f then 1 - f else f) := by
    intro f h0 h1
    by_cases h : 1 / 2 ≤ f
    · have e : ⌊f + 1 / 2⌋ = 1 := by
        rw [Int.floor_eq_iff]
        constructor
        · push_cast; linarith
        · push_cast; linarith
      have tm : Int.tmod 1 2 = 1 := by decide
      rw [e, if_pos tm, if_pos h]
    · have e : ⌊f + 1 / 2⌋ = 0 := by
        rw [Int.floor_eq_iff]
        constructor
        · push_cast; linarith
        · push_cast; linarith
      have tm : ¬ Int.tmod 0 2 = 1 := by decide
      rw [e, if_neg tm, if_neg h]
  simp only [Texture.WrapCoordinates, hm]
  rw [key _ (fr u).1 (fr u).2, key _ (fr v).1 (fr v).2]

/-- Under `REPEAT` the wrapped coordinates have period one in both axes. -/
theorem Texture.WrapCoordinates_repeat_add [FloorRing F] (t : Texture F)
    (hm : t.wrapMode = TextureWrapMode.REPEAT) (u v : F) (i j : ℤ) :
    t.WrapCoordinates (u + (i : F)) (v + (j : F)) = t.WrapCoordinates u v := by
  simp only [Texture.WrapCoordinates, hm, Int.floor_add_int, Int.cast_add, add_sub_add_right_eq_sub]

/-- Periodicity of `REPEAT` sampling in exact arithmetic (the rounding of `u + i` and
of `u - floor(u)` is left out): sampling has period one in both axes, for every
texture, all `u`, `v` and all integers `i`, `j`, `Sample(u + i, v + j) = Sample(u, v)`,
for the `NEAREST` and `BILINEAR` filters (and for `TRILINEAR`, which `Sample(u, v)`
serves with `BilinearSample`); the same holds for `NearestSample` and
`BilinearSample` themselves. -/
theorem sample_repeat_periodic [FloorRing F] (t : Texture F)
    (hm : t.wrapMode = TextureWrapMode.REPEAT) (u v : F) (i j : ℤ) :
    t.Sample (u + (i : F)) (v + (j : F)) = t.Sample u v ∧
    t.NearestSample (u + (i : F)) (v + (j : F)) = t.NearestSample u v ∧
    t.BilinearSample (u + (i : F)) (v + (j : F)) = t.BilinearSample u v := by
  have hw := t.WrapCoordinates_repeat_add hm u v i j
  have hn : t.NearestSample (u + (i : F)) (v + (j : F)) = t.NearestSample u v := by
    simp only [Texture.NearestSample, hw]
  have hb : t.BilinearSample (u + (i : F)) (v + (j : F)) = t.BilinearSample u v := by
    simp only [Texture.BilinearSample, hw]
  refine ⟨?_, hn, hb⟩
  simp only [Texture.Sample, hn, hb]

/-- Interpolating between two colours with weight zero gives the first. -/
theorem Color.lerp_zero (c d : Color F) : Color.lerp c d 0 = c := by
  simp only [Color.lerp, Color.add, Color.sub, Color.smul, mul_zero, add_zero]

/-- C27. For a texture with pixel data and positive size in `TRILINEAR` mode with a
mipmap chain of `n ≥ 1` levels beyond the source, whenever
`rho = max(|dudx|·W, |dvdy|·H)` equals `2^k` with `0 ≤ k ≤ n` (and `std::log2`
returns `k` there), `Sample(u, v, dudx, dvdy)` returns exactly the bilinear sample of
mip level `k`, level `0` being the source and level `k ≥ 1` being `mipmaps[k − 1]`. -/
theorem sampleWithDerivatives_at_power_of_two [FloorRing F] (log2f : F → F) (t : Texture F)
    (u v dudx dvdy : F) (k : ℕ)
    (hdata : t.textureData.isSome = true) (hw : 0 < t.width) (hh : 0 < t.height)
    (hmip : t.hasMipmaps = true) (hf : t.filterMode = TextureFilterMode.TRILINEAR)
    (hn : 1 ≤ t.mipmaps.length) (hk : k ≤ t.mipmaps.length)
    (hrho : max |dudx * (t.width : F)| |dvdy * (t.height : F)| = 2 ^ k)
    (hlog : log2f (2 ^ k) = (k : F)) :
    ∃ level : Texture F, (t :: t.mipmaps)[k]? = some level ∧
      t.SampleWithDerivatives log2f u v dudx dvdy = some (level.BilinearSample u v) := by
  have hnone : t.textureData.isNone = false := by
    cases hd : t.textureData with
    | none => rw [hd] at hdata; exact absurd hdata (by simp)
    | some d => rfl
  have g1 : ¬ (t.textureData.isNone = true ∨ t.width ≤ 0 ∨ t.height ≤ 0) := by
    rw [hnone]
    rintro (h | h | h)
    · exact absurd h (by simp)
    · omega
    · omega
  have g2 : t.hasMipmaps = true ∧ t.filterMode = TextureFilterMode.TRILINEAR ∧
      t.mipmaps.length > 0 := ⟨hmip, hf, hn⟩
  have hkF : (k : F) ≤ ((t.mipmaps.length : ℕ) : F) := by exact_mod_cast hk
  have hlevel : t.CalculateMipmapLevel log2f dudx dvdy = (k : F) := by
    simp only [Texture.CalculateMipmapLevel, hrho, hlog]
    exact clamp_of_mem _ _ _ (Nat.cast_nonneg k) hkF
  have hS : t.SampleWithDerivatives log2f u v dudx dvdy = t.TrilinearSample u v (k : F) := by
    simp only [Texture.SampleWithDerivatives, if_neg g1, if_pos g2, hlevel]
  rw [hS]
  rcases Nat.eq_zero_or_pos k with h0 | hpos
  · subst h0
    refine ⟨t, by simp, ?_⟩
    simp only [Texture.TrilinearSample, Nat.cast_zero, le_refl, if_true]
  · have hkpos : ¬ ((k : F) ≤ 0) := by
      have : (0 : F) < (k : F) := by exact_mod_cast hpos
      exact not_le.mpr this
    have hfl : ⌊(k : F)⌋ = (k : ℤ) := Int.floor_natCast k
    have hk0 : ¬ ((k : ℤ) = 0) := by omega
    obtain ⟨m0, hm0⟩ : ∃ m0, t.mipmaps[k - 1]? = some m0 := by
      have : k - 1 < t.mipmaps.length := by omega
      exact ⟨t.mipmaps[k - 1], List.getElem?_eq_getElem this⟩
    have i0 : ((k : ℤ) - 1).toNat = k - 1 := by omega
    have i1 : ((k : ℤ) + 1 - 1).toNat = k := by omega
    refine ⟨m0, ?_, ?_⟩
    · obtain ⟨k', rfl⟩ : ∃ k', k = k' + 1 := ⟨k - 1, by omega⟩
      simpa using hm0
    · have c0 : (if (k : ℤ) < ((t.mipmaps.length : ℕ) : ℤ) then
            (t.mipmaps[((k : ℤ) - 1).toNat]?).map (fun mip => mip.BilinearSample u v)
          else (t.mipmaps[t.mipmaps.length - 1]?).map (fun mip => mip.BilinearSample u v))
          = some (m0.BilinearSample u v) := by
        split_ifs with hlt
        · rw [i0, hm0]; rfl
        · have : t.mipmaps.length - 1 = k - 1 := by omega
          rw [this, hm0]; rfl
      obtain ⟨c1, hc1⟩ : ∃ c1, (if (k : ℤ) + 1 ≤ ((t.mipmaps.length : ℕ) : ℤ) then
            (t.mipmaps[((k : ℤ) + 1 - 1).toNat]?).map (fun mip => mip.BilinearSample u v)
          else (t.mipmaps[t.mipmaps.length - 1]?).map (fun mip => mip.BilinearSample u v))
          = some c1 := by
        split_ifs with hle
        · have : k < t.mipmaps.length := by omega
          rw [i1, List.getElem?_eq_getElem this]
          exact ⟨_, rfl⟩
        · have : t.mipmaps.length - 1 = k - 1 := by omega
          rw [this, hm0]
          exact ⟨_, rfl⟩
      simp only [Texture.TrilinearSample, if_neg hkpos, hfl, if_neg hk0, c0, hc1, Int.cast_natCast,
        sub_self, Color.lerp_zero]

/-! ### Buffers: pixel writes and clearing -/

/-- The byte stored for a channel in `[0, 1]` is `⌊255·channel⌋`, at most `255`. -/
theorem toBYTE_of_unit [FloorRing F] (c : F) (h0 : 0 ≤ c) (h1 : c ≤ 1) :
    toBYTE (c * 255) = ⌊c * 255⌋.toNat ∧ ((toBYTE (c * 255) : ℕ) : F) ≤ c * 255 ∧
    c * 255 < ((toBYTE (c * 255) : ℕ) : F) + 1 := by
  have hv : 0 ≤ c * 255 := mul_nonneg h0 (by norm_num)
  have hv1 : c * 255 ≤ 255 := by linarith
  have f0 : 0 ≤ ⌊c * 255⌋ := Int.floor_nonneg.mpr hv
  have f1 : ⌊c * 255⌋ ≤ 255 := by
    have : ⌊c * 255⌋ ≤ ⌊(255 : F)⌋ := Int.floor_le_floor hv1
    have e : ⌊(255 : F)⌋ = 255 := by
      rw [Int.floor_eq_iff]
      constructor <;> norm_num
    rwa [e] at this
  have e : toBYTE (c * 255) = ⌊c * 255⌋.toNat := by
    simp only [toBYTE, hv, if_true]
    omega
  have cast : ((⌊c * 255⌋.toNat : ℕ) : F) = ((⌊c * 255⌋ : ℤ) : F) := by
    have : ((⌊c * 255⌋.toNat : ℕ) : ℤ) = ⌊c * 255⌋ := Int.toNat_of_nonneg f0
    exact_mod_cast congrArg (fun z : ℤ => (z : F)) this
  refine ⟨e, ?_, ?_⟩
  · rw [e, cast]; exact Int.floor_le _
  · rw [e, cast]; exact Int.lt_floor_add_one _

/-- The four bytes a pixel write stores. -/
theorem update4_at (buffer : ℕ → ℕ) (i r g b a : ℕ) :
    let b3 := Function.update (Function.update (Function.update (Function.update buffer i r)
      (i + 1) g) (i + 2) b) (i + 3) a
    b3 i = r ∧ b3 (i + 1) = g ∧ b3 (i + 2) = b ∧ b3 (i + 3) = a := by
  intro b3
  refine ⟨?_, ?_, ?_, ?_⟩ <;> simp [b3, Function.update_apply]

/-- A pixel write changes no byte outside the pixel's four. -/
theorem update4_off (buffer : ℕ → ℕ) (i r g b a k : ℕ) (h : k < i ∨ i + 3 < k) :
    Function.update (Function.update (Function.update (Function.update buffer i r)
      (i + 1) g) (i + 2) b) (i + 3) a k = buffer k := by
  simp only [Function.update_apply]
  split_ifs <;> first | rfl | omega

/-- C29 (amended). `ColorBuffer::SetPixel(x, y, c)` with `x < width`, `y < height`,
the pixel's last byte offset `4·(y·width + x) + 3` below `BUFFER_SIZE` and every
channel of `c` in `[0, 1]` writes exactly the four bytes at offsets
`4·(y·width + x) + 0..3`, in R, G, B, A order, each equal to `⌊255·channel⌋`, and
changes no other byte and no size; a subsequent `GetPixelColor(x, y)` returns per
channel a value `v` with `c − 1/255 < v ≤ c`.  With `x ≥ width` or `y ≥ height`, or
with the offset `4·(y·width + x) + 3` not below `BUFFER_SIZE` (and in the range of
`unsigned int`, where the offset does not wrap), the write is a silent no-op that
leaves the whole buffer unchanged. -/
theorem setPixel_writes_four_bytes [FloorRing F] (cb : ColorBuffer) (x y : ℕ) (c : Color F) :
    (x < cb.width → y < cb.height → (y * cb.width + x) * 4 + 3 < cb.BUFFER_SIZE →
      (0 ≤ c.r ∧ c.r ≤ 1) → (0 ≤ c.g ∧ c.g ≤ 1) → (0 ≤ c.b ∧ c.b ≤ 1) → (0 ≤ c.a ∧ c.a ≤ 1) →
      let cb' := cb.SetPixel x y c
      let i := (y * cb.width + x) * 4
      let v : Color F := cb'.GetPixelColor x y
      (cb'.buffer i = ⌊c.r * 255⌋.toNat ∧ cb'.buffer (i + 1) = ⌊c.g * 255⌋.toNat ∧
        cb'.buffer (i + 2) = ⌊c.b * 255⌋.toNat ∧ cb'.buffer (i + 3) = ⌊c.a * 255⌋.toNat) ∧
      (∀ k, k < i ∨ i + 3 < k → cb'.buffer k = cb.buffer k) ∧
      (cb'.BUFFER_SIZE = cb.BUFFER_SIZE ∧ cb'.channel = cb.channel ∧ cb'.width = cb.width ∧
        cb'.height = cb.height) ∧
      (c.r - 1 / 255 < v.r ∧ v.r ≤ c.r) ∧ (c.g - 1 / 255 < v.g ∧ v.g ≤ c.g) ∧
      (c.b - 1 / 255 < v.b ∧ v.b ≤ c.b) ∧ (c.a - 1 / 255 < v.a ∧ v.a ≤ c.a)) ∧
    (cb.width ≤ x ∨ cb.height ≤ y ∨
        (cb.BUFFER_SIZE ≤ (y * cb.width + x) * 4 + 3 ∧ (y * cb.width + x) * 4 + 3 < 2 ^ 32) →
      cb.SetPixel x y c = cb) := by
  constructor
  · intro hx hy hi hr hg hb ha cb' i v
    have hc1 : ¬ (x ≥ cb.width ∨ y ≥ cb.height) := by
      rintro (h | h) <;> omega
    have hcb : cb' = ColorBuffer.mk cb.BUFFER_SIZE cb.channel cb.width cb.height
        (Function.update (Function.update (Function.update (Function.update cb.buffer i
          (toBYTE (c.r * 255))) (i + 1) (toBYTE (c.g * 255))) (i + 2) (toBYTE (c.b * 255)))
          (i + 3) (toBYTE (c.a * 255))) := by
      simp only [cb', ColorBuffer.SetPixel, hc1, if_false, hi, if_true, i]
    obtain ⟨w0, w1, w2, w3⟩ := update4_at cb.buffer i (toBYTE (c.r * 255)) (toBYTE (c.g * 255))
      (toBYTE (c.b * 255)) (toBYTE (c.a * 255))
    have e0 : cb'.buffer i = toBYTE (c.r * 255) := by rw [hcb]; exact w0
    have e1 : cb'.buffer (i + 1) = toBYTE (c.g * 255) := by rw [hcb]; exact w1
    have e2 : cb'.buffer (i + 2) = toBYTE (c.b * 255) := by rw [hcb]; exact w2
    have e3 : cb'.buffer (i + 3) = toBYTE (c.a * 255) := by rw [hcb]; exact w3
    have dims : cb'.BUFFER_SIZE = cb.BUFFER_SIZE ∧ cb'.channel = cb.channel ∧
        cb'.width = cb.width ∧ cb'.height = cb.height := by
      rw [hcb]; exact ⟨rfl, rfl, rfl, rfl⟩
    have hv : v = ⟨(cb'.buffer i : F) / 255, (cb'.buffer (i + 1) : F) / 255,
        (cb'.buffer (i + 2) : F) / 255, (cb'.buffer (i + 3) : F) / 255⟩ := by
      have hc2 : ¬ (x ≥ cb'.width ∨ y ≥ cb'.height) := by
        rw [dims.2.2.1, dims.2.2.2]; exact hc1
      have hi2 : (y * cb'.width + x) * 4 + 3 < cb'.BUFFER_SIZE := by
        rw [dims.2.2.1, dims.1]; exact hi
      simp only [v, ColorBuffer.GetPixelColor, i]
      rw [if_neg hc2, if_pos hi2, dims.2.2.1]
    have bound : ∀ ch : F, 0 ≤ ch → ch ≤ 1 →
        ch - 1 / 255 < ((toBYTE (ch * 255) : ℕ) : F) / 255 ∧
        ((toBYTE (ch * 255) : ℕ) : F) / 255 ≤ ch := by
      intro ch h0 h1
      obtain ⟨-, lo, hi'⟩ := toBYTE_of_unit ch h0 h1
      constructor
      · rw [lt_div_iff₀ (by norm_num : (0 : F) < 255)]
        linarith
      · rw [div_le_iff₀ (by norm_num : (0 : F) < 255)]
        exact lo
    refine ⟨⟨?_, ?_, ?_, ?_⟩, ?_, dims, ?_, ?_, ?_, ?_⟩
    · rw [e0]; exact (toBYTE_of_unit c.r hr.1 hr.2).1
    · rw [e1]; exact (toBYTE_of_unit c.g hg.1 hg.2).1
    · rw [e2]; exact (toBYTE_of_unit c.b hb.1 hb.2).1
    · rw [e3]; exact (toBYTE_of_unit c.a ha.1 ha.2).1
    · intro k hk
      rw [hcb]
      exact update4_off cb.buffer i _ _ _ _ k hk
    · rw [hv, e0]; exact bound c.r hr.1 hr.2
    · rw [hv, e1]; exact bound c.g hg.1 hg.2
    · rw [hv, e2]; exact bound c.b hb.1 hb.2
    · rw [hv, e3]; exact bound c.a ha.1 ha.2
  · intro h
    unfold ColorBuffer.SetPixel
    by_cases h1 : x ≥ cb.width ∨ y ≥ cb.height
    · simp only [h1, if_true]
    · have h2 : ¬ ((y * cb.width + x) * 4 + 3 < cb.BUFFER_SIZE) := by
        rcases h with h | h | ⟨h, -⟩
        · exact absurd (Or.inl h) h1
        · exact absurd (Or.inr h) h1
        · omega
      simp only [h1, if_false, h2]

/-- Induction along a `forCount` loop: an invariant that holds at entry and is carried
by every iteration holds, at index `stop`, for the state the loop returns. -/
theorem forCount_induction {σ : Type} (P : ℕ → σ → Prop) (body : ℕ → σ → σ) (stop : ℕ)
    (i : ℕ) (s : σ) (hi : i ≤ stop) (h0 : P i s)
    (hstep : ∀ k s, i ≤ k → k < stop → P k s → P (k + 1) (body k s)) :
    P stop (forCount i stop body s) := by
  have key : ∀ (n i : ℕ) (s : σ), stop - i = n → i ≤ stop → P i s →
      (∀ k s, i ≤ k → k < stop → P k s → P (k + 1) (body k s)) →
      P stop (forCount i stop body s) := by
    intro n
    induction n with
    | zero =>
      intro i s hn hi h0 _
      have e : i = stop := by omega
      subst e
      rw [forCount, if_neg (lt_irrefl _)]
      exact h0
    | succ n ih =>
      intro i s hn hi h0 hstep
      have hlt : i < stop := by omega
      rw [forCount, if_pos hlt]
      exact ih (i + 1) (body i s) (by omega) (by omega) (hstep i s le_rfl hlt h0)
        (fun k s hk hk2 hP => hstep k s (by omega) hk2 hP)
  exact key _ i s rfl hi h0 hstep

/-- After `InitWithColor`, every pixel of the configured size whose four bytes lie
inside the block holds the four quantized channels; the sizes are unchanged. -/
theorem ColorBuffer.InitWithColor_pixel [FloorRing F] (cb : ColorBuffer) (color : Color F)
    (x y : ℕ) (hx : x < cb.width) (hy : y < cb.height)
    (hi : (y * cb.width + x) * 4 + 3 < cb.BUFFER_SIZE) :
    (cb.InitWithColor color).buffer ((y * cb.width + x) * 4) = toBYTE (color.r * 255) ∧
    (cb.InitWithColor color).buffer ((y * cb.width + x) * 4 + 1) = toBYTE (color.g * 255) ∧
    (cb.InitWithColor color).buffer ((y * cb.width + x) * 4 + 2) = toBYTE (color.b * 255) ∧
    (cb.InitWithColor color).buffer ((y * cb.width + x) * 4 + 3) = toBYTE (color.a * 255) := by
  -- done pixels hold the four bytes
  let Q : (ℕ → ℕ) → ℕ → ℕ → Prop := fun buffer y x =>
    buffer ((y * cb.width + x) * 4) = toBYTE (color.r * 255) ∧
    buffer ((y * cb.width + x) * 4 + 1) = toBYTE (color.g * 255) ∧
    buffer ((y * cb.width + x) * 4 + 2) = toBYTE (color.b * 255) ∧
    buffer ((y * cb.width + x) * 4 + 3) = toBYTE (color.a * 255)
  let Pin : ℕ → ℕ → (ℕ → ℕ) → Prop := fun i j buffer =>
    ∀ y x, x < cb.width → (y < i ∨ (y = i ∧ x < j)) →
      (y * cb.width + x) * 4 + 3 < cb.BUFFER_SIZE → Q buffer y x
  let Pout : ℕ → (ℕ → ℕ) → Prop := fun i buffer =>
    ∀ y x, x < cb.width → y < i → (y * cb.width + x) * 4 + 3 < cb.BUFFER_SIZE → Q buffer y x
  let rowBody : ℕ → ℕ → (ℕ → ℕ) → (ℕ → ℕ) := fun i j buffer =>
    let index := (i * cb.width + j) * 4
    if index + 3 < cb.BUFFER_SIZE then
      let b0 := Function.update buffer index (toBYTE (color.r * 255))
      let b1 := Function.update b0 (index + 1) (toBYTE (color.g * 255))
      let b2 := Function.update b1 (index + 2) (toBYTE (color.b * 255))
      Function.update b2 (index + 3) (toBYTE (color.a * 255))
    else buffer
  have inner : ∀ i buffer, Pout i buffer →
      Pout (i + 1) (forCount 0 cb.width (rowBody i) buffer) := by
    intro i buffer hP
    have h := forCount_induction (Pin i) (rowBody i) cb.width 0 buffer (Nat.zero_le _)
      (fun y x hx hyx hc => by
        rcases hyx with h | h
        · exact hP y x hx h hc
        · omega)
      (fun j buffer _ hj hPj => by
        intro y x hx hyx hc
        by_cases hsame : y = i ∧ x = j
        · obtain ⟨rfl, rfl⟩ := hsame
          simp only [Q, rowBody, hc, if_true]
          exact update4_at buffer _ _ _ _ _
        · have hne : y * cb.width + x ≠ i * cb.width + j := by
            intro e
            obtain ⟨e1, e2⟩ := pixel_of_index hx hj e
            exact hsame ⟨e2, e1⟩
          have hold : Q buffer y x := by
            apply hPj y x hx _ hc
            rcases hyx with h | ⟨h1, h2⟩
            · exact Or.inl h
            · right
              refine ⟨h1, ?_⟩
              rcases Nat.lt_succ_iff_lt_or_eq.mp h2 with h3 | h3
              · exact h3
              · exact absurd ⟨h1, h3⟩ hsame
          by_cases hcap : (i * cb.width + j) * 4 + 3 < cb.BUFFER_SIZE
          · simp only [Q] at hold
            simp only [Q, rowBody, hcap, if_true]
            refine ⟨?_, ?_, ?_, ?_⟩
            · rw [update4_off _ _ _ _ _ _ _ (by omega)]; exact hold.1
            · rw [update4_off _ _ _ _ _ _ _ (by omega)]; exact hold.2.1
            · rw [update4_off _ _ _ _ _ _ _ (by omega)]; exact hold.2.2.1
            · rw [update4_off _ _ _ _ _ _ _ (by omega)]; exact hold.2.2.2
          · simp only [Q] at hold
            simp only [Q, rowBody, hcap, if_false]
            exact hold)
    intro y x hx hy hc
    apply h y x hx _ hc
    rcases Nat.lt_succ_iff_lt_or_eq.mp hy with h1 | h1
    · exact Or.inl h1
    · exact Or.inr ⟨h1, hx⟩
  have outer := forCount_induction Pout (fun i buffer => forCount 0 cb.width (rowBody i) buffer)
    cb.height 0 cb.buffer (Nat.zero_le _)
    (fun y x _ hy _ => absurd hy (Nat.not_lt_zero _))
    (fun i buffer _ _ hP => inner i buffer hP)
  exact outer y x hx hy hi

/-- After `InitWithDepth`, every cell of the configured size inside the block holds
the clamped depth. -/
theorem DepthBuffer.InitWithDepth_cell (db : DepthBuffer F) (depth : F)
    (x y : ℕ) (hx : x < db.width) (hy : y < db.height)
    (hi : y * db.width + x < db.BUFFER_SIZE) :
    (db.InitWithDepth depth).buffer (y * db.width + x) = clamp01 depth := by
  let Pin : ℕ → ℕ → (ℕ → F) → Prop := fun i j buffer =>
    ∀ y x, x < db.width → (y < i ∨ (y = i ∧ x < j)) →
      y * db.width + x < db.BUFFER_SIZE → buffer (y * db.width + x) = clamp01 depth
  let Pout : ℕ → (ℕ → F) → Prop := fun i buffer =>
    ∀ y x, x < db.width → y < i → y * db.width + x < db.BUFFER_SIZE →
      buffer (y * db.width + x) = clamp01 depth
  let rowBody : ℕ → ℕ → (ℕ → F) → (ℕ → F) := fun i j buffer =>
    let index := i * db.width + j
    if index < db.BUFFER_SIZE then Function.update buffer index (clamp01 depth)
    else buffer
  have inner : ∀ i buffer, Pout i buffer →
      Pout (i + 1) (forCount 0 db.width (rowBody i) buffer) := by
    intro i buffer hP
    have h := forCount_induction (Pin i) (rowBody i) db.width 0 buffer (Nat.zero_le _)
      (fun y x hx hyx hc => by
        rcases hyx with h | h
        · exact hP y x hx h hc
        · omega)
      (fun j buffer _ hj hPj => by
        intro y x hx hyx hc
        by_cases hsame : y = i ∧ x = j
        · obtain ⟨rfl, rfl⟩ := hsame
          simp only [rowBody, hc, if_true, Function.update_same]
        · have hne : y * db.width + x ≠ i * db.width + j := by
            intro e
            obtain ⟨e1, e2⟩ := pixel_of_index hx hj e
            exact hsame ⟨e2, e1⟩
          have hold : buffer (y * db.width + x) = clamp01 depth := by
            apply hPj y x hx _ hc
            rcases hyx with h | ⟨h1, h2⟩
            · exact Or.inl h
            · right
              refine ⟨h1, ?_⟩
              rcases Nat.lt_succ_iff_lt_or_eq.mp h2 with h3 | h3
              · exact h3
              · exact absurd ⟨h1, h3⟩ hsame
          by_cases hcap : i * db.width + j < db.BUFFER_SIZE
          · simp only [rowBody, hcap, if_true, Function.update_noteq hne]
            exact hold
          · simp only [rowBody, hcap, if_false]
            exact hold)
    intro y x hx hy hc
    apply h y x hx _ hc
    rcases Nat.lt_succ_iff_lt_or_eq.mp hy with h1 | h1
    · exact Or.inl h1
    · exact Or.inr ⟨h1, hx⟩
  have outer := forCount_induction Pout (fun i buffer => forCount 0 db.width (rowBody i) buffer)
    db.height 0 db.buffer (Nat.zero_le _)
    (fun y x _ hy _ => absurd hy (Nat.not_lt_zero _))
    (fun i buffer _ _ hP => inner i buffer hP)
  exact outer y x hx hy hi

/-- C30 (amended). For every colour `c`, every depth `d` and every configured size,
after `FrameBuffer::InitWithColorAndDepth(c, d)` the sizes are unchanged, every pixel
`(x, y)` with `x < width`, `y < height` whose four bytes lie inside the colour block
has colour bytes equal to the quantized `c`, and every pixel of the depth buffer
whose cell lies inside the depth block has stored depth equal to `d` clamped to
`[0, 1]`, which is `d` itself when `0 ≤ d ≤ 1`. -/
theorem initWithColorAndDepth_pixel [FloorRing F] (fb : FrameBuffer F) (c : Color F) (d : F)
    (x y : ℕ) :
    let fb' := fb.InitWithColorAndDepth c d
    (fb'.colorBuffer.width = fb.colorBuffer.width ∧
      fb'.colorBuffer.height = fb.colorBuffer.height ∧
      fb'.colorBuffer.BUFFER_SIZE = fb.colorBuffer.BUFFER_SIZE ∧
      fb'.depthBuffer.width = fb.depthBuffer.width ∧
      fb'.depthBuffer.height = fb.depthBuffer.height ∧
      fb'.depthBuffer.BUFFER_SIZE = fb.depthBuffer.BUFFER_SIZE) ∧
    (x < fb.colorBuffer.width → y < fb.colorBuffer.height →
      (y * fb.colorBuffer.width + x) * 4 + 3 < fb.colorBuffer.BUFFER_SIZE →
      fb'.colorBuffer.buffer ((y * fb.colorBuffer.width + x) * 4) = toBYTE (c.r * 255) ∧
      fb'.colorBuffer.buffer ((y * fb.colorBuffer.width + x) * 4 + 1) = toBYTE (c.g * 255) ∧
      fb'.colorBuffer.buffer ((y * fb.colorBuffer.width + x) * 4 + 2) = toBYTE (c.b * 255) ∧
      fb'.colorBuffer.buffer ((y * fb.colorBuffer.width + x) * 4 + 3) = toBYTE (c.a * 255)) ∧
    (x < fb.depthBuffer.width → y < fb.depthBuffer.height →
      y * fb.depthBuffer.width + x < fb.depthBuffer.BUFFER_SIZE →
      fb'.depthBuffer.buffer (y * fb.depthBuffer.width + x) = clamp01 d ∧
      fb'.depthBuffer.GetDepth x y = clamp01 d ∧
      (0 ≤ d → d ≤ 1 → fb'.depthBuffer.GetDepth x y = d)) := by
  intro fb'
  refine ⟨⟨rfl, rfl, rfl, rfl, rfl, rfl⟩, ?_, ?_⟩
  · intro hx hy hi
    exact ColorBuffer.InitWithColor_pixel fb.colorBuffer c x y hx hy hi
  · intro hx hy hi
    have e := DepthBuffer.InitWithDepth_cell fb.depthBuffer d x y hx hy hi
    have g : fb'.depthBuffer.GetDepth x y = clamp01 d := by
      have h1 : ¬ (x ≥ fb.depthBuffer.width ∨ y ≥ fb.depthBuffer.height) := by
        rintro (h | h) <;> omega
      show (fb.depthBuffer.InitWithDepth d).GetDepth x y = clamp01 d
      unfold DepthBuffer.GetDepth
      have w1 : (fb.depthBuffer.InitWithDepth d).width = fb.depthBuffer.width := rfl
      have w2 : (fb.depthBuffer.InitWithDepth d).height = fb.depthBuffer.height := rfl
      have w3 : (fb.depthBuffer.InitWithDepth d).BUFFER_SIZE = fb.depthBuffer.BUFFER_SIZE := rfl
      rw [w1, w2, w3, if_neg h1]
      simp only [hi, if_true]
      exact e
    refine ⟨e, g, ?_⟩
    intro h0 h1
    rw [g, clamp01_of_mem d h0 h1]

/-! ### Mipmap generation -/

/-- Induction along a `forPixels` loop. -/
theorem forPixels_induction {σ : Type} (P : ℤ → σ → Prop) (body : ℤ → σ → σ) (stop : ℤ)
    (i : ℤ) (s : σ) (hi : i ≤ stop) (h0 : P i s)
    (hstep : ∀ k s, i ≤ k → k < stop → P k s → P (k + 1) (body k s)) :
    P stop (forPixels i stop body s) := by
  have key : ∀ (n : ℕ) (i : ℤ) (s : σ), (stop - i).toNat = n → i ≤ stop → P i s →
      (∀ k s, i ≤ k → k < stop → P k s → P (k + 1) (body k s)) →
      P stop (forPixels i stop body s) := by
    intro n
    induction n with
    | zero =>
      intro i s hn hi h0 _
      have e : i = stop := by omega
      subst e
      rw [forPixels, if_neg (lt_irrefl _)]
      exact h0
    | succ n ih =>
      intro i s hn hi h0 hstep
      have hlt : i < stop := by omega
      rw [forPixels, if_pos hlt]
      exact ih (i + 1) (body i s) (by omega) (by omega) (hstep i s le_rfl hlt h0)
        (fun k s hk hk2 hP => hstep k s (by omega) hk2 hP)
  exact key _ i s rfl hi h0 hstep

/-- A row-major index over `int` with the column in `[0, w)` determines the pixel. -/
theorem pixel_of_index_int {w x y x' y' : ℤ} (hx0 : 0 ≤ x) (hx : x < w) (hx0' : 0 ≤ x')
    (hx' : x' < w) (h : y * w + x = y' * w + x') : x = x' ∧ y = y' := by
  have e1 : (y * w + x) % w = x := by
    rw [add_comm, Int.add_mul_emod_self, Int.emod_eq_of_lt hx0 hx]
  have e2 : (y' * w + x') % w = x' := by
    rw [add_comm, Int.add_mul_emod_self, Int.emod_eq_of_lt hx0' hx']
  have hxx : x = x' := by rw [← e1, ← e2, h]
  subst hxx
  have hw : w ≠ 0 := by omega
  exact ⟨rfl, mul_right_cancel₀ hw (add_right_cancel h)⟩

/-- What `Texture::SetPixel` leaves alone. -/
theorem Texture.SetPixel_fields [FloorRing F] (t : Texture F) (x y : ℤ) (c : Color F) :
    (t.SetPixel x y c).width = t.width ∧ (t.SetPixel x y c).height = t.height ∧
    (t.SetPixel x y c).filterMode = t.filterMode ∧ (t.SetPixel x y c).wrapMode = t.wrapMode ∧
    (t.SetPixel x y c).mipmaps = t.mipmaps ∧ (t.SetPixel x y c).hasMipmaps = t.hasMipmaps ∧
    (t.SetPixel x y c).textureData.isSome = t.textureData.isSome := by
  unfold Texture.SetPixel
  split
  · rename_i d hd
    split_ifs
    · simp only [hd, Option.isSome_some, and_self]
    · simp only [and_self]
  · simp only [and_self]

/-- Reading a texture after one `SetPixel` inside the grid. -/
theorem Texture.GetPixel_SetPixel [FloorRing F] (t : Texture F) (x y : ℤ) (c : Color F)
    (hs : t.textureData.isSome = true)
    (hx0 : 0 ≤ x) (hx : x < t.width) (hy0 : 0 ≤ y) (hy : y < t.height) (x' y' : ℤ) :
    (t.SetPixel x y c).GetPixel x' y' = if x' = x ∧ y' = y then c else t.GetPixel x' y' := by
  obtain ⟨d, hd⟩ : ∃ d, t.textureData = some d := Option.isSome_iff_exists.mp hs
  have hin : 0 ≤ x ∧ x < t.width ∧ 0 ≤ y ∧ y < t.height := ⟨hx0, hx, hy0, hy⟩
  have hset : t.SetPixel x y c
      = { t with textureData := some (Function.update d (t.GetIndex x y).toNat c) } := by
    simp only [Texture.SetPixel, hd, hin, and_self, if_true]
  have hidx : t.GetIndex x y = y * t.width + x := Texture.GetIndex_of_mem t x y hx0 hx hy0 hy
  have hnn : 0 ≤ y * t.width + x := by
    have : 0 ≤ y * t.width := mul_nonneg hy0 (by omega)
    omega
  rw [Texture.GetPixel_eq _ (Function.update d (t.GetIndex x y).toNat c) (by rw [hset]),
    Texture.GetPixel_eq t d hd]
  have hw : (t.SetPixel x y c).width = t.width := (t.SetPixel_fields x y c).1
  have hh : (t.SetPixel x y c).height = t.height := (t.SetPixel_fields x y c).2.1
  rw [hw, hh, hidx]
  by_cases hin' : 0 ≤ x' ∧ x' < t.width ∧ 0 ≤ y' ∧ y' < t.height
  · rw [if_pos hin', if_pos hin']
    have hnn' : 0 ≤ y' * t.width + x' := by
      have : 0 ≤ y' * t.width := mul_nonneg hin'.2.2.1 (by omega)
      omega
    by_cases hsame : x' = x ∧ y' = y
    · obtain ⟨rfl, rfl⟩ := hsame
      simp only [Function.update_same, and_self, if_true]
    · have hne : (y' * t.width + x').toNat ≠ (y * t.width + x).toNat := by
        intro e
        have e' : y' * t.width + x' = y * t.width + x := by omega
        exact hsame (pixel_of_index_int hin'.1 hin'.2.1 hx0 hx e')
      rw [Function.update_noteq hne, if_neg hsame]
  · have hsame : ¬ (x' = x ∧ y' = y) := by
      rintro ⟨rfl, rfl⟩
      exact hin' hin
    rw [if_neg hin', if_neg hin', if_neg hsame]

/-- The texture `new Texture(w, h)` for positive sizes: black pixel data of that size. -/
theorem Texture.new_of_pos [FloorRing F] (w h : ℤ) (hw : 0 < w) (hh : 0 < h) :
    (Texture.new w h : Texture F)
      = ⟨w, h, some (fun _ => Color.black), TextureFilterMode.BILINEAR, TextureWrapMode.REPEAT,
          [], false⟩ := by
  have hg : ¬ (w ≤ 0 ∨ h ≤ 0) := by omega
  simp only [Texture.new, Texture.Create, hg, if_false, Texture.Clear, Texture.ClearMipmaps]

/-- One generated level: the requested size, the copied modes, pixel data, and every
pixel the block average of the previous level. -/
theorem Texture.GenerateMipmaps.level_spec [FloorRing F] (filterMode : TextureFilterMode)
    (wrapMode : TextureWrapMode) (prevMip : Texture F) (w h : ℤ) (hw : 0 < w) (hh : 0 < h) :
    let mip := Texture.GenerateMipmaps.level filterMode wrapMode prevMip w h
    mip.width = w ∧ mip.height = h ∧ mip.filterMode = filterMode ∧ mip.wrapMode = wrapMode ∧
    mip.textureData.isSome = true ∧
    ∀ x y : ℤ, 0 ≤ x → x < w → 0 ≤ y → y < h → mip.GetPixel x y = prevMip.blockAverage x y := by
  intro mip
  -- the fields every iteration keeps
  let Fld : Texture F → Prop := fun m =>
    m.width = w ∧ m.height = h ∧ m.filterMode = filterMode ∧ m.wrapMode = wrapMode ∧
    m.textureData.isSome = true
  let Pin : ℤ → ℤ → Texture F → Prop := fun y x m =>
    Fld m ∧ ∀ x' y' : ℤ, 0 ≤ x' → x' < w → 0 ≤ y' → (y' < y ∨ (y' = y ∧ x' < x)) →
      m.GetPixel x' y' = prevMip.blockAverage x' y'
  let Pout : ℤ → Texture F → Prop := fun y m =>
    Fld m ∧ ∀ x' y' : ℤ, 0 ≤ x' → x' < w → 0 ≤ y' → y' < y →
      m.GetPixel x' y' = prevMip.blockAverage x' y'
  let rowBody : ℤ → ℤ → Texture F → Texture F := fun y x m =>
    m.SetPixel x y (prevMip.blockAverage x y)
  have inner : ∀ y m, 0 ≤ y → y < h → Pout y m →
      Pout (y + 1) (forPixels 0 w (rowBody y) m) := by
    intro y m hy0 hyh hP
    have hres := forPixels_induction (Pin y) (rowBody y) w 0 m hw.le
      ⟨hP.1, fun x' y' hx0 hxw hy0' hlt => by
        rcases hlt with hl | hl
        · exact hP.2 x' y' hx0 hxw hy0' hl
        · omega⟩
      (fun x m hx0 hxw hPx => by
        obtain ⟨⟨f1, f2, f3, f4, f5⟩, hpix⟩ := hPx
        have sf := m.SetPixel_fields x y (prevMip.blockAverage x y)
        refine ⟨⟨sf.1.trans f1, sf.2.1.trans f2, sf.2.2.1.trans f3, sf.2.2.2.1.trans f4,
          sf.2.2.2.2.2.2.trans f5⟩, ?_⟩
        intro x' y' hx0' hxw' hy0' hlt
        show (m.SetPixel x y (prevMip.blockAverage x y)).GetPixel x' y' = _
        rw [Texture.GetPixel_SetPixel m x y _ f5 hx0 (by rw [f1]; exact hxw) hy0
          (by rw [f2]; exact hyh)]
        by_cases hsame : x' = x ∧ y' = y
        · obtain ⟨rfl, rfl⟩ := hsame
          rw [if_pos ⟨rfl, rfl⟩]
        · rw [if_neg hsame]
          apply hpix x' y' hx0' hxw' hy0'
          rcases hlt with hl | ⟨hl1, hl2⟩
          · exact Or.inl hl
          · right
            refine ⟨hl1, ?_⟩
            by_contra hc
            exact hsame ⟨by omega, hl1⟩)
    refine ⟨hres.1, ?_⟩
    intro x' y' hx0 hxw hy0' hlt
    apply hres.2 x' y' hx0 hxw hy0'
    by_cases he : y' = y
    · exact Or.inr ⟨he, hxw⟩
    · exact Or.inl (by omega)
  have h0 : Pout 0 ({ (Texture.new w h : Texture F) with
      filterMode := filterMode, wrapMode := wrapMode }) := by
    rw [Texture.new_of_pos w h hw hh]
    exact ⟨⟨rfl, rfl, rfl, rfl, rfl⟩, fun x' y' _ _ hy0' hlt => by omega⟩
  have outer := forPixels_induction Pout (fun y m => forPixels 0 w (rowBody y) m) h 0 _ hh.le h0
    (fun y m hy0 hyh hP => inner y m hy0 hyh hP)
  obtain ⟨⟨f1, f2, f3, f4, f5⟩, hpix⟩ := outer
  exact ⟨f1, f2, f3, f4, f5, fun x y hx0 hxw hy0 hyh => hpix x y hx0 hxw hy0 hyh⟩

/-- `GetPixel` and the block average read only the size and the pixel data. -/
theorem Texture.blockAverage_congr [FloorRing F] (a b : Texture F) (hw : a.width = b.width)
    (hh : a.height = b.height) (hd : a.textureData = b.textureData) (x y : ℤ) :
    a.blockAverage x y = b.blockAverage x y := by
  have g : ∀ p q, a.GetPixel p q = b.GetPixel p q := by
    intro p q
    simp only [Texture.GetPixel, Texture.GetIndex, hw, hh, hd]
  simp only [Texture.blockAverage, g]

/-- Halving a size of at least one with the truncating division and flooring at
one. -/
theorem tdiv_two_of_pos (a : ℤ) (h : 1 ≤ a) :
    max 1 (Int.tdiv a 2) = max 1 (a / 2) ∧ 1 ≤ max 1 (a / 2) ∧
    (1 < a → max 1 (a / 2) < a) ∧ (a ≤ 1 → max 1 (a / 2) = 1) := by
  rw [Int.tdiv_eq_ediv (by omega) (by norm_num)]
  refine ⟨rfl, le_max_left _ _, ?_, ?_⟩
  · intro; omega
  · intro; omega

/-- The base-two logarithm of the larger size drops by one per level. -/
theorem log_max_halved (a b : ℤ) (ha : 1 ≤ a) (hb : 1 ≤ b) (h : 1 < a ∨ 1 < b) :
    Nat.log 2 (max a b).toNat = Nat.log 2 (max (max 1 (a / 2)) (max 1 (b / 2))).toNat + 1 := by
  have e : (max (max 1 (a / 2)) (max 1 (b / 2))).toNat = (max a b).toNat / 2 := by omega
  rw [e, Nat.log_div_base]
  have h2 : 2 ≤ (max a b).toNat := by omega
  have : 1 ≤ Nat.log 2 (max a b).toNat := by
    rw [← Nat.pow_le_iff_le_log (by norm_num) (by omega)]
    simpa using h2
  omega

/-- The `while` loop of `GenerateMipmaps`, started at a level of size at least one by
one: it appends a chain of next levels whose length is `⌊log₂ max(w, h)⌋` and whose
last level, the start level when nothing is appended, is one by one. -/
theorem Texture.GenerateMipmaps.loop_spec [FloorRing F] (filterMode : TextureFilterMode)
    (wrapMode : TextureWrapMode) :
    ∀ (n : ℕ) (w h : ℤ) (prevMip : Texture F) (mipmaps : List (Texture F)),
      (w + h).toNat ≤ n → 1 ≤ w → 1 ≤ h → prevMip.width = w → prevMip.height = h →
      ∃ L : List (Texture F),
        Texture.GenerateMipmaps.loop filterMode wrapMode w h prevMip mipmaps = mipmaps ++ L ∧
        List.Chain Texture.IsNextLevel prevMip L ∧
        L.length = Nat.log 2 (max w h).toNat ∧
        ((prevMip :: L).getLast (List.cons_ne_nil _ _)).width = 1 ∧
        ((prevMip :: L).getLast (List.cons_ne_nil _ _)).height = 1 ∧
        (w > 1 ∨ h > 1 → L.head? = some (Texture.GenerateMipmaps.level filterMode wrapMode
          prevMip (max 1 (w / 2)) (max 1 (h / 2)))) := by
  intro n
  induction n with
  | zero =>
    intro w h prevMip mipmaps hn hw hh _ _
    omega
  | succ n ih =>
    intro w h prevMip mipmaps hn hw hh pw ph
    by_cases hc : w > 1 ∨ h > 1
    · obtain ⟨tw, bw, sw, -⟩ := tdiv_two_of_pos w hw
      obtain ⟨th, bh, sh, -⟩ := tdiv_two_of_pos h hh
      have spec := Texture.GenerateMipmaps.level_spec filterMode wrapMode prevMip
        (max 1 (w / 2)) (max 1 (h / 2)) (by omega) (by omega)
      obtain ⟨m1, m2, -, -, m5, m6⟩ := spec
      have hmeasure : (max 1 (w / 2) + max 1 (h / 2)).toNat ≤ n := by
        rcases hc with h1 | h1
        · have := sw h1
          have : max 1 (h / 2) ≤ h := by omega
          omega
        · have := sh h1
          have : max 1 (w / 2) ≤ w := by omega
          omega
      obtain ⟨L, hL, hchain, hlen, hlw, hlh, -⟩ := ih (max 1 (w / 2)) (max 1 (h / 2))
        (Texture.GenerateMipmaps.level filterMode wrapMode prevMip (max 1 (w / 2))
          (max 1 (h / 2)))
        (mipmaps ++ [Texture.GenerateMipmaps.level filterMode wrapMode prevMip (max 1 (w / 2))
          (max 1 (h / 2))]) hmeasure bw bh m1 m2
      refine ⟨Texture.GenerateMipmaps.level filterMode wrapMode prevMip (max 1 (w / 2))
          (max 1 (h / 2)) :: L, ?_, ?_, ?_, ?_, ?_, fun _ => rfl⟩
      · rw [Texture.GenerateMipmaps.loop, if_pos hc]
        simp only [tw, th]
        rw [hL, List.append_assoc, List.singleton_append]
      · refine List.Chain.cons ?_ hchain
        refine ⟨by rw [m1, pw], by rw [m2, ph], m5, ?_⟩
        intro x y hx0 hx hy0 hy
        exact m6 x y hx0 (by rw [← m1]; exact hx) hy0 (by rw [← m2]; exact hy)
      · rw [List.length_cons, hlen]
        exact (log_max_halved w h hw hh (by omega)).symm
      · rw [List.getLast_cons (List.cons_ne_nil _ _)]
        exact hlw
      · rw [List.getLast_cons (List.cons_ne_nil _ _)]
        exact hlh
    · have hw1 : w = 1 := by omega
      have hh1 : h = 1 := by omega
      refine ⟨[], ?_, List.Chain.nil, ?_, ?_, ?_, fun h => absurd h hc⟩
      · rw [Texture.GenerateMipmaps.loop, if_neg hc, List.append_nil]
      · subst hw1 hh1
        simp
      · simp only [List.getLast_singleton]
        rw [pw, hw1]
      · simp only [List.getLast_singleton]
        rw [ph, hh1]

/-- The relation to the next level reads only the size and the pixel data of the
previous level. -/
theorem Texture.IsNextLevel_congr [FloorRing F] (a a' b : Texture F) (hw : a.width = a'.width)
    (hh : a.height = a'.height) (hd : a.textureData = a'.textureData)
    (h : Texture.IsNextLevel a b) : Texture.IsNextLevel a' b := by
  obtain ⟨h1, h2, h3, h4⟩ := h
  refine ⟨by rw [h1, hw], by rw [h2, hh], h3, ?_⟩
  intro x y hx0 hx hy0 hy
  rw [h4 x y hx0 hx hy0 hy, Texture.blockAverage_congr a a' hw hh hd]

/-- Consecutive levels of a chain are related. -/
theorem chain_consecutive {α : Type} (R : α → α → Prop) :
    ∀ (L : List α) (a : α), List.Chain R a L → ∀ (k : ℕ) (x y : α),
      (a :: L)[k]? = some x → (a :: L)[k + 1]? = some y → R x y := by
  intro L
  induction L with
  | nil =>
    intro a _ k x y _ hy
    simp at hy
  | cons b L ih =>
    intro a hc k x y hx hy
    rw [List.chain_cons] at hc
    cases k with
    | zero =>
      simp only [List.getElem?_cons_zero, Option.some.injEq] at hx
      simp only [zero_add, List.getElem?_cons_succ, List.getElem?_cons_zero,
        Option.some.injEq] at hy
      rw [← hx, ← hy]
      exact hc.1
    | succ k =>
      rw [List.getElem?_cons_succ] at hx hy
      exact ih b hc.2 k x y hx hy

/-- Replacing the head of a chain by a related-alike element keeps the chain. -/
theorem Texture.chain_congr [FloorRing F] (a a' : Texture F) (L : List (Texture F))
    (hw : a.width = a'.width) (hh : a.height = a'.height)
    (hd : a.textureData = a'.textureData) (h : List.Chain Texture.IsNextLevel a L) :
    List.Chain Texture.IsNextLevel a' L := by
  cases L with
  | nil => exact List.Chain.nil
  | cons b L =>
    rw [List.chain_cons] at h ⊢
    exact ⟨Texture.IsNextLevel_congr a a' b hw hh hd h.1, h.2⟩

/-- When the guard of `GenerateMipmaps` fires, no level is generated. -/
theorem Texture.GenerateMipmaps_of_small [FloorRing F] (t : Texture F)
    (h : t.textureData.isNone = true ∨ t.width ≤ 1 ∨ t.height ≤ 1) :
    t.GenerateMipmaps = t.ClearMipmaps := by
  have h' : t.ClearMipmaps.textureData.isNone = true ∨ t.ClearMipmaps.width ≤ 1 ∨
      t.ClearMipmaps.height ≤ 1 := h
  simp only [Texture.GenerateMipmaps, h', if_true]

/-- The result of `GenerateMipmaps` on a texture with pixel data and both sizes at
least two: the same size and data, and a chain of next levels of length
`⌊log₂ max(W, H)⌋` ending in a one by one level. -/
theorem Texture.GenerateMipmaps_chain [FloorRing F] (t : Texture F)
    (hs : t.textureData.isSome = true) (hw : 2 ≤ t.width) (hh : 2 ≤ t.height) :
    t.GenerateMipmaps.width = t.width ∧ t.GenerateMipmaps.height = t.height ∧
    t.GenerateMipmaps.textureData = t.textureData ∧
    List.Chain Texture.IsNextLevel t.GenerateMipmaps t.GenerateMipmaps.mipmaps ∧
    t.GenerateMipmaps.mipmaps.length = Nat.log 2 (max t.width t.height).toNat ∧
    ((t.GenerateMipmaps :: t.GenerateMipmaps.mipmaps).getLast (List.cons_ne_nil _ _)).width = 1 ∧
    ((t.GenerateMipmaps :: t.GenerateMipmaps.mipmaps).getLast (List.cons_ne_nil _ _)).height = 1 ∧
    t.GenerateMipmaps.hasMipmaps = true ∧
    t.GenerateMipmaps.mipmaps.head? = some (Texture.GenerateMipmaps.level t.filterMode t.wrapMode
      t.ClearMipmaps (max 1 (t.width / 2)) (max 1 (t.height / 2))) := by
  have hg : ¬ (t.ClearMipmaps.textureData.isNone = true ∨ t.ClearMipmaps.width ≤ 1 ∨
      t.ClearMipmaps.height ≤ 1) := by
    have e1 : t.ClearMipmaps.textureData = t.textureData := rfl
    have e2 : t.ClearMipmaps.width = t.width := rfl
    have e3 : t.ClearMipmaps.height = t.height := rfl
    rw [e1, e2, e3]
    rintro (h | h | h)
    · rw [Option.isNone_iff_eq_none] at h
      rw [h] at hs
      exact absurd hs (by simp)
    · omega
    · omega
  obtain ⟨L, hL, hchain, hlen, hlw, hlh, hhead⟩ :=
    Texture.GenerateMipmaps.loop_spec t.filterMode t.wrapMode _ t.width t.height t.ClearMipmaps []
      le_rfl (by omega) (by omega) rfl rfl
  rw [List.nil_append] at hL
  have hres : t.GenerateMipmaps
      = { t.ClearMipmaps with mipmaps := L, hasMipmaps := decide (L.length > 0) } := by
    simp only [Texture.GenerateMipmaps, hg, if_false]
    have e1 : t.ClearMipmaps.filterMode = t.filterMode := rfl
    have e2 : t.ClearMipmaps.wrapMode = t.wrapMode := rfl
    have e3 : t.ClearMipmaps.width = t.width := rfl
    have e4 : t.ClearMipmaps.height = t.height := rfl
    rw [e1, e2, e3, e4, hL]
  have hpos : 1 ≤ Nat.log 2 (max t.width t.height).toNat := by
    rw [← Nat.pow_le_iff_le_log (by norm_num) (by omega)]
    have : 2 ≤ (max t.width t.height).toNat := by omega
    simpa using this
  have hm : t.GenerateMipmaps.mipmaps = L := by
    rw [hres]
  have fw : t.GenerateMipmaps.width = t.width := by
    rw [hres]
    rfl
  have fh : t.GenerateMipmaps.height = t.height := by
    rw [hres]
    rfl
  have fd : t.GenerateMipmaps.textureData = t.textureData := by
    rw [hres]
    rfl
  have fm : t.GenerateMipmaps.hasMipmaps = decide (L.length > 0) := by
    rw [hres]
  have lastEq : ∀ (a a' : Texture F) (l : List (Texture F)), l ≠ [] →
      (a :: l).getLast (List.cons_ne_nil _ _) = (a' :: l).getLast (List.cons_ne_nil _ _) := by
    intro a a' l hl
    rw [List.getLast_cons hl, List.getLast_cons hl]
  have hLne : L ≠ [] := by
    intro e
    rw [e] at hlen
    simp only [List.length_nil] at hlen
    omega
  refine ⟨fw, fh, fd, ?_, ?_, ?_, ?_, ?_, ?_⟩
  · rw [hm]
    exact Texture.chain_congr t.ClearMipmaps _ L fw.symm fh.symm fd.symm hchain
  · rw [hm, hlen]
  · simp only [hm]
    rw [lastEq _ t.ClearMipmaps L hLne]
    exact hlw
  · simp only [hm]
    rw [lastEq _ t.ClearMipmaps L hLne]
    exact hlh
  · rw [fm, decide_eq_true_eq, hlen]
    exact hpos
  · rw [hm]
    exact hhead (Or.inl (by omega))

/-- C24. After `GenerateMipmaps`, for every generated level `k + 1` (level `0` being
the source texture and level `k ≥ 1` being `mipmaps[k − 1]`), its width equals
`max(1, ⌊width_k / 2⌋)` and its height equals `max(1, ⌊height_k / 2⌋)`. -/
theorem generateMipmaps_level_size [FloorRing F] (t : Texture F) (k : ℕ) (a b : Texture F)
    (ha : (t.GenerateMipmaps :: t.GenerateMipmaps.mipmaps)[k]? = some a)
    (hb : (t.GenerateMipmaps :: t.GenerateMipmaps.mipmaps)[k + 1]? = some b) :
    b.width = max 1 (a.width / 2) ∧ b.height = max 1 (a.height / 2) := by
  by_cases hg : t.textureData.isNone = true ∨ t.width ≤ 1 ∨ t.height ≤ 1
  · rw [Texture.GenerateMipmaps_of_small t hg] at hb
    simp [Texture.ClearMipmaps] at hb
  · have hs : t.textureData.isSome = true := by
      cases hd : t.textureData with
      | none => exact absurd (Or.inl (by rw [hd]; rfl)) hg
      | some d => rfl
    obtain ⟨-, -, -, hchain, -⟩ := Texture.GenerateMipmaps_chain t hs (by omega) (by omega)
    have hR := chain_consecutive Texture.IsNextLevel _ _ hchain k a b ha hb
    exact ⟨hR.1, hR.2.1⟩

/-- C25 (amended). `GenerateMipmaps` always returns.  For a texture with pixel data,
`W ≥ 2` and `H ≥ 2` the chain's last level is one by one, the number of generated
levels `mipmaps.size()` is `⌊log₂ max(W, H)⌋` (so the total, counting the source as
level `0`, is `1 + ⌊log₂ max(W, H)⌋`) and `hasMipmaps` is set.  For a texture without
pixel data or with `W ≤ 1` or `H ≤ 1` no level is generated: `mipmaps` is empty and
`hasMipmaps` is false. -/
theorem generateMipmaps_level_count [FloorRing F] (t : Texture F) :
    (t.textureData.isSome = true → 2 ≤ t.width → 2 ≤ t.height →
      t.GenerateMipmaps.mipmaps.length = Nat.log 2 (max t.width t.height).toNat ∧
      ((t.GenerateMipmaps :: t.GenerateMipmaps.mipmaps).getLast (List.cons_ne_nil _ _)).width
        = 1 ∧
      ((t.GenerateMipmaps :: t.GenerateMipmaps.mipmaps).getLast (List.cons_ne_nil _ _)).height
        = 1 ∧
      t.GenerateMipmaps.hasMipmaps = true) ∧
    (t.textureData.isNone = true ∨ t.width ≤ 1 ∨ t.height ≤ 1 →
      t.GenerateMipmaps.mipmaps = [] ∧ t.GenerateMipmaps.hasMipmaps = false) := by
  constructor
  · intro hs hw hh
    obtain ⟨-, -, -, -, hlen, hlw, hlh, hhas, -⟩ := Texture.GenerateMipmaps_chain t hs hw hh
    exact ⟨hlen, hlw, hlh, hhas⟩
  · intro hg
    rw [Texture.GenerateMipmaps_of_small t hg]
    exact ⟨rfl, rfl⟩

/-- C26 (amended). After `GenerateMipmaps`, for every generated level `k + 1` and
every pixel `(x, y)` of it, each channel equals a quarter of the sum of the four
`GetPixel` reads of level `k` at `(2x, 2y)`, `(2x+1, 2y)`, `(2x, 2y+1)`,
`(2x+1, 2y+1)`, where a read outside the grid of level `k` gives `Color::black`
`(0, 0, 0, 1)`.  When level `k` is at least two wide the two columns `2x`, `2x+1` are
inside its grid, and when it is at least two high the two rows are; so for a level
`k` of at least two by two the value is the unweighted mean of four texels, and for a
level with a dimension of one it is not. -/
theorem generateMipmaps_pixel_average [FloorRing F] (t : Texture F) (k : ℕ) (a b : Texture F)
    (ha : (t.GenerateMipmaps :: t.GenerateMipmaps.mipmaps)[k]? = some a)
    (hb : (t.GenerateMipmaps :: t.GenerateMipmaps.mipmaps)[k + 1]? = some b)
    (x y : ℤ) (hx0 : 0 ≤ x) (hx : x < b.width) (hy0 : 0 ≤ y) (hy : y < b.height) :
    b.GetPixel x y = a.blockAverage x y ∧
    (2 ≤ a.width → x * 2 + 1 < a.width) ∧ (2 ≤ a.height → y * 2 + 1 < a.height) ∧
    (a.width ≤ 1 → a.GetPixel (x * 2 + 1) (y * 2) = Color.black ∧
      a.GetPixel (x * 2 + 1) (y * 2 + 1) = Color.black) ∧
    (a.height ≤ 1 → a.GetPixel (x * 2) (y * 2 + 1) = Color.black ∧
      a.GetPixel (x * 2 + 1) (y * 2 + 1) = Color.black) := by
  have hR : Texture.IsNextLevel a b := by
    by_cases hg : t.textureData.isNone = true ∨ t.width ≤ 1 ∨ t.height ≤ 1
    · rw [Texture.GenerateMipmaps_of_small t hg] at hb
      simp [Texture.ClearMipmaps] at hb
    · have hs : t.textureData.isSome = true := by
        cases hd : t.textureData with
        | none => exact absurd (Or.inl (by rw [hd]; rfl)) hg
        | some d => rfl
      obtain ⟨-, -, -, hchain, -⟩ := Texture.GenerateMipmaps_chain t hs (by omega) (by omega)
      exact chain_consecutive Texture.IsNextLevel _ _ hchain k a b ha hb
  obtain ⟨h1, h2, -, h4⟩ := hR
  have black : ∀ p q : ℤ, ¬ (0 ≤ p ∧ p < a.width ∧ 0 ≤ q ∧ q < a.height) →
      a.GetPixel p q = Color.black := by
    intro p q hn
    unfold Texture.GetPixel
    split
    · rw [if_neg hn]
    · rfl
  refine ⟨h4 x y hx0 hx hy0 hy, ?_, ?_, ?_, ?_⟩
  · intro h; rw [h1] at hx; omega
  · intro h; rw [h2] at hy; omega
  · intro h
    exact ⟨black _ _ (by omega), black _ _ (by omega)⟩
  · intro h
    exact ⟨black _ _ (by omega), black _ _ (by omega)⟩

/-! ### The tiled traversal, pixel by pixel -/

/-- An invariant of every iteration at an index from `lo` on is an invariant of a
`forPixels` loop that starts at or after `lo`. -/
theorem forPixels_invariant {σ : Type} (I : σ → Prop) (body : ℤ → σ → σ) (lo : ℤ)
    (hI : ∀ k s, lo ≤ k → I s → I (body k s)) (i stop : ℤ) (s : σ) (hlo : lo ≤ i) (h : I s) :
    I (forPixels i stop body s) := by
  have key : ∀ (n : ℕ) (i : ℤ) (s : σ), (stop - i).toNat ≤ n → lo ≤ i → I s →
      I (forPixels i stop body s) := by
    intro n
    induction n with
    | zero =>
      intro i s hn _ h
      have hlt : ¬ i < stop := by omega
      rw [forPixels, if_neg hlt]
      exact h
    | succ n ih =>
      intro i s hn hlo h
      by_cases hlt : i < stop
      · rw [forPixels, if_pos hlt]
        exact ih (i + 1) (body i s) (by omega) (by omega) (hI i s hlo h)
      · rw [forPixels, if_neg hlt]
        exact h
  exact key _ i s le_rfl hlo h

/-- An invariant of every iteration at an index from `lo` on is an invariant of a
`forBlocks` loop that starts at or after `lo`. -/
theorem forBlocks_invariant {σ : Type} (I : σ → Prop) (body : ℤ → σ → σ) (lo : ℤ)
    (hI : ∀ k s, lo ≤ k → I s → I (body k s)) (i hi : ℤ) (s : σ) (hlo : lo ≤ i) (h : I s) :
    I (forBlocks i hi body s) := by
  have key : ∀ (n : ℕ) (i : ℤ) (s : σ), (hi + 1 - i).toNat ≤ n → lo ≤ i → I s →
      I (forBlocks i hi body s) := by
    intro n
    induction n with
    | zero =>
      intro i s hn _ h
      have hlt : ¬ i ≤ hi := by omega
      rw [forBlocks, if_neg hlt]
      exact h
    | succ n ih =>
      intro i s hn hlo h
      by_cases hlt : i ≤ hi
      · rw [forBlocks, if_pos hlt]
        exact ih (i + BLOCK_SIZE) (body i s) (by simp only [BLOCK_SIZE]; omega)
          (by simp only [BLOCK_SIZE]; omega) (hI i s hlo h)
      · rw [forBlocks, if_neg hlt]
        exact h
  exact key _ i s le_rfl hlo h

/-- A `forPixels` loop that passes through the index `k0` establishes what iteration
`k0` establishes, when the later iterations keep it. -/
theorem forPixels_reach {σ : Type} (J Q : σ → Prop) (body : ℤ → σ → σ) (lo : ℤ)
    (hJ : ∀ k s, lo ≤ k → J s → J (body k s)) (hQ : ∀ k s, lo ≤ k → Q s → Q (body k s))
    (k0 : ℤ) (h0 : ∀ s, J s → Q (body k0 s)) (i stop : ℤ) (s : σ) (hlo : lo ≤ i)
    (hik : i ≤ k0) (hks : k0 < stop) (h : J s) : Q (forPixels i stop body s) := by
  have key : ∀ (n : ℕ) (i : ℤ) (s : σ), (k0 - i).toNat = n → lo ≤ i → i ≤ k0 → J s →
      Q (forPixels i stop body s) := by
    intro n
    induction n with
    | zero =>
      intro i s hn hlo hik h
      have e : i = k0 := by omega
      subst e
      rw [forPixels, if_pos hks]
      exact forPixels_invariant Q body lo hQ _ _ _ (by omega) (h0 s h)
    | succ n ih =>
      intro i s hn hlo hik h
      have hlt : i < stop := by omega
      rw [forPixels, if_pos hlt]
      exact ih (i + 1) (body i s) (by omega) (by omega) (by omega) (hJ i s hlo h)
  exact key _ i s rfl hlo hik h

/-- A `forBlocks` loop that passes through the block start `k0` establishes what
iteration `k0` establishes, when the later iterations keep it. -/
theorem forBlocks_reach {σ : Type} (J Q : σ → Prop) (body : ℤ → σ → σ) (lo : ℤ)
    (hJ : ∀ k s, lo ≤ k → J s → J (body k s)) (hQ : ∀ k s, lo ≤ k → Q s → Q (body k s))
    (k0 : ℤ) (h0 : ∀ s, J s → Q (body k0 s)) (i hi : ℤ) (m : ℕ) (s : σ) (hlo : lo ≤ i)
    (hik : k0 = i + 8 * (m : ℤ)) (hks : k0 ≤ hi) (h : J s) : Q (forBlocks i hi body s) := by
  have key : ∀ (m : ℕ) (i : ℤ) (s : σ), lo ≤ i → k0 = i + 8 * (m : ℤ) → J s →
      Q (forBlocks i hi body s) := by
    intro m
    induction m with
    | zero =>
      intro i s hlo hik h
      have e : i = k0 := by omega
      subst e
      rw [forBlocks, if_pos hks]
      exact forBlocks_invariant Q body lo hQ _ _ _ (by simp only [BLOCK_SIZE]; omega) (h0 s h)
    | succ m ih =>
      intro i s hlo hik h
      have hlt : i ≤ hi := by omega
      rw [forBlocks, if_pos hlt]
      exact ih (i + BLOCK_SIZE) (body i s) (by simp only [BLOCK_SIZE]; omega)
        (by simp only [BLOCK_SIZE]; push_cast at hik; omega) (hJ i s hlo h)
  exact key m i s hlo hik h

/-- The tiled traversal of `DrawTriangle` keeps an invariant of its pixel body. -/
theorem tiled_invariant {σ : Type} (I : σ → Prop) (body : ℤ → ℤ → σ → σ)
    (minX maxX minY maxY : ℤ)
    (hI : ∀ x y s, minX ≤ x → minY ≤ y → I s → I (body x y s)) (s : σ) (h : I s) :
    I (forBlocks minY maxY (fun blockY s =>
        forBlocks minX maxX (fun blockX s =>
          forPixels blockY (min (blockY + BLOCK_SIZE) (maxY + 1)) (fun y s =>
            forPixels blockX (min (blockX + BLOCK_SIZE) (maxX + 1)) (fun x s =>
              body x y s) s) s) s) s) := by
  apply forBlocks_invariant I _ minY _ _ _ _ le_rfl h
  intro blockY s hbY hs
  apply forBlocks_invariant I _ minX _ _ _ _ le_rfl hs
  intro blockX s hbX hs
  apply forPixels_invariant I _ blockY _ _ _ _ le_rfl hs
  intro y s hy hs
  apply forPixels_invariant I _ blockX _ _ _ _ le_rfl hs
  intro x s hx hs
  exact hI x y s (by omega) (by omega) hs

/-- The tiled traversal of `DrawTriangle` visits every pixel of the bounding box: it
establishes what the body at `(X, Y)` establishes, when every body keeps it. -/
theorem tiled_reach {σ : Type} (J Q : σ → Prop) (body : ℤ → ℤ → σ → σ)
    (minX maxX minY maxY : ℤ)
    (hJ : ∀ x y s, minX ≤ x → minY ≤ y → J s → J (body x y s))
    (hQ : ∀ x y s, minX ≤ x → minY ≤ y → Q s → Q (body x y s))
    (X Y : ℤ) (hX0 : minX ≤ X) (hX1 : X ≤ maxX) (hY0 : minY ≤ Y) (hY1 : Y ≤ maxY)
    (h0 : ∀ s, J s → Q (body X Y s)) (s : σ) (h : J s) :
    Q (forBlocks minY maxY (fun blockY s =>
        forBlocks minX maxX (fun blockX s =>
          forPixels blockY (min (blockY + BLOCK_SIZE) (maxY + 1)) (fun y s =>
            forPixels blockX (min (blockX + BLOCK_SIZE) (maxX + 1)) (fun x s =>
              body x y s) s) s) s) s) := by
  have rowJ : ∀ (K : σ → Prop), (∀ x y s, minX ≤ x → minY ≤ y → K s → K (body x y s)) →
      ∀ blockX y s, minX ≤ blockX → minY ≤ y → K s →
      K (forPixels blockX (min (blockX + BLOCK_SIZE) (maxX + 1)) (fun x s => body x y s) s) := by
    intro K hK blockX y s hbX hy hs
    apply forPixels_invariant K _ blockX _ _ _ _ le_rfl hs
    intro x s hx hs
    exact hK x y s (by omega) hy hs
  have tileJ : ∀ (K : σ → Prop), (∀ x y s, minX ≤ x → minY ≤ y → K s → K (body x y s)) →
      ∀ blockY blockX s, minY ≤ blockY → minX ≤ blockX → K s →
      K (forPixels blockY (min (blockY + BLOCK_SIZE) (maxY + 1)) (fun y s =>
          forPixels blockX (min (blockX + BLOCK_SIZE) (maxX + 1)) (fun x s => body x y s) s)
          s) := by
    intro K hK blockY blockX s hbY hbX hs
    apply forPixels_invariant K _ blockY _ _ _ _ le_rfl hs
    intro y s hy hs
    exact rowJ K hK blockX y s hbX (by omega) hs
  have bandJ : ∀ (K : σ → Prop), (∀ x y s, minX ≤ x → minY ≤ y → K s → K (body x y s)) →
      ∀ blockY s, minY ≤ blockY → K s →
      K (forBlocks minX maxX (fun blockX s =>
          forPixels blockY (min (blockY + BLOCK_SIZE) (maxY + 1)) (fun y s =>
            forPixels blockX (min (blockX + BLOCK_SIZE) (maxX + 1)) (fun x s => body x y s) s)
            s) s) := by
    intro K hK blockY s hbY hs
    apply forBlocks_invariant K _ minX _ _ _ _ le_rfl hs
    intro blockX s hbX hs
    exact tileJ K hK blockY blockX s hbY hbX hs
  -- the block that holds the pixel
  obtain ⟨mY, hmY⟩ : ∃ mY : ℕ, (mY : ℤ) = (Y - minY) / 8 :=
    ⟨((Y - minY) / 8).toNat, by omega⟩
  obtain ⟨mX, hmX⟩ : ∃ mX : ℕ, (mX : ℤ) = (X - minX) / 8 :=
    ⟨((X - minX) / 8).toNat, by omega⟩
  apply forBlocks_reach J Q _ minY (fun k s hk hs => bandJ J hJ k s hk hs)
    (fun k s hk hs => bandJ Q hQ k s hk hs) (minY + 8 * (mY : ℤ)) _ minY maxY mY s le_rfl rfl
    (by omega) h
  intro s hs
  apply forBlocks_reach J Q _ minX
    (fun k s hk hs => tileJ J hJ (minY + 8 * (mY : ℤ)) k s (by omega) hk hs)
    (fun k s hk hs => tileJ Q hQ (minY + 8 * (mY : ℤ)) k s (by omega) hk hs)
    (minX + 8 * (mX : ℤ)) _ minX maxX mX s le_rfl rfl (by omega) hs
  intro s hs
  apply forPixels_reach J Q _ (minY + 8 * (mY : ℤ))
    (fun k s hk hs => rowJ J hJ (minX + 8 * (mX : ℤ)) k s (by omega) (by omega) hs)
    (fun k s hk hs => rowJ Q hQ (minX + 8 * (mX : ℤ)) k s (by omega) (by omega) hs)
    Y _ _ _ s le_rfl (by omega) (by simp only [BLOCK_SIZE]; omega) hs
  intro s hs
  apply forPixels_reach J Q _ (minX + 8 * (mX : ℤ))
    (fun k s hk hs => hJ k Y s (by omega) hY0 hs)
    (fun k s hk hs => hQ k Y s (by omega) hY0 hs)
    X _ _ _ s le_rfl (by omega) (by simp only [BLOCK_SIZE]; omega) hs
  exact h0

/-- What one depth-tested fragment does to the cells of a pixel `(X, Y)` held by both
buffers: a fragment at that pixel whose depth passes stores its clamped depth and its
four quantized channels; any other fragment leaves the cells alone. -/
theorem apply_pixelCells [FloorRing F] (o : FragOp F) (fb : FrameBuffer F) (X Y : ℕ)
    (hcx : X < fb.colorBuffer.width) (hcy : Y < fb.colorBuffer.height)
    (hci : (Y * fb.colorBuffer.width + X) * 4 + 3 < fb.colorBuffer.BUFFER_SIZE)
    (hdx : X < fb.depthBuffer.width) (hdy : Y < fb.depthBuffer.height)
    (hdi : Y * fb.depthBuffer.width + X < fb.depthBuffer.BUFFER_SIZE) :
    pixelCells (o.apply fb) X Y
      = if o.x = X ∧ o.y = Y ∧ o.z ≤ (pixelCells fb X Y).1 then
          (clamp01 o.z, toBYTE (o.c.r * 255), toBYTE (o.c.g * 255), toBYTE (o.c.b * 255),
            toBYTE (o.c.a * 255))
        else pixelCells fb X Y := by
  have hD : HasDims fb fb.colorBuffer.BUFFER_SIZE fb.colorBuffer.width fb.colorBuffer.height
      fb.depthBuffer.BUFFER_SIZE fb.depthBuffer.width fb.depthBuffer.height :=
    ⟨rfl, rfl, rfl, rfl, rfl, rfl⟩
  obtain ⟨-, a2, -, -, a5, -⟩ := hD.apply o
  have hdepth : ∀ k, (fb.depthBuffer.SetDepth o.x o.y o.z).buffer k = _ :=
    fun k => SetDepth_cell o fb hD k
  have hcol : ∀ j, (fb.colorBuffer.SetPixel o.x o.y o.c).buffer j = _ :=
    fun j => SetPixel_cell o fb hD j
  have hget := GetDepth_cell o fb hD
  simp only [pixelCells, a2, a5]
  unfold FragOp.apply
  rw [hget]
  by_cases hsame : o.x = X ∧ o.y = Y
  · obtain ⟨rfl, rfl⟩ := hsame
    have hin : o.inDepth fb.depthBuffer.BUFFER_SIZE fb.depthBuffer.width fb.depthBuffer.height
        = true := by
      simp only [FragOp.inDepth, decide_eq_true_eq]
      exact ⟨hdx, hdy, hdi⟩
    have hhit : o.hitsDepth fb.depthBuffer.BUFFER_SIZE fb.depthBuffer.width
        fb.depthBuffer.height (o.y * fb.depthBuffer.width + o.x) = true := by
      simp only [FragOp.hitsDepth, decide_eq_true_eq]
      exact ⟨hdx, hdy, hdi, trivial⟩
    have hcov : ∀ c, c ≤ 3 → o.coversColor fb.colorBuffer.BUFFER_SIZE fb.colorBuffer.width
        fb.colorBuffer.height ((o.y * fb.colorBuffer.width + o.x) * 4 + c) = true := by
      intro c hc
      simp only [FragOp.coversColor, decide_eq_true_eq]
      exact ⟨hcx, hcy, hci, by omega, by omega⟩
    have hb0 : o.byteAt fb.colorBuffer.width ((o.y * fb.colorBuffer.width + o.x) * 4)
        = toBYTE (o.c.r * 255) := by
      simp only [FragOp.byteAt]
      split_ifs <;> first | rfl | omega
    have hb1 : o.byteAt fb.colorBuffer.width ((o.y * fb.colorBuffer.width + o.x) * 4 + 1)
        = toBYTE (o.c.g * 255) := by
      simp only [FragOp.byteAt]
      split_ifs <;> first | rfl | omega
    have hb2 : o.byteAt fb.colorBuffer.width ((o.y * fb.colorBuffer.width + o.x) * 4 + 2)
        = toBYTE (o.c.b * 255) := by
      simp only [FragOp.byteAt]
      split_ifs <;> first | rfl | omega
    have hb3 : o.byteAt fb.colorBuffer.width ((o.y * fb.colorBuffer.width + o.x) * 4 + 3)
        = toBYTE (o.c.a * 255) := by
      simp only [FragOp.byteAt, if_true]
    rw [if_pos hin]
    by_cases hz : o.z ≤ fb.depthBuffer.buffer (o.y * fb.depthBuffer.width + o.x)
    · have hc0 := hcov 0 (by omega)
      rw [Nat.add_zero] at hc0
      rw [if_pos hz, if_pos ⟨rfl, rfl, hz⟩]
      simp only [hdepth, hcol, hhit, hc0, hcov 1 (by omega), hcov 2 (by omega),
        hcov 3 (by omega), if_true, hb0, hb1, hb2, hb3]
    · have hn : ¬ (o.x = o.x ∧ o.y = o.y ∧
          o.z ≤ fb.depthBuffer.buffer (o.y * fb.depthBuffer.width + o.x)) :=
        fun h => hz h.2.2
      rw [if_neg hz, if_neg hn]
  · have hn : ¬ (o.x = X ∧ o.y = Y ∧
        o.z ≤ fb.depthBuffer.buffer (Y * fb.depthBuffer.width + X)) :=
      fun h => hsame ⟨h.1, h.2.1⟩
    rw [if_neg hn]
    have hhit : o.hitsDepth fb.depthBuffer.BUFFER_SIZE fb.depthBuffer.width
        fb.depthBuffer.height (Y * fb.depthBuffer.width + X) = false := by
      rw [← Bool.not_eq_true]
      simp only [FragOp.hitsDepth, decide_eq_true_eq]
      rintro ⟨h1, -, -, h4⟩
      obtain ⟨e1, e2⟩ := pixel_of_index h1 hdx h4
      exact hsame ⟨e1, e2⟩
    have hcov : ∀ c, c ≤ 3 → o.coversColor fb.colorBuffer.BUFFER_SIZE fb.colorBuffer.width
        fb.colorBuffer.height ((Y * fb.colorBuffer.width + X) * 4 + c) = false := by
      intro c hc
      rw [← Bool.not_eq_true]
      simp only [FragOp.coversColor, decide_eq_true_eq]
      rintro ⟨h1, -, -, h4, h5⟩
      have e : o.y * fb.colorBuffer.width + o.x = Y * fb.colorBuffer.width + X := by omega
      obtain ⟨e1, e2⟩ := pixel_of_index h1 hcx e
      exact hsame ⟨e1, e2⟩
    have hc0 := hcov 0 (by omega)
    rw [Nat.add_zero] at hc0
    split_ifs <;>
      first
        | rfl
        | simp only [hdepth, hcol, hhit, hc0, hcov 1 (by omega), hcov 2 (by omega),
            hcov 3 (by omega), Bool.false_eq_true, if_false]

/-- The innermost loop body of `DrawTriangle`: one depth-tested fragment when the
pixel centre is inside the triangle, nothing otherwise. -/
theorem pixel_eq_apply [FloorRing F] (sqrtf : F → F) (shader : Shader F)
    (s1 s2 s3 : VertexOutput F) (w1 w2 w3 : F) (p1 p2 p3 : Vector2 F) (du dv : F) (x y : ℤ)
    (fb : FrameBuffer F) :
    DrawTriangle.pixel sqrtf shader s1 s2 s3 w1 w2 w3 p1 p2 p3 du dv x y fb
      = if (PointInTriangle ((x : F) + 1 / 2) ((y : F) + 1 / 2) p1 p2 p3 0 0 0).1 = true then
          (DrawTriangle.fragment sqrtf shader s1 s2 s3 w1 w2 w3 p1 p2 p3 du dv x y).apply fb
        else fb := rfl

/-- The cells of a pixel `(X, Y)` held by both buffers after the tiled traversal of
`DrawTriangle` over a bounding box with non-negative corner.  When the pixel centre
fails `PointInTriangle` the cells are unchanged.  When it passes and the pixel is in
the bounding box, the cells are those left by the pixel's fragment: its clamped
depth and quantized colour when its depth is at most the stored depth, the old cells
otherwise. -/
theorem tiled_pixelCells [FloorRing F] (sqrtf : F → F) (shader : Shader F)
    (s1 s2 s3 : VertexOutput F) (w1 w2 w3 : F) (p1 p2 p3 : Vector2 F) (du dv : F)
    (minX maxX minY maxY : ℤ) (hminX : 0 ≤ minX) (hminY : 0 ≤ minY)
    (fb : FrameBuffer F) (X Y : ℕ)
    (hcx : X < fb.colorBuffer.width) (hcy : Y < fb.colorBuffer.height)
    (hci : (Y * fb.colorBuffer.width + X) * 4 + 3 < fb.colorBuffer.BUFFER_SIZE)
    (hdx : X < fb.depthBuffer.width) (hdy : Y < fb.depthBuffer.height)
    (hdi : Y * fb.depthBuffer.width + X < fb.depthBuffer.BUFFER_SIZE) :
    let T := forBlocks minY maxY (fun blockY fb =>
      forBlocks minX maxX (fun blockX fb =>
        forPixels blockY (min (blockY + BLOCK_SIZE) (maxY + 1)) (fun y fb =>
          forPixels blockX (min (blockX + BLOCK_SIZE) (maxX + 1)) (fun x fb =>
            DrawTriangle.pixel sqrtf shader s1 s2 s3 w1 w2 w3 p1 p2 p3 du dv x y fb)
            fb) fb) fb) fb
    let inside := (PointInTriangle (((X : ℤ) : F) + 1 / 2) (((Y : ℤ) : F) + 1 / 2)
      p1 p2 p3 0 0 0).1
    let o := DrawTriangle.fragment sqrtf shader s1 s2 s3 w1 w2 w3 p1 p2 p3 du dv (X : ℤ) (Y : ℤ)
    (inside = false → pixelCells T X Y = pixelCells fb X Y) ∧
    (inside = true → minX ≤ (X : ℤ) → (X : ℤ) ≤ maxX → minY ≤ (Y : ℤ) → (Y : ℤ) ≤ maxY →
      pixelCells T X Y
        = if o.z ≤ (pixelCells fb X Y).1 then
            (clamp01 o.z, toBYTE (o.c.r * 255), toBYTE (o.c.g * 255), toBYTE (o.c.b * 255),
              toBYTE (o.c.a * 255))
          else pixelCells fb X Y) := by
  intro T inside o
  -- what one body does to the cells of `(X, Y)`, for a frame buffer of the same sizes
  have hbody : ∀ (x y : ℤ) (fb' : FrameBuffer F), 0 ≤ x → 0 ≤ y →
      HasDims fb' fb.colorBuffer.BUFFER_SIZE fb.colorBuffer.width fb.colorBuffer.height
        fb.depthBuffer.BUFFER_SIZE fb.depthBuffer.width fb.depthBuffer.height →
      HasDims (DrawTriangle.pixel sqrtf shader s1 s2 s3 w1 w2 w3 p1 p2 p3 du dv x y fb')
        fb.colorBuffer.BUFFER_SIZE fb.colorBuffer.width fb.colorBuffer.height
        fb.depthBuffer.BUFFER_SIZE fb.depthBuffer.width fb.depthBuffer.height ∧
      pixelCells (DrawTriangle.pixel sqrtf shader s1 s2 s3 w1 w2 w3 p1 p2 p3 du dv x y fb') X Y
        = if x = (X : ℤ) ∧ y = (Y : ℤ) ∧ inside = true ∧ o.z ≤ (pixelCells fb' X Y).1 then
            (clamp01 o.z, toBYTE (o.c.r * 255), toBYTE (o.c.g * 255), toBYTE (o.c.b * 255),
              toBYTE (o.c.a * 255))
          else pixelCells fb' X Y := by
    intro x y fb' hx hy hD
    obtain ⟨d1, d2, d3, d4, d5, d6⟩ := hD
    rw [pixel_eq_apply]
    by_cases hin : (PointInTriangle ((x : F) + 1 / 2) ((y : F) + 1 / 2) p1 p2 p3 0 0 0).1 = true
    · rw [if_pos hin]
      refine ⟨HasDims.apply ⟨d1, d2, d3, d4, d5, d6⟩ _, ?_⟩
      rw [apply_pixelCells _ fb' X Y (by rw [d2]; exact hcx) (by rw [d3]; exact hcy)
        (by rw [d2, d1]; exact hci) (by rw [d5]; exact hdx) (by rw [d6]; exact hdy)
        (by rw [d5, d4]; exact hdi)]
      by_cases hxy : x = (X : ℤ) ∧ y = (Y : ℤ)
      · obtain ⟨rfl, rfl⟩ := hxy
        have e1 : (DrawTriangle.fragment sqrtf shader s1 s2 s3 w1 w2 w3 p1 p2 p3 du dv
            (X : ℤ) (Y : ℤ)).x = X := Int.toNat_ofNat X
        have e2 : (DrawTriangle.fragment sqrtf shader s1 s2 s3 w1 w2 w3 p1 p2 p3 du dv
            (X : ℤ) (Y : ℤ)).y = Y := Int.toNat_ofNat Y
        have hi2 : inside = true := hin
        simp only [e1, e2, hi2, true_and, o]
      · have hne : ¬ ((DrawTriangle.fragment sqrtf shader s1 s2 s3 w1 w2 w3 p1 p2 p3 du dv
            x y).x = X ∧ (DrawTriangle.fragment sqrtf shader s1 s2 s3 w1 w2 w3 p1 p2 p3 du dv
            x y).y = Y ∧ (DrawTriangle.fragment sqrtf shader s1 s2 s3 w1 w2 w3 p1 p2 p3 du dv
            x y).z ≤ (pixelCells fb' X Y).1) := by
          rintro ⟨h1, h2, -⟩
          have h1' : x.toNat = X := h1
          have h2' : y.toNat = Y := h2
          exact hxy ⟨by omega, by omega⟩
        have hne2 : ¬ (x = (X : ℤ) ∧ y = (Y : ℤ) ∧ inside = true ∧
            o.z ≤ (pixelCells fb' X Y).1) := fun h => hxy ⟨h.1, h.2.1⟩
        rw [if_neg hne, if_neg hne2]
    · rw [if_neg hin]
      refine ⟨⟨d1, d2, d3, d4, d5, d6⟩, ?_⟩
      have hne2 : ¬ (x = (X : ℤ) ∧ y = (Y : ℤ) ∧ inside = true ∧
          o.z ≤ (pixelCells fb' X Y).1) := by
        rintro ⟨rfl, rfl, h3, -⟩
        exact hin h3
      rw [if_neg hne2]
  have hD0 : HasDims fb fb.colorBuffer.BUFFER_SIZE fb.colorBuffer.width fb.colorBuffer.height
      fb.depthBuffer.BUFFER_SIZE fb.depthBuffer.width fb.depthBuffer.height :=
    ⟨rfl, rfl, rfl, rfl, rfl, rfl⟩
  constructor
  · intro hout
    have inv := tiled_invariant
      (fun fb' : FrameBuffer F =>
        HasDims fb' fb.colorBuffer.BUFFER_SIZE fb.colorBuffer.width fb.colorBuffer.height
          fb.depthBuffer.BUFFER_SIZE fb.depthBuffer.width fb.depthBuffer.height ∧
        pixelCells fb' X Y = pixelCells fb X Y)
      (fun x y fb' =>
        DrawTriangle.pixel sqrtf shader s1 s2 s3 w1 w2 w3 p1 p2 p3 du dv x y fb')
      minX maxX minY maxY
      (fun x y fb' hx hy hI => by
        obtain ⟨hd, hc⟩ := hbody x y fb' (by omega) (by omega) hI.1
        refine ⟨hd, ?_⟩
        rw [hc, if_neg, hI.2]
        rintro ⟨-, -, h3, -⟩
        rw [hout] at h3
        exact absurd h3 (by simp))
      fb ⟨hD0, rfl⟩
    exact inv.2
  · intro hin hX0 hX1 hY0 hY1
    have main : ∀ c1 : F × ℕ × ℕ × ℕ × ℕ,
        (o.z ≤ (pixelCells fb X Y).1 → (clamp01 o.z, toBYTE (o.c.r * 255),
          toBYTE (o.c.g * 255), toBYTE (o.c.b * 255), toBYTE (o.c.a * 255)) = c1) →
        (¬ o.z ≤ (pixelCells fb X Y).1 → pixelCells fb X Y = c1) →
        (o.z ≤ c1.1 → (clamp01 o.z, toBYTE (o.c.r * 255),
          toBYTE (o.c.g * 255), toBYTE (o.c.b * 255), toBYTE (o.c.a * 255)) = c1) →
        pixelCells T X Y = c1 := by
      intro c1 hpass hfail hidem
      have reach := tiled_reach
        (fun fb' : FrameBuffer F =>
          HasDims fb' fb.colorBuffer.BUFFER_SIZE fb.colorBuffer.width fb.colorBuffer.height
            fb.depthBuffer.BUFFER_SIZE fb.depthBuffer.width fb.depthBuffer.height ∧
          (pixelCells fb' X Y = pixelCells fb X Y ∨ pixelCells fb' X Y = c1))
        (fun fb' : FrameBuffer F =>
          HasDims fb' fb.colorBuffer.BUFFER_SIZE fb.colorBuffer.width fb.colorBuffer.height
            fb.depthBuffer.BUFFER_SIZE fb.depthBuffer.width fb.depthBuffer.height ∧
          pixelCells fb' X Y = c1)
        (fun x y fb' =>
          DrawTriangle.pixel sqrtf shader s1 s2 s3 w1 w2 w3 p1 p2 p3 du dv x y fb')
        minX maxX minY maxY
        (fun x y fb' hx hy hJ => by
          obtain ⟨hd, hc⟩ := hbody x y fb' (by omega) (by omega) hJ.1
          refine ⟨hd, ?_⟩
          rw [hc]
          rcases hJ.2 with h | h
          · rw [h]
            split_ifs with h1
            · exact Or.inr (hpass h1.2.2.2)
            · exact Or.inl rfl
          · rw [h]
            split_ifs with h1
            · exact Or.inr (hidem h1.2.2.2)
            · exact Or.inr rfl)
        (fun x y fb' hx hy hQ => by
          obtain ⟨hd, hc⟩ := hbody x y fb' (by omega) (by omega) hQ.1
          refine ⟨hd, ?_⟩
          rw [hc, hQ.2]
          split_ifs with h1
          · exact hidem h1.2.2.2
          · rfl)
        (X : ℤ) (Y : ℤ) hX0 hX1 hY0 hY1
        (fun fb' hJ => by
          obtain ⟨hd, hc⟩ := hbody (X : ℤ) (Y : ℤ) fb' (by omega) (by omega) hJ.1
          refine ⟨hd, ?_⟩
          rw [hc]
          rcases hJ.2 with h | h
          · rw [h]
            by_cases h2 : o.z ≤ (pixelCells fb X Y).1
            · rw [if_pos ⟨rfl, rfl, hin, h2⟩]
              exact hpass h2
            · rw [if_neg (fun hh => h2 hh.2.2.2)]
              exact hfail h2
          · rw [h]
            split_ifs with h1
            · exact hidem h1.2.2.2
            · rfl)
        fb ⟨hD0, Or.inl rfl⟩
      exact reach.2
    apply main
    · intro h; rw [if_pos h]
    · intro h; rw [if_neg h]
    · intro h
      by_cases h2 : o.z ≤ (pixelCells fb X Y).1
      · rw [if_pos h2]
      · rw [if_neg h2] at h
        exact absurd h h2

/-! ### The draw call around the traversal -/

/-- The product of the identity matrix with itself. -/
theorem Matrix.identity_mul_identity :
    (Matrix.identity : Matrix F).mul Matrix.identity = Matrix.identity := by
  apply Matrix.ext_entries
  intro i j
  rw [Matrix.mul_m]
  fin_cases i <;> fin_cases j <;> simp [Matrix.identity]

/-- The identity matrix applied to a vector. -/
theorem Matrix.identity_mulVec (v : Vector4 F) : (Matrix.identity : Matrix F).mulVec v = v := by
  simp [Matrix.mulVec, Matrix.identity]

/-- With identity model, view and projection matrices `ColorShader::VertexShader`
passes the position, the colour and the texture coordinates through; the world
position is the position. -/
theorem ColorShader.VertexShader_identity (sqrtf : F → F) (position color : Vector4 F)
    (normal : Vector3 F) (texcoord : Vector2 F) :
    let o := ColorShader.VertexShader sqrtf
      ⟨position, color, normal, texcoord, Matrix.identity, Matrix.identity, Matrix.identity⟩
    o.position = position ∧ o.color = color ∧ o.texcoord = texcoord ∧
    o.worldPos = Vector3.mk3 position.x position.y position.z := by
  intro o
  refine ⟨?_, rfl, rfl, ?_⟩
  · simp only [o, ColorShader.VertexShader, Matrix.identity_mul_identity, Matrix.identity_mulVec]
  · simp only [o, ColorShader.VertexShader, Matrix.identity_mulVec]

/-- A triangle that is not culled and lies inside the near plane is rasterized as it
is: the frame buffer after `DrawTriangle` is the one `rasterize` leaves. -/
theorem DrawTriangle_inside_not_culled [FloorRing F] (sqrtf : F → F) (r : Renderer F)
    (a b c : Vertex F) (shader : Shader F) (o1 o2 o3 : VertexOutput F)
    (e1 : shader.VertexShader ⟨a.pos, a.color, a.normal, a.texcoord,
      r.m_modelMatrix, r.m_viewMatrix, r.m_projMatrix⟩ = o1)
    (e2 : shader.VertexShader ⟨b.pos, b.color, b.normal, b.texcoord,
      r.m_modelMatrix, r.m_viewMatrix, r.m_projMatrix⟩ = o2)
    (e3 : shader.VertexShader ⟨c.pos, c.color, c.normal, c.texcoord,
      r.m_modelMatrix, r.m_viewMatrix, r.m_projMatrix⟩ = o3)
    (hc : DrawTriangle.culled sqrtf r.m_viewPosition r.m_cullMode r.m_frontFace o1 o2 o3 = false)
    (h1 : 1 / 10 ≤ o1.position.w) (h2 : 1 / 10 ≤ o2.position.w) (h3 : 1 / 10 ≤ o3.position.w) :
    (DrawTriangle sqrtf r a b c (some shader)).m_currentFrameBuffer
      = DrawTriangle.rasterize sqrtf r.m_width r.m_height shader (o1, o2, o3)
          r.m_currentFrameBuffer := by
  simp only [DrawTriangle, e1, e2, e3, hc, clipTriangle_iii sqrtf o1 o2 o3 h1 h2 h3]
  simp

/-- The cells of a pixel `(X, Y)` held by both buffers after `rasterize` of one
clipped triangle.  When the pixel centre fails `PointInTriangle` on the screen
positions the cells are unchanged.  When it passes and the pixel is in the bounding
box, the cells are those left by the pixel's fragment, whose depth and attributes
are interpolated with the weights `PointInTriangle` returns. -/
theorem rasterize_pixelCells [FloorRing F] (sqrtf : F → F) (W H : ℤ) (shader : Shader F)
    (triangle : Triangle F) (fb : FrameBuffer F) (X Y : ℕ)
    (hcx : X < fb.colorBuffer.width) (hcy : Y < fb.colorBuffer.height)
    (hci : (Y * fb.colorBuffer.width + X) * 4 + 3 < fb.colorBuffer.BUFFER_SIZE)
    (hdx : X < fb.depthBuffer.width) (hdy : Y < fb.depthBuffer.height)
    (hdi : Y * fb.depthBuffer.width + X < fb.depthBuffer.BUFFER_SIZE) :
    let s1 := ProcessVertexOutput W H triangle.1
    let s2 := ProcessVertexOutput W H triangle.2.1
    let s3 := ProcessVertexOutput W H triangle.2.2
    let p1 : Vector2 F := ⟨s1.position.x, s1.position.y⟩
    let p2 : Vector2 F := ⟨s2.position.x, s2.position.y⟩
    let p3 : Vector2 F := ⟨s3.position.x, s3.position.y⟩
    let minX : ℤ := max 0 (toInt32 ⌊min (min s1.position.x s2.position.x) s3.position.x⌋)
    let maxX : ℤ := min (W - 1) (toInt32 ⌈max (max s1.position.x s2.position.x) s3.position.x⌉)
    let minY : ℤ := max 0 (toInt32 ⌊min (min s1.position.y s2.position.y) s3.position.y⌋)
    let maxY : ℤ := min (H - 1) (toInt32 ⌈max (max s1.position.y s2.position.y) s3.position.y⌉)
    let r := PointInTriangle (((X : ℤ) : F) + 1 / 2) (((Y : ℤ) : F) + 1 / 2) p1 p2 p3 0 0 0
    let pv := InterpolateVertex sqrtf
      { s1 with position := { s1.position with w := triangle.1.position.w } }
      { s2 with position := { s2.position with w := triangle.2.1.position.w } }
      { s3 with position := { s3.position with w := triangle.2.2.position.w } }
      r.2.1 r.2.2.1 r.2.2.2
    (r.1 = false →
      pixelCells (DrawTriangle.rasterize sqrtf W H shader triangle fb) X Y = pixelCells fb X Y) ∧
    (r.1 = true → minX ≤ (X : ℤ) → (X : ℤ) ≤ maxX → minY ≤ (Y : ℤ) → (Y : ℤ) ≤ maxY →
      ∃ du dv : F,
        pixelCells (DrawTriangle.rasterize sqrtf W H shader triangle fb) X Y
          = if pv.position.z ≤ (pixelCells fb X Y).1 then
              (clamp01 pv.position.z, toBYTE ((shader.FragmentShader pv du dv).r * 255),
                toBYTE ((shader.FragmentShader pv du dv).g * 255),
                toBYTE ((shader.FragmentShader pv du dv).b * 255),
                toBYTE ((shader.FragmentShader pv du dv).a * 255))
            else pixelCells fb X Y) := by
  intro s1 s2 s3 p1 p2 p3 minX maxX minY maxY r pv
  constructor
  · intro hout
    unfold DrawTriangle.rasterize
    exact (tiled_pixelCells sqrtf shader _ _ _ _ _ _ _ _ _ _ _ _ _ _ _
      (le_max_left _ _) (le_max_left _ _) fb X Y hcx hcy hci hdx hdy hdi).1 hout
  · intro hin hX0 hX1 hY0 hY1
    unfold DrawTriangle.rasterize
    exact ⟨_, _, (tiled_pixelCells sqrtf shader _ _ _ _ _ _ _ _ _ _ _ _ _ _ _
      (le_max_left _ _) (le_max_left _ _) fb X Y hcx hcy hci hdx hdy hdi).2 hin hX0 hX1 hY0 hY1⟩

/-- The cells of a pixel after `InitWithColorAndDepth`: the clamped depth and the
four quantized channels. -/
theorem FrameBuffer.InitWithColorAndDepth_pixelCells [FloorRing F] (fb : FrameBuffer F)
    (color : Color F) (depth : F) (x y : ℕ)
    (hcx : x < fb.colorBuffer.width) (hcy : y < fb.colorBuffer.height)
    (hci : (y * fb.colorBuffer.width + x) * 4 + 3 < fb.colorBuffer.BUFFER_SIZE)
    (hdx : x < fb.depthBuffer.width) (hdy : y < fb.depthBuffer.height)
    (hdi : y * fb.depthBuffer.width + x < fb.depthBuffer.BUFFER_SIZE) :
    pixelCells (fb.InitWithColorAndDepth color depth) x y
      = (clamp01 depth, toBYTE (color.r * 255), toBYTE (color.g * 255),
          toBYTE (color.b * 255), toBYTE (color.a * 255)) := by
  obtain ⟨c0, c1, c2, c3⟩ := ColorBuffer.InitWithColor_pixel fb.colorBuffer color x y hcx hcy hci
  have dd := DepthBuffer.InitWithDepth_cell fb.depthBuffer depth x y hdx hdy hdi
  simp only [pixelCells, Prod.mk.injEq]
  exact ⟨dd, c0, c1, c2, c3⟩

/-! ### Short mipmap chains -/

/-- A read of `GetPixel` outside the grid is `Color::black`. -/
theorem Texture.GetPixel_outside [FloorRing F] (t : Texture F) (x y : ℤ)
    (h : ¬ (0 ≤ x ∧ x < t.width ∧ 0 ≤ y ∧ y < t.height)) : t.GetPixel x y = Color.black := by
  unfold Texture.GetPixel
  split
  · rw [if_neg h]
  · rfl

/-- The `while` loop of `GenerateMipmaps` started with sizes below eight, one of them
at least four: it runs twice and appends two levels, the second one by one. -/
theorem Texture.GenerateMipmaps.loop_two_levels [FloorRing F] (filterMode : TextureFilterMode)
    (wrapMode : TextureWrapMode) (w h : ℤ) (prevMip : Texture F)
    (hw : 1 ≤ w) (hw8 : w < 8) (hh : 1 ≤ h) (hh8 : h < 8) (h4 : 4 ≤ w ∨ 4 ≤ h) :
    Texture.GenerateMipmaps.loop filterMode wrapMode w h prevMip []
      = [Texture.GenerateMipmaps.level filterMode wrapMode prevMip
           (max 1 (w / 2)) (max 1 (h / 2)),
         Texture.GenerateMipmaps.level filterMode wrapMode
           (Texture.GenerateMipmaps.level filterMode wrapMode prevMip
             (max 1 (w / 2)) (max 1 (h / 2))) 1 1] := by
  obtain ⟨tw, bw, -, -⟩ := tdiv_two_of_pos w hw
  obtain ⟨th, bh, -, -⟩ := tdiv_two_of_pos h hh
  obtain ⟨tw2, -, -, -⟩ := tdiv_two_of_pos (max 1 (w / 2)) bw
  obtain ⟨th2, -, -, -⟩ := tdiv_two_of_pos (max 1 (h / 2)) bh
  have e1 : max 1 (max 1 (w / 2) / 2) = 1 := by omega
  have e2 : max 1 (max 1 (h / 2) / 2) = 1 := by omega
  rw [Texture.GenerateMipmaps.loop, if_pos (by omega)]
  simp only [tw, th, List.nil_append]
  rw [Texture.GenerateMipmaps.loop, if_pos (by omega)]
  simp only [tw2, th2, e1, e2]
  rw [Texture.GenerateMipmaps.loop, if_neg (by omega)]
  rfl

/-- The chain that `GenerateMipmaps` gives a texture with pixel data, both sizes at
least two and below eight, one of them at least four: two levels. -/
theorem Texture.GenerateMipmaps_two_levels [FloorRing F] (t : Texture F)
    (hs : t.textureData.isSome = true) (hw : 2 ≤ t.width) (hw8 : t.width < 8)
    (hh : 2 ≤ t.height) (hh8 : t.height < 8) (h4 : 4 ≤ t.width ∨ 4 ≤ t.height) :
    t.GenerateMipmaps.mipmaps
      = [Texture.GenerateMipmaps.level t.filterMode t.wrapMode t.ClearMipmaps
           (max 1 (t.width / 2)) (max 1 (t.height / 2)),
         Texture.GenerateMipmaps.level t.filterMode t.wrapMode
           (Texture.GenerateMipmaps.level t.filterMode t.wrapMode t.ClearMipmaps
             (max 1 (t.width / 2)) (max 1 (t.height / 2))) 1 1] := by
  have hg : ¬ (t.ClearMipmaps.textureData.isNone = true ∨ t.ClearMipmaps.width ≤ 1 ∨
      t.ClearMipmaps.height ≤ 1) := by
    have e1 : t.ClearMipmaps.textureData = t.textureData := rfl
    have e2 : t.ClearMipmaps.width = t.width := rfl
    have e3 : t.ClearMipmaps.height = t.height := rfl
    rw [e1, e2, e3]
    rintro (h | h | h)
    · rw [Option.isNone_iff_eq_none] at h
      rw [h] at hs
      exact absurd hs (by simp)
    · omega
    · omega
  have hL := Texture.GenerateMipmaps.loop_two_levels t.filterMode t.wrapMode t.width t.height
    t.ClearMipmaps (by omega) hw8 (by omega) hh8 h4
  simp only [Texture.GenerateMipmaps, hg, if_false]
  have e1 : t.ClearMipmaps.filterMode = t.filterMode := rfl
  have e2 : t.ClearMipmaps.wrapMode = t.wrapMode := rfl
  have e3 : t.ClearMipmaps.width = t.width := rfl
  have e4 : t.ClearMipmaps.height = t.height := rfl
  rw [e1, e2, e3, e4, hL]

/-! ### Cells beyond the allocated block -/

/-- A cell beyond the allocated block is not written by `InitWithDepth`. -/
theorem DepthBuffer.InitWithDepth_beyond (db : DepthBuffer F) (depth : F) (k : ℕ)
    (hk : db.BUFFER_SIZE ≤ k) : (db.InitWithDepth depth).buffer k = db.buffer k := by
  let rowBody : ℕ → ℕ → (ℕ → F) → (ℕ → F) := fun i j buffer =>
    let index := i * db.width + j
    if index < db.BUFFER_SIZE then Function.update buffer index (clamp01 depth)
    else buffer
  have inner : ∀ i buffer, buffer k = db.buffer k →
      (forCount 0 db.width (rowBody i) buffer) k = db.buffer k := by
    intro i buffer hP
    exact forCount_induction (fun _ b => b k = db.buffer k) (rowBody i) db.width 0 buffer
      (Nat.zero_le _) hP
      (fun j b _ _ hb => by
        simp only [rowBody]
        split_ifs with hc
        · rw [Function.update_noteq (by omega)]
          exact hb
        · exact hb)
  exact forCount_induction (fun _ b => b k = db.buffer k)
    (fun i buffer => forCount 0 db.width (rowBody i) buffer) db.height 0 db.buffer
    (Nat.zero_le _) rfl (fun i buffer _ _ hP => inner i buffer hP)

/-! ### Division by a scalar and normalization -/

/-- The constant `EPSILON` is positive. -/
theorem EPSILON_pos : (0 : F) < EPSILON := by
  unfold EPSILON
  norm_num

/-- A scalar that passes the guard `|scalar| < EPSILON` of the division operators
is not zero: the checked reciprocal has a value. -/
theorem checkedDiv_of_guard (s : F) (h : ¬ |s| < EPSILON) : checkedDiv 1 s = some (1 / s) := by
  have hs : s ≠ 0 := by
    intro e
    apply h
    rw [e, abs_zero]
    exact EPSILON_pos
  unfold checkedDiv
  rw [if_neg hs]

/-- C32. For `Vector2`, `Vector3` and `Vector4` and every scalar `s` with
`|s| < EPSILON`, the binary `v / s` is the zero vector and the compound `v /= s`
leaves `v` unchanged; `normalize` on a vector of magnitude below `EPSILON` leaves it
unchanged.  No division by zero is reachable: with the division read as a partial
operation, each operator and method has a value, for every vector and every scalar,
and it is the value of the operator or method. -/
theorem division_and_normalize_guards (sqrtf : F → F) (a2 : Vector2 F) (a3 : Vector3 F)
    (a4 : Vector4 F) (s : F) :
    (|s| < EPSILON →
      a2.div s = Vector2.zero ∧ a3.div s = Vector3.zero ∧ a4.div s = Vector4.zero ∧
      a2.divAssign s = a2 ∧ a3.divAssign s = a3 ∧ a4.divAssign s = a4) ∧
    (a2.magnitude sqrtf < EPSILON → a2.normalize sqrtf = a2) ∧
    (a3.magnitude sqrtf < EPSILON → a3.normalize sqrtf = a3) ∧
    (a4.magnitude sqrtf < EPSILON → a4.normalize sqrtf = a4) ∧
    (Vector2.div.checked a2 s = some (a2.div s) ∧
      Vector3.div.checked a3 s = some (a3.div s) ∧
      Vector4.div.checked a4 s = some (a4.div s)) ∧
    (Vector2.divAssign.checked a2 s = some (a2.divAssign s) ∧
      Vector3.divAssign.checked a3 s = some (a3.divAssign s) ∧
      Vector4.divAssign.checked a4 s = some (a4.divAssign s)) ∧
    (Vector2.normalize.checked sqrtf a2 = some (a2.normalize sqrtf) ∧
      Vector3.normalize.checked sqrtf a3 = some (a3.normalize sqrtf) ∧
      Vector4.normalize.checked sqrtf a4 = some (a4.normalize sqrtf)) := by
  have d2 : ∀ (a : Vector2 F) (r : F), Vector2.div.checked a r = some (a.div r) := by
    intro a r
    unfold Vector2.div.checked Vector2.div
    split_ifs with h
    · rfl
    · rw [checkedDiv_of_guard r h]
      rfl
  have d3 : ∀ (a : Vector3 F) (r : F), Vector3.div.checked a r = some (a.div r) := by
    intro a r
    unfold Vector3.div.checked Vector3.div
    split_ifs with h
    · rfl
    · rw [checkedDiv_of_guard r h]
      rfl
  have d4 : ∀ (a : Vector4 F) (r : F), Vector4.div.checked a r = some (a.div r) := by
    intro a r
    unfold Vector4.div.checked Vector4.div
    split_ifs with h
    · rfl
    · rw [checkedDiv_of_guard r h]
      rfl
  have e2 : ∀ (a : Vector2 F) (r : F),
      Vector2.divAssign.checked a r = some (a.divAssign r) := by
    intro a r
    unfold Vector2.divAssign.checked Vector2.divAssign
    split_ifs with h
    · rfl
    · rw [checkedDiv_of_guard r h]
      rfl
  have e3 : ∀ (a : Vector3 F) (r : F),
      Vector3.divAssign.checked a r = some (a.divAssign r) := by
    intro a r
    unfold Vector3.divAssign.checked Vector3.divAssign
    split_ifs with h
    · rfl
    · rw [checkedDiv_of_guard r h]
      rfl
  have e4 : ∀ (a : Vector4 F) (r : F),
      Vector4.divAssign.checked a r = some (a.divAssign r) := by
    intro a r
    unfold Vector4.divAssign.checked Vector4.divAssign
    split_ifs with h
    · rfl
    · rw [checkedDiv_of_guard r h]
      rfl
  refine ⟨?_, ?_, ?_, ?_, ⟨d2 a2 s, d3 a3 s, d4 a4 s⟩, ⟨e2 a2 s, e3 a3 s, e4 a4 s⟩, ?_, ?_, ?_⟩
  · intro h
    simp only [Vector2.div, Vector3.div, Vector4.div, Vector2.divAssign, Vector3.divAssign,
      Vector4.divAssign, if_pos h, and_self]
  · intro h
    simp only [Vector2.normalize, if_pos h]
  · intro h
    simp only [Vector3.normalize, if_pos h]
  · intro h
    simp only [Vector4.normalize, if_pos h]
  · unfold Vector2.normalize.checked Vector2.normalize
    simp only
    split_ifs with h
    · rfl
    · exact e2 _ _
  · unfold Vector3.normalize.checked Vector3.normalize
    simp only
    split_ifs with h
    · rfl
    · exact d3 _ _
  · unfold Vector4.normalize.checked Vector4.normalize
    simp only
    split_ifs with h
    · rfl
    · exact e4 _ _

/-- The guards at magnitude one: `1 < EPSILON` and `|1| < EPSILON` are false. -/
theorem not_one_lt_EPSILON : ¬ (1 : F) < EPSILON ∧ ¬ |(1 : F)| < EPSILON := by
  have h : ¬ (1 : F) < EPSILON := by
    unfold EPSILON
    norm_num
  refine ⟨h, ?_⟩
  rw [abs_one]
  exact h

/-- A magnitude of at least `EPSILON` is positive and passes the guard of the
division. -/
theorem guard_of_EPSILON_le (m : F) (h : ¬ m < EPSILON) : 0 < m ∧ ¬ |m| < EPSILON :=
  ⟨lt_of_lt_of_le EPSILON_pos (not_lt.mp h),
    fun h' => h (lt_of_le_of_lt (le_abs_self m) h')⟩

/-- Method `Vector2<T>::normalize` on a magnitude of at least `EPSILON`. -/
theorem Vector2.normalize_of_guard_v2 (sqrtf : F → F) (v : Vector2 F)
    (hm : ¬ v.magnitude sqrtf < EPSILON) :
    v.normalize sqrtf
      = ⟨v.x * (1 / v.magnitude sqrtf), v.y * (1 / v.magnitude sqrtf)⟩ := by
  unfold Vector2.normalize
  simp only
  rw [if_neg hm]
  unfold Vector2.divAssign
  rw [if_neg (guard_of_EPSILON_le _ hm).2]

/-- Method `Vector3<T>::normalize` on a magnitude of at least `EPSILON`. -/
theorem Vector3.normalize_of_guard_v3 (sqrtf : F → F) (v : Vector3 F)
    (hm : ¬ v.magnitude sqrtf < EPSILON) :
    v.normalize sqrtf
      = ⟨v.x * (1 / v.magnitude sqrtf), v.y * (1 / v.magnitude sqrtf),
         v.z * (1 / v.magnitude sqrtf), 1⟩ := by
  unfold Vector3.normalize
  simp only
  rw [if_neg hm]
  unfold Vector3.div
  rw [if_neg (guard_of_EPSILON_le _ hm).2]
  rfl

/-- Method `Vector4<T>::normalize` on a magnitude of at least `EPSILON`. -/
theorem Vector4.normalize_of_guard_v4 (sqrtf : F → F) (v : Vector4 F)
    (hm : ¬ v.magnitude sqrtf < EPSILON) :
    v.normalize sqrtf
      = ⟨v.x * (1 / v.magnitude sqrtf), v.y * (1 / v.magnitude sqrtf),
         v.z * (1 / v.magnitude sqrtf), v.w * (1 / v.magnitude sqrtf)⟩ := by
  unfold Vector4.normalize
  simp only
  rw [if_neg hm]
  unfold Vector4.divAssign
  rw [if_neg (guard_of_EPSILON_le _ hm).2]

/-- Normalization of a `Vector2` with an exact square root at its squared magnitude
and at one. -/
theorem Vector2.normalize_normalize_v2 (sqrtf : F → F) (v : Vector2 F)
    (hsq : sqrtf v.magnitudeSquared * sqrtf v.magnitudeSquared = v.magnitudeSquared)
    (h1 : sqrtf 1 = 1) :
    (v.normalize sqrtf).normalize sqrtf = v.normalize sqrtf ∧
    (EPSILON ≤ v.magnitude sqrtf → (v.normalize sqrtf).magnitude sqrtf = 1) ∧
    (v.magnitude sqrtf < EPSILON → v.normalize sqrtf = v) := by
  by_cases hm : v.magnitude sqrtf < EPSILON
  · have e : v.normalize sqrtf = v := by
      simp only [Vector2.normalize, if_pos hm]
    exact ⟨by rw [e, e], fun h => absurd hm (not_lt.mpr h), fun _ => e⟩
  · have hne : sqrtf v.magnitudeSquared ≠ 0 := ne_of_gt (guard_of_EPSILON_le _ hm).1
    have e := Vector2.normalize_of_guard_v2 sqrtf v hm
    have ms : (v.normalize sqrtf).magnitudeSquared = 1 := by
      rw [e]
      simp only [Vector2.magnitudeSquared, Vector2.magnitude] at hsq hne ⊢
      field_simp
      linear_combination -hsq
    have mg : (v.normalize sqrtf).magnitude sqrtf = 1 := by
      unfold Vector2.magnitude
      rw [ms, h1]
    refine ⟨?_, fun _ => mg, fun h => absurd h hm⟩
    have hm' : ¬ (v.normalize sqrtf).magnitude sqrtf < EPSILON := by
      rw [mg]
      exact not_one_lt_EPSILON.1
    rw [Vector2.normalize_of_guard_v2 sqrtf _ hm', mg, div_one, mul_one, mul_one]

/-- Normalization of a `Vector3` with an exact square root at its squared magnitude
and at one. -/
theorem Vector3.normalize_normalize_v3 (sqrtf : F → F) (v : Vector3 F)
    (hsq : sqrtf v.magnitudeSquared * sqrtf v.magnitudeSquared = v.magnitudeSquared)
    (h1 : sqrtf 1 = 1) :
    (v.normalize sqrtf).normalize sqrtf = v.normalize sqrtf ∧
    (EPSILON ≤ v.magnitude sqrtf → (v.normalize sqrtf).magnitude sqrtf = 1) ∧
    (v.magnitude sqrtf < EPSILON → v.normalize sqrtf = v) := by
  by_cases hm : v.magnitude sqrtf < EPSILON
  · have e : v.normalize sqrtf = v := by
      simp only [Vector3.normalize, if_pos hm]
    exact ⟨by rw [e, e], fun h => absurd hm (not_lt.mpr h), fun _ => e⟩
  · have hne : sqrtf v.magnitudeSquared ≠ 0 := ne_of_gt (guard_of_EPSILON_le _ hm).1
    have e := Vector3.normalize_of_guard_v3 sqrtf v hm
    have ms : (v.normalize sqrtf).magnitudeSquared = 1 := by
      rw [e]
      simp only [Vector3.magnitudeSquared, Vector3.magnitude] at hsq hne ⊢
      field_simp
      linear_combination -hsq
    have mg : (v.normalize sqrtf).magnitude sqrtf = 1 := by
      unfold Vector3.magnitude
      rw [ms, h1]
    refine ⟨?_, fun _ => mg, fun h => absurd h hm⟩
    have hm' : ¬ (v.normalize sqrtf).magnitude sqrtf < EPSILON := by
      rw [mg]
      exact not_one_lt_EPSILON.1
    rw [Vector3.normalize_of_guard_v3 sqrtf _ hm', mg, div_one, mul_one, mul_one, mul_one, e]

/-- Normalization of a `Vector4` with an exact square root at its squared magnitude
and at one. -/
theorem Vector4.normalize_normalize_v4 (sqrtf : F → F) (v : Vector4 F)
    (hsq : sqrtf v.magnitudeSquared * sqrtf v.magnitudeSquared = v.magnitudeSquared)
    (h1 : sqrtf 1 = 1) :
    (v.normalize sqrtf).normalize sqrtf = v.normalize sqrtf ∧
    (EPSILON ≤ v.magnitude sqrtf → (v.normalize sqrtf).magnitude sqrtf = 1) ∧
    (v.magnitude sqrtf < EPSILON → v.normalize sqrtf = v) := by
  by_cases hm : v.magnitude sqrtf < EPSILON
  · have e : v.normalize sqrtf = v := by
      simp only [Vector4.normalize, if_pos hm]
    exact ⟨by rw [e, e], fun h => absurd hm (not_lt.mpr h), fun _ => e⟩
  · have hne : sqrtf v.magnitudeSquared ≠ 0 := ne_of_gt (guard_of_EPSILON_le _ hm).1
    have e := Vector4.normalize_of_guard_v4 sqrtf v hm
    have ms : (v.normalize sqrtf).magnitudeSquared = 1 := by
      rw [e]
      simp only [Vector4.magnitudeSquared, Vector4.magnitude] at hsq hne ⊢
      field_simp
      linear_combination -hsq
    have mg : (v.normalize sqrtf).magnitude sqrtf = 1 := by
      unfold Vector4.magnitude
      rw [ms, h1]
    refine ⟨?_, fun _ => mg, fun h => absurd h hm⟩
    have hm' : ¬ (v.normalize sqrtf).magnitude sqrtf < EPSILON := by
      rw [mg]
      exact not_one_lt_EPSILON.1
    rw [Vector4.normalize_of_guard_v4 sqrtf _ hm', mg, div_one, mul_one, mul_one, mul_one, mul_one]

/-- C33. `normalize` is idempotent for `Vector2f`, `Vector3f` and `Vector4f`, when
`std::sqrt` is exact at the vector's squared magnitude and at one (real arithmetic):
`normalize(normalize(v)) = normalize(v)`; when `|v| ≥ EPSILON` the result has
magnitude `1`, and when `|v| < EPSILON` it is `v`. -/
theorem normalize_idempotent (sqrtf : F → F) (v2 : Vector2 F) (v3 : Vector3 F)
    (v4 : Vector4 F) (h1 : sqrtf 1 = 1)
    (h2 : sqrtf v2.magnitudeSquared * sqrtf v2.magnitudeSquared = v2.magnitudeSquared)
    (h3 : sqrtf v3.magnitudeSquared * sqrtf v3.magnitudeSquared = v3.magnitudeSquared)
    (h4 : sqrtf v4.magnitudeSquared * sqrtf v4.magnitudeSquared = v4.magnitudeSquared) :
    ((v2.normalize sqrtf).normalize sqrtf = v2.normalize sqrtf ∧
      (EPSILON ≤ v2.magnitude sqrtf → (v2.normalize sqrtf).magnitude sqrtf = 1) ∧
      (v2.magnitude sqrtf < EPSILON → v2.normalize sqrtf = v2)) ∧
    ((v3.normalize sqrtf).normalize sqrtf = v3.normalize sqrtf ∧
      (EPSILON ≤ v3.magnitude sqrtf → (v3.normalize sqrtf).magnitude sqrtf = 1) ∧
      (v3.magnitude sqrtf < EPSILON → v3.normalize sqrtf = v3)) ∧
    ((v4.normalize sqrtf).normalize sqrtf = v4.normalize sqrtf ∧
      (EPSILON ≤ v4.magnitude sqrtf → (v4.normalize sqrtf).magnitude sqrtf = 1) ∧
      (v4.magnitude sqrtf < EPSILON → v4.normalize sqrtf = v4)) :=
  ⟨Vector2.normalize_normalize_v2 sqrtf v2 h2 h1, Vector3.normalize_normalize_v3 sqrtf v3 h3 h1,
    Vector4.normalize_normalize_v4 sqrtf v4 h4 h1⟩

/-! ### Swapping the frame buffers -/

/-- C31. `BufferManager::SwapBuffers` gives the front frame buffer the colour
storage, the depth storage and the `width`, `height` of both buffers of the back
frame buffer, and the back frame buffer those of the front one; `BUFFER_SIZE`,
`channel` and the background colour stay.  The colour and the depth buffer of the
new front frame buffer share one `(width, height)` exactly when those of the old
back frame buffer did, and likewise for the new back and the old front.  Applying
`SwapBuffers` twice gives back the manager it started from. -/
theorem swapBuffers_exchanges_and_involutive {G : Type} (bm : BufferManager G) :
    (bm.SwapBuffers.m_frontBuffer.colorBuffer.buffer = bm.m_backBuffer.colorBuffer.buffer ∧
      bm.SwapBuffers.m_frontBuffer.depthBuffer.buffer = bm.m_backBuffer.depthBuffer.buffer ∧
      bm.SwapBuffers.m_frontBuffer.colorBuffer.width = bm.m_backBuffer.colorBuffer.width ∧
      bm.SwapBuffers.m_frontBuffer.colorBuffer.height = bm.m_backBuffer.colorBuffer.height ∧
      bm.SwapBuffers.m_frontBuffer.depthBuffer.width = bm.m_backBuffer.depthBuffer.width ∧
      bm.SwapBuffers.m_frontBuffer.depthBuffer.height = bm.m_backBuffer.depthBuffer.height) ∧
    (bm.SwapBuffers.m_backBuffer.colorBuffer.buffer = bm.m_frontBuffer.colorBuffer.buffer ∧
      bm.SwapBuffers.m_backBuffer.depthBuffer.buffer = bm.m_frontBuffer.depthBuffer.buffer ∧
      bm.SwapBuffers.m_backBuffer.colorBuffer.width = bm.m_frontBuffer.colorBuffer.width ∧
      bm.SwapBuffers.m_backBuffer.colorBuffer.height = bm.m_frontBuffer.colorBuffer.height ∧
      bm.SwapBuffers.m_backBuffer.depthBuffer.width = bm.m_frontBuffer.depthBuffer.width ∧
      bm.SwapBuffers.m_backBuffer.depthBuffer.height = bm.m_frontBuffer.depthBuffer.height) ∧
    (bm.SwapBuffers.m_frontBuffer.colorBuffer.BUFFER_SIZE
        = bm.m_frontBuffer.colorBuffer.BUFFER_SIZE ∧
      bm.SwapBuffers.m_frontBuffer.colorBuffer.channel = bm.m_frontBuffer.colorBuffer.channel ∧
      bm.SwapBuffers.m_frontBuffer.depthBuffer.BUFFER_SIZE
        = bm.m_frontBuffer.depthBuffer.BUFFER_SIZE ∧
      bm.SwapBuffers.m_backBuffer.colorBuffer.BUFFER_SIZE
        = bm.m_backBuffer.colorBuffer.BUFFER_SIZE ∧
      bm.SwapBuffers.m_backBuffer.colorBuffer.channel = bm.m_backBuffer.colorBuffer.channel ∧
      bm.SwapBuffers.m_backBuffer.depthBuffer.BUFFER_SIZE
        = bm.m_backBuffer.depthBuffer.BUFFER_SIZE ∧
      bm.SwapBuffers.m_backgroundColor = bm.m_backgroundColor ∧
      bm.SwapBuffers.m_backgroundColorObj = bm.m_backgroundColorObj) ∧
    ((bm.SwapBuffers.m_frontBuffer.colorBuffer.width
          = bm.SwapBuffers.m_frontBuffer.depthBuffer.width ∧
        bm.SwapBuffers.m_frontBuffer.colorBuffer.height
          = bm.SwapBuffers.m_frontBuffer.depthBuffer.height) ↔
      (bm.m_backBuffer.colorBuffer.width = bm.m_backBuffer.depthBuffer.width ∧
        bm.m_backBuffer.colorBuffer.height = bm.m_backBuffer.depthBuffer.height)) ∧
    ((bm.SwapBuffers.m_backBuffer.colorBuffer.width
          = bm.SwapBuffers.m_backBuffer.depthBuffer.width ∧
        bm.SwapBuffers.m_backBuffer.colorBuffer.height
          = bm.SwapBuffers.m_backBuffer.depthBuffer.height) ↔
      (bm.m_frontBuffer.colorBuffer.width = bm.m_frontBuffer.depthBuffer.width ∧
        bm.m_frontBuffer.colorBuffer.height = bm.m_frontBuffer.depthBuffer.height)) ∧
    bm.SwapBuffers.SwapBuffers = bm :=
  ⟨⟨rfl, rfl, rfl, rfl, rfl, rfl⟩, ⟨rfl, rfl, rfl, rfl, rfl, rfl⟩,
    ⟨rfl, rfl, rfl, rfl, rfl, rfl, rfl, rfl⟩, Iff.rfl, Iff.rfl, rfl⟩

/-! ### Matrix products and vectors -/

/-- The product of a matrix product with a vector. -/
theorem Matrix.mul_mulVec (A B : Matrix F) (v : Vector4 F) :
    (A.mul B).mulVec v = A.mulVec (B.mulVec v) := by
  simp only [Matrix.mulVec, Matrix.mul_m]
  congr 1 <;> ring

/-- C39. Every entry of the unrolled product `A * B` is the sum over `k` of
`A[i][k] * B[k][j]`; the product is compatible with `Matrix * Vector4`,
`(A * B) * v = A * (B * v)`; and the clip position `(P * V * M) * pos` that
`ColorShader::VertexShader` computes is `P * (V * (M * pos))`. -/
theorem matrix_mul_textbook_and_mulVec (sqrtf : F → F) (A B : Matrix F) (v : Vector4 F)
    (input : VertexShaderInput F) :
    (∀ i j : Fin 4, (A.mul B).m i j = ∑ k : Fin 4, A.m i k * B.m k j) ∧
    (A.mul B).mulVec v = A.mulVec (B.mulVec v) ∧
    (ColorShader.VertexShader sqrtf input).position
      = input.projMatrix.mulVec (input.viewMatrix.mulVec
          (input.modelMatrix.mulVec input.position)) := by
  refine ⟨?_, Matrix.mul_mulVec A B v, ?_⟩
  · intro i j
    rw [Matrix.mul_m, Fin.sum_univ_four]
  · show ((input.projMatrix.mul input.viewMatrix).mul input.modelMatrix).mulVec input.position
      = _
    rw [Matrix.mul_mulVec, Matrix.mul_mulVec]

/-! ### The rasterizer's bounding box, derivatives and weights -/

/-- The loop body of `rasterize` is the bounding box, the derivatives and the tiled
traversal of the pixel body. -/
theorem DrawTriangle.rasterize_eq [FloorRing F] (sqrtf : F → F) (W H : ℤ) (shader : Shader F)
    (triangle : Triangle F) (fb : FrameBuffer F) :
    DrawTriangle.rasterize sqrtf W H shader triangle fb
      = (let s1 := ProcessVertexOutput W H triangle.1
         let s2 := ProcessVertexOutput W H triangle.2.1
         let s3 := ProcessVertexOutput W H triangle.2.2
         let box := DrawTriangle.boundingBox W H s1 s2 s3
         let d := DrawTriangle.derivatives s1 s2 s3
         DrawTriangle.traverse box.1 box.2.1 box.2.2.1 box.2.2.2
           (fun x y fb => DrawTriangle.pixel sqrtf shader s1 s2 s3
             triangle.1.position.w triangle.2.1.position.w triangle.2.2.position.w
             ⟨s1.position.x, s1.position.y⟩ ⟨s2.position.x, s2.position.y⟩
             ⟨s3.position.x, s3.position.y⟩
             (sqrtf (d.1 * d.1 + d.2.1 * d.2.1)) (sqrtf (d.2.2.1 * d.2.2.1 + d.2.2.2 * d.2.2.2))
             x y fb) fb) :=
  rfl

/-- C34. For screen-space vertices whose determinant
`det = e12.x * e13.y - e12.y * e13.x` has `|det| ≥ EPSILON`, the derivatives
`(dudx, dvdx, dudy, dvdy)` computed in `DrawTriangle` solve the two linear systems:
`dudx * e12.x + dudy * e12.y = tUV12.x`, `dudx * e13.x + dudy * e13.y = tUV13.x`,
`dvdx * e12.x + dvdy * e12.y = tUV12.y`, `dvdx * e13.x + dvdy * e13.y = tUV13.y`. -/
theorem uv_derivatives_solve_systems (s1 s2 s3 : VertexOutput F)
    (hdet : EPSILON ≤ |(s2.position.x - s1.position.x) * (s3.position.y - s1.position.y)
      - (s2.position.y - s1.position.y) * (s3.position.x - s1.position.x)|) :
    let e12x := s2.position.x - s1.position.x
    let e12y := s2.position.y - s1.position.y
    let e13x := s3.position.x - s1.position.x
    let e13y := s3.position.y - s1.position.y
    let d := DrawTriangle.derivatives s1 s2 s3
    let dudx := d.1
    let dvdx := d.2.1
    let dudy := d.2.2.1
    let dvdy := d.2.2.2
    dudx * e12x + dudy * e12y = s2.texcoord.x - s1.texcoord.x ∧
    dudx * e13x + dudy * e13y = s3.texcoord.x - s1.texcoord.x ∧
    dvdx * e12x + dvdy * e12y = s2.texcoord.y - s1.texcoord.y ∧
    dvdx * e13x + dvdy * e13y = s3.texcoord.y - s1.texcoord.y := by
  intro e12x e12y e13x e13y d dudx dvdx dudy dvdy
  have hpos : (0 : F) < EPSILON := by
    unfold EPSILON
    norm_num
  have hne : e12x * e13y - e12y * e13x ≠ 0 := by
    intro h0
    have : |e12x * e13y - e12y * e13x| = 0 := by rw [h0, abs_zero]
    have h1 : EPSILON ≤ |e12x * e13y - e12y * e13x| := hdet
    rw [this] at h1
    exact absurd hpos (not_lt.mpr h1)
  have hguard : ¬ |e12x * e13y - e12y * e13x| < EPSILON := not_lt.mpr hdet
  have hd : d = ((e13y * (s2.texcoord.x - s1.texcoord.x) - e12y * (s3.texcoord.x - s1.texcoord.x))
        * (1 / (e12x * e13y - e12y * e13x)),
      (e13y * (s2.texcoord.y - s1.texcoord.y) - e12y * (s3.texcoord.y - s1.texcoord.y))
        * (1 / (e12x * e13y - e12y * e13x)),
      (e12x * (s3.texcoord.x - s1.texcoord.x) - e13x * (s2.texcoord.x - s1.texcoord.x))
        * (1 / (e12x * e13y - e12y * e13x)),
      (e12x * (s3.texcoord.y - s1.texcoord.y) - e13x * (s2.texcoord.y - s1.texcoord.y))
        * (1 / (e12x * e13y - e12y * e13x))) := by
    simp only [d, DrawTriangle.derivatives, Vector2.sub]
    rw [if_neg hguard]
  simp only [dudx, dvdx, dudy, dvdy, hd]
  refine ⟨?_, ?_, ?_, ?_⟩ <;> field_simp <;> ring

/-- A convex combination lies above every lower bound of its points. -/
theorem le_convex_combination (a b c w1 w2 w3 m : F) (h1 : 0 ≤ w1) (h2 : 0 ≤ w2)
    (h3 : 0 ≤ w3) (hs : w1 + w2 + w3 = 1) (ha : m ≤ a) (hb : m ≤ b) (hc : m ≤ c) :
    m ≤ w1 * a + w2 * b + w3 * c := by
  have e : m = w1 * m + w2 * m + w3 * m := by
    rw [← add_mul, ← add_mul, hs, one_mul]
  rw [e]
  exact add_le_add (add_le_add (mul_le_mul_of_nonneg_left ha h1)
    (mul_le_mul_of_nonneg_left hb h2)) (mul_le_mul_of_nonneg_left hc h3)

/-- A convex combination lies below every upper bound of its points. -/
theorem convex_combination_le (a b c w1 w2 w3 m : F) (h1 : 0 ≤ w1) (h2 : 0 ≤ w2)
    (h3 : 0 ≤ w3) (hs : w1 + w2 + w3 = 1) (ha : a ≤ m) (hb : b ≤ m) (hc : c ≤ m) :
    w1 * a + w2 * b + w3 * c ≤ m := by
  have e : m = w1 * m + w2 * m + w3 * m := by
    rw [← add_mul, ← add_mul, hs, one_mul]
  rw [e]
  exact add_le_add (add_le_add (mul_le_mul_of_nonneg_left ha h1)
    (mul_le_mul_of_nonneg_left hb h2)) (mul_le_mul_of_nonneg_left hc h3)

/-- The weights that `PointInTriangle` returns with `true`: non-negative, of sum
one, and barycentric coordinates of the point. -/
theorem PointInTriangle_weights (x y : F) (v1 v2 v3 : Vector2 F) (a b c : F)
    (h : (PointInTriangle x y v1 v2 v3 a b c).1 = true) :
    let r := PointInTriangle x y v1 v2 v3 a b c
    0 ≤ r.2.1 ∧ 0 ≤ r.2.2.1 ∧ 0 ≤ r.2.2.2 ∧ r.2.1 + r.2.2.1 + r.2.2.2 = 1 ∧
    r.2.1 * v1.x + r.2.2.1 * v2.x + r.2.2.2 * v3.x = x ∧
    r.2.1 * v1.y + r.2.2.1 * v2.y + r.2.2.2 * v3.y = y := by
  intro r
  have hr : r = PointInTriangle x y v1 v2 v3 a b c := rfl
  unfold PointInTriangle at hr h
  simp only at hr h
  by_cases h0 : |EdgeFunction v1 v2 v3| < 1 / 100000
  · rw [if_pos h0] at h
    exact absurd h (by simp)
  · rw [if_neg h0] at hr h
    by_cases h1 : EdgeFunction v2 v3 ⟨x, y⟩ * (1 / EdgeFunction v1 v2 v3) < 0
    · rw [if_pos h1] at h
      exact absurd h (by simp)
    · rw [if_neg h1] at hr h
      by_cases h2 : EdgeFunction v3 v1 ⟨x, y⟩ * (1 / EdgeFunction v1 v2 v3) < 0
      · rw [if_pos h2] at h
        exact absurd h (by simp)
      · rw [if_neg h2] at hr h
        have h3 : 0 ≤ 1 - EdgeFunction v2 v3 ⟨x, y⟩ * (1 / EdgeFunction v1 v2 v3)
            - EdgeFunction v3 v1 ⟨x, y⟩ * (1 / EdgeFunction v1 v2 v3) := by
          simpa using h
        have hA : EdgeFunction v1 v2 v3 ≠ 0 := by
          intro e
          apply h0
          rw [e, abs_zero]
          norm_num
        rw [hr]
        refine ⟨not_lt.mp h1, not_lt.mp h2, h3, by ring, ?_, ?_⟩
        · simp only [EdgeFunction] at hA ⊢
          field_simp
          ring
        · simp only [EdgeFunction] at hA ⊢
          field_simp
          ring

/-- C35. Whenever `PointInTriangle(x, y, v1, v2, v3)` returns true for the positions
`v1`, `v2`, `v3` of three screen vertices, the returned weights satisfy
`w1 + w2 + w3 = 1` and `w1*v1 + w2*v2 + w3*v3 = (x, y)`; and the `position.x`,
`position.y` that `InterpolateVertex` produces from the three vertices with these
weights are `x` and `y`, the pixel centre. -/
theorem pointInTriangle_weights_are_barycentric (sqrtf : F → F) (s1 s2 s3 : VertexOutput F)
    (x y a b c : F)
    (h : (PointInTriangle x y ⟨s1.position.x, s1.position.y⟩ ⟨s2.position.x, s2.position.y⟩
      ⟨s3.position.x, s3.position.y⟩ a b c).1 = true) :
    let r := PointInTriangle x y ⟨s1.position.x, s1.position.y⟩ ⟨s2.position.x, s2.position.y⟩
      ⟨s3.position.x, s3.position.y⟩ a b c
    r.2.1 + r.2.2.1 + r.2.2.2 = 1 ∧
    r.2.1 * s1.position.x + r.2.2.1 * s2.position.x + r.2.2.2 * s3.position.x = x ∧
    r.2.1 * s1.position.y + r.2.2.1 * s2.position.y + r.2.2.2 * s3.position.y = y ∧
    (InterpolateVertex sqrtf s1 s2 s3 r.2.1 r.2.2.1 r.2.2.2).position.x = x ∧
    (InterpolateVertex sqrtf s1 s2 s3 r.2.1 r.2.2.1 r.2.2.2).position.y = y := by
  intro r
  obtain ⟨-, -, -, hs, hx, hy⟩ := PointInTriangle_weights x y _ _ _ a b c h
  exact ⟨hs, hx, hy, hx, hy⟩

/-- The conversion to `int` of an integer at most `k`, for a non-negative `k`, is at
most `k`. -/
theorem toInt32_le (z k : ℤ) (hk : 0 ≤ k) (h : z ≤ k) : toInt32 z ≤ k := by
  unfold toInt32
  split_ifs <;> omega

/-- The conversion to `int` of an integer in `[k, 2^31)`, for a non-negative `k`, is
at least `k`. -/
theorem le_toInt32 (z k : ℤ) (hk : 0 ≤ k) (h : k ≤ z) (hz : z < 2 ^ 31) : k ≤ toInt32 z := by
  unfold toInt32
  split_ifs <;> omega

/-- The bounding box of `DrawTriangle` never leaves the screen, `0 ≤ minX`,
`maxX ≤ width - 1`, `0 ≤ minY`, `maxY ≤ height - 1`.  When the greatest `x` and the
greatest `y` of the three screen positions are at most `INT_MAX = 2^31 - 1`, so that
the conversion of their `std::ceil` to `int` does not overflow, it does not drop a
covered on-screen pixel: for every pixel `(x, y)` with `0 ≤ x < width` and
`0 ≤ y < height` whose centre `(x + 0.5, y + 0.5)` passes `PointInTriangle` on the
three screen positions, `minX ≤ x ≤ maxX` and `minY ≤ y ≤ maxY`. -/
theorem boundingBox_keeps_covered_pixels [FloorRing F] (W H : ℤ) (s1 s2 s3 : VertexOutput F)
    (x y : ℤ) (a b c : F) (hx0 : 0 ≤ x) (hx : x < W) (hy0 : 0 ≤ y) (hy : y < H)
    (hin : (PointInTriangle ((x : F) + 1 / 2) ((y : F) + 1 / 2)
      ⟨s1.position.x, s1.position.y⟩ ⟨s2.position.x, s2.position.y⟩
      ⟨s3.position.x, s3.position.y⟩ a b c).1 = true)
    (hmx : max (max s1.position.x s2.position.x) s3.position.x ≤ 2 ^ 31 - 1)
    (hmy : max (max s1.position.y s2.position.y) s3.position.y ≤ 2 ^ 31 - 1) :
    let box := DrawTriangle.boundingBox W H s1 s2 s3
    (0 ≤ box.1 ∧ box.2.1 ≤ W - 1 ∧ 0 ≤ box.2.2.1 ∧ box.2.2.2 ≤ H - 1) ∧
    (box.1 ≤ x ∧ x ≤ box.2.1 ∧ box.2.2.1 ≤ y ∧ y ≤ box.2.2.2) := by
  intro box
  obtain ⟨h1, h2, h3, hs, ex, ey⟩ := PointInTriangle_weights _ _ _ _ _ a b c hin
  simp only at ex ey
  set w1 := (PointInTriangle ((x : F) + 1 / 2) ((y : F) + 1 / 2)
      ⟨s1.position.x, s1.position.y⟩ ⟨s2.position.x, s2.position.y⟩
      ⟨s3.position.x, s3.position.y⟩ a b c).2.1 with hw1
  set w2 := (PointInTriangle ((x : F) + 1 / 2) ((y : F) + 1 / 2)
      ⟨s1.position.x, s1.position.y⟩ ⟨s2.position.x, s2.position.y⟩
      ⟨s3.position.x, s3.position.y⟩ a b c).2.2.1 with hw2
  set w3 := (PointInTriangle ((x : F) + 1 / 2) ((y : F) + 1 / 2)
      ⟨s1.position.x, s1.position.y⟩ ⟨s2.position.x, s2.position.y⟩
      ⟨s3.position.x, s3.position.y⟩ a b c).2.2.2 with hw3
  have half : (0 : F) < 1 / 2 := by norm_num
  -- the centre lies between the least and the greatest coordinate
  have minx : min (min s1.position.x s2.position.x) s3.position.x ≤ (x : F) + 1 / 2 := by
    rw [← ex]
    exact le_convex_combination _ _ _ w1 w2 w3 _ h1 h2 h3 hs
      (le_trans (min_le_left _ _) (min_le_left _ _))
      (le_trans (min_le_left _ _) (min_le_right _ _)) (min_le_right _ _)
  have maxx : (x : F) + 1 / 2 ≤ max (max s1.position.x s2.position.x) s3.position.x := by
    rw [← ex]
    exact convex_combination_le _ _ _ w1 w2 w3 _ h1 h2 h3 hs
      (le_trans (le_max_left _ _) (le_max_left _ _))
      (le_trans (le_max_right _ _) (le_max_left _ _)) (le_max_right _ _)
  have miny : min (min s1.position.y s2.position.y) s3.position.y ≤ (y : F) + 1 / 2 := by
    rw [← ey]
    exact le_convex_combination _ _ _ w1 w2 w3 _ h1 h2 h3 hs
      (le_trans (min_le_left _ _) (min_le_left _ _))
      (le_trans (min_le_left _ _) (min_le_right _ _)) (min_le_right _ _)
  have maxy : (y : F) + 1 / 2 ≤ max (max s1.position.y s2.position.y) s3.position.y := by
    rw [← ey]
    exact convex_combination_le _ _ _ w1 w2 w3 _ h1 h2 h3 hs
      (le_trans (le_max_left _ _) (le_max_left _ _))
      (le_trans (le_max_right _ _) (le_max_left _ _)) (le_max_right _ _)
  have floorLe : ∀ (m : F) (k : ℤ), m ≤ (k : F) + 1 / 2 → ⌊m⌋ ≤ k := by
    intro m k hm
    rw [Int.floor_le_iff]
    have : (k : F) + 1 / 2 < (k : F) + 1 := by
      have : (1 / 2 : F) < 1 := by norm_num
      exact add_lt_add_left this _
    exact lt_of_le_of_lt hm this
  have leCeil : ∀ (m : F) (k : ℤ), (k : F) + 1 / 2 ≤ m → k ≤ ⌈m⌉ := by
    intro m k hm
    have h1 : (k : F) ≤ m := le_trans (le_add_of_nonneg_right (le_of_lt half)) hm
    have h2 : (k : F) ≤ ((⌈m⌉ : ℤ) : F) := le_trans h1 (Int.le_ceil m)
    exact_mod_cast h2
  -- the conversion of the two ceilings does not overflow
  have ceilLt : ∀ (m : F), m ≤ 2 ^ 31 - 1 → ⌈m⌉ < 2 ^ 31 := by
    intro m hm
    have h : ⌈m⌉ ≤ 2 ^ 31 - 1 := by
      rw [Int.ceil_le]
      exact le_trans hm (le_of_eq (by norm_num))
    omega
  have fx := toInt32_le _ x hx0 (floorLe _ x minx)
  have cx := le_toInt32 _ x hx0 (leCeil _ x maxx) (ceilLt _ hmx)
  have fy := toInt32_le _ y hy0 (floorLe _ y miny)
  have cy := le_toInt32 _ y hy0 (leCeil _ y maxy) (ceilLt _ hmy)
  simp only [box, DrawTriangle.boundingBox]
  refine ⟨⟨le_max_left _ _, min_le_left _ _, le_max_left _ _, min_le_left _ _⟩,
    max_le hx0 fx, le_min (by omega) cx, max_le hy0 fy, le_min (by omega) cy⟩

/-! ### The calls of the near-plane clipper -/

/-- The triangles of the traced clipper are those of
`ClipTriangleAgainstNearPlane`. -/
theorem ClipTriangleAgainstNearPlane.traced_fst (sqrtf : F → F) (v1 v2 v3 : VertexOutput F) :
    (ClipTriangleAgainstNearPlane.traced sqrtf v1 v2 v3).1
      = ClipTriangleAgainstNearPlane sqrtf v1 v2 v3 := by
  by_cases i1 : (1 : F) / 10 ≤ v1.position.w <;> by_cases i2 : (1 : F) / 10 ≤ v2.position.w <;>
    by_cases i3 : (1 : F) / 10 ≤ v3.position.w <;>
    simp only [ClipTriangleAgainstNearPlane.traced, ClipTriangleAgainstNearPlane, i1, i2, i3,
      decide_True, decide_False, if_true, if_false, Bool.not_true, Bool.not_false,
      Bool.false_eq_true] <;>
    norm_num

/-- The clip parameter of a segment from an inside vertex to an outside vertex. -/
theorem clip_parameter_range (p q : F) (hp : 1 / 10 ≤ p) (hq : q < 1 / 10) :
    q - p < 0 ∧ 0 ≤ (1 / 10 - p) / (q - p) ∧ (1 / 10 - p) / (q - p) < 1 := by
  have hd : q - p < 0 := sub_neg.mpr (lt_of_lt_of_le hq hp)
  refine ⟨hd, ?_, ?_⟩
  · exact div_nonneg_of_nonpos (sub_nonpos.mpr hp) (le_of_lt hd)
  · rw [div_lt_one_of_neg hd]
    exact sub_lt_sub_right hq p

/-- C38. The clipper with its calls recorded returns the triangles of
`ClipTriangleAgainstNearPlane`, and every call `ClipAgainstNearPlane(P, Q)` that it
records has `P.w ≥ 0.1 > Q.w`: the denominator
`Q.w - P.w` is negative, the clip parameter `t = (0.1 - P.w) / (Q.w - P.w)` satisfies
`0 ≤ t < 1`, and the position of the generated vertex is `P + t (Q - P)`, a point of
the segment from the inside vertex to the outside vertex. -/
theorem clip_calls_inside_to_outside (sqrtf : F → F) (v1 v2 v3 : VertexOutput F) :
    (ClipTriangleAgainstNearPlane.traced sqrtf v1 v2 v3).1
      = ClipTriangleAgainstNearPlane sqrtf v1 v2 v3 ∧
    ∀ c ∈ (ClipTriangleAgainstNearPlane.traced sqrtf v1 v2 v3).2,
      1 / 10 ≤ c.1.position.w ∧ c.2.position.w < 1 / 10 ∧
      c.2.position.w - c.1.position.w < 0 ∧
      0 ≤ (1 / 10 - c.1.position.w) / (c.2.position.w - c.1.position.w) ∧
      (1 / 10 - c.1.position.w) / (c.2.position.w - c.1.position.w) < 1 ∧
      (ClipAgainstNearPlane sqrtf c.1 c.2).position
        = ⟨c.1.position.x + (1 / 10 - c.1.position.w) / (c.2.position.w - c.1.position.w)
              * (c.2.position.x - c.1.position.x),
           c.1.position.y + (1 / 10 - c.1.position.w) / (c.2.position.w - c.1.position.w)
              * (c.2.position.y - c.1.position.y),
           c.1.position.z + (1 / 10 - c.1.position.w) / (c.2.position.w - c.1.position.w)
              * (c.2.position.z - c.1.position.z),
           c.1.position.w + (1 / 10 - c.1.position.w) / (c.2.position.w - c.1.position.w)
              * (c.2.position.w - c.1.position.w)⟩ := by
  have key : ∀ P Q : VertexOutput F, 1 / 10 ≤ P.position.w → Q.position.w < 1 / 10 →
      1 / 10 ≤ P.position.w ∧ Q.position.w < 1 / 10 ∧
      Q.position.w - P.position.w < 0 ∧
      0 ≤ (1 / 10 - P.position.w) / (Q.position.w - P.position.w) ∧
      (1 / 10 - P.position.w) / (Q.position.w - P.position.w) < 1 ∧
      (ClipAgainstNearPlane sqrtf P Q).position
        = ⟨P.position.x + (1 / 10 - P.position.w) / (Q.position.w - P.position.w)
              * (Q.position.x - P.position.x),
           P.position.y + (1 / 10 - P.position.w) / (Q.position.w - P.position.w)
              * (Q.position.y - P.position.y),
           P.position.z + (1 / 10 - P.position.w) / (Q.position.w - P.position.w)
              * (Q.position.z - P.position.z),
           P.position.w + (1 / 10 - P.position.w) / (Q.position.w - P.position.w)
              * (Q.position.w - P.position.w)⟩ := by
    intro P Q hP hQ
    obtain ⟨hd, t0, t1⟩ := clip_parameter_range P.position.w Q.position.w hP hQ
    refine ⟨hP, hQ, hd, t0, t1, ?_⟩
    have hw : P.position.w + (1 / 10 - P.position.w) / (Q.position.w - P.position.w)
        * (Q.position.w - P.position.w) = 1 / 10 := by
      rw [div_mul_cancel₀ _ (ne_of_lt hd)]
      ring
    rw [hw]
    rfl
  refine ⟨ClipTriangleAgainstNearPlane.traced_fst sqrtf v1 v2 v3, ?_⟩
  intro c hc
  unfold ClipTriangleAgainstNearPlane.traced at hc
  simp only at hc
  by_cases i1 : (1 : F) / 10 ≤ v1.position.w <;> by_cases i2 : (1 : F) / 10 ≤ v2.position.w <;>
    by_cases i3 : (1 : F) / 10 ≤ v3.position.w <;>
    simp only [i1, i2, i3, decide_True, decide_False, if_true, if_false, Bool.not_true,
      Bool.not_false, Bool.false_eq_true] at hc <;>
    norm_num at hc <;>
    rcases hc with rfl | rfl <;> exact key _ _ (by assumption) (not_le.mp (by assumption))

/-! ### Mip indices of the trilinear sample -/

/-- The function `clamp` returns a value between its bounds when they are ordered. -/
theorem clamp_mem (value lo hi : F) (h : lo ≤ hi) :
    lo ≤ clamp value lo hi ∧ clamp value lo hi ≤ hi := by
  unfold clamp
  split_ifs with h1 h2
  · exact ⟨le_rfl, h⟩
  · exact ⟨h, le_rfl⟩
  · exact ⟨not_lt.mp h1, not_lt.mp h2⟩

/-- For a level in `[0, n]` with `n = mipmaps.size() ≥ 1`, every index that
`TrilinearSample` accesses is in `[0, n)`, and the sample has a value. -/
theorem Texture.TrilinearSample_in_range [FloorRing F] (t : Texture F) (u v level : F)
    (hn : 1 ≤ t.mipmaps.length) (h0 : 0 ≤ level) (h1 : level ≤ ((t.mipmaps.length : ℕ) : F)) :
    (∀ i ∈ Texture.TrilinearSample.accesses t level,
      0 ≤ i ∧ i < ((t.mipmaps.length : ℕ) : ℤ)) ∧
    (t.TrilinearSample u v level).isSome = true := by
  have f0 : 0 ≤ ⌊level⌋ := Int.floor_nonneg.mpr h0
  have f1 : ⌊level⌋ ≤ ((t.mipmaps.length : ℕ) : ℤ) := by
    have : ⌊level⌋ ≤ ⌊((t.mipmaps.length : ℕ) : F)⌋ := Int.floor_le_floor h1
    rwa [Int.floor_natCast] at this
  constructor
  · intro i hi
    unfold Texture.TrilinearSample.accesses at hi
    by_cases hl : level ≤ 0
    · rw [if_pos hl] at hi
      exact absurd hi (List.not_mem_nil i)
    · rw [if_neg hl] at hi
      simp only [List.mem_append] at hi
      rcases hi with hi | hi
      · split_ifs at hi with e1 e2
        · exact absurd hi (List.not_mem_nil i)
        · rw [List.mem_singleton] at hi
          omega
        · rw [List.mem_singleton] at hi
          omega
      · split_ifs at hi with e1
        · rw [List.mem_singleton] at hi
          omega
        · rw [List.mem_singleton] at hi
          omega
  · unfold Texture.TrilinearSample
    by_cases hl : level ≤ 0
    · rw [if_pos hl]
      rfl
    · rw [if_neg hl]
      have A : ∀ k : ℕ, k < t.mipmaps.length →
          ∃ c, (t.mipmaps[k]?).map (fun mip => mip.BilinearSample u v) = some c := by
        intro k hk
        rw [List.getElem?_eq_getElem hk]
        exact ⟨_, rfl⟩
      obtain ⟨c0, hc0⟩ : ∃ c0, (if ⌊level⌋ = 0 then some (t.BilinearSample u v)
          else if ⌊level⌋ < ((t.mipmaps.length : ℕ) : ℤ) then
            (t.mipmaps[(⌊level⌋ - 1).toNat]?).map (fun mip => mip.BilinearSample u v)
          else (t.mipmaps[t.mipmaps.length - 1]?).map (fun mip => mip.BilinearSample u v))
          = some c0 := by
        split_ifs with e1 e2
        · exact ⟨_, rfl⟩
        · exact A _ (by omega)
        · exact A _ (by omega)
      obtain ⟨c1, hc1⟩ : ∃ c1, (if ⌊level⌋ + 1 ≤ ((t.mipmaps.length : ℕ) : ℤ) then
            (t.mipmaps[(⌊level⌋ + 1 - 1).toNat]?).map (fun mip => mip.BilinearSample u v)
          else (t.mipmaps[t.mipmaps.length - 1]?).map (fun mip => mip.BilinearSample u v))
          = some c1 := by
        split_ifs with e1
        · exact A _ (by omega)
        · exact A _ (by omega)
      simp only [hc0, hc1]
      rfl

/-- C40. For a texture with `n = mipmaps.size() ≥ 1`: `CalculateMipmapLevel` returns a
level in `[0, n]`; for every level in `[0, n]` each index `i` of an access
`mipmaps[i]` of `TrilinearSample` satisfies `0 ≤ i < n` and the sample has a value;
in particular this holds for the level that `CalculateMipmapLevel` returns. -/
theorem trilinear_mip_indices_in_range [FloorRing F] (log2f : F → F) (t : Texture F)
    (u v dudx dvdy level : F) (hn : 1 ≤ t.mipmaps.length) (h0 : 0 ≤ level)
    (h1 : level ≤ ((t.mipmaps.length : ℕ) : F)) :
    (0 ≤ t.CalculateMipmapLevel log2f dudx dvdy ∧
      t.CalculateMipmapLevel log2f dudx dvdy ≤ ((t.mipmaps.length : ℕ) : F)) ∧
    (∀ i ∈ Texture.TrilinearSample.accesses t level,
      0 ≤ i ∧ i < ((t.mipmaps.length : ℕ) : ℤ)) ∧
    (t.TrilinearSample u v level).isSome = true ∧
    (∀ i ∈ Texture.TrilinearSample.accesses t (t.CalculateMipmapLevel log2f dudx dvdy),
      0 ≤ i ∧ i < ((t.mipmaps.length : ℕ) : ℤ)) ∧
    (t.TrilinearSample u v (t.CalculateMipmapLevel log2f dudx dvdy)).isSome = true := by
  have hc : 0 ≤ t.CalculateMipmapLevel log2f dudx dvdy ∧
      t.CalculateMipmapLevel log2f dudx dvdy ≤ ((t.mipmaps.length : ℕ) : F) :=
    clamp_mem _ 0 _ (Nat.cast_nonneg _)
  exact ⟨hc, (Texture.TrilinearSample_in_range t u v level hn h0 h1).1,
    (Texture.TrilinearSample_in_range t u v level hn h0 h1).2,
    (Texture.TrilinearSample_in_range t u v _ hn hc.1 hc.2).1,
    (Texture.TrilinearSample_in_range t u v _ hn hc.1 hc.2).2⟩

/-! ### The tiled traversal as a scan of the box -/

/-- The loop variable of a `forPixels` loop that runs at least once. -/
theorem pixelRange_cons (i stop : ℤ) (h : i < stop) :
    pixelRange i stop = i :: pixelRange (i + 1) stop := by
  unfold pixelRange
  have e : (stop - i).toNat = (stop - (i + 1)).toNat + 1 := by omega
  rw [e, List.range_succ_eq_map, List.map_cons, List.map_map]
  congr 1
  · simp
  · apply List.map_congr_left
    intro k _
    simp only [Function.comp_apply, Nat.succ_eq_add_one, Nat.cast_add, Nat.cast_one]
    ring

/-- The loop variable of a `forPixels` loop that does not run. -/
theorem pixelRange_nil (i stop : ℤ) (h : ¬ i < stop) : pixelRange i stop = [] := by
  unfold pixelRange
  have e : (stop - i).toNat = 0 := by omega
  rw [e]
  rfl

/-- The loop variable of a `forBlocks` loop that runs at least once. -/
theorem blockStarts_cons (i hi : ℤ) (h : i ≤ hi) :
    blockStarts i hi = i :: blockStarts (i + BLOCK_SIZE) hi := by
  unfold blockStarts BLOCK_SIZE
  have e : ((hi + 8 - i) / 8).toNat = ((hi + 8 - (i + 8)) / 8).toNat + 1 := by omega
  rw [e, List.range_succ_eq_map, List.map_cons, List.map_map]
  congr 1
  · simp
  · apply List.map_congr_left
    intro k _
    simp only [Function.comp_apply, Nat.succ_eq_add_one, Nat.cast_add, Nat.cast_one]
    ring

/-- The loop variable of a `forBlocks` loop that does not run. -/
theorem blockStarts_nil (i hi : ℤ) (h : ¬ i ≤ hi) : blockStarts i hi = [] := by
  unfold blockStarts BLOCK_SIZE
  have e : ((hi + 8 - i) / 8).toNat = 0 := by omega
  rw [e]
  rfl

/-- A `forPixels` loop whose body folds a list per index folds the concatenation of
the lists over `pixelRange`. -/
theorem forPixels_eq_foldl {σ α : Type} (f : σ → α → σ) (g : ℤ → List α) (body : ℤ → σ → σ)
    (hb : ∀ k s, body k s = (g k).foldl f s) (stop : ℤ) :
    ∀ (i : ℤ) (s : σ), forPixels i stop body s = ((pixelRange i stop).flatMap g).foldl f s := by
  have key : ∀ (n : ℕ) (i : ℤ) (s : σ), (stop - i).toNat = n →
      forPixels i stop body s = ((pixelRange i stop).flatMap g).foldl f s := by
    intro n
    induction n with
    | zero =>
      intro i s hn
      have h : ¬ i < stop := by omega
      rw [forPixels, if_neg h, pixelRange_nil i stop h]
      rfl
    | succ n ih =>
      intro i s hn
      have h : i < stop := by omega
      rw [forPixels, if_pos h, ih (i + 1) (body i s) (by omega), pixelRange_cons i stop h,
        List.flatMap_cons, List.foldl_append, hb]
  intro i s
  exact key _ i s rfl

/-- A `forBlocks` loop whose body folds a list per index folds the concatenation of
the lists over `blockStarts`. -/
theorem forBlocks_eq_foldl {σ α : Type} (f : σ → α → σ) (g : ℤ → List α) (body : ℤ → σ → σ)
    (hb : ∀ k s, body k s = (g k).foldl f s) (hi : ℤ) :
    ∀ (i : ℤ) (s : σ), forBlocks i hi body s = ((blockStarts i hi).flatMap g).foldl f s := by
  have key : ∀ (n : ℕ) (i : ℤ) (s : σ), (hi + 1 - i).toNat ≤ n →
      forBlocks i hi body s = ((blockStarts i hi).flatMap g).foldl f s := by
    intro n
    induction n with
    | zero =>
      intro i s hn
      have h : ¬ i ≤ hi := by omega
      rw [forBlocks, if_neg h, blockStarts_nil i hi h]
      rfl
    | succ n ih =>
      intro i s hn
      by_cases h : i ≤ hi
      · rw [forBlocks, if_pos h, ih (i + BLOCK_SIZE) (body i s) (by unfold BLOCK_SIZE; omega),
          blockStarts_cons i hi h, List.flatMap_cons, List.foldl_append, hb]
      · rw [forBlocks, if_neg h, blockStarts_nil i hi h]
        rfl
  intro i s
  exact key _ i s le_rfl

/-- Membership in `pixelRange`. -/
theorem mem_pixelRange (i stop k : ℤ) : k ∈ pixelRange i stop ↔ i ≤ k ∧ k < stop := by
  unfold pixelRange
  rw [List.mem_map]
  constructor
  · rintro ⟨a, ha, rfl⟩
    rw [List.mem_range] at ha
    omega
  · intro h
    exact ⟨(k - i).toNat, List.mem_range.mpr (by omega), by omega⟩

/-- Membership in `blockStarts`. -/
theorem mem_blockStarts (i hi b : ℤ) :
    b ∈ blockStarts i hi ↔ i ≤ b ∧ b ≤ hi ∧ (b - i) % 8 = 0 := by
  unfold blockStarts BLOCK_SIZE
  rw [List.mem_map]
  constructor
  · rintro ⟨a, ha, rfl⟩
    rw [List.mem_range] at ha
    omega
  · intro h
    exact ⟨((b - i) / 8).toNat, List.mem_range.mpr (by omega), by omega⟩

/-- No index occurs twice in `pixelRange`. -/
theorem nodup_pixelRange (i stop : ℤ) : (pixelRange i stop).Nodup := by
  unfold pixelRange
  apply List.Nodup.map _ (List.nodup_range _)
  intro a b h
  simp only at h
  omega

/-- No block start occurs twice in `blockStarts`. -/
theorem nodup_blockStarts (i hi : ℤ) : (blockStarts i hi).Nodup := by
  unfold blockStarts BLOCK_SIZE
  apply List.Nodup.map _ (List.nodup_range _)
  intro a b h
  simp only at h
  omega

/-- Folding the recording body gives the list back. -/
theorem foldl_record {α : Type} (L acc : List α) :
    L.foldl (fun acc p => acc ++ [p]) acc = acc ++ L := by
  induction L generalizing acc with
  | nil => simp
  | cons a L ih =>
    rw [List.foldl_cons, ih]
    simp

/-- The tiled traversal folds its body over the pixels of the tiles, tile by tile. -/
theorem DrawTriangle.traverse_eq_foldl {σ : Type} (minX maxX minY maxY : ℤ)
    (body : ℤ → ℤ → σ → σ) (s : σ) :
    DrawTriangle.traverse minX maxX minY maxY body s
      = ((blockStarts minY maxY).flatMap (fun blockY =>
          (blockStarts minX maxX).flatMap (fun blockX =>
            (pixelRange blockY (min (blockY + BLOCK_SIZE) (maxY + 1))).flatMap (fun y =>
              (pixelRange blockX (min (blockX + BLOCK_SIZE) (maxX + 1))).flatMap (fun x =>
                [(x, y)]))))).foldl (fun s p => body p.1 p.2 s) s := by
  unfold DrawTriangle.traverse
  refine forBlocks_eq_foldl (fun s p => body p.1 p.2 s) (fun blockY =>
    (blockStarts minX maxX).flatMap (fun blockX =>
      (pixelRange blockY (min (blockY + BLOCK_SIZE) (maxY + 1))).flatMap (fun y =>
        (pixelRange blockX (min (blockX + BLOCK_SIZE) (maxX + 1))).flatMap (fun x =>
          [(x, y)])))) _ (fun blockY s => ?_) maxY minY s
  refine forBlocks_eq_foldl (fun s p => body p.1 p.2 s) (fun blockX =>
    (pixelRange blockY (min (blockY + BLOCK_SIZE) (maxY + 1))).flatMap (fun y =>
      (pixelRange blockX (min (blockX + BLOCK_SIZE) (maxX + 1))).flatMap (fun x =>
        [(x, y)]))) _ (fun blockX s => ?_) maxX minX s
  refine forPixels_eq_foldl (fun s p => body p.1 p.2 s) (fun y =>
    (pixelRange blockX (min (blockX + BLOCK_SIZE) (maxX + 1))).flatMap (fun x =>
      [(x, y)])) _ (fun y s => ?_) _ blockY s
  exact forPixels_eq_foldl (fun s p => body p.1 p.2 s) (fun x => [(x, y)]) _
    (fun x s => rfl) _ blockX s

/-- The plain scan folds its body over the pixels of the box, row by row. -/
theorem plainScan_eq_foldl {σ : Type} (minX maxX minY maxY : ℤ)
    (body : ℤ → ℤ → σ → σ) (s : σ) :
    plainScan minX maxX minY maxY body s
      = ((pixelRange minY (maxY + 1)).flatMap (fun y =>
          (pixelRange minX (maxX + 1)).flatMap (fun x => [(x, y)]))).foldl
            (fun s p => body p.1 p.2 s) s := by
  unfold plainScan
  refine forPixels_eq_foldl (fun s p => body p.1 p.2 s) (fun y =>
    (pixelRange minX (maxX + 1)).flatMap (fun x => [(x, y)])) _ (fun y s => ?_) _ minY s
  exact forPixels_eq_foldl (fun s p => body p.1 p.2 s) (fun x => [(x, y)]) _
    (fun x s => rfl) _ minX s

/-- The pixels visited by the tiled traversal, tile by tile. -/
theorem DrawTriangle.visited_eq (minX maxX minY maxY : ℤ) :
    DrawTriangle.visited minX maxX minY maxY
      = (blockStarts minY maxY).flatMap (fun blockY =>
          (blockStarts minX maxX).flatMap (fun blockX =>
            (pixelRange blockY (min (blockY + BLOCK_SIZE) (maxY + 1))).flatMap (fun y =>
              (pixelRange blockX (min (blockX + BLOCK_SIZE) (maxX + 1))).flatMap (fun x =>
                [(x, y)])))) := by
  unfold DrawTriangle.visited
  rw [DrawTriangle.traverse_eq_foldl]
  exact (foldl_record _ []).trans (List.nil_append _)

/-- The pixels visited by the plain scan, row by row. -/
theorem plainScan.scan_visited_eq (minX maxX minY maxY : ℤ) :
    plainScan.visited minX maxX minY maxY
      = (pixelRange minY (maxY + 1)).flatMap (fun y =>
          (pixelRange minX (maxX + 1)).flatMap (fun x => [(x, y)])) := by
  unfold plainScan.visited
  rw [plainScan_eq_foldl]
  exact (foldl_record _ []).trans (List.nil_append _)

/-- The pixels visited by the tiled traversal are those of the box. -/
theorem DrawTriangle.mem_visited (minX maxX minY maxY x y : ℤ) :
    (x, y) ∈ DrawTriangle.visited minX maxX minY maxY
      ↔ minX ≤ x ∧ x ≤ maxX ∧ minY ≤ y ∧ y ≤ maxY := by
  rw [DrawTriangle.visited_eq]
  simp only [List.mem_flatMap, List.mem_singleton, Prod.mk.injEq, mem_blockStarts,
    mem_pixelRange, BLOCK_SIZE]
  constructor
  · rintro ⟨bY, hbY, bX, hbX, y', hy', x', hx', rfl, rfl⟩
    omega
  · intro h
    exact ⟨minY + 8 * ((y - minY) / 8), by omega, minX + 8 * ((x - minX) / 8), by omega,
      y, by omega, x, by omega, rfl, rfl⟩

/-- The pixels visited by the plain scan are those of the box. -/
theorem plainScan.mem_scan_visited (minX maxX minY maxY x y : ℤ) :
    (x, y) ∈ plainScan.visited minX maxX minY maxY
      ↔ minX ≤ x ∧ x ≤ maxX ∧ minY ≤ y ∧ y ≤ maxY := by
  rw [plainScan.scan_visited_eq]
  simp only [List.mem_flatMap, List.mem_singleton, Prod.mk.injEq, mem_pixelRange]
  constructor
  · rintro ⟨y', hy', x', hx', rfl, rfl⟩
    omega
  · intro h
    exact ⟨y, by omega, x, by omega, rfl, rfl⟩

/-- A row of pixels over a list of columns without repetition has no repetition. -/
theorem nodup_row (xs : List ℤ) (h : xs.Nodup) (y : ℤ) :
    (xs.flatMap (fun x => [(x, y)])).Nodup := by
  rw [List.nodup_flatMap]
  refine ⟨fun x _ => List.nodup_singleton _, ?_⟩
  refine List.Pairwise.imp ?_ h
  intro a b hab
  simp only [Function.onFun, List.disjoint_left, List.mem_singleton]
  rintro p rfl e
  exact hab (congrArg Prod.fst e)

/-- No pixel is visited twice by the plain scan. -/
theorem plainScan.nodup_scan_visited (minX maxX minY maxY : ℤ) :
    (plainScan.visited minX maxX minY maxY).Nodup := by
  rw [plainScan.scan_visited_eq, List.nodup_flatMap]
  refine ⟨fun y _ => nodup_row _ (nodup_pixelRange _ _) y, ?_⟩
  refine List.Pairwise.imp ?_ (nodup_pixelRange minY (maxY + 1))
  intro a b hab
  simp only [Function.onFun, List.disjoint_left, List.mem_flatMap, List.mem_singleton]
  rintro p ⟨x, _, rfl⟩ ⟨x', _, e⟩
  exact hab (congrArg Prod.snd e)

/-- No pixel is visited twice by the tiled traversal. -/
theorem DrawTriangle.nodup_visited (minX maxX minY maxY : ℤ) :
    (DrawTriangle.visited minX maxX minY maxY).Nodup := by
  rw [DrawTriangle.visited_eq, List.nodup_flatMap]
  constructor
  · intro bY _
    rw [List.nodup_flatMap]
    constructor
    · intro bX _
      rw [List.nodup_flatMap]
      refine ⟨fun y _ => nodup_row _ (nodup_pixelRange _ _) y, ?_⟩
      refine List.Pairwise.imp ?_ (nodup_pixelRange _ _)
      intro a b hab
      simp only [Function.onFun, List.disjoint_left, List.mem_flatMap, List.mem_singleton]
      rintro p ⟨x, _, rfl⟩ ⟨x', _, e⟩
      exact hab (congrArg Prod.snd e)
    · refine List.Pairwise.imp_of_mem ?_ (nodup_blockStarts minX maxX)
      intro a b ha hb hab
      rw [mem_blockStarts] at ha hb
      simp only [Function.onFun, List.disjoint_left, List.mem_flatMap, List.mem_singleton,
        mem_pixelRange, BLOCK_SIZE]
      rintro p ⟨y, _, x, hx, rfl⟩ ⟨y', _, x', hx', e⟩
      have e1 : x = x' := congrArg Prod.fst e
      omega
  · refine List.Pairwise.imp_of_mem ?_ (nodup_blockStarts minY maxY)
    intro a b ha hb hab
    rw [mem_blockStarts] at ha hb
    simp only [Function.onFun, List.disjoint_left, List.mem_flatMap, List.mem_singleton,
      mem_pixelRange, BLOCK_SIZE]
    rintro p ⟨bX, _, y, hy, x, _, rfl⟩ ⟨bX', _, y', hy', x', _, e⟩
    have e1 : y = y' := congrArg Prod.snd e
    omega

/-- C36. The tiled traversal of `DrawTriangle` is a plain scan of the bounding box up
to the order of the visits.  For every box and every loop body, the traversal runs
the body once per entry of the list `visited` of its visits, in order, and the plain
scan does so with its own list.  The list of the traversal has no pixel twice, holds
exactly the pixels `(x, y)` with `minX ≤ x ≤ maxX` and `minY ≤ y ≤ maxY`, is a
permutation of the list of the plain scan, and is empty exactly when the box is
(`minX > maxX` or `minY > maxY`). -/
theorem tiled_traversal_visits_box_once (minX maxX minY maxY : ℤ) :
    (∀ (σ : Type) (body : ℤ → ℤ → σ → σ) (s : σ),
      DrawTriangle.traverse minX maxX minY maxY body s
        = (DrawTriangle.visited minX maxX minY maxY).foldl (fun s p => body p.1 p.2 s) s ∧
      plainScan minX maxX minY maxY body s
        = (plainScan.visited minX maxX minY maxY).foldl (fun s p => body p.1 p.2 s) s) ∧
    (DrawTriangle.visited minX maxX minY maxY).Nodup ∧
    (∀ x y : ℤ, (x, y) ∈ DrawTriangle.visited minX maxX minY maxY
      ↔ minX ≤ x ∧ x ≤ maxX ∧ minY ≤ y ∧ y ≤ maxY) ∧
    (DrawTriangle.visited minX maxX minY maxY).Perm (plainScan.visited minX maxX minY maxY) ∧
    (DrawTriangle.visited minX maxX minY maxY = [] ↔ (maxX < minX ∨ maxY < minY)) := by
  refine ⟨?_, DrawTriangle.nodup_visited _ _ _ _, DrawTriangle.mem_visited _ _ _ _, ?_, ?_⟩
  · intro σ body s
    constructor
    · rw [DrawTriangle.visited_eq]
      exact DrawTriangle.traverse_eq_foldl _ _ _ _ body s
    · rw [plainScan.scan_visited_eq]
      exact plainScan_eq_foldl _ _ _ _ body s
  · rw [List.perm_ext_iff_of_nodup (DrawTriangle.nodup_visited _ _ _ _)
      (plainScan.nodup_scan_visited _ _ _ _)]
    rintro ⟨x, y⟩
    rw [DrawTriangle.mem_visited, plainScan.mem_scan_visited]
  · constructor
    · intro h
      by_contra hn
      have hin : (minX, minY) ∈ DrawTriangle.visited minX maxX minY maxY := by
        rw [DrawTriangle.mem_visited]
        omega
      rw [h] at hin
      exact List.not_mem_nil _ hin
    · intro h
      rw [List.eq_nil_iff_forall_not_mem]
      rintro ⟨x, y⟩ hin
      rw [DrawTriangle.mem_visited] at hin
      omega

/-! ### The traversal of an empty box -/

/-- Without rounding, `WrapCoordinates.rounded` is `WrapCoordinates`. -/
theorem Texture.WrapCoordinates_rounded_id [FloorRing F] (t : Texture F) (u v : F) :
    Texture.WrapCoordinates.rounded (fun a : F => a) t u v = t.WrapCoordinates u v := rfl

/-- Without rounding, `NearestSample.rounded` is `NearestSample`. -/
theorem Texture.NearestSample_rounded_id [FloorRing F] (t : Texture F) (u v : F) :
    Texture.NearestSample.rounded (fun a : F => a) t u v = t.NearestSample u v := rfl

end Theorems

/-! ## Concrete instances -/

section Instances

/-- C3, at the triangle `(0,0), (4,0), (0,4)` (negative edge-function area) and the
point `(1,1)`: the test succeeds and the returned `w3` is the third normalized edge
function. -/
theorem pointInTriangle_iff_edge_functions_witness :
    (PointInTriangle (1 : ℚ) 1 ⟨0, 0⟩ ⟨4, 0⟩ ⟨0, 4⟩ 0 0 0).1 = true ∧
    (PointInTriangle (1 : ℚ) 1 ⟨0, 0⟩ ⟨4, 0⟩ ⟨0, 4⟩ 0 0 0).2.2.2
      = EdgeFunction ⟨0, 0⟩ ⟨4, 0⟩ ⟨(1 : ℚ), 1⟩ / EdgeFunction ⟨0, 0⟩ ⟨4, 0⟩ ⟨(0 : ℚ), 4⟩ := by
  have T := pointInTriangle_iff_edge_functions (1 : ℚ) 1 ⟨0, 0⟩ ⟨4, 0⟩ ⟨0, 4⟩ 0 0 0
  have h : (PointInTriangle (1 : ℚ) 1 ⟨0, 0⟩ ⟨4, 0⟩ ⟨0, 4⟩ 0 0 0).1 = true := by
    refine T.1.mpr ⟨?_, ?_, ?_, ?_⟩ <;> norm_num [EdgeFunction, abs_of_neg]
  exact ⟨h, T.2.2 h⟩

/-- C4, at the triangle `exP, exQ, exT` (all `w ≥ 0.1`). -/
theorem clipTriangle_all_inside_witness :
    (1 / 10 ≤ exP.position.w ∧ 1 / 10 ≤ exQ.position.w ∧ 1 / 10 ≤ exT.position.w) ∧
    ClipTriangleAgainstNearPlane sqrtQ exP exQ exT = [(exP, exQ, exT)] :=
  ⟨⟨by norm_num [exP, exVertex], by norm_num [exQ, exVertex], by norm_num [exT, exVertex]⟩,
   clipTriangle_all_inside sqrtQ exP exQ exT (by norm_num [exP, exVertex])
     (by norm_num [exQ, exVertex]) (by norm_num [exT, exVertex])⟩

/-- C7, at the triangle `exP, exQ, exR` with `w = (2, 2, −0.5)`. -/
theorem clipTriangle_w_2_2_neg_half_witness :
    (exP.position.w = 2 ∧ exQ.position.w = 2 ∧ exR.position.w = -1 / 2) ∧
    (ClipTriangleAgainstNearPlane sqrtQ exP exQ exR).length = 2 ∧
    (ClipAgainstNearPlane sqrtQ exP exR).position.w = 1 / 10 ∧
    (ClipAgainstNearPlane sqrtQ exQ exR).position.w = 1 / 10 :=
  ⟨⟨rfl, rfl, rfl⟩, (clipTriangle_w_2_2_neg_half sqrtQ exP exQ exR rfl rfl rfl).2⟩

/-- C7 as stated fails: the triangle `exP, exQ, exR` has `w = (2, 2, −0.5)` and is
not clipped into exactly one triangle. -/
theorem clipTriangle_w_2_2_neg_half_not_one :
    (exP.position.w = 2 ∧ exQ.position.w = 2 ∧ exR.position.w = -1 / 2) ∧
    ¬ (ClipTriangleAgainstNearPlane sqrtQ exP exQ exR).length = 1 := by
  refine ⟨⟨rfl, rfl, rfl⟩, ?_⟩
  rw [clipTriangle_iio sqrtQ exP exQ exR (by norm_num [exP, exVertex])
    (by norm_num [exQ, exVertex]) (by norm_num [exR, exVertex])]
  decide

/-- C1, at the clip-space triangle `exP, exQ, exT` (`w = 2, 2, 4`), an 800 by 600
viewport and barycentrics `(1/2, 1/3, 1/6)`. -/
theorem perspective_correct_recovers_pixel_witness :
    (1 / 1000 ≤ exP.position.w ∧ 1 / 1000 ≤ exQ.position.w ∧ 1 / 1000 ≤ exT.position.w ∧
      (0 : ℚ) ≤ 1 / 2 ∧ (0 : ℚ) ≤ 1 / 3 ∧ (0 : ℚ) ≤ 1 / 6 ∧ (1 / 2 + 1 / 3 + 1 / 6 : ℚ) = 1) ∧
    (let D : ℚ := 1 / 2 / exP.position.w + 1 / 3 / exQ.position.w + 1 / 6 / exT.position.w
     let l0 := 1 / 2 / exP.position.w / D
     let l1 := 1 / 3 / exQ.position.w / D
     let l2 := 1 / 6 / exT.position.w / D
     let s0 := ProcessVertexOutput 800 600 exP
     let s1 := ProcessVertexOutput 800 600 exQ
     let s2 := ProcessVertexOutput 800 600 exT
     let pixel := InterpolateVertex sqrtQ s0 s1 s2 (1 / 2) (1 / 3) (1 / 6)
     let P : VertexOutput ℚ :=
       { exP with position :=
           ⟨l0 * exP.position.x + l1 * exQ.position.x + l2 * exT.position.x,
            l0 * exP.position.y + l1 * exQ.position.y + l2 * exT.position.y,
            l0 * exP.position.z + l1 * exQ.position.z + l2 * exT.position.z,
            l0 * exP.position.w + l1 * exQ.position.w + l2 * exT.position.w⟩ }
     let q := ProcessVertexOutput 800 600 P
     l0 + l1 + l2 = 1 ∧
     pixel.worldPos
       = ((exP.worldPos.smul l0).add (exQ.worldPos.smul l1)).add (exT.worldPos.smul l2) ∧
     q.position.x = 1 / 2 * s0.position.x + 1 / 3 * s1.position.x + 1 / 6 * s2.position.x ∧
     q.position.y = 1 / 2 * s0.position.y + 1 / 3 * s1.position.y + 1 / 6 * s2.position.y ∧
     q.position.x = pixel.position.x ∧
     q.position.y = pixel.position.y ∧
     q.position.z = pixel.position.z) :=
  ⟨⟨by norm_num [exP, exVertex], by norm_num [exQ, exVertex], by norm_num [exT, exVertex],
     by norm_num, by norm_num, by norm_num, by norm_num⟩,
   perspective_correct_recovers_pixel sqrtQ 800 600 exP exQ exT (1 / 2) (1 / 3) (1 / 6)
     (by norm_num [exP, exVertex]) (by norm_num [exQ, exVertex]) (by norm_num [exT, exVertex])
     (by norm_num) (by norm_num) (by norm_num) (by norm_num)⟩

/-- C2, at the vertices `exP, exQ, exT` and weights `(1/2, 1/4, 1/4)`: the
denominator is `7/16` and the interpolated colour is the perspective formula. -/
theorem interpolateVertex_perspective_formula_witness :
    (1 / 2 / exP.position.w + 1 / 4 / exQ.position.w + 1 / 4 / exT.position.w ≠ 0) ∧
    (let D : ℚ := 1 / 2 / exP.position.w + 1 / 4 / exQ.position.w + 1 / 4 / exT.position.w
     let A := fun a0 a1 a2 : ℚ =>
       (1 / 2 * a0 / exP.position.w + 1 / 4 * a1 / exQ.position.w
         + 1 / 4 * a2 / exT.position.w) / D
     let r := InterpolateVertex sqrtQ exP exQ exT (1 / 2) (1 / 4) (1 / 4)
     r.color = ⟨A exP.color.x exQ.color.x exT.color.x, A exP.color.y exQ.color.y exT.color.y,
                A exP.color.z exQ.color.z exT.color.z, A exP.color.w exQ.color.w exT.color.w⟩ ∧
     r.texcoord = ⟨A exP.texcoord.x exQ.texcoord.x exT.texcoord.x,
                   A exP.texcoord.y exQ.texcoord.y exT.texcoord.y⟩ ∧
     r.worldPos = Vector3.mk3 (A exP.worldPos.x exQ.worldPos.x exT.worldPos.x)
                    (A exP.worldPos.y exQ.worldPos.y exT.worldPos.y)
                    (A exP.worldPos.z exQ.worldPos.z exT.worldPos.z) ∧
     r.normal = (Vector3.mk3 (A exP.normal.x exQ.normal.x exT.normal.x)
                    (A exP.normal.y exQ.normal.y exT.normal.y)
                    (A exP.normal.z exQ.normal.z exT.normal.z)).normalize sqrtQ) :=
  ⟨by norm_num [exP, exQ, exT, exVertex],
   interpolateVertex_perspective_formula sqrtQ exP exQ exT (1 / 2) (1 / 4) (1 / 4)
     (by norm_num [exP, exQ, exT, exVertex])⟩

/-- C5, at the mesh triangle `(0,0,0,0), (1,0,0,0), (0,1,0,−1/2)` drawn by
`exRenderer` with `exShader`: the three clip-space `w` are below `0.1`, the clipper
returns nothing and the renderer is unchanged. -/
theorem clipTriangle_all_outside_witness :
    ((exVsOut (exMeshVertex 0 0 0 0)).position.w < 1 / 10 ∧
      (exVsOut (exMeshVertex 1 0 0 0)).position.w < 1 / 10 ∧
      (exVsOut (exMeshVertex 0 1 0 (-1 / 2))).position.w < 1 / 10) ∧
    ClipTriangleAgainstNearPlane sqrtQ (exVsOut (exMeshVertex 0 0 0 0))
      (exVsOut (exMeshVertex 1 0 0 0)) (exVsOut (exMeshVertex 0 1 0 (-1 / 2))) = [] ∧
    DrawTriangle sqrtQ exRenderer (exMeshVertex 0 0 0 0) (exMeshVertex 1 0 0 0)
      (exMeshVertex 0 1 0 (-1 / 2)) (some exShader) = exRenderer := by
  have h1 : (exVsOut (exMeshVertex 0 0 0 0)).position.w < 1 / 10 := by
    norm_num [exVsOut, exShader, exMeshVertex]
  have h2 : (exVsOut (exMeshVertex 1 0 0 0)).position.w < 1 / 10 := by
    norm_num [exVsOut, exShader, exMeshVertex]
  have h3 : (exVsOut (exMeshVertex 0 1 0 (-1 / 2))).position.w < 1 / 10 := by
    norm_num [exVsOut, exShader, exMeshVertex]
  have T := clipTriangle_all_outside sqrtQ _ _ _ h1 h2 h3
  exact ⟨⟨h1, h2, h3⟩, T.1, T.2 exRenderer _ _ _ exShader rfl rfl rfl⟩

/-- C8, at the straddling triangle `exP, exQ, exR`: the first returned triangle
`{exP, exQ, clip(exP, exR)}` has all three `w ≥ 0.1`. -/
theorem clipTriangle_vertices_inside_witness :
    (exP, exQ, ClipAgainstNearPlane sqrtQ exP exR)
        ∈ ClipTriangleAgainstNearPlane sqrtQ exP exQ exR ∧
    (1 / 10 ≤ exP.position.w ∧ 1 / 10 ≤ exQ.position.w ∧
      1 / 10 ≤ (ClipAgainstNearPlane sqrtQ exP exR).position.w) := by
  have hm : (exP, exQ, ClipAgainstNearPlane sqrtQ exP exR)
      ∈ ClipTriangleAgainstNearPlane sqrtQ exP exQ exR := by
    rw [clipTriangle_iio sqrtQ exP exQ exR (by norm_num [exP, exVertex])
      (by norm_num [exQ, exVertex]) (by norm_num [exR, exVertex])]
    exact List.mem_cons_self _ _
  exact ⟨hm, clipTriangle_vertices_inside sqrtQ exP exQ exR _ hm⟩

/-- C9, at the inside vertex `exP` (`w = 2`) and the outside vertex `exR`
(`w = −1/2`), where `t = 19/25`. -/
theorem clipAgainstNearPlane_is_lerp_witness :
    (1 / 10 ≤ exP.position.w ∧ exR.position.w < 1 / 10) ∧
    (let t := (1 / 10 - exP.position.w) / (exR.position.w - exP.position.w)
     let r := ClipAgainstNearPlane sqrtQ exP exR
     r.position = ⟨exP.position.x + t * (exR.position.x - exP.position.x),
                   exP.position.y + t * (exR.position.y - exP.position.y),
                   exP.position.z + t * (exR.position.z - exP.position.z),
                   exP.position.w + t * (exR.position.w - exP.position.w)⟩ ∧
     exP.position.w + t * (exR.position.w - exP.position.w) = 1 / 10 ∧
     r.worldPos = exP.worldPos.add ((exR.worldPos.sub exP.worldPos).smul t) ∧
     r.texcoord = ⟨exP.texcoord.x + t * (exR.texcoord.x - exP.texcoord.x),
                   exP.texcoord.y + t * (exR.texcoord.y - exP.texcoord.y)⟩ ∧
     r.color = ⟨exP.color.x + t * (exR.color.x - exP.color.x),
                exP.color.y + t * (exR.color.y - exP.color.y),
                exP.color.z + t * (exR.color.z - exP.color.z),
                exP.color.w + t * (exR.color.w - exP.color.w)⟩ ∧
     r.normal = (exP.normal.add ((exR.normal.sub exP.normal).smul t)).normalize sqrtQ) :=
  ⟨⟨by norm_num [exP, exVertex], by norm_num [exR, exVertex]⟩,
   clipAgainstNearPlane_is_lerp sqrtQ exP exR (by norm_num [exP, exVertex])
     (by norm_num [exR, exVertex])⟩

/-- C6 (amended), at the three placements of the outside vertex `exR` among the
inside vertices `exP`, `exQ`. -/
theorem clipTriangle_two_inside_witness :
    (1 / 10 ≤ exP.position.w ∧ 1 / 10 ≤ exQ.position.w ∧ exR.position.w < 1 / 10) ∧
    MatchesUpToRotation (ClipTriangleAgainstNearPlane sqrtQ exP exQ exR)
      (quadSplitSpec sqrtQ exP exQ exR) ∧
    MatchesUpToRotation (ClipTriangleAgainstNearPlane sqrtQ exR exP exQ)
      (quadSplitSpec sqrtQ exP exQ exR) ∧
    MatchesUpToRotation (ClipTriangleAgainstNearPlane sqrtQ exP exR exQ)
      (quadSplitOther sqrtQ exQ exP exR) := by
  have hP : 1 / 10 ≤ exP.position.w := by norm_num [exP, exVertex]
  have hQ : 1 / 10 ≤ exQ.position.w := by norm_num [exQ, exVertex]
  have hR : exR.position.w < 1 / 10 := by norm_num [exR, exVertex]
  exact ⟨⟨hP, hQ, hR⟩,
    (clipTriangle_two_inside sqrtQ exP exQ exR).1 hP hQ hR,
    (clipTriangle_two_inside sqrtQ exR exP exQ).2.1 hR hP hQ,
    (clipTriangle_two_inside sqrtQ exP exR exQ).2.2 hP hR hQ⟩

/-- C6 as stated fails when the outside vertex is the second one.  For the triangle
`exP, exR, exQ` (so `A = exQ`, `B = exP`, `C = exR` in cyclic order) the two returned
triangles are not `{A, B, clip(A,C)}` and `{B, clip(B,C), clip(A,C)}` up to rotation,
in either order; nor are they with the names `A` and `B` exchanged. -/
theorem clipTriangle_second_outside_not_spec_split :
    (1 / 10 ≤ exP.position.w ∧ exR.position.w < 1 / 10 ∧ 1 / 10 ≤ exQ.position.w) ∧
    ¬ MatchesUpToRotation (ClipTriangleAgainstNearPlane sqrtQ exP exR exQ)
        (quadSplitSpec sqrtQ exQ exP exR) ∧
    ¬ MatchesUpToRotation (ClipTriangleAgainstNearPlane sqrtQ exP exR exQ)
        (quadSplitSpec sqrtQ exQ exP exR).swap ∧
    ¬ MatchesUpToRotation (ClipTriangleAgainstNearPlane sqrtQ exP exR exQ)
        (quadSplitSpec sqrtQ exP exQ exR) := by
  have hP : 1 / 10 ≤ exP.position.w := by norm_num [exP, exVertex]
  have hQ : 1 / 10 ≤ exQ.position.w := by norm_num [exQ, exVertex]
  have hR : exR.position.w < 1 / 10 := by norm_num [exR, exVertex]
  have hPQ : exP ≠ exQ := by
    intro h
    have := congrArg (fun v => v.position.x) h
    norm_num [exP, exQ, exVertex] at this
  have hPc : ∀ a b : VertexOutput ℚ, exP ≠ ClipAgainstNearPlane sqrtQ a b := by
    intro a b h
    have := congrArg (fun v => v.position.w) h
    norm_num [exP, exVertex, ClipAgainstNearPlane] at this
  have hQc : ∀ a b : VertexOutput ℚ, exQ ≠ ClipAgainstNearPlane sqrtQ a b := by
    intro a b h
    have := congrArg (fun v => v.position.w) h
    norm_num [exQ, exVertex, ClipAgainstNearPlane] at this
  have hcc : ClipAgainstNearPlane sqrtQ exP exR ≠ ClipAgainstNearPlane sqrtQ exQ exR := by
    intro h
    have := congrArg (fun v => v.position.x) h
    norm_num [exP, exQ, exR, exVertex, ClipAgainstNearPlane] at this
  have e := clipTriangle_ioi sqrtQ exP exR exQ hP hR hQ
  refine ⟨⟨hP, hR, hQ⟩, ?_, ?_, ?_⟩
  · rintro ⟨t1, t2, hl, h1, -⟩
    rw [e] at hl
    simp only [List.cons.injEq, and_true] at hl
    obtain ⟨rfl, -⟩ := hl
    simp only [Triangle.SameUpToRotation, quadSplitSpec, Triangle.rotate, Prod.mk.injEq] at h1
    rcases h1 with h | h | h
    · exact hPQ h.1
    · exact hcc h.2.1
    · exact hPc _ _ h.1
  · rintro ⟨t1, t2, hl, h1, -⟩
    rw [e] at hl
    simp only [List.cons.injEq, and_true] at hl
    obtain ⟨rfl, -⟩ := hl
    simp only [Triangle.SameUpToRotation, quadSplitSpec, Triangle.rotate, Prod.swap,
      Prod.mk.injEq] at h1
    rcases h1 with h | h | h
    · exact hQc _ _ h.2.2
    · exact hPc _ _ h.1
    · exact hPc _ _ h.1
  · rintro ⟨t1, t2, hl, h1, -⟩
    rw [e] at hl
    simp only [List.cons.injEq, and_true] at hl
    obtain ⟨rfl, -⟩ := hl
    simp only [Triangle.SameUpToRotation, quadSplitSpec, Triangle.rotate, Prod.mk.injEq] at h1
    rcases h1 with h | h | h
    · exact hQc _ _ h.2.2
    · exact hPQ h.1
    · exact hPc _ _ h.1

/-- C10 (amended), at pixel `(0, 0)` of `exFrameBuffer` (depth one everywhere): a
fragment at `z = 1/2` passes and is stored with depth `1/2`; a fragment at `z = 2`
fails and leaves the frame buffer unchanged. -/
theorem depthTestAndWrite_pixel_witness :
    ((0 : ℕ) < exFrameBuffer.colorBuffer.width ∧ (0 : ℕ) < exFrameBuffer.colorBuffer.height ∧
      (0 * exFrameBuffer.colorBuffer.width + 0) * 4 + 3 < exFrameBuffer.colorBuffer.BUFFER_SIZE ∧
      (0 : ℕ) < exFrameBuffer.depthBuffer.width ∧ (0 : ℕ) < exFrameBuffer.depthBuffer.height ∧
      0 * exFrameBuffer.depthBuffer.width + 0 < exFrameBuffer.depthBuffer.BUFFER_SIZE) ∧
    (exVertex 0 0 (1 / 2) 1).position.z ≤ exFrameBuffer.depthBuffer.GetDepth 0 0 ∧
    (DrawTriangle.depthTestAndWrite exShader 0 0 ((0 : ℕ) : ℤ) ((0 : ℕ) : ℤ)
        (exVertex 0 0 (1 / 2) 1) exFrameBuffer).depthBuffer.GetDepth 0 0
      = (exVertex 0 0 (1 / 2) 1).position.z ∧
    exFrameBuffer.depthBuffer.GetDepth 0 0 < (exVertex 0 0 2 1).position.z ∧
    DrawTriangle.depthTestAndWrite exShader 0 0 ((0 : ℕ) : ℤ) ((0 : ℕ) : ℤ)
        (exVertex 0 0 2 1) exFrameBuffer = exFrameBuffer := by
  have b1 : (0 : ℕ) < exFrameBuffer.colorBuffer.width := by norm_num [exFrameBuffer]
  have b2 : (0 : ℕ) < exFrameBuffer.colorBuffer.height := by norm_num [exFrameBuffer]
  have b3 : (0 * exFrameBuffer.colorBuffer.width + 0) * 4 + 3
      < exFrameBuffer.colorBuffer.BUFFER_SIZE := by norm_num [exFrameBuffer]
  have b4 : (0 : ℕ) < exFrameBuffer.depthBuffer.width := by norm_num [exFrameBuffer]
  have b5 : (0 : ℕ) < exFrameBuffer.depthBuffer.height := by norm_num [exFrameBuffer]
  have b6 : 0 * exFrameBuffer.depthBuffer.width + 0 < exFrameBuffer.depthBuffer.BUFFER_SIZE := by
    norm_num [exFrameBuffer]
  have hd : exFrameBuffer.depthBuffer.GetDepth 0 0 = 1 := by
    norm_num [DepthBuffer.GetDepth, exFrameBuffer]
  have z1 : (exVertex 0 0 (1 / 2) 1).position.z ≤ exFrameBuffer.depthBuffer.GetDepth 0 0 := by
    rw [hd]; norm_num [exVertex]
  have z2 : exFrameBuffer.depthBuffer.GetDepth 0 0 < (exVertex 0 0 2 1).position.z := by
    rw [hd]; norm_num [exVertex]
  exact ⟨⟨b1, b2, b3, b4, b5, b6⟩, z1,
    ((depthTestAndWrite_pixel exShader 0 0 0 0 (exVertex 0 0 (1 / 2) 1) exFrameBuffer
        b1 b2 b3 b4 b5 b6).1 z1).2.2.2.2.2 (by norm_num [exVertex]) (by norm_num [exVertex]),
    z2,
    (depthTestAndWrite_pixel exShader 0 0 0 0 (exVertex 0 0 2 1) exFrameBuffer
        b1 b2 b3 b4 b5 b6).2 z2⟩

/-- C10 as stated fails for a negative interpolated `z`: at pixel `(0, 0)` of
`exFrameBuffer` a fragment with `z = −1/2` passes the test (`−1/2 ≤ 1`), and the
depth stored afterwards is `0`, not `z`. -/
theorem depthTestAndWrite_negative_z_stores_zero :
    (exVertex 0 0 (-1 / 2) 1).position.z ≤ exFrameBuffer.depthBuffer.GetDepth 0 0 ∧
    (DrawTriangle.depthTestAndWrite exShader 0 0 0 0
        (exVertex 0 0 (-1 / 2) 1) exFrameBuffer).depthBuffer.GetDepth 0 0 = 0 ∧
    (DrawTriangle.depthTestAndWrite exShader 0 0 0 0
        (exVertex 0 0 (-1 / 2) 1) exFrameBuffer).depthBuffer.GetDepth 0 0
      ≠ (exVertex 0 0 (-1 / 2) 1).position.z := by
  have hd : exFrameBuffer.depthBuffer.GetDepth 0 0 = 1 := by
    norm_num [DepthBuffer.GetDepth, exFrameBuffer]
  have z1 : (exVertex 0 0 (-1 / 2) 1).position.z ≤ exFrameBuffer.depthBuffer.GetDepth 0 0 := by
    rw [hd]; norm_num [exVertex]
  have h0 : (DrawTriangle.depthTestAndWrite exShader 0 0 0 0
      (exVertex 0 0 (-1 / 2) 1) exFrameBuffer).depthBuffer.GetDepth 0 0 = 0 := by
    simp only [DrawTriangle.depthTestAndWrite, Int.toNat_zero]
    rw [if_pos z1]
    norm_num [DepthBuffer.SetDepth, DepthBuffer.GetDepth, exFrameBuffer, exVertex, clamp01, clamp]
  refine ⟨z1, h0, ?_⟩
  rw [h0]
  norm_num [exVertex]

/-- The floor of a rational between `n` and `n + 1`. -/
theorem floorQ (q : ℚ) (n : ℤ) (h1 : (n : ℚ) ≤ q) (h2 : q < (n : ℚ) + 1) : ⌊q⌋ = n :=
  Int.floor_eq_iff.mpr ⟨h1, h2⟩

/-- C19 fails for `MIRROR` wrapping: in the 2 by 1 texture `exTexMirror` (texels red,
green) the centre of pixel `(1, 0)` is `(u, v) = (0.75, 0.5)`; `WrapCoordinates`
mirrors `u` to `0.25`, so `BilinearSample` returns red, the texel of pixel `(0, 0)`,
while `GetPixel(1, 0)` is green. -/
theorem bilinearSample_mirror_pixel_centre :
    exTexMirror.BilinearSample ((1 + 1 / 2) / 2) ((0 + 1 / 2) / 1) = Color.red ∧
    exTexMirror.GetPixel 1 0 = Color.green ∧
    exTexMirror.BilinearSample ((1 + 1 / 2) / 2) ((0 + 1 / 2) / 1) ≠ exTexMirror.GetPixel 1 0 := by
  have f1 : ⌊((1 : ℚ) + 1 / 2) / 2⌋ = 0 := floorQ _ 0 (by norm_num) (by norm_num)
  have f2 : ⌊((0 : ℚ) + 1 / 2) / 1⌋ = 0 := floorQ _ 0 (by norm_num) (by norm_num)
  have f3 : ⌊((1 : ℚ) + 1 / 2) / 2 - ((0 : ℤ) : ℚ) + 1 / 2⌋ = 1 :=
    floorQ _ 1 (by norm_num) (by norm_num)
  have f4 : ⌊((0 : ℚ) + 1 / 2) / 1 - ((0 : ℤ) : ℚ) + 1 / 2⌋ = 1 :=
    floorQ _ 1 (by norm_num) (by norm_num)
  have hwrap : exTexMirror.WrapCoordinates ((1 + 1 / 2) / 2) ((0 + 1 / 2) / 1) = (1 / 4, 1 / 2) := by
    have tm : Int.tmod 1 2 = 1 := by decide
    simp only [Texture.WrapCoordinates, exTexMirror, f1, f2, f3, f4, tm, if_true]
    norm_num
  have g0 : ⌊(0 : ℚ)⌋ = 0 := Int.floor_zero
  have p00 : exTexMirror.GetPixel 0 0 = Color.red := by
    rw [Texture.GetPixel_eq exTexMirror _ rfl]
    norm_num [exTexMirror]
  have p10 : exTexMirror.GetPixel 1 0 = Color.green := by
    rw [Texture.GetPixel_eq exTexMirror _ rfl]
    norm_num [exTexMirror]
  have hs : exTexMirror.BilinearSample ((1 + 1 / 2) / 2) ((0 + 1 / 2) / 1) = Color.red := by
    have e1 : (1 / 4 : ℚ) * ((exTexMirror.width : ℤ) : ℚ) - 1 / 2 = 0 := by norm_num [exTexMirror]
    have e2 : (1 / 2 : ℚ) * ((exTexMirror.height : ℤ) : ℚ) - 1 / 2 = 0 := by norm_num [exTexMirror]
    simp only [Texture.BilinearSample, hwrap, e1, e2, g0, p00]
    norm_num [Color.red]
  refine ⟨hs, p10, ?_⟩
  rw [hs, p10]
  intro h
  have := congrArg Color.r h
  norm_num [Color.red, Color.green] at this

/-- C20 as stated fails: the uniform white 2 by 2 texture `exTexWhite` sampled at
`(u, v) = (0, 0)` gives `(0.25, 0.25, 0.25, 1)`, not white, because the three
neighbours outside the grid are read as `Color::black`. -/
theorem bilinearSample_uniform_white_at_origin :
    exTexWhite.BilinearSample 0 0 = ⟨1 / 4, 1 / 4, 1 / 4, 1⟩ ∧
    exTexWhite.BilinearSample 0 0 ≠ Color.white := by
  have hwrap : exTexWhite.WrapCoordinates 0 0 = (0, 0) := by
    simp [Texture.WrapCoordinates, exTexWhite]
  have e1 : (0 : ℚ) * ((exTexWhite.width : ℤ) : ℚ) - 1 / 2 = -1 / 2 := by norm_num
  have e2 : (0 : ℚ) * ((exTexWhite.height : ℤ) : ℚ) - 1 / 2 = -1 / 2 := by norm_num
  have f1 : ⌊(-1 / 2 : ℚ)⌋ = -1 := floorQ _ (-1) (by norm_num) (by norm_num)
  have pa : exTexWhite.GetPixel (-1) (-1) = Color.black := by
    rw [Texture.GetPixel_eq exTexWhite _ rfl]; norm_num
  have pb : exTexWhite.GetPixel (-1 + 1) (-1) = Color.black := by
    rw [Texture.GetPixel_eq exTexWhite _ rfl]; norm_num
  have pc : exTexWhite.GetPixel (-1) (-1 + 1) = Color.black := by
    rw [Texture.GetPixel_eq exTexWhite _ rfl]; norm_num
  have pd : exTexWhite.GetPixel (-1 + 1) (-1 + 1) = Color.white := by
    rw [Texture.GetPixel_eq exTexWhite _ rfl]; norm_num [exTexWhite]
  have hs : exTexWhite.BilinearSample 0 0 = ⟨1 / 4, 1 / 4, 1 / 4, 1⟩ := by
    simp only [Texture.BilinearSample, hwrap, e1, e2, f1, pa, pb, pc, pd]
    norm_num [Color.black, Color.white]
  refine ⟨hs, ?_⟩
  rw [hs]
  intro h
  have := congrArg Color.r h
  norm_num [Color.white] at this

/-- The byte stored for a colour channel whose value times 255 is a natural number. -/
theorem toBYTE_natCast (n : ℕ) : toBYTE (n : ℚ) = n % 256 := by
  have h0 : (0 : ℚ) ≤ (n : ℚ) := Nat.cast_nonneg n
  simp only [toBYTE, h0, if_true, Int.floor_natCast]
  omega

/-- C11 as stated fails outside the depth range `[0, 1]`, because `SetDepth` clamps
what it stores.  At pixel `(0, 0)` of `exFrameBuffer` (depth one), a red fragment at
`z1 = −1` and a green fragment at `z2 = −1/2`: red then green leaves green (red byte
`0`), green then red leaves red (red byte `255`).  At pixel `(0, 0)` of
`exDeepFrameBuffer` (stored depth three), a red fragment at `z1 = 3/2` and a green
fragment at `z2 = 2`: red then green leaves red, green then red leaves green. -/
theorem depthTest_order_dependent_outside_unit_range :
    let red := exFragment (-1) ⟨1, 0, 0, 1⟩
    let green := exFragment (-1 / 2) ⟨0, 1, 0, 1⟩
    let stepRed := DrawTriangle.depthTestAndWrite exShader 0 0 ((0 : ℕ) : ℤ) ((0 : ℕ) : ℤ) red
    let stepGreen := DrawTriangle.depthTestAndWrite exShader 0 0 ((0 : ℕ) : ℤ) ((0 : ℕ) : ℤ) green
    let farRed := exFragment (3 / 2) ⟨1, 0, 0, 1⟩
    let farGreen := exFragment 2 ⟨0, 1, 0, 1⟩
    let stepFarRed :=
      DrawTriangle.depthTestAndWrite exShader 0 0 ((0 : ℕ) : ℤ) ((0 : ℕ) : ℤ) farRed
    let stepFarGreen :=
      DrawTriangle.depthTestAndWrite exShader 0 0 ((0 : ℕ) : ℤ) ((0 : ℕ) : ℤ) farGreen
    (red.position.z < green.position.z ∧
      (stepGreen (stepRed exFrameBuffer)).colorBuffer.buffer 0 = 0 ∧
      (stepRed (stepGreen exFrameBuffer)).colorBuffer.buffer 0 = 255 ∧
      stepGreen (stepRed exFrameBuffer) ≠ stepRed (stepGreen exFrameBuffer)) ∧
    (farRed.position.z < farGreen.position.z ∧
      (stepFarGreen (stepFarRed exDeepFrameBuffer)).colorBuffer.buffer 0 = 255 ∧
      (stepFarRed (stepFarGreen exDeepFrameBuffer)).colorBuffer.buffer 0 = 0 ∧
      stepFarGreen (stepFarRed exDeepFrameBuffer)
        ≠ stepFarRed (stepFarGreen exDeepFrameBuffer)) := by
  intro red green stepRed stepGreen farRed farGreen stepFarRed stepFarGreen
  have b255 : toBYTE (255 : ℚ) = 255 := by
    have := toBYTE_natCast 255
    norm_num at this
    exact this
  have b0 : toBYTE (0 : ℚ) = 0 := by
    have := toBYTE_natCast 0
    norm_num at this
    exact this
  -- the buffers hold pixel (0, 0)
  have hd : exFrameBuffer.depthBuffer.GetDepth 0 0 = 1 := by
    norm_num [DepthBuffer.GetDepth, exFrameBuffer]
  have hD : exDeepFrameBuffer.depthBuffer.GetDepth 0 0 = 3 := by
    norm_num [DepthBuffer.GetDepth, exDeepFrameBuffer]
  have redByte : ∀ (cb : ColorBuffer) (z : ℚ), cb.width = 800 → cb.height = 600 →
      cb.BUFFER_SIZE = 1920 * 1080 * 4 →
      (cb.SetPixel 0 0 (exShader.FragmentShader (exFragment z ⟨1, 0, 0, 1⟩) 0 0)).buffer 0
        = 255 := by
    intro cb z h1 h2 h3
    simp only [ColorBuffer.SetPixel, h1, h2, h3, exShader, exFragment]
    norm_num [Function.update_apply, b255]
  have greenByte : ∀ (cb : ColorBuffer) (z : ℚ), cb.width = 800 → cb.height = 600 →
      cb.BUFFER_SIZE = 1920 * 1080 * 4 →
      (cb.SetPixel 0 0 (exShader.FragmentShader (exFragment z ⟨0, 1, 0, 1⟩) 0 0)).buffer 0
        = 0 := by
    intro cb z h1 h2 h3
    simp only [ColorBuffer.SetPixel, h1, h2, h3, exShader, exFragment]
    norm_num [Function.update_apply, b0]
  have setDims : ∀ (cb : ColorBuffer) (c : Color ℚ), cb.width = 800 → cb.height = 600 →
      cb.BUFFER_SIZE = 1920 * 1080 * 4 →
      (cb.SetPixel 0 0 c).width = 800 ∧ (cb.SetPixel 0 0 c).height = 600 ∧
      (cb.SetPixel 0 0 c).BUFFER_SIZE = 1920 * 1080 * 4 := by
    intro cb c h1 h2 h3
    obtain ⟨a1, a2, a3, -⟩ := SetPixel_dims cb 0 0 c
    exact ⟨a2.trans h1, a3.trans h2, a1.trans h3⟩
  have c800 : exFrameBuffer.colorBuffer.width = 800 ∧ exFrameBuffer.colorBuffer.height = 600 ∧
      exFrameBuffer.colorBuffer.BUFFER_SIZE = 1920 * 1080 * 4 := ⟨rfl, rfl, rfl⟩
  have d800 : exDeepFrameBuffer.colorBuffer.width = 800 ∧
      exDeepFrameBuffer.colorBuffer.height = 600 ∧
      exDeepFrameBuffer.colorBuffer.BUFFER_SIZE = 1920 * 1080 * 4 := ⟨rfl, rfl, rfl⟩
  have k1 : (0 : ℕ) < exFrameBuffer.depthBuffer.width := by norm_num [exFrameBuffer]
  have k2 : (0 : ℕ) < exFrameBuffer.depthBuffer.height := by norm_num [exFrameBuffer]
  have k3 : 0 * exFrameBuffer.depthBuffer.width + 0 < exFrameBuffer.depthBuffer.BUFFER_SIZE := by
    norm_num [exFrameBuffer]
  have m1 : (0 : ℕ) < exDeepFrameBuffer.depthBuffer.width := by norm_num [exDeepFrameBuffer]
  have m2 : (0 : ℕ) < exDeepFrameBuffer.depthBuffer.height := by norm_num [exDeepFrameBuffer]
  have m3 : 0 * exDeepFrameBuffer.depthBuffer.width + 0
      < exDeepFrameBuffer.depthBuffer.BUFFER_SIZE := by norm_num [exDeepFrameBuffer]
  -- red then green, both pass: green is left
  have A1 : (stepGreen (stepRed exFrameBuffer)).colorBuffer.buffer 0 = 0 := by
    have e := depthTestAndWrite_pass_pass exShader exShader 0 0 0 0 0 0 red green exFrameBuffer
      k1 k2 k3 (by rw [hd]; norm_num [red, exFragment, exVertex])
      (by norm_num [red, green, exFragment, exVertex, clamp01, clamp])
    simp only [stepGreen, stepRed, e]
    obtain ⟨a1, a2, a3⟩ := setDims exFrameBuffer.colorBuffer
      (exShader.FragmentShader red 0 0) c800.1 c800.2.1 c800.2.2
    exact greenByte _ _ a1 a2 a3
  -- green then red, both pass: red is left
  have A2 : (stepRed (stepGreen exFrameBuffer)).colorBuffer.buffer 0 = 255 := by
    have e := depthTestAndWrite_pass_pass exShader exShader 0 0 0 0 0 0 green red exFrameBuffer
      k1 k2 k3 (by rw [hd]; norm_num [green, exFragment, exVertex])
      (by norm_num [red, green, exFragment, exVertex, clamp01, clamp])
    simp only [stepGreen, stepRed, e]
    obtain ⟨a1, a2, a3⟩ := setDims exFrameBuffer.colorBuffer
      (exShader.FragmentShader green 0 0) c800.1 c800.2.1 c800.2.2
    exact redByte _ _ a1 a2 a3
  -- far red then far green: green fails against the clamped depth 1
  have B1 : (stepFarGreen (stepFarRed exDeepFrameBuffer)).colorBuffer.buffer 0 = 255 := by
    have e := depthTestAndWrite_pass_fail exShader exShader 0 0 0 0 0 0 farRed farGreen
      exDeepFrameBuffer m1 m2 m3 (by rw [hD]; norm_num [farRed, exFragment, exVertex])
      (by norm_num [farRed, farGreen, exFragment, exVertex, clamp01, clamp])
    simp only [stepFarGreen, stepFarRed, e]
    exact redByte _ _ d800.1 d800.2.1 d800.2.2
  -- far green then far red: red fails against the clamped depth 1
  have B2 : (stepFarRed (stepFarGreen exDeepFrameBuffer)).colorBuffer.buffer 0 = 0 := by
    have e := depthTestAndWrite_pass_fail exShader exShader 0 0 0 0 0 0 farGreen farRed
      exDeepFrameBuffer m1 m2 m3 (by rw [hD]; norm_num [farGreen, exFragment, exVertex])
      (by norm_num [farRed, farGreen, exFragment, exVertex, clamp01, clamp])
    simp only [stepFarGreen, stepFarRed, e]
    exact greenByte _ _ d800.1 d800.2.1 d800.2.2
  refine ⟨⟨by norm_num [red, green, exFragment, exVertex], A1, A2, ?_⟩,
    ⟨by norm_num [farRed, farGreen, exFragment, exVertex], B1, B2, ?_⟩⟩
  · intro h
    have h' := congrArg (fun f : FrameBuffer ℚ => f.colorBuffer.buffer 0) h
    simp only [A1, A2] at h'
    exact absurd h' (by norm_num)
  · intro h
    have h' := congrArg (fun f : FrameBuffer ℚ => f.colorBuffer.buffer 0) h
    simp only [B1, B2] at h'
    exact absurd h' (by norm_num)

/-- C11 (amended), at pixel `(0, 0)` of `exFrameBuffer` (stored depth one).  With a
red fragment at `z = 0.3` and a green fragment at `z = 0.7` both submission orders
leave the same frame buffer; so they do with a red fragment at the negative depth
`z = −1/2` and a green fragment at `z = 1/2`, and the stored depth is then the clamp
of `−1/2`. -/
theorem depthTest_order_independent_witness :
    ((0 : ℕ) < exFrameBuffer.colorBuffer.width ∧ (0 : ℕ) < exFrameBuffer.colorBuffer.height ∧
      (0 * exFrameBuffer.colorBuffer.width + 0) * 4 + 3 < exFrameBuffer.colorBuffer.BUFFER_SIZE ∧
      (0 : ℕ) < exFrameBuffer.depthBuffer.width ∧ (0 : ℕ) < exFrameBuffer.depthBuffer.height ∧
      0 * exFrameBuffer.depthBuffer.width + 0 < exFrameBuffer.depthBuffer.BUFFER_SIZE) ∧
    ((exFragment (3 / 10) ⟨1, 0, 0, 1⟩).position.z
        < (exFragment (7 / 10) ⟨0, 1, 0, 1⟩).position.z ∧
      0 < (exFragment (7 / 10) ⟨0, 1, 0, 1⟩).position.z ∧
      (exFragment (3 / 10) ⟨1, 0, 0, 1⟩).position.z ≤ 1) ∧
    DrawTriangle.depthTestAndWrite exShader 0 0 ((0 : ℕ) : ℤ) ((0 : ℕ) : ℤ)
        (exFragment (7 / 10) ⟨0, 1, 0, 1⟩)
        (DrawTriangle.depthTestAndWrite exShader 0 0 ((0 : ℕ) : ℤ) ((0 : ℕ) : ℤ)
          (exFragment (3 / 10) ⟨1, 0, 0, 1⟩) exFrameBuffer)
      = DrawTriangle.depthTestAndWrite exShader 0 0 ((0 : ℕ) : ℤ) ((0 : ℕ) : ℤ)
        (exFragment (3 / 10) ⟨1, 0, 0, 1⟩)
        (DrawTriangle.depthTestAndWrite exShader 0 0 ((0 : ℕ) : ℤ) ((0 : ℕ) : ℤ)
          (exFragment (7 / 10) ⟨0, 1, 0, 1⟩) exFrameBuffer) ∧
    ((exFragment (-1 / 2) ⟨1, 0, 0, 1⟩).position.z
        < (exFragment (1 / 2) ⟨0, 1, 0, 1⟩).position.z ∧
      0 < (exFragment (1 / 2) ⟨0, 1, 0, 1⟩).position.z ∧
      (exFragment (-1 / 2) ⟨1, 0, 0, 1⟩).position.z ≤ 1 ∧
      (exFragment (-1 / 2) ⟨1, 0, 0, 1⟩).position.z ≤ exFrameBuffer.depthBuffer.GetDepth 0 0) ∧
    DrawTriangle.depthTestAndWrite exShader 0 0 ((0 : ℕ) : ℤ) ((0 : ℕ) : ℤ)
        (exFragment (1 / 2) ⟨0, 1, 0, 1⟩)
        (DrawTriangle.depthTestAndWrite exShader 0 0 ((0 : ℕ) : ℤ) ((0 : ℕ) : ℤ)
          (exFragment (-1 / 2) ⟨1, 0, 0, 1⟩) exFrameBuffer)
      = DrawTriangle.depthTestAndWrite exShader 0 0 ((0 : ℕ) : ℤ) ((0 : ℕ) : ℤ)
        (exFragment (-1 / 2) ⟨1, 0, 0, 1⟩)
        (DrawTriangle.depthTestAndWrite exShader 0 0 ((0 : ℕ) : ℤ) ((0 : ℕ) : ℤ)
          (exFragment (1 / 2) ⟨0, 1, 0, 1⟩) exFrameBuffer) ∧
    (DrawTriangle.depthTestAndWrite exShader 0 0 ((0 : ℕ) : ℤ) ((0 : ℕ) : ℤ)
        (exFragment (1 / 2) ⟨0, 1, 0, 1⟩)
        (DrawTriangle.depthTestAndWrite exShader 0 0 ((0 : ℕ) : ℤ) ((0 : ℕ) : ℤ)
          (exFragment (-1 / 2) ⟨1, 0, 0, 1⟩) exFrameBuffer)).depthBuffer.GetDepth 0 0
      = clamp01 (exFragment (-1 / 2) ⟨1, 0, 0, 1⟩).position.z := by
  have b1 : (0 : ℕ) < exFrameBuffer.colorBuffer.width := by norm_num [exFrameBuffer]
  have b2 : (0 : ℕ) < exFrameBuffer.colorBuffer.height := by norm_num [exFrameBuffer]
  have b3 : (0 * exFrameBuffer.colorBuffer.width + 0) * 4 + 3
      < exFrameBuffer.colorBuffer.BUFFER_SIZE := by norm_num [exFrameBuffer]
  have b4 : (0 : ℕ) < exFrameBuffer.depthBuffer.width := by norm_num [exFrameBuffer]
  have b5 : (0 : ℕ) < exFrameBuffer.depthBuffer.height := by norm_num [exFrameBuffer]
  have b6 : 0 * exFrameBuffer.depthBuffer.width + 0 < exFrameBuffer.depthBuffer.BUFFER_SIZE := by
    norm_num [exFrameBuffer]
  have zlt : (exFragment (3 / 10) ⟨1, 0, 0, 1⟩).position.z
      < (exFragment (7 / 10) ⟨0, 1, 0, 1⟩).position.z := by norm_num [exFragment, exVertex]
  have z0 : 0 < (exFragment (7 / 10) ⟨0, 1, 0, 1⟩).position.z := by
    norm_num [exFragment, exVertex]
  have z1 : (exFragment (3 / 10) ⟨1, 0, 0, 1⟩).position.z ≤ 1 := by
    norm_num [exFragment, exVertex]
  have nlt : (exFragment (-1 / 2) ⟨1, 0, 0, 1⟩).position.z
      < (exFragment (1 / 2) ⟨0, 1, 0, 1⟩).position.z := by norm_num [exFragment, exVertex]
  have n0 : 0 < (exFragment (1 / 2) ⟨0, 1, 0, 1⟩).position.z := by
    norm_num [exFragment, exVertex]
  have n1 : (exFragment (-1 / 2) ⟨1, 0, 0, 1⟩).position.z ≤ 1 := by
    norm_num [exFragment, exVertex]
  have nd : (exFragment (-1 / 2) ⟨1, 0, 0, 1⟩).position.z
      ≤ exFrameBuffer.depthBuffer.GetDepth 0 0 := by
    norm_num [DepthBuffer.GetDepth, exFrameBuffer, exFragment, exVertex]
  have A := depthTest_order_independent exShader exShader 0 0 0 0 0 0
      (exFragment (3 / 10) ⟨1, 0, 0, 1⟩) (exFragment (7 / 10) ⟨0, 1, 0, 1⟩) exFrameBuffer
      b1 b2 b3 b4 b5 b6 zlt (Or.inl z0) (Or.inl z1)
  have B := depthTest_order_independent exShader exShader 0 0 0 0 0 0
      (exFragment (-1 / 2) ⟨1, 0, 0, 1⟩) (exFragment (1 / 2) ⟨0, 1, 0, 1⟩) exFrameBuffer
      b1 b2 b3 b4 b5 b6 nlt (Or.inl n0) (Or.inl n1)
  exact ⟨⟨b1, b2, b3, b4, b5, b6⟩, ⟨zlt, z0, z1⟩, A.1, ⟨nlt, n0, n1, nd⟩, B.1,
    (B.2 nd).2.2.2.2⟩

/-- The rounded square root of one is one. -/
theorem sqrtQ_one : sqrtQ 1 = 1 := by
  have f : ⌊(1 : ℚ) * 2 ^ 46⌋ = ((2 ^ 23 * 2 ^ 23 : ℕ) : ℤ) :=
    floorQ _ _ (by norm_num) (by norm_num)
  simp only [sqrtQ, f, Int.toNat_ofNat, Nat.sqrt_eq]
  norm_num

/-- C13, for the triangle `(0,0,0)`, `(1,0,0)`, `(0,1,0)` seen from `(0, 0, 10)` by
`exRenderer` (back-face culling, counter-clockwise front faces): `n·d = 10`, the
triangle is not culled, and drawing it in the reversed order leaves the renderer
unchanged. -/
theorem backface_cull_ccw_witness :
    (EPSILON : ℚ) <
      Vector3.dot
        ((Vector3.cross
            ((exVsOut (exMeshVertex 1 0 0 1)).worldPos.sub (exVsOut (exMeshVertex 0 0 0 1)).worldPos)
            ((exVsOut (exMeshVertex 0 1 0 1)).worldPos.sub
              (exVsOut (exMeshVertex 0 0 0 1)).worldPos)).normalize sqrtQ)
        ((Vector3.mk3 0 0 10).sub
          ((((exVsOut (exMeshVertex 0 0 0 1)).worldPos.add
              (exVsOut (exMeshVertex 1 0 0 1)).worldPos).add
            (exVsOut (exMeshVertex 0 1 0 1)).worldPos).div 3)) ∧
    DrawTriangle.culled sqrtQ (Vector3.mk3 0 0 10) CullMode.CULL_BACK
      FrontFace.COUNTER_CLOCKWISE (exVsOut (exMeshVertex 0 0 0 1))
      (exVsOut (exMeshVertex 1 0 0 1)) (exVsOut (exMeshVertex 0 1 0 1)) = false ∧
    DrawTriangle sqrtQ exRenderer (exMeshVertex 0 0 0 1) (exMeshVertex 0 1 0 1)
      (exMeshVertex 1 0 0 1) (some exShader) = exRenderer := by
  have hdot : (EPSILON : ℚ) <
      Vector3.dot
        ((Vector3.cross
            ((exVsOut (exMeshVertex 1 0 0 1)).worldPos.sub (exVsOut (exMeshVertex 0 0 0 1)).worldPos)
            ((exVsOut (exMeshVertex 0 1 0 1)).worldPos.sub
              (exVsOut (exMeshVertex 0 0 0 1)).worldPos)).normalize sqrtQ)
        ((Vector3.mk3 0 0 10).sub
          ((((exVsOut (exMeshVertex 0 0 0 1)).worldPos.add
              (exVsOut (exMeshVertex 1 0 0 1)).worldPos).add
            (exVsOut (exMeshVertex 0 1 0 1)).worldPos).div 3)) := by
    have hc : Vector3.cross
        ((exVsOut (exMeshVertex 1 0 0 1)).worldPos.sub (exVsOut (exMeshVertex 0 0 0 1)).worldPos)
        ((exVsOut (exMeshVertex 0 1 0 1)).worldPos.sub (exVsOut (exMeshVertex 0 0 0 1)).worldPos)
        = Vector3.mk3 0 0 1 := by
      simp [Vector3.cross, Vector3.sub, exVsOut, exMeshVertex, exShader, Vector3.mk3]
    have hs : (Vector3.mk3 (0 : ℚ) 0 1).magnitudeSquared = 1 := by
      simp only [Vector3.magnitudeSquared, Vector3.mk3]
      norm_num
    have hm : (Vector3.mk3 (0 : ℚ) 0 1).magnitude sqrtQ = 1 := by
      unfold Vector3.magnitude
      rw [hs, sqrtQ_one]
    have hn : (Vector3.mk3 (0 : ℚ) 0 1).normalize sqrtQ = Vector3.mk3 0 0 1 := by
      simp only [Vector3.normalize, hm]
      norm_num [EPSILON, Vector3.div, Vector3.mk3]
    rw [hc, hn]
    norm_num [EPSILON, Vector3.dot, Vector3.sub, Vector3.add, Vector3.div, Vector3.mk3,
      exVsOut, exMeshVertex, exShader]
  have T := backface_cull_ccw sqrtQ (Vector3.mk3 0 0 10) (exVsOut (exMeshVertex 0 0 0 1))
    (exVsOut (exMeshVertex 1 0 0 1)) (exVsOut (exMeshVertex 0 1 0 1)) hdot
  exact ⟨hdot, T.1,
    (T.2.2.2 exRenderer (exMeshVertex 0 0 0 1) (exMeshVertex 1 0 0 1) (exMeshVertex 0 1 0 1)
      exShader rfl rfl rfl rfl rfl rfl).1⟩

/-- C15, for `n = 1`, `f = 2` and the eye-space points `(3, 4, -5)`, `(3, 4, -1)`
and `(3, 4, -2)`. -/
theorem perspective_near_far_witness :
    ((0 : ℚ) < 1 ∧ (1 : ℚ) < 2) ∧
    ((Matrix.perspective (fun t : ℚ => t) 1 1 1 2).mulVec ⟨3, 4, -5, 1⟩).w = -(-5) ∧
    ((Matrix.perspective (fun t : ℚ => t) 1 1 1 2).mulVec ⟨3, 4, -1, 1⟩).z
      / ((Matrix.perspective (fun t : ℚ => t) 1 1 1 2).mulVec ⟨3, 4, -1, 1⟩).w = -1 ∧
    ((Matrix.perspective (fun t : ℚ => t) 1 1 1 2).mulVec ⟨3, 4, -2, 1⟩).z
      / ((Matrix.perspective (fun t : ℚ => t) 1 1 1 2).mulVec ⟨3, 4, -2, 1⟩).w = 1 :=
  ⟨⟨by norm_num, by norm_num⟩,
    perspective_near_far (fun t : ℚ => t) 1 1 1 2 3 4 (-5) (by norm_num) (by norm_num)⟩

/-- The determinant that `Matrix::inverse` computes for `exMatrix` is `2`. -/
theorem exMatrix_det : Matrix.inverse.det exMatrix = 2 := by
  simp only [Matrix.inverse.det, exMatrix, Matrix.cons_val_zero, Matrix.cons_val_one,
    Matrix.head_cons, Matrix.cons_val_two, Matrix.cons_val_three, Matrix.tail_cons]
  norm_num

/-- C16, for `exMatrix` (determinant `2`). -/
theorem mul_inverse_eq_identity_witness :
    (EPSILON : ℚ) ≤ |Matrix.inverse.det exMatrix| ∧
    exMatrix.mul exMatrix.inverse = Matrix.identity ∧
    exMatrix.inverse.mul exMatrix = Matrix.identity ∧
    Matrix.inverse.det exMatrix = Matrix.det (Matrix.of exMatrix.m) :=
  ⟨by rw [exMatrix_det]; norm_num [EPSILON],
    mul_inverse_eq_identity exMatrix (by rw [exMatrix_det]; norm_num [EPSILON])⟩

/-- C17, for the zero matrix, whose determinant is `0`. -/
theorem inverse_of_small_det_is_identity_witness :
    |Matrix.inverse.det (Matrix.zero : Matrix ℚ)| < EPSILON ∧
    (Matrix.zero : Matrix ℚ).inverse = Matrix.identity := by
  have h : |Matrix.inverse.det (Matrix.zero : Matrix ℚ)| < EPSILON := by
    simp [Matrix.inverse.det, Matrix.zero, EPSILON]
  exact ⟨h, (inverse_of_small_det_is_identity (Matrix.zero : Matrix ℚ)).1 h⟩

/-- C20 (amended), for `exTexWhite` sampled at `(0, 0)`: the only neighbour inside
the grid is `(0, 0)`, with weight `1/4`. -/
theorem bilinearSample_neighbourhood_witness :
    exTexWhite.textureData = some (fun _ => Color.white) ∧
    exTexWhite.BilinearSample 0 0
      = (let texel := fun x y : ℤ =>
          if 0 ≤ x ∧ x < exTexWhite.width ∧ 0 ≤ y ∧ y < exTexWhite.height then
            (fun _ : ℕ => (Color.white : Color ℚ)) (y * exTexWhite.width + x).toNat
          else (Color.black : Color ℚ)
        let fx := (exTexWhite.WrapCoordinates 0 0).1 * (exTexWhite.width : ℚ) - 1 / 2
        let fy := (exTexWhite.WrapCoordinates 0 0).2 * (exTexWhite.height : ℚ) - 1 / 2
        let x0 : ℤ := ⌊fx⌋
        let y0 : ℤ := ⌊fy⌋
        let wx1 := fx - (x0 : ℚ)
        let wy1 := fy - (y0 : ℚ)
        let wx0 := 1 - wx1
        let wy0 := 1 - wy1
        ⟨(texel x0 y0).r * wx0 * wy0 + (texel (x0 + 1) y0).r * wx1 * wy0
            + (texel x0 (y0 + 1)).r * wx0 * wy1 + (texel (x0 + 1) (y0 + 1)).r * wx1 * wy1,
         (texel x0 y0).g * wx0 * wy0 + (texel (x0 + 1) y0).g * wx1 * wy0
            + (texel x0 (y0 + 1)).g * wx0 * wy1 + (texel (x0 + 1) (y0 + 1)).g * wx1 * wy1,
         (texel x0 y0).b * wx0 * wy0 + (texel (x0 + 1) y0).b * wx1 * wy0
            + (texel x0 (y0 + 1)).b * wx0 * wy1 + (texel (x0 + 1) (y0 + 1)).b * wx1 * wy1,
         (texel x0 y0).a * wx0 * wy0 + (texel (x0 + 1) y0).a * wx1 * wy0
            + (texel x0 (y0 + 1)).a * wx0 * wy1 + (texel (x0 + 1) (y0 + 1)).a * wx1 * wy1⟩) :=
  ⟨rfl, bilinearSample_neighbourhood exTexWhite (fun _ => Color.white) rfl 0 0⟩

/-! ### The red triangle, end to end -/

/-- The value of `sqrtQ` at 16. -/
theorem sqrtQ_sixteen : sqrtQ 16 = 4 := by
  have f : ⌊(16 : ℚ) * 2 ^ 46⌋ = ((2 ^ 25 * 2 ^ 25 : ℕ) : ℤ) :=
    floorQ _ _ (by norm_num) (by norm_num)
  simp only [sqrtQ, f, Int.toNat_ofNat, Nat.sqrt_eq]
  norm_num

/-- The three vertex-stage outputs of the red triangle drawn by `exClearedRenderer`
with the `ColorShader`: the triangle faces the viewer, so it is not culled. -/
theorem exRedTriangle_not_culled (o1 o2 o3 : VertexOutput ℚ)
    (h1 : o1.worldPos = Vector3.mk3 (-1) (-1) (-1 / 2))
    (h2 : o2.worldPos = Vector3.mk3 1 (-1) (-1 / 2))
    (h3 : o3.worldPos = Vector3.mk3 0 1 (-1 / 2)) :
    DrawTriangle.culled sqrtQ (Vector3.mk3 0 0 10) CullMode.CULL_BACK
      FrontFace.COUNTER_CLOCKWISE o1 o2 o3 = false := by
  have hs : (Vector3.cross ((Vector3.mk3 (1 : ℚ) (-1) (-1 / 2)).sub (Vector3.mk3 (-1) (-1) (-1 / 2)))
      ((Vector3.mk3 (0 : ℚ) 1 (-1 / 2)).sub (Vector3.mk3 (-1) (-1) (-1 / 2)))).magnitudeSquared
      = 16 := by
    norm_num [Vector3.cross, Vector3.sub, Vector3.mk3, Vector3.magnitudeSquared]
  have hn : (Vector3.cross ((Vector3.mk3 (1 : ℚ) (-1) (-1 / 2)).sub (Vector3.mk3 (-1) (-1) (-1 / 2)))
      ((Vector3.mk3 (0 : ℚ) 1 (-1 / 2)).sub (Vector3.mk3 (-1) (-1) (-1 / 2)))).normalize sqrtQ
      = ⟨0, 0, 1, 1⟩ := by
    unfold Vector3.normalize Vector3.magnitude
    rw [hs, sqrtQ_sixteen]
    norm_num [Vector3.cross, Vector3.sub, Vector3.mk3, Vector3.div, EPSILON]
  unfold DrawTriangle.culled
  rw [h1, h2, h3]
  simp only [hn]
  norm_num [Vector3.dot, Vector3.sub, Vector3.add, Vector3.div, Vector3.mk3, EPSILON]
  intro _
  decide

/-- The red triangle on the 800 by 600 screen.  For vertex-stage outputs at
`(-1,-1,-1/2,1)`, `(1,-1,-1/2,1)`, `(0,1,-1/2,1)`, all red, rasterized by the
`ColorShader` into a frame buffer whose pixels `(400, 300)` and `(10, 10)` hold depth
one and the bytes of black: pixel `(400, 300)` ends with depth `1/4` and the bytes of
red, pixel `(10, 10)` is unchanged. -/
theorem exRedTriangle_rasterize (o1 o2 o3 : VertexOutput ℚ)
    (hp1 : o1.position = ⟨-1, -1, -1 / 2, 1⟩) (hp2 : o2.position = ⟨1, -1, -1 / 2, 1⟩)
    (hp3 : o3.position = ⟨0, 1, -1 / 2, 1⟩)
    (hc1 : o1.color = ⟨1, 0, 0, 1⟩) (hc2 : o2.color = ⟨1, 0, 0, 1⟩)
    (hc3 : o3.color = ⟨1, 0, 0, 1⟩)
    (fb : FrameBuffer ℚ) (hd : HasDims fb (1920 * 1080 * 4) 800 600 (1920 * 1080) 800 600)
    (ha : pixelCells fb 400 300 = (1, 0, 0, 0, 255))
    (hb : pixelCells fb 10 10 = (1, 0, 0, 0, 255)) :
    pixelCells (DrawTriangle.rasterize sqrtQ 800 600 (ColorShader sqrtQ) (o1, o2, o3) fb)
      400 300 = (1 / 4, 255, 0, 0, 255) ∧
    pixelCells (DrawTriangle.rasterize sqrtQ 800 600 (ColorShader sqrtQ) (o1, o2, o3) fb)
      10 10 = (1, 0, 0, 0, 255) := by
  obtain ⟨d1, d2, d3, d4, d5, d6⟩ := hd
  have hs1 : (ProcessVertexOutput 800 600 o1).position = ⟨0, 600, 1 / 4, 1⟩ := by
    simp only [ProcessVertexOutput, hp1]
    norm_num
  have hs2 : (ProcessVertexOutput 800 600 o2).position = ⟨800, 600, 1 / 4, 1⟩ := by
    simp only [ProcessVertexOutput, hp2]
    norm_num
  have hs3 : (ProcessVertexOutput 800 600 o3).position = ⟨400, 0, 1 / 4, 1⟩ := by
    simp only [ProcessVertexOutput, hp3]
    norm_num
  have hk1 : (ProcessVertexOutput 800 600 o1).color = ⟨1, 0, 0, 1⟩ := hc1
  have hk2 : (ProcessVertexOutput 800 600 o2).color = ⟨1, 0, 0, 1⟩ := hc2
  have hk3 : (ProcessVertexOutput 800 600 o3).color = ⟨1, 0, 0, 1⟩ := hc3
  have hfl : ⌊(0 : ℚ)⌋ = 0 := Int.floor_zero
  have hc800 : ⌈(800 : ℚ)⌉ = 800 := by exact_mod_cast Int.ceil_intCast (800 : ℤ)
  have hc600 : ⌈(600 : ℚ)⌉ = 600 := by exact_mod_cast Int.ceil_intCast (600 : ℤ)
  have t0 : toBYTE (0 : ℚ) = 0 := by
    have h := toBYTE_natCast 0
    simpa using h
  have t255 : toBYTE (255 : ℚ) = 255 := by
    have h := toBYTE_natCast 255
    simpa using h
  constructor
  · have key := (rasterize_pixelCells sqrtQ 800 600 (ColorShader sqrtQ) (o1, o2, o3) fb 400 300
      (by rw [d2]; norm_num) (by rw [d3]; norm_num) (by rw [d2, d1]; norm_num)
      (by rw [d5]; norm_num) (by rw [d6]; norm_num) (by rw [d5, d4]; norm_num)).2
    simp only [hs1, hs2, hs3] at key
    norm_num [PointInTriangle, EdgeFunction, toInt32] at key
    obtain ⟨du, dv, key⟩ := key
    rw [key]
    simp only [InterpolateVertex, ColorShader, ColorShader.FragmentShader, hk1, hk2, hk3,
      hp1, hp2, hp3, ha]
    norm_num [clamp01, clamp, t0, t255]
  · have key := (rasterize_pixelCells sqrtQ 800 600 (ColorShader sqrtQ) (o1, o2, o3) fb 10 10
      (by rw [d2]; norm_num) (by rw [d3]; norm_num) (by rw [d2, d1]; norm_num)
      (by rw [d5]; norm_num) (by rw [d6]; norm_num) (by rw [d5, d4]; norm_num)).1
    simp only [hs1, hs2, hs3] at key
    norm_num [PointInTriangle, EdgeFunction, toInt32] at key
    rw [key, hb]

/-- The vertex-stage output of the `ColorShader` for a red mesh vertex drawn by
`exClearedRenderer`, whose matrices are the identity. -/
theorem exRedVertex_output (x y z w : ℚ) :
    let o := (ColorShader sqrtQ).VertexShader ⟨(exRedVertex x y z w).pos,
      (exRedVertex x y z w).color, (exRedVertex x y z w).normal, (exRedVertex x y z w).texcoord,
      exClearedRenderer.m_modelMatrix, exClearedRenderer.m_viewMatrix,
      exClearedRenderer.m_projMatrix⟩
    o.position = ⟨x, y, z, w⟩ ∧ o.color = ⟨1, 0, 0, 1⟩ ∧ o.worldPos = Vector3.mk3 x y z := by
  intro o
  have i1 := ColorShader.VertexShader_identity sqrtQ (⟨x, y, z, w⟩ : Vector4 ℚ)
    ⟨1, 0, 0, 1⟩ (Vector3.mk3 0 0 1) Vector2.default
  exact ⟨i1.1, i1.2.1, i1.2.2.2⟩

/-- The cells of the pixels `(400, 300)` and `(10, 10)` of the frame buffer of
`exClearedRenderer`: depth one and the bytes of black. -/
theorem exClearedRenderer_cells :
    pixelCells (exFrameBuffer.InitWithColorAndDepth Color.black 1) 400 300
      = (1, 0, 0, 0, 255) ∧
    pixelCells (exFrameBuffer.InitWithColorAndDepth Color.black 1) 10 10
      = (1, 0, 0, 0, 255) := by
  have t0 : toBYTE (0 : ℚ) = 0 := by
    have h := toBYTE_natCast 0
    simpa using h
  have t255 : toBYTE (255 : ℚ) = 255 := by
    have h := toBYTE_natCast 255
    simpa using h
  constructor
  · rw [FrameBuffer.InitWithColorAndDepth_pixelCells exFrameBuffer Color.black 1 400 300
      (by norm_num [exFrameBuffer]) (by norm_num [exFrameBuffer]) (by norm_num [exFrameBuffer])
      (by norm_num [exFrameBuffer]) (by norm_num [exFrameBuffer]) (by norm_num [exFrameBuffer])]
    norm_num [Color.black, clamp01, clamp, t0, t255]
  · rw [FrameBuffer.InitWithColorAndDepth_pixelCells exFrameBuffer Color.black 1 10 10
      (by norm_num [exFrameBuffer]) (by norm_num [exFrameBuffer]) (by norm_num [exFrameBuffer])
      (by norm_num [exFrameBuffer]) (by norm_num [exFrameBuffer]) (by norm_num [exFrameBuffer])]
    norm_num [Color.black, clamp01, clamp, t0, t255]

/-- The draw call of the red triangle by `exClearedRenderer`, in terms of the three
vertex-stage outputs. -/
theorem exRedTriangle_draw (o1 o2 o3 : VertexOutput ℚ)
    (e1 : (ColorShader sqrtQ).VertexShader ⟨(exRedVertex (-1) (-1) (-1 / 2) 1).pos,
      (exRedVertex (-1) (-1) (-1 / 2) 1).color, (exRedVertex (-1) (-1) (-1 / 2) 1).normal,
      (exRedVertex (-1) (-1) (-1 / 2) 1).texcoord, exClearedRenderer.m_modelMatrix,
      exClearedRenderer.m_viewMatrix, exClearedRenderer.m_projMatrix⟩ = o1)
    (e2 : (ColorShader sqrtQ).VertexShader ⟨(exRedVertex 1 (-1) (-1 / 2) 1).pos,
      (exRedVertex 1 (-1) (-1 / 2) 1).color, (exRedVertex 1 (-1) (-1 / 2) 1).normal,
      (exRedVertex 1 (-1) (-1 / 2) 1).texcoord, exClearedRenderer.m_modelMatrix,
      exClearedRenderer.m_viewMatrix, exClearedRenderer.m_projMatrix⟩ = o2)
    (e3 : (ColorShader sqrtQ).VertexShader ⟨(exRedVertex 0 1 (-1 / 2) 1).pos,
      (exRedVertex 0 1 (-1 / 2) 1).color, (exRedVertex 0 1 (-1 / 2) 1).normal,
      (exRedVertex 0 1 (-1 / 2) 1).texcoord, exClearedRenderer.m_modelMatrix,
      exClearedRenderer.m_viewMatrix, exClearedRenderer.m_projMatrix⟩ = o3) :
    pixelCells (DrawTriangle sqrtQ exClearedRenderer (exRedVertex (-1) (-1) (-1 / 2) 1)
      (exRedVertex 1 (-1) (-1 / 2) 1) (exRedVertex 0 1 (-1 / 2) 1)
      (some (ColorShader sqrtQ))).m_currentFrameBuffer 400 300 = (1 / 4, 255, 0, 0, 255) ∧
    pixelCells (DrawTriangle sqrtQ exClearedRenderer (exRedVertex (-1) (-1) (-1 / 2) 1)
      (exRedVertex 1 (-1) (-1 / 2) 1) (exRedVertex 0 1 (-1 / 2) 1)
      (some (ColorShader sqrtQ))).m_currentFrameBuffer 10 10 = (1, 0, 0, 0, 255) := by
  have i1 := exRedVertex_output (-1) (-1) (-1 / 2) 1
  have i2 := exRedVertex_output 1 (-1) (-1 / 2) 1
  have i3 := exRedVertex_output 0 1 (-1 / 2) 1
  simp only [e1] at i1
  simp only [e2] at i2
  simp only [e3] at i3
  obtain ⟨p1, c1, w1⟩ := i1
  obtain ⟨p2, c2, w2⟩ := i2
  obtain ⟨p3, c3, w3⟩ := i3
  have hfb : (DrawTriangle sqrtQ exClearedRenderer (exRedVertex (-1) (-1) (-1 / 2) 1)
      (exRedVertex 1 (-1) (-1 / 2) 1) (exRedVertex 0 1 (-1 / 2) 1)
      (some (ColorShader sqrtQ))).m_currentFrameBuffer
      = DrawTriangle.rasterize sqrtQ 800 600 (ColorShader sqrtQ) (o1, o2, o3)
          (exFrameBuffer.InitWithColorAndDepth Color.black 1) :=
    DrawTriangle_inside_not_culled sqrtQ exClearedRenderer _ _ _ (ColorShader sqrtQ) o1 o2 o3
      e1 e2 e3 (exRedTriangle_not_culled o1 o2 o3 w1 w2 w3)
      (by rw [p1]; norm_num) (by rw [p2]; norm_num) (by rw [p3]; norm_num)
  rw [hfb]
  exact exRedTriangle_rasterize o1 o2 o3 p1 p2 p3 c1 c2 c3
    (exFrameBuffer.InitWithColorAndDepth Color.black 1) ⟨rfl, rfl, rfl, rfl, rfl, rfl⟩
    exClearedRenderer_cells.1 exClearedRenderer_cells.2

/-- C28. End to end: `exClearedRenderer` (800 by 600 frame buffer cleared to black
with depth one, identity matrices, view position `(0, 0, 10)`, back-face culling,
counter-clockwise front faces) draws with the `ColorShader` the red triangle
`(-1,-1,-0.5,1)`, `(1,-1,-0.5,1)`, `(0,1,-0.5,1)`.  Afterwards the cells of
pixel `(400, 300)` are the depth `1/4` and the bytes `255, 0, 0, 255` (the red byte is
at least 230, the green and blue bytes are zero), and the cells of pixel `(10, 10)`
are still the depth one and the bytes `0, 0, 0, 255` of black. -/
theorem drawTriangle_red_end_to_end :
    pixelCells (DrawTriangle sqrtQ exClearedRenderer (exRedVertex (-1) (-1) (-1 / 2) 1)
      (exRedVertex 1 (-1) (-1 / 2) 1) (exRedVertex 0 1 (-1 / 2) 1)
      (some (ColorShader sqrtQ))).m_currentFrameBuffer 400 300 = (1 / 4, 255, 0, 0, 255) ∧
    pixelCells (DrawTriangle sqrtQ exClearedRenderer (exRedVertex (-1) (-1) (-1 / 2) 1)
      (exRedVertex 1 (-1) (-1 / 2) 1) (exRedVertex 0 1 (-1 / 2) 1)
      (some (ColorShader sqrtQ))).m_currentFrameBuffer 10 10 = (1, 0, 0, 0, 255) :=
  exRedTriangle_draw _ _ _ rfl rfl rfl

/-! ### Texture sampling -/

/-- C21 as stated fails under `CLAMP` at `u = 1`: in the uniform white 2 by 2
texture `exTexClamp`, `NearestSample(1, 0)` reads `GetPixel(2, 0)`, outside the grid,
and returns `Color::black`, while the texel of the last column `GetPixel(1, 0)` is
white. -/
theorem nearestSample_clamp_at_one :
    exTexClamp.NearestSample 1 0 = Color.black ∧
    exTexClamp.GetPixel 1 0 = Color.white ∧
    exTexClamp.NearestSample 1 0 ≠ exTexClamp.GetPixel 1 0 := by
  have hwrap : exTexClamp.WrapCoordinates 1 0 = (1, 0) := by
    simp [Texture.WrapCoordinates, exTexClamp, clamp01, clamp]
  have e1 : toInt ((1 : ℚ) * ((exTexClamp.width : ℤ) : ℚ)) = 2 := by
    have f : ⌊(2 : ℚ)⌋ = 2 := floorQ _ 2 (by norm_num) (by norm_num)
    norm_num [toInt, exTexClamp, f]
  have e2 : toInt ((0 : ℚ) * ((exTexClamp.height : ℤ) : ℚ)) = 0 := by
    norm_num [toInt]
  have p20 : exTexClamp.GetPixel 2 0 = Color.black := by
    rw [Texture.GetPixel_eq exTexClamp _ rfl]
    norm_num [exTexClamp]
  have p10 : exTexClamp.GetPixel 1 0 = Color.white := by
    rw [Texture.GetPixel_eq exTexClamp _ rfl]
    norm_num [exTexClamp]
  have hs : exTexClamp.NearestSample 1 0 = Color.black := by
    simp only [Texture.NearestSample, hwrap, e1, e2, p20]
  refine ⟨hs, p10, ?_⟩
  rw [hs, p10]
  intro h
  have := congrArg Color.r h
  norm_num [Color.black, Color.white] at this

/-- C21 (amended), for `exTexClamp` at `(u, v) = (1, 0)`: the wrap mode is `CLAMP`,
the sizes are positive and `u ≥ 1`, so `NearestSample` returns `Color::black`. -/
theorem nearestSample_texel_witness :
    exTexClamp.textureData = some (fun _ => Color.white) ∧
    exTexClamp.wrapMode = TextureWrapMode.CLAMP ∧ 0 < exTexClamp.width ∧
    0 < exTexClamp.height ∧ ((1 : ℚ) ≤ 1 ∨ (1 : ℚ) ≤ 0) ∧
    exTexClamp.NearestSample 1 0 = Color.black :=
  ⟨rfl, rfl, by decide, by decide, Or.inl le_rfl,
    (nearestSample_texel exTexClamp (fun _ => Color.white) rfl 1 0).2 rfl (by decide)
      (by decide) (Or.inl le_rfl)⟩

/-- C22 fails at `u = v = 5/4` under `MIRROR` wrapping: `⌊5/4 + 1/2⌋ = 1` is odd and
the fractional part of `5/4` is `1/4`, so the claim (and the comment of the branch:
odd multiples are mirrored) gives `1 − 1/4 = 3/4`; `WrapCoordinates` returns `1/4`,
because it tests the parity of `⌊1/4 + 1/2⌋ = 0`. -/
theorem wrapCoordinates_mirror_five_quarters :
    exTexMirror.WrapCoordinates (5 / 4) (5 / 4) = (1 / 4, 1 / 4) ∧
    Int.tmod ⌊(5 / 4 : ℚ) + 1 / 2⌋ 2 = 1 ∧
    1 - ((5 / 4 : ℚ) - ((⌊(5 / 4 : ℚ)⌋ : ℤ) : ℚ)) = 3 / 4 ∧
    (exTexMirror.WrapCoordinates (5 / 4) (5 / 4)).1 ≠ 3 / 4 := by
  have f1 : ⌊(5 / 4 : ℚ)⌋ = 1 := floorQ _ 1 (by norm_num) (by norm_num)
  have f2 : ⌊(5 / 4 : ℚ) + 1 / 2⌋ = 1 := floorQ _ 1 (by norm_num) (by norm_num)
  have f3 : ⌊(5 / 4 : ℚ) - ((1 : ℤ) : ℚ) + 1 / 2⌋ = 0 := floorQ _ 0 (by norm_num) (by norm_num)
  have hwrap : exTexMirror.WrapCoordinates (5 / 4) (5 / 4) = (1 / 4, 1 / 4) := by
    have tm : ¬ Int.tmod 0 2 = 1 := by decide
    simp only [Texture.WrapCoordinates, exTexMirror, f1, f3, tm, if_false]
    norm_num
  refine ⟨hwrap, ?_, ?_, ?_⟩
  · rw [f2]
    decide
  · rw [f1]
    norm_num
  · rw [hwrap]
    norm_num

/-- The lemma `sample_repeat_periodic` for the 2 by 2 checker `exTexChecker` with
`REPEAT` wrapping: in exact arithmetic sampling at `(1.5, 0)` returns what sampling
at `(0.5, 0)` returns. -/
theorem sample_repeat_periodic_witness :
    exTexChecker.wrapMode = TextureWrapMode.REPEAT ∧
    exTexChecker.Sample (1 / 2 + ((1 : ℤ) : ℚ)) (0 + ((0 : ℤ) : ℚ)) = exTexChecker.Sample (1 / 2) 0 ∧
    exTexChecker.NearestSample (1 / 2 + ((1 : ℤ) : ℚ)) (0 + ((0 : ℤ) : ℚ))
      = exTexChecker.NearestSample (1 / 2) 0 ∧
    exTexChecker.BilinearSample (1 / 2 + ((1 : ℤ) : ℚ)) (0 + ((0 : ℤ) : ℚ))
      = exTexChecker.BilinearSample (1 / 2) 0 :=
  ⟨rfl, sample_repeat_periodic exTexChecker rfl (1 / 2) 0 1 0⟩

/-- The value of `log2Q` at two. -/
theorem log2Q_two : log2Q (2 ^ 1) = ((1 : ℕ) : ℚ) := by
  have f : ⌊(2 : ℚ) ^ 1⌋ = ((2 : ℕ) : ℤ) := floorQ _ _ (by norm_num) (by norm_num)
  have l : Nat.log 2 2 = 1 := Nat.log_eq_of_pow_le_of_lt_pow (by norm_num) (by norm_num)
  simp only [log2Q, f, Int.toNat_ofNat, l]

/-- C27, for `exTexTrilinear` (2 by 2, one level beyond the source) sampled with
`dudx = dvdy = 1`: `rho = 2 = 2 ^ 1`, and the result is the bilinear sample of level
one, `exTexMip`. -/
theorem sampleWithDerivatives_at_power_of_two_witness :
    exTexTrilinear.textureData.isSome = true ∧ 0 < exTexTrilinear.width ∧
    0 < exTexTrilinear.height ∧ exTexTrilinear.hasMipmaps = true ∧
    exTexTrilinear.filterMode = TextureFilterMode.TRILINEAR ∧
    1 ≤ exTexTrilinear.mipmaps.length ∧
    max |(1 : ℚ) * (exTexTrilinear.width : ℚ)| |(1 : ℚ) * (exTexTrilinear.height : ℚ)| = 2 ^ 1 ∧
    log2Q (2 ^ 1) = ((1 : ℕ) : ℚ) ∧
    (exTexTrilinear :: exTexTrilinear.mipmaps)[1]? = some exTexMip ∧
    exTexTrilinear.SampleWithDerivatives log2Q 0 0 1 1 = some (exTexMip.BilinearSample 0 0) := by
  have hrho : max |(1 : ℚ) * (exTexTrilinear.width : ℚ)| |(1 : ℚ) * (exTexTrilinear.height : ℚ)|
      = 2 ^ 1 := by
    norm_num [exTexTrilinear]
  obtain ⟨level, h1, h2⟩ := sampleWithDerivatives_at_power_of_two log2Q exTexTrilinear 0 0 1 1 1
    rfl (by decide) (by decide) rfl rfl (by decide) (by decide) hrho log2Q_two
  have hl : level = exTexMip := by
    have h3 : (exTexTrilinear :: exTexTrilinear.mipmaps)[1]? = some exTexMip := rfl
    rw [h3] at h1
    exact (Option.some.inj h1).symm
  rw [hl] at h2
  exact ⟨rfl, by decide, by decide, rfl, rfl, by decide, hrho, log2Q_two, rfl, h2⟩

/-! ### Mipmap chains -/

/-- The chain that `GenerateMipmaps` builds for `exTex42`. -/
theorem exTex42_mipmaps :
    exTex42.GenerateMipmaps.mipmaps = [exTex42Level1, exTex42Level2] :=
  Texture.GenerateMipmaps_two_levels exTex42 rfl (by decide) (by decide) (by decide)
    (by decide) (Or.inl (by decide))

/-- The chain that `GenerateMipmaps` builds for `exTex24`. -/
theorem exTex24_mipmaps :
    exTex24.GenerateMipmaps.mipmaps = [exTex24Level1, exTex24Level2] :=
  Texture.GenerateMipmaps_two_levels exTex24 rfl (by decide) (by decide) (by decide)
    (by decide) (Or.inr (by decide))

/-- The sizes of the levels of `exTex42` and `exTex24`. -/
theorem exLevels_size :
    (exTex42Level1.width = 2 ∧ exTex42Level1.height = 1) ∧
    (exTex42Level2.width = 1 ∧ exTex42Level2.height = 1) ∧
    (exTex24Level1.width = 1 ∧ exTex24Level1.height = 2) ∧
    (exTex24Level2.width = 1 ∧ exTex24Level2.height = 1) := by
  have a := Texture.GenerateMipmaps.level_spec TextureFilterMode.BILINEAR TextureWrapMode.REPEAT
    exTex42.ClearMipmaps 2 1 (by decide) (by decide)
  have b := Texture.GenerateMipmaps.level_spec TextureFilterMode.BILINEAR TextureWrapMode.REPEAT
    exTex42Level1 1 1 (by decide) (by decide)
  have c := Texture.GenerateMipmaps.level_spec TextureFilterMode.BILINEAR TextureWrapMode.REPEAT
    exTex24.ClearMipmaps 1 2 (by decide) (by decide)
  have d := Texture.GenerateMipmaps.level_spec TextureFilterMode.BILINEAR TextureWrapMode.REPEAT
    exTex24Level1 1 1 (by decide) (by decide)
  exact ⟨⟨a.1, a.2.1⟩, ⟨b.1, b.2.1⟩, ⟨c.1, c.2.1⟩, ⟨d.1, d.2.1⟩⟩

/-- C24, for the 4 by 2 texture `exTex42`: level one is `exTex42Level1`, and its size
is `max(1, 4/2)` by `max(1, 2/2)`. -/
theorem generateMipmaps_level_size_witness :
    (exTex42.GenerateMipmaps :: exTex42.GenerateMipmaps.mipmaps)[0]?
      = some exTex42.GenerateMipmaps ∧
    (exTex42.GenerateMipmaps :: exTex42.GenerateMipmaps.mipmaps)[0 + 1]?
      = some exTex42Level1 ∧
    exTex42Level1.width = max 1 (exTex42.GenerateMipmaps.width / 2) ∧
    exTex42Level1.height = max 1 (exTex42.GenerateMipmaps.height / 2) :=
  have hb : (exTex42.GenerateMipmaps :: exTex42.GenerateMipmaps.mipmaps)[0 + 1]?
      = some exTex42Level1 := by
    rw [exTex42_mipmaps]
    rfl
  ⟨List.getElem?_cons_zero, hb,
    generateMipmaps_level_size exTex42 0 exTex42.GenerateMipmaps exTex42Level1
      List.getElem?_cons_zero hb⟩

/-- C25 as stated fails for a texture with a size of one: the 1 by 4 texture
`exTex14` has `W ≥ 1` and `H ≥ 1`, but `GenerateMipmaps` returns at its guard
`width <= 1 || height <= 1` with no level beyond the source, which is 1 by 4, while
`⌊log₂ max(1, 4)⌋ = 2`. -/
theorem generateMipmaps_one_by_four :
    1 ≤ exTex14.width ∧ 1 ≤ exTex14.height ∧ exTex14.GenerateMipmaps.mipmaps = [] ∧
    exTex14.GenerateMipmaps.height = 4 ∧
    Nat.log 2 (max exTex14.width exTex14.height).toNat = 2 := by
  have e := Texture.GenerateMipmaps_of_small exTex14 (Or.inr (Or.inl (by decide)))
  have m : (max exTex14.width exTex14.height).toNat = 4 := by decide
  rw [e, m]
  exact ⟨by decide, by decide, rfl, rfl,
    Nat.log_eq_of_pow_le_of_lt_pow (by norm_num) (by norm_num)⟩

/-- C25 (amended), for `exTex42` (both sizes at least two: two levels, the last one
by one) and for `exTex14` (a size of one: no level). -/
theorem generateMipmaps_level_count_witness :
    (exTex42.textureData.isSome = true ∧ 2 ≤ exTex42.width ∧ 2 ≤ exTex42.height ∧
      exTex42.GenerateMipmaps.mipmaps.length
        = Nat.log 2 (max exTex42.width exTex42.height).toNat ∧
      ((exTex42.GenerateMipmaps :: exTex42.GenerateMipmaps.mipmaps).getLast
        (List.cons_ne_nil _ _)).width = 1 ∧
      ((exTex42.GenerateMipmaps :: exTex42.GenerateMipmaps.mipmaps).getLast
        (List.cons_ne_nil _ _)).height = 1 ∧
      exTex42.GenerateMipmaps.hasMipmaps = true) ∧
    ((exTex14.textureData.isNone = true ∨ exTex14.width ≤ 1 ∨ exTex14.height ≤ 1) ∧
      exTex14.GenerateMipmaps.mipmaps = [] ∧ exTex14.GenerateMipmaps.hasMipmaps = false) :=
  ⟨⟨rfl, by decide, by decide,
      (generateMipmaps_level_count exTex42).1 rfl (by decide) (by decide)⟩,
    ⟨Or.inr (Or.inl (by decide)),
      (generateMipmaps_level_count exTex14).2 (Or.inr (Or.inl (by decide)))⟩⟩

/-- C26 as stated fails for a level with a size of one.  For the uniform white 4 by 2
texture `exTex42`, level one is 2 by 1 and both of its texels are white, but the
pixel of level two is `(1/2, 1/2, 1/2, 1)`: two of the four reads fall outside the
grid of level one and give `Color::black`. -/
theorem generateMipmaps_thin_level_average :
    (exTex42.GenerateMipmaps :: exTex42.GenerateMipmaps.mipmaps)[1]? = some exTex42Level1 ∧
    (exTex42.GenerateMipmaps :: exTex42.GenerateMipmaps.mipmaps)[2]? = some exTex42Level2 ∧
    exTex42Level1.width = 2 ∧ exTex42Level1.height = 1 ∧
    exTex42Level1.GetPixel 0 0 = Color.white ∧ exTex42Level1.GetPixel 1 0 = Color.white ∧
    exTex42Level2.GetPixel 0 0 = ⟨1 / 2, 1 / 2, 1 / 2, 1⟩ ∧
    exTex42Level2.GetPixel 0 0 ≠ Color.white := by
  have a := Texture.GenerateMipmaps.level_spec TextureFilterMode.BILINEAR TextureWrapMode.REPEAT
    exTex42.ClearMipmaps 2 1 (by decide) (by decide)
  have b := Texture.GenerateMipmaps.level_spec TextureFilterMode.BILINEAR TextureWrapMode.REPEAT
    exTex42Level1 1 1 (by decide) (by decide)
  obtain ⟨aw, ah, -, -, -, apix⟩ := a
  obtain ⟨-, -, -, -, -, bpix⟩ := b
  have src : ∀ x y : ℤ, 0 ≤ x → x < 4 → 0 ≤ y → y < 2 →
      exTex42.ClearMipmaps.GetPixel x y = Color.white := by
    intro x y hx0 hx hy0 hy
    rw [Texture.GetPixel_eq exTex42.ClearMipmaps (fun _ => Color.white) rfl]
    have hc : 0 ≤ x ∧ x < exTex42.ClearMipmaps.width ∧ 0 ≤ y ∧ y < exTex42.ClearMipmaps.height :=
      ⟨hx0, hx, hy0, hy⟩
    rw [if_pos hc]
  have p00 : exTex42Level1.GetPixel 0 0 = Color.white := by
    have h := apix 0 0 (by decide) (by decide) (by decide) (by decide)
    have h' : exTex42Level1.GetPixel 0 0 = exTex42.ClearMipmaps.blockAverage 0 0 := h
    rw [h']
    simp only [Texture.blockAverage]
    rw [src (0 * 2) (0 * 2) (by decide) (by decide) (by decide) (by decide),
      src (0 * 2 + 1) (0 * 2) (by decide) (by decide) (by decide) (by decide),
      src (0 * 2) (0 * 2 + 1) (by decide) (by decide) (by decide) (by decide),
      src (0 * 2 + 1) (0 * 2 + 1) (by decide) (by decide) (by decide) (by decide)]
    norm_num [Color.white]
  have p10 : exTex42Level1.GetPixel 1 0 = Color.white := by
    have h := apix 1 0 (by decide) (by decide) (by decide) (by decide)
    have h' : exTex42Level1.GetPixel 1 0 = exTex42.ClearMipmaps.blockAverage 1 0 := h
    rw [h']
    simp only [Texture.blockAverage]
    rw [src (1 * 2) (0 * 2) (by decide) (by decide) (by decide) (by decide),
      src (1 * 2 + 1) (0 * 2) (by decide) (by decide) (by decide) (by decide),
      src (1 * 2) (0 * 2 + 1) (by decide) (by decide) (by decide) (by decide),
      src (1 * 2 + 1) (0 * 2 + 1) (by decide) (by decide) (by decide) (by decide)]
    norm_num [Color.white]
  have aw' : exTex42Level1.width = 2 := aw
  have ah' : exTex42Level1.height = 1 := ah
  have q : exTex42Level2.GetPixel 0 0 = ⟨1 / 2, 1 / 2, 1 / 2, 1⟩ := by
    have h := bpix 0 0 (by decide) (by decide) (by decide) (by decide)
    have h' : exTex42Level2.GetPixel 0 0 = exTex42Level1.blockAverage 0 0 := h
    have o1 : exTex42Level1.GetPixel (0 * 2) (0 * 2 + 1) = Color.black :=
      Texture.GetPixel_outside _ _ _ (by rw [aw', ah']; decide)
    have o2 : exTex42Level1.GetPixel (0 * 2 + 1) (0 * 2 + 1) = Color.black :=
      Texture.GetPixel_outside _ _ _ (by rw [aw', ah']; decide)
    have i1 : exTex42Level1.GetPixel (0 * 2) (0 * 2) = Color.white := p00
    have i2 : exTex42Level1.GetPixel (0 * 2 + 1) (0 * 2) = Color.white := p10
    rw [h']
    simp only [Texture.blockAverage, o1, o2, i1, i2]
    norm_num [Color.white, Color.black]
  refine ⟨?_, ?_, aw', ah', p00, p10, q, ?_⟩
  · rw [exTex42_mipmaps]
    rfl
  · rw [exTex42_mipmaps]
    rfl
  · rw [q]
    intro h
    have := congrArg Color.r h
    norm_num [Color.white] at this

/-- C26 (amended), for two thin levels.  In the chain of `exTex42` level one is 2 by 1
and level two 1 by 1: the pixel `(0, 0)` of level two is the quarter of the four
reads, the two reads in row one are `Color::black`.  In the chain of `exTex24` level
one is 1 by 2: the two reads in column one are `Color::black`. -/
theorem generateMipmaps_pixel_average_witness :
    ((exTex42.GenerateMipmaps :: exTex42.GenerateMipmaps.mipmaps)[1]? = some exTex42Level1 ∧
      (exTex42.GenerateMipmaps :: exTex42.GenerateMipmaps.mipmaps)[1 + 1]?
        = some exTex42Level2 ∧
      (0 : ℤ) < exTex42Level2.width ∧ (0 : ℤ) < exTex42Level2.height ∧
      2 ≤ exTex42Level1.width ∧ exTex42Level1.height ≤ 1 ∧
      exTex42Level2.GetPixel 0 0 = exTex42Level1.blockAverage 0 0 ∧
      (0 : ℤ) * 2 + 1 < exTex42Level1.width ∧
      exTex42Level1.GetPixel (0 * 2) (0 * 2 + 1) = Color.black ∧
      exTex42Level1.GetPixel (0 * 2 + 1) (0 * 2 + 1) = Color.black) ∧
    ((exTex24.GenerateMipmaps :: exTex24.GenerateMipmaps.mipmaps)[1]? = some exTex24Level1 ∧
      (exTex24.GenerateMipmaps :: exTex24.GenerateMipmaps.mipmaps)[1 + 1]?
        = some exTex24Level2 ∧
      (0 : ℤ) < exTex24Level2.width ∧ (0 : ℤ) < exTex24Level2.height ∧
      exTex24Level1.width ≤ 1 ∧ 2 ≤ exTex24Level1.height ∧
      exTex24Level2.GetPixel 0 0 = exTex24Level1.blockAverage 0 0 ∧
      (0 : ℤ) * 2 + 1 < exTex24Level1.height ∧
      exTex24Level1.GetPixel (0 * 2 + 1) (0 * 2) = Color.black ∧
      exTex24Level1.GetPixel (0 * 2 + 1) (0 * 2 + 1) = Color.black) := by
  obtain ⟨⟨w1, h1⟩, ⟨w2, h2⟩, ⟨w3, h3⟩, ⟨w4, h4⟩⟩ := exLevels_size
  have a1 : (exTex42.GenerateMipmaps :: exTex42.GenerateMipmaps.mipmaps)[1]?
      = some exTex42Level1 := by
    rw [exTex42_mipmaps]
    rfl
  have a2 : (exTex42.GenerateMipmaps :: exTex42.GenerateMipmaps.mipmaps)[1 + 1]?
      = some exTex42Level2 := by
    rw [exTex42_mipmaps]
    rfl
  have b1 : (exTex24.GenerateMipmaps :: exTex24.GenerateMipmaps.mipmaps)[1]?
      = some exTex24Level1 := by
    rw [exTex24_mipmaps]
    rfl
  have b2 : (exTex24.GenerateMipmaps :: exTex24.GenerateMipmaps.mipmaps)[1 + 1]?
      = some exTex24Level2 := by
    rw [exTex24_mipmaps]
    rfl
  have p2w : (0 : ℤ) < exTex42Level2.width := by rw [w2]; decide
  have p2h : (0 : ℤ) < exTex42Level2.height := by rw [h2]; decide
  have p4w : (0 : ℤ) < exTex24Level2.width := by rw [w4]; decide
  have p4h : (0 : ℤ) < exTex24Level2.height := by rw [h4]; decide
  have c1w : 2 ≤ exTex42Level1.width := by rw [w1]
  have c1h : exTex42Level1.height ≤ 1 := by rw [h1]
  have c3w : exTex24Level1.width ≤ 1 := by rw [w3]
  have c3h : 2 ≤ exTex24Level1.height := by rw [h3]
  have A := generateMipmaps_pixel_average exTex42 1 exTex42Level1 exTex42Level2 a1 a2 0 0
    le_rfl p2w le_rfl p2h
  have B := generateMipmaps_pixel_average exTex24 1 exTex24Level1 exTex24Level2 b1 b2 0 0
    le_rfl p4w le_rfl p4h
  exact ⟨⟨a1, a2, p2w, p2h, c1w, c1h, A.1, A.2.1 c1w, (A.2.2.2.2 c1h).1, (A.2.2.2.2 c1h).2⟩,
    ⟨b1, b2, p4w, p4h, c3w, c3h, B.1, B.2.2.1 c3h, (B.2.2.2.1 c3w).1, (B.2.2.2.1 c3w).2⟩⟩

/-! ### Pixel writes and clearing -/

/-- C29 as stated fails for a pixel beyond the allocated block.  In
`exWideColorBuffer` (2000 by 1100) the pixel `(1999, 1099)` has `x < width` and
`y < height`, but its offset `4·(1099·2000 + 1999) + 3` is not below `BUFFER_SIZE`:
`SetPixel` with white leaves the buffer as it was, the byte at the pixel's offset is
still `0` and not `⌊255·1⌋ = 255`. -/
theorem setPixel_beyond_block :
    1999 < exWideColorBuffer.width ∧ 1099 < exWideColorBuffer.height ∧
    exWideColorBuffer.SetPixel 1999 1099 (Color.white : Color ℚ) = exWideColorBuffer ∧
    (exWideColorBuffer.SetPixel 1999 1099 (Color.white : Color ℚ)).buffer
      ((1099 * exWideColorBuffer.width + 1999) * 4) = 0 ∧
    ⌊(Color.white : Color ℚ).r * 255⌋.toNat = 255 := by
  have e : exWideColorBuffer.SetPixel 1999 1099 (Color.white : Color ℚ) = exWideColorBuffer := by
    norm_num [ColorBuffer.SetPixel, exWideColorBuffer]
  have f : ⌊(Color.white : Color ℚ).r * 255⌋ = ((255 : ℕ) : ℤ) :=
    floorQ _ _ (by norm_num [Color.white]) (by norm_num [Color.white])
  refine ⟨by decide, by decide, e, ?_, ?_⟩
  · rw [e]
    rfl
  · rw [f]
    rfl

/-- C29 (amended), for the pixel `(1, 1)` of the 800 by 600 colour buffer of
`exFrameBuffer` written with the colour `(1, 1/2, 0, 1)`, and for the pixel
`(1999, 1099)` of `exWideColorBuffer`, whose offset is not below `BUFFER_SIZE`. -/
theorem setPixel_writes_four_bytes_witness :
    (1 < exFrameBuffer.colorBuffer.width ∧ 1 < exFrameBuffer.colorBuffer.height ∧
      (1 * exFrameBuffer.colorBuffer.width + 1) * 4 + 3 < exFrameBuffer.colorBuffer.BUFFER_SIZE ∧
      ((0 : ℚ) ≤ 1 ∧ (1 : ℚ) ≤ 1) ∧ ((0 : ℚ) ≤ 1 / 2 ∧ (1 / 2 : ℚ) ≤ 1) ∧
      ((0 : ℚ) ≤ 0 ∧ (0 : ℚ) ≤ 1) ∧
      (let cb' := exFrameBuffer.colorBuffer.SetPixel 1 1 (⟨1, 1 / 2, 0, 1⟩ : Color ℚ)
       let i := (1 * exFrameBuffer.colorBuffer.width + 1) * 4
       let v : Color ℚ := cb'.GetPixelColor 1 1
       (cb'.buffer i = ⌊(1 : ℚ) * 255⌋.toNat ∧ cb'.buffer (i + 1) = ⌊(1 / 2 : ℚ) * 255⌋.toNat ∧
         cb'.buffer (i + 2) = ⌊(0 : ℚ) * 255⌋.toNat ∧
         cb'.buffer (i + 3) = ⌊(1 : ℚ) * 255⌋.toNat) ∧
       (∀ k, k < i ∨ i + 3 < k → cb'.buffer k = exFrameBuffer.colorBuffer.buffer k) ∧
       (cb'.BUFFER_SIZE = exFrameBuffer.colorBuffer.BUFFER_SIZE ∧
         cb'.channel = exFrameBuffer.colorBuffer.channel ∧
         cb'.width = exFrameBuffer.colorBuffer.width ∧
         cb'.height = exFrameBuffer.colorBuffer.height) ∧
       ((1 : ℚ) - 1 / 255 < v.r ∧ v.r ≤ 1) ∧ ((1 / 2 : ℚ) - 1 / 255 < v.g ∧ v.g ≤ 1 / 2) ∧
       ((0 : ℚ) - 1 / 255 < v.b ∧ v.b ≤ 0) ∧ ((1 : ℚ) - 1 / 255 < v.a ∧ v.a ≤ 1))) ∧
    ((exWideColorBuffer.width ≤ 1999 ∨ exWideColorBuffer.height ≤ 1099 ∨
        (exWideColorBuffer.BUFFER_SIZE ≤ (1099 * exWideColorBuffer.width + 1999) * 4 + 3 ∧
          (1099 * exWideColorBuffer.width + 1999) * 4 + 3 < 2 ^ 32)) ∧
      exWideColorBuffer.SetPixel 1999 1099 (⟨1, 1 / 2, 0, 1⟩ : Color ℚ) = exWideColorBuffer) :=
  have h1 : 1 < exFrameBuffer.colorBuffer.width := by decide
  have h2 : 1 < exFrameBuffer.colorBuffer.height := by decide
  have h3 : (1 * exFrameBuffer.colorBuffer.width + 1) * 4 + 3
      < exFrameBuffer.colorBuffer.BUFFER_SIZE := by decide
  have hr : (0 : ℚ) ≤ 1 ∧ (1 : ℚ) ≤ 1 := ⟨by norm_num, le_rfl⟩
  have hg : (0 : ℚ) ≤ 1 / 2 ∧ (1 / 2 : ℚ) ≤ 1 := ⟨by norm_num, by norm_num⟩
  have hb : (0 : ℚ) ≤ 0 ∧ (0 : ℚ) ≤ 1 := ⟨le_rfl, by norm_num⟩
  have hw : exWideColorBuffer.width ≤ 1999 ∨ exWideColorBuffer.height ≤ 1099 ∨
      (exWideColorBuffer.BUFFER_SIZE ≤ (1099 * exWideColorBuffer.width + 1999) * 4 + 3 ∧
        (1099 * exWideColorBuffer.width + 1999) * 4 + 3 < 2 ^ 32) :=
    Or.inr (Or.inr ⟨by decide, by decide⟩)
  ⟨⟨h1, h2, h3, hr, hg, hb,
      (setPixel_writes_four_bytes exFrameBuffer.colorBuffer 1 1 (⟨1, 1 / 2, 0, 1⟩ : Color ℚ)).1
        h1 h2 h3 hr hg hb hr⟩,
    ⟨hw, (setPixel_writes_four_bytes exWideColorBuffer 1999 1099
      (⟨1, 1 / 2, 0, 1⟩ : Color ℚ)).2 hw⟩⟩

/-- C30 as stated fails for a depth outside `[0, 1]` and for a pixel beyond the
allocated block.  After `InitWithColorAndDepth(black, 2)` on `exFrameBuffer` the
depth stored and read at pixel `(0, 0)` is `1`, not the given `2`.  After
`InitWithColorAndDepth(black, 1/2)` on `exWideFrameBuffer` (2000 by 1100, all depths
zero) the cell of pixel `(1999, 1099)`, which has `x < width` and `y < height`, is
beyond the block and still holds `0`, not `1/2`. -/
theorem initWithColorAndDepth_depth_two :
    ((exFrameBuffer.InitWithColorAndDepth Color.black 2).depthBuffer.buffer
        (0 * exFrameBuffer.depthBuffer.width + 0) = 1 ∧
      (exFrameBuffer.InitWithColorAndDepth Color.black 2).depthBuffer.GetDepth 0 0 = 1 ∧
      (1 : ℚ) ≠ 2) ∧
    (1999 < exWideFrameBuffer.depthBuffer.width ∧ 1099 < exWideFrameBuffer.depthBuffer.height ∧
      (exWideFrameBuffer.InitWithColorAndDepth Color.black (1 / 2)).depthBuffer.buffer
        (1099 * exWideFrameBuffer.depthBuffer.width + 1999) = 0 ∧
      (0 : ℚ) ≠ 1 / 2) := by
  have h := DepthBuffer.InitWithDepth_cell exFrameBuffer.depthBuffer 2 0 0
    (by decide) (by decide) (by decide)
  have c : clamp01 (2 : ℚ) = 1 := by norm_num [clamp01, clamp]
  rw [c] at h
  have h' : (exFrameBuffer.InitWithColorAndDepth Color.black 2).depthBuffer.buffer
      (0 * exFrameBuffer.depthBuffer.width + 0) = 1 := h
  have g : (exFrameBuffer.InitWithColorAndDepth Color.black 2).depthBuffer.GetDepth 0 0
      = (exFrameBuffer.InitWithColorAndDepth Color.black 2).depthBuffer.buffer
          (0 * exFrameBuffer.depthBuffer.width + 0) := by
    have d1 : (exFrameBuffer.InitWithColorAndDepth Color.black 2).depthBuffer.width = 800 := rfl
    have d2 : (exFrameBuffer.InitWithColorAndDepth Color.black 2).depthBuffer.height = 600 := rfl
    have d3 : (exFrameBuffer.InitWithColorAndDepth Color.black 2).depthBuffer.BUFFER_SIZE
        = 1920 * 1080 := rfl
    have d4 : exFrameBuffer.depthBuffer.width = 800 := rfl
    simp only [DepthBuffer.GetDepth, d1, d2, d3, d4]
    norm_num
  have w := DepthBuffer.InitWithDepth_beyond exWideFrameBuffer.depthBuffer (1 / 2)
    (1099 * exWideFrameBuffer.depthBuffer.width + 1999) (by decide)
  have w' : (exWideFrameBuffer.InitWithColorAndDepth Color.black (1 / 2)).depthBuffer.buffer
      (1099 * exWideFrameBuffer.depthBuffer.width + 1999) = 0 := w
  refine ⟨⟨h', ?_, by norm_num⟩, by decide, by decide, w', by norm_num⟩
  rw [g, h']

/-- C30 (amended), for `exFrameBuffer` cleared with white and the depth `1/2`, at
pixel `(3, 2)`: the four bytes are the quantized channels and the stored depth is
`1/2`. -/
theorem initWithColorAndDepth_pixel_witness :
    3 < exFrameBuffer.colorBuffer.width ∧ 2 < exFrameBuffer.colorBuffer.height ∧
    (2 * exFrameBuffer.colorBuffer.width + 3) * 4 + 3 < exFrameBuffer.colorBuffer.BUFFER_SIZE ∧
    3 < exFrameBuffer.depthBuffer.width ∧ 2 < exFrameBuffer.depthBuffer.height ∧
    2 * exFrameBuffer.depthBuffer.width + 3 < exFrameBuffer.depthBuffer.BUFFER_SIZE ∧
    (0 : ℚ) ≤ 1 / 2 ∧ (1 / 2 : ℚ) ≤ 1 ∧
    ((exFrameBuffer.InitWithColorAndDepth Color.white (1 / 2)).colorBuffer.buffer
        ((2 * exFrameBuffer.colorBuffer.width + 3) * 4) = toBYTE ((Color.white : Color ℚ).r * 255) ∧
      (exFrameBuffer.InitWithColorAndDepth Color.white (1 / 2)).colorBuffer.buffer
        ((2 * exFrameBuffer.colorBuffer.width + 3) * 4 + 1)
        = toBYTE ((Color.white : Color ℚ).g * 255) ∧
      (exFrameBuffer.InitWithColorAndDepth Color.white (1 / 2)).colorBuffer.buffer
        ((2 * exFrameBuffer.colorBuffer.width + 3) * 4 + 2)
        = toBYTE ((Color.white : Color ℚ).b * 255) ∧
      (exFrameBuffer.InitWithColorAndDepth Color.white (1 / 2)).colorBuffer.buffer
        ((2 * exFrameBuffer.colorBuffer.width + 3) * 4 + 3)
        = toBYTE ((Color.white : Color ℚ).a * 255)) ∧
    (exFrameBuffer.InitWithColorAndDepth Color.white (1 / 2)).depthBuffer.buffer
      (2 * exFrameBuffer.depthBuffer.width + 3) = clamp01 (1 / 2) ∧
    (exFrameBuffer.InitWithColorAndDepth Color.white (1 / 2)).depthBuffer.GetDepth 3 2
      = clamp01 (1 / 2) ∧
    (exFrameBuffer.InitWithColorAndDepth Color.white (1 / 2)).depthBuffer.GetDepth 3 2 = 1 / 2 :=
  have c1 : 3 < exFrameBuffer.colorBuffer.width := by decide
  have c2 : 2 < exFrameBuffer.colorBuffer.height := by decide
  have c3 : (2 * exFrameBuffer.colorBuffer.width + 3) * 4 + 3
      < exFrameBuffer.colorBuffer.BUFFER_SIZE := by decide
  have d1 : 3 < exFrameBuffer.depthBuffer.width := by decide
  have d2 : 2 < exFrameBuffer.depthBuffer.height := by decide
  have d3 : 2 * exFrameBuffer.depthBuffer.width + 3 < exFrameBuffer.depthBuffer.BUFFER_SIZE := by
    decide
  have z0 : (0 : ℚ) ≤ 1 / 2 := by norm_num
  have z1 : (1 / 2 : ℚ) ≤ 1 := by norm_num
  ⟨c1, c2, c3, d1, d2, d3, z0, z1,
    (initWithColorAndDepth_pixel exFrameBuffer Color.white (1 / 2) 3 2).2.1 c1 c2 c3,
    ((initWithColorAndDepth_pixel exFrameBuffer Color.white (1 / 2) 3 2).2.2 d1 d2 d3).1,
    ((initWithColorAndDepth_pixel exFrameBuffer Color.white (1 / 2) 3 2).2.2 d1 d2 d3).2.1,
    ((initWithColorAndDepth_pixel exFrameBuffer Color.white (1 / 2) 3 2).2.2 d1 d2 d3).2.2 z0 z1⟩

/-! ### Vectors: division and normalization -/

/-- The value of `sqrtQ` at `2⁻⁴⁶`. -/
theorem sqrtQ_tiny : sqrtQ (1 / 2 ^ 46) = 1 / 2 ^ 23 := by
  have f : ⌊(1 / 2 ^ 46 : ℚ) * 2 ^ 46⌋ = ((1 : ℕ) : ℤ) :=
    floorQ _ _ (by norm_num) (by norm_num)
  simp only [sqrtQ, f, Int.toNat_ofNat, Nat.sqrt_one]
  norm_num

/-- The magnitudes of the example vectors. -/
theorem exVectors_magnitude :
    (exTiny2.magnitudeSquared = 1 / 2 ^ 46 ∧ exTiny3.magnitudeSquared = 1 / 2 ^ 46 ∧
      exTiny4.magnitudeSquared = 1 / 2 ^ 46) ∧
    (exLong2.magnitudeSquared = 16 ∧ exLong3.magnitudeSquared = 16 ∧
      exLong4.magnitudeSquared = 16) := by
  refine ⟨⟨?_, ?_, ?_⟩, ?_, ?_, ?_⟩ <;>
    norm_num [Vector2.magnitudeSquared, Vector3.magnitudeSquared, Vector4.magnitudeSquared,
      exTiny2, exTiny3, exTiny4, exLong2, exLong3, exLong4, Vector3.mk3]

/-- C32, for the scalar `s = 1/2000000` and the vectors `exLong2`, `exLong3`,
`exLong4` (division), and for the vectors `exTiny2`, `exTiny3`, `exTiny4` of
magnitude `2⁻²³` (normalization). -/
theorem division_and_normalize_guards_witness :
    (|(1 / 2000000 : ℚ)| < EPSILON ∧
      exLong2.div (1 / 2000000) = Vector2.zero ∧ exLong3.div (1 / 2000000) = Vector3.zero ∧
      exLong4.div (1 / 2000000) = Vector4.zero ∧
      exLong2.divAssign (1 / 2000000) = exLong2 ∧ exLong3.divAssign (1 / 2000000) = exLong3 ∧
      exLong4.divAssign (1 / 2000000) = exLong4) ∧
    (exTiny2.magnitude sqrtQ < EPSILON ∧ exTiny2.normalize sqrtQ = exTiny2) ∧
    (exTiny3.magnitude sqrtQ < EPSILON ∧ exTiny3.normalize sqrtQ = exTiny3) ∧
    (exTiny4.magnitude sqrtQ < EPSILON ∧ exTiny4.normalize sqrtQ = exTiny4) := by
  have hs : |(1 / 2000000 : ℚ)| < EPSILON := by
    rw [abs_of_pos (by norm_num)]
    norm_num [EPSILON]
  have ht : (1 / 2 ^ 23 : ℚ) < EPSILON := by norm_num [EPSILON]
  have m2 : exTiny2.magnitude sqrtQ < EPSILON := by
    unfold Vector2.magnitude
    rw [exVectors_magnitude.1.1, sqrtQ_tiny]
    exact ht
  have m3 : exTiny3.magnitude sqrtQ < EPSILON := by
    unfold Vector3.magnitude
    rw [exVectors_magnitude.1.2.1, sqrtQ_tiny]
    exact ht
  have m4 : exTiny4.magnitude sqrtQ < EPSILON := by
    unfold Vector4.magnitude
    rw [exVectors_magnitude.1.2.2, sqrtQ_tiny]
    exact ht
  exact ⟨⟨hs, (division_and_normalize_guards sqrtQ exLong2 exLong3 exLong4 (1 / 2000000)).1 hs⟩,
    ⟨m2, (division_and_normalize_guards sqrtQ exTiny2 exTiny3 exTiny4 0).2.1 m2⟩,
    ⟨m3, (division_and_normalize_guards sqrtQ exTiny2 exTiny3 exTiny4 0).2.2.1 m3⟩,
    ⟨m4, (division_and_normalize_guards sqrtQ exTiny2 exTiny3 exTiny4 0).2.2.2.1 m4⟩⟩

/-- C33, for the vectors `exLong2`, `exLong3`, `exLong4` of magnitude four (the
normalized vector has magnitude one) and for the vectors `exTiny2`, `exTiny3`,
`exTiny4` of magnitude `2⁻²³` (normalization leaves them unchanged); `sqrtQ` is exact
at `16`, at `2⁻⁴⁶` and at `1`. -/
theorem normalize_idempotent_witness :
    sqrtQ 1 = 1 ∧
    (sqrtQ exLong2.magnitudeSquared * sqrtQ exLong2.magnitudeSquared = exLong2.magnitudeSquared ∧
      sqrtQ exLong3.magnitudeSquared * sqrtQ exLong3.magnitudeSquared
        = exLong3.magnitudeSquared ∧
      sqrtQ exLong4.magnitudeSquared * sqrtQ exLong4.magnitudeSquared
        = exLong4.magnitudeSquared) ∧
    (sqrtQ exTiny2.magnitudeSquared * sqrtQ exTiny2.magnitudeSquared = exTiny2.magnitudeSquared ∧
      sqrtQ exTiny3.magnitudeSquared * sqrtQ exTiny3.magnitudeSquared
        = exTiny3.magnitudeSquared ∧
      sqrtQ exTiny4.magnitudeSquared * sqrtQ exTiny4.magnitudeSquared
        = exTiny4.magnitudeSquared) ∧
    ((exLong2.normalize sqrtQ).normalize sqrtQ = exLong2.normalize sqrtQ ∧
      EPSILON ≤ exLong2.magnitude sqrtQ ∧ (exLong2.normalize sqrtQ).magnitude sqrtQ = 1) ∧
    ((exLong3.normalize sqrtQ).normalize sqrtQ = exLong3.normalize sqrtQ ∧
      EPSILON ≤ exLong3.magnitude sqrtQ ∧ (exLong3.normalize sqrtQ).magnitude sqrtQ = 1) ∧
    ((exLong4.normalize sqrtQ).normalize sqrtQ = exLong4.normalize sqrtQ ∧
      EPSILON ≤ exLong4.magnitude sqrtQ ∧ (exLong4.normalize sqrtQ).magnitude sqrtQ = 1) ∧
    (exTiny2.magnitude sqrtQ < EPSILON ∧ exTiny2.normalize sqrtQ = exTiny2) ∧
    (exTiny3.magnitude sqrtQ < EPSILON ∧ exTiny3.normalize sqrtQ = exTiny3) ∧
    (exTiny4.magnitude sqrtQ < EPSILON ∧ exTiny4.normalize sqrtQ = exTiny4) := by
  obtain ⟨⟨t2, t3, t4⟩, l2, l3, l4⟩ := exVectors_magnitude
  have hl : sqrtQ 16 * sqrtQ 16 = (16 : ℚ) := by
    rw [sqrtQ_sixteen]
    norm_num
  have hq : sqrtQ (1 / 2 ^ 46) * sqrtQ (1 / 2 ^ 46) = (1 / 2 ^ 46 : ℚ) := by
    rw [sqrtQ_tiny]
    norm_num
  have hl2 : sqrtQ exLong2.magnitudeSquared * sqrtQ exLong2.magnitudeSquared
      = exLong2.magnitudeSquared := by rw [l2]; exact hl
  have hl3 : sqrtQ exLong3.magnitudeSquared * sqrtQ exLong3.magnitudeSquared
      = exLong3.magnitudeSquared := by rw [l3]; exact hl
  have hl4 : sqrtQ exLong4.magnitudeSquared * sqrtQ exLong4.magnitudeSquared
      = exLong4.magnitudeSquared := by rw [l4]; exact hl
  have ht2 : sqrtQ exTiny2.magnitudeSquared * sqrtQ exTiny2.magnitudeSquared
      = exTiny2.magnitudeSquared := by rw [t2]; exact hq
  have ht3 : sqrtQ exTiny3.magnitudeSquared * sqrtQ exTiny3.magnitudeSquared
      = exTiny3.magnitudeSquared := by rw [t3]; exact hq
  have ht4 : sqrtQ exTiny4.magnitudeSquared * sqrtQ exTiny4.magnitudeSquared
      = exTiny4.magnitudeSquared := by rw [t4]; exact hq
  have he : EPSILON ≤ (4 : ℚ) := by norm_num [EPSILON]
  have ht : (1 / 2 ^ 23 : ℚ) < EPSILON := by norm_num [EPSILON]
  have e2 : EPSILON ≤ exLong2.magnitude sqrtQ := by
    unfold Vector2.magnitude
    rw [l2, sqrtQ_sixteen]
    exact he
  have e3 : EPSILON ≤ exLong3.magnitude sqrtQ := by
    unfold Vector3.magnitude
    rw [l3, sqrtQ_sixteen]
    exact he
  have e4 : EPSILON ≤ exLong4.magnitude sqrtQ := by
    unfold Vector4.magnitude
    rw [l4, sqrtQ_sixteen]
    exact he
  have m2 : exTiny2.magnitude sqrtQ < EPSILON := by
    unfold Vector2.magnitude
    rw [t2, sqrtQ_tiny]
    exact ht
  have m3 : exTiny3.magnitude sqrtQ < EPSILON := by
    unfold Vector3.magnitude
    rw [t3, sqrtQ_tiny]
    exact ht
  have m4 : exTiny4.magnitude sqrtQ < EPSILON := by
    unfold Vector4.magnitude
    rw [t4, sqrtQ_tiny]
    exact ht
  have A := normalize_idempotent sqrtQ exLong2 exLong3 exLong4 sqrtQ_one hl2 hl3 hl4
  have B := normalize_idempotent sqrtQ exTiny2 exTiny3 exTiny4 sqrtQ_one ht2 ht3 ht4
  exact ⟨sqrtQ_one, ⟨hl2, hl3, hl4⟩, ⟨ht2, ht3, ht4⟩,
    ⟨A.1.1, e2, A.1.2.1 e2⟩, ⟨A.2.1.1, e3, A.2.1.2.1 e3⟩, ⟨A.2.2.1, e4, A.2.2.2.1 e4⟩,
    ⟨m2, B.1.2.2 m2⟩, ⟨m3, B.2.1.2.2 m3⟩, ⟨m4, B.2.2.2.2 m4⟩⟩

/-! ### The rasterizer's derivatives, weights and bounding box -/

/-- C34, for the screen triangle `(0,0)`, `(4,0)`, `(0,4)` with texture coordinates
`(0,0)`, `(1,0)`, `(0,1)`: `det = 16`. -/
theorem uv_derivatives_solve_systems_witness :
    EPSILON ≤ |(exUV2.position.x - exUV1.position.x) * (exUV3.position.y - exUV1.position.y)
      - (exUV2.position.y - exUV1.position.y) * (exUV3.position.x - exUV1.position.x)| ∧
    (let e12x := exUV2.position.x - exUV1.position.x
     let e12y := exUV2.position.y - exUV1.position.y
     let e13x := exUV3.position.x - exUV1.position.x
     let e13y := exUV3.position.y - exUV1.position.y
     let d := DrawTriangle.derivatives exUV1 exUV2 exUV3
     let dudx := d.1
     let dvdx := d.2.1
     let dudy := d.2.2.1
     let dvdy := d.2.2.2
     dudx * e12x + dudy * e12y = exUV2.texcoord.x - exUV1.texcoord.x ∧
     dudx * e13x + dudy * e13y = exUV3.texcoord.x - exUV1.texcoord.x ∧
     dvdx * e12x + dvdy * e12y = exUV2.texcoord.y - exUV1.texcoord.y ∧
     dvdx * e13x + dvdy * e13y = exUV3.texcoord.y - exUV1.texcoord.y) :=
  have h : EPSILON ≤ |(exUV2.position.x - exUV1.position.x)
      * (exUV3.position.y - exUV1.position.y)
      - (exUV2.position.y - exUV1.position.y) * (exUV3.position.x - exUV1.position.x)| := by
    have e : (exUV2.position.x - exUV1.position.x) * (exUV3.position.y - exUV1.position.y)
        - (exUV2.position.y - exUV1.position.y) * (exUV3.position.x - exUV1.position.x)
        = 16 := by
      norm_num [exUV1, exUV2, exUV3, exTexVertex, exVertex]
    rw [e, abs_of_pos (by norm_num)]
    norm_num [EPSILON]
  ⟨h, uv_derivatives_solve_systems exUV1 exUV2 exUV3 h⟩

/-- The point `(3/2, 3/2)` passes `PointInTriangle` for the screen triangle `(0,0)`,
`(4,0)`, `(0,4)`. -/
theorem exUV_covers :
    (PointInTriangle ((((1 : ℤ) : ℚ)) + 1 / 2) ((((1 : ℤ) : ℚ)) + 1 / 2)
      ⟨exUV1.position.x, exUV1.position.y⟩ ⟨exUV2.position.x, exUV2.position.y⟩
      ⟨exUV3.position.x, exUV3.position.y⟩ 0 0 0).1 = true := by
  norm_num [PointInTriangle, EdgeFunction, exUV1, exUV2, exUV3, exTexVertex, exVertex]

/-- C35, for the screen triangle `(0,0)`, `(4,0)`, `(0,4)` and the pixel centre
`(3/2, 3/2)`. -/
theorem pointInTriangle_weights_are_barycentric_witness :
    (PointInTriangle ((((1 : ℤ) : ℚ)) + 1 / 2) ((((1 : ℤ) : ℚ)) + 1 / 2)
      ⟨exUV1.position.x, exUV1.position.y⟩ ⟨exUV2.position.x, exUV2.position.y⟩
      ⟨exUV3.position.x, exUV3.position.y⟩ 0 0 0).1 = true ∧
    (let r := PointInTriangle ((((1 : ℤ) : ℚ)) + 1 / 2) ((((1 : ℤ) : ℚ)) + 1 / 2)
      ⟨exUV1.position.x, exUV1.position.y⟩ ⟨exUV2.position.x, exUV2.position.y⟩
      ⟨exUV3.position.x, exUV3.position.y⟩ 0 0 0
     r.2.1 + r.2.2.1 + r.2.2.2 = 1 ∧
     r.2.1 * exUV1.position.x + r.2.2.1 * exUV2.position.x + r.2.2.2 * exUV3.position.x
       = (((1 : ℤ) : ℚ)) + 1 / 2 ∧
     r.2.1 * exUV1.position.y + r.2.2.1 * exUV2.position.y + r.2.2.2 * exUV3.position.y
       = (((1 : ℤ) : ℚ)) + 1 / 2 ∧
     (InterpolateVertex sqrtQ exUV1 exUV2 exUV3 r.2.1 r.2.2.1 r.2.2.2).position.x
       = (((1 : ℤ) : ℚ)) + 1 / 2 ∧
     (InterpolateVertex sqrtQ exUV1 exUV2 exUV3 r.2.1 r.2.2.1 r.2.2.2).position.y
       = (((1 : ℤ) : ℚ)) + 1 / 2) :=
  ⟨exUV_covers,
    pointInTriangle_weights_are_barycentric sqrtQ exUV1 exUV2 exUV3 _ _ 0 0 0 exUV_covers⟩

/-- The lemma `boundingBox_keeps_covered_pixels` for the screen triangle `(0,0)`,
`(4,0)`, `(0,4)` on an 8 by 8 screen and the pixel `(1, 1)`. -/
theorem boundingBox_keeps_covered_pixels_witness :
    (0 : ℤ) ≤ 1 ∧ (1 : ℤ) < 8 ∧
    (PointInTriangle ((((1 : ℤ) : ℚ)) + 1 / 2) ((((1 : ℤ) : ℚ)) + 1 / 2)
      ⟨exUV1.position.x, exUV1.position.y⟩ ⟨exUV2.position.x, exUV2.position.y⟩
      ⟨exUV3.position.x, exUV3.position.y⟩ 0 0 0).1 = true ∧
    max (max exUV1.position.x exUV2.position.x) exUV3.position.x ≤ 2 ^ 31 - 1 ∧
    max (max exUV1.position.y exUV2.position.y) exUV3.position.y ≤ 2 ^ 31 - 1 ∧
    (let box := DrawTriangle.boundingBox 8 8 exUV1 exUV2 exUV3
     (0 ≤ box.1 ∧ box.2.1 ≤ 8 - 1 ∧ 0 ≤ box.2.2.1 ∧ box.2.2.2 ≤ 8 - 1) ∧
     (box.1 ≤ 1 ∧ 1 ≤ box.2.1 ∧ box.2.2.1 ≤ 1 ∧ 1 ≤ box.2.2.2)) := by
  have mx : max (max exUV1.position.x exUV2.position.x) exUV3.position.x ≤ 2 ^ 31 - 1 := by
    norm_num [exUV1, exUV2, exUV3, exTexVertex, exVertex]
  have my : max (max exUV1.position.y exUV2.position.y) exUV3.position.y ≤ 2 ^ 31 - 1 := by
    norm_num [exUV1, exUV2, exUV3, exTexVertex, exVertex]
  exact ⟨by decide, by decide, exUV_covers, mx, my,
    boundingBox_keeps_covered_pixels 8 8 exUV1 exUV2 exUV3 1 1 0 0 0 (by decide) (by decide)
      (by decide) (by decide) exUV_covers mx my⟩

/-! ### The calls of the near-plane clipper -/

/-- C38, for the triangle `exP`, `exQ`, `exR` (`w = 2, 2, −1/2`): the clipper calls
`ClipAgainstNearPlane(exP, exR)`, from the inside vertex `exP` to the outside vertex
`exR`. -/
theorem clip_calls_inside_to_outside_witness :
    (exP, exR) ∈ (ClipTriangleAgainstNearPlane.traced sqrtQ exP exQ exR).2 ∧
    1 / 10 ≤ exP.position.w ∧ exR.position.w < 1 / 10 ∧
    exR.position.w - exP.position.w < 0 ∧
    0 ≤ (1 / 10 - exP.position.w) / (exR.position.w - exP.position.w) ∧
    (1 / 10 - exP.position.w) / (exR.position.w - exP.position.w) < 1 ∧
    (ClipAgainstNearPlane sqrtQ exP exR).position
      = ⟨exP.position.x + (1 / 10 - exP.position.w) / (exR.position.w - exP.position.w)
            * (exR.position.x - exP.position.x),
         exP.position.y + (1 / 10 - exP.position.w) / (exR.position.w - exP.position.w)
            * (exR.position.y - exP.position.y),
         exP.position.z + (1 / 10 - exP.position.w) / (exR.position.w - exP.position.w)
            * (exR.position.z - exP.position.z),
         exP.position.w + (1 / 10 - exP.position.w) / (exR.position.w - exP.position.w)
            * (exR.position.w - exP.position.w)⟩ :=
  have hm : (exP, exR) ∈ (ClipTriangleAgainstNearPlane.traced sqrtQ exP exQ exR).2 := by
    have h1 : (1 : ℚ) / 10 ≤ exP.position.w := by norm_num [exP, exVertex]
    have h2 : (1 : ℚ) / 10 ≤ exQ.position.w := by norm_num [exQ, exVertex]
    have h3 : ¬ (1 : ℚ) / 10 ≤ exR.position.w := by norm_num [exR, exVertex]
    simp only [ClipTriangleAgainstNearPlane.traced, h1, h2, h3, decide_True, decide_False,
      if_true, if_false, Bool.not_true, Bool.not_false, Bool.false_eq_true]
    norm_num
  ⟨hm, (clip_calls_inside_to_outside sqrtQ exP exQ exR).2 (exP, exR) hm⟩

/-! ### Mip indices of the trilinear sample -/

/-- C40, for `exTexTrilinear` (`n = 1`): at the level `1/2` and at the level `1` that
`CalculateMipmapLevel` returns for `dudx = dvdy = 1`, `TrilinearSample` accesses
`mipmaps[0]`. -/
theorem trilinear_mip_indices_in_range_witness :
    1 ≤ exTexTrilinear.mipmaps.length ∧ (0 : ℚ) ≤ 1 / 2 ∧
    (1 / 2 : ℚ) ≤ ((exTexTrilinear.mipmaps.length : ℕ) : ℚ) ∧
    (0 ≤ exTexTrilinear.CalculateMipmapLevel log2Q 1 1 ∧
      exTexTrilinear.CalculateMipmapLevel log2Q 1 1
        ≤ ((exTexTrilinear.mipmaps.length : ℕ) : ℚ)) ∧
    ((0 : ℤ) ∈ Texture.TrilinearSample.accesses exTexTrilinear (1 / 2) ∧
      (0 : ℤ) ≤ 0 ∧ (0 : ℤ) < ((exTexTrilinear.mipmaps.length : ℕ) : ℤ)) ∧
    (exTexTrilinear.TrilinearSample 0 0 (1 / 2)).isSome = true ∧
    ((0 : ℤ) ∈ Texture.TrilinearSample.accesses exTexTrilinear
        (exTexTrilinear.CalculateMipmapLevel log2Q 1 1) ∧
      (0 : ℤ) ≤ 0 ∧ (0 : ℤ) < ((exTexTrilinear.mipmaps.length : ℕ) : ℤ)) ∧
    (exTexTrilinear.TrilinearSample 0 0
      (exTexTrilinear.CalculateMipmapLevel log2Q 1 1)).isSome = true := by
  have hn : 1 ≤ exTexTrilinear.mipmaps.length := by decide
  have h0 : (0 : ℚ) ≤ 1 / 2 := by norm_num
  have h1 : (1 / 2 : ℚ) ≤ ((exTexTrilinear.mipmaps.length : ℕ) : ℚ) := by
    have : exTexTrilinear.mipmaps.length = 1 := rfl
    rw [this]
    norm_num
  have fh : ⌊(1 / 2 : ℚ)⌋ = 0 := floorQ _ 0 (by norm_num) (by norm_num)
  have f1 : ⌊(1 : ℚ)⌋ = 1 := floorQ _ 1 (by norm_num) (by norm_num)
  have a1 : (0 : ℤ) ∈ Texture.TrilinearSample.accesses exTexTrilinear (1 / 2) := by
    have hl : ¬ (1 / 2 : ℚ) ≤ 0 := by norm_num
    have len : exTexTrilinear.mipmaps.length = 1 := rfl
    simp only [Texture.TrilinearSample.accesses, if_neg hl, fh, len]
    norm_num
  have lv : exTexTrilinear.CalculateMipmapLevel log2Q 1 1 = 1 := by
    have hrho : max |(1 : ℚ) * (exTexTrilinear.width : ℚ)| |(1 : ℚ) * (exTexTrilinear.height : ℚ)|
        = 2 ^ 1 := by
      norm_num [exTexTrilinear]
    have len : exTexTrilinear.mipmaps.length = 1 := rfl
    simp only [Texture.CalculateMipmapLevel, hrho, log2Q_two, len]
    norm_num [clamp]
  have a2 : (0 : ℤ) ∈ Texture.TrilinearSample.accesses exTexTrilinear
      (exTexTrilinear.CalculateMipmapLevel log2Q 1 1) := by
    have hl : ¬ (1 : ℚ) ≤ 0 := by norm_num
    have len : exTexTrilinear.mipmaps.length = 1 := rfl
    rw [lv]
    simp only [Texture.TrilinearSample.accesses, if_neg hl, f1, len]
    norm_num
  have K := trilinear_mip_indices_in_range log2Q exTexTrilinear 0 0 1 1 (1 / 2) hn h0 h1
  exact ⟨hn, h0, h1, K.1, ⟨a1, K.2.1 0 a1⟩, K.2.2.1, ⟨a2, K.2.2.2.1 0 a2⟩, K.2.2.2.2⟩

/-! ### The normal matrix -/

/-- The determinant that `Matrix::inverse` computes for `exDiag` is `1/2000000`. -/
theorem exDiag_det : Matrix.inverse.det exDiag = 1 / 2000000 := by
  simp only [Matrix.inverse.det, exDiag, Matrix.cons_val_zero, Matrix.cons_val_one,
    Matrix.head_cons, Matrix.cons_val_two, Matrix.cons_val_three, Matrix.tail_cons]
  norm_num

/-- The matrix `exDiagInv` is the inverse of `exDiag`. -/
theorem exDiag_mul_inv :
    exDiag.mul exDiagInv = Matrix.identity ∧ exDiagInv.mul exDiag = Matrix.identity := by
  constructor <;>
  · apply Matrix.ext_entries
    intro i j
    rw [Matrix.mul_m]
    fin_cases i <;> fin_cases j <;>
      simp only [exDiag, exDiagInv, Matrix.identity, Matrix.cons_val_zero, Matrix.cons_val_one,
        Matrix.head_cons, Matrix.cons_val_two, Matrix.cons_val_three, Matrix.tail_cons,
        Fin.zero_eta, Fin.mk_one, Fin.reduceFinMk, Fin.isValue, Fin.reduceEq, if_true,
        if_false] <;>
      norm_num

/-- C18 as stated fails in the fallback for an invertible matrix.  The scaling
`exDiag` by `(1/100, 1/100, 1/200)` has the determinant `1/2000000 < EPSILON` and the
inverse `exDiagInv`, the scaling by `(100, 100, 200)`, which is also its inverse
matrix in Mathlib; its normal matrix `exDiag.transpose().inverse()` is the identity
matrix, not the transpose of the inverse (entry `(0, 0)` is `1`, not `100`). -/
theorem normalMatrix_small_det_not_inverse_transpose :
    |Matrix.inverse.det exDiag| < EPSILON ∧
    exDiag.mul exDiagInv = Matrix.identity ∧ exDiagInv.mul exDiag = Matrix.identity ∧
    (Matrix.of exDiag.m)⁻¹ = Matrix.of exDiagInv.m ∧
    exDiag.transpose.inverse = Matrix.identity ∧
    exDiag.transpose.inverse.m 0 0 = 1 ∧ exDiagInv.transpose.m 0 0 = 100 ∧
    exDiag.transpose.inverse ≠ exDiagInv.transpose ∧
    Matrix.of exDiag.transpose.inverse.m ≠ ((Matrix.of exDiag.m)⁻¹).transpose := by
  have hdet : |Matrix.inverse.det exDiag| < EPSILON := by
    rw [exDiag_det]
    norm_num [EPSILON, abs_of_pos]
  have hT : |Matrix.inverse.det exDiag.transpose| < EPSILON := by
    rw [Matrix.inverse_det_transpose]
    exact hdet
  have hN : exDiag.transpose.inverse = Matrix.identity :=
    Matrix.inverse_of_small_det exDiag.transpose hT
  have hinv : (Matrix.of exDiag.m)⁻¹ = Matrix.of exDiagInv.m := by
    apply Matrix.inv_eq_left_inv
    rw [← Matrix.of_mul, exDiag_mul_inv.2, Matrix.of_identity]
  have h00 : exDiag.transpose.inverse.m 0 0 = 1 := by
    rw [hN]
    simp [Matrix.identity]
  have g00 : exDiagInv.transpose.m 0 0 = 100 := by
    simp [Matrix.transpose, exDiagInv]
  refine ⟨hdet, exDiag_mul_inv.1, exDiag_mul_inv.2, hinv, hN, h00, g00, ?_, ?_⟩
  · intro h
    have h' := congrArg (fun A : Matrix ℚ => A.m 0 0) h
    simp only [h00, g00] at h'
    exact absurd h' (by norm_num)
  · intro h
    rw [hinv] at h
    have h' := congrFun (congrFun h 0) 0
    have e1 : Matrix.of exDiag.transpose.inverse.m 0 0 = 1 := h00
    have e2 : (Matrix.of exDiagInv.m).transpose 0 0 = 100 := g00
    rw [e1, e2] at h'
    exact absurd h' (by norm_num)

/-- C18 (amended), for `exMatrix` (determinant `2`, dividing branch) and for `exDiag`
(determinant `1/2000000`, fallback). -/
theorem normalMatrix_eq_inverse_transpose_witness :
    ((EPSILON : ℚ) ≤ |Matrix.inverse.det exMatrix| ∧
      Matrix.of exMatrix.transpose.inverse.m = ((Matrix.of exMatrix.m)⁻¹).transpose ∧
      exMatrix.transpose.inverse.transpose.mul exMatrix = Matrix.identity ∧
      exMatrix.mul exMatrix.transpose.inverse.transpose = Matrix.identity) ∧
    (|Matrix.inverse.det exDiag| < EPSILON ∧ exDiag.transpose.inverse = Matrix.identity) := by
  have h1 : (EPSILON : ℚ) ≤ |Matrix.inverse.det exMatrix| := by
    rw [exMatrix_det]
    norm_num [EPSILON]
  have h2 : |Matrix.inverse.det exDiag| < EPSILON := by
    rw [exDiag_det]
    norm_num [EPSILON, abs_of_pos]
  exact ⟨⟨h1, (normalMatrix_eq_inverse_transpose exMatrix).2.1 h1⟩,
    ⟨h2, (normalMatrix_eq_inverse_transpose exDiag).2.2.1 h2⟩⟩

/-! ### The bounding box beyond the range of `int` -/

/-- The binary exponent of a positive rational between two powers of two. -/
theorem log_two_eq (r : ℚ) (e : ℤ) (h1 : (2 : ℚ) ^ e ≤ r) (h2 : r < (2 : ℚ) ^ (e + 1)) :
    Int.log 2 r = e := by
  have hr : 0 < r := lt_of_lt_of_le (zpow_pos (by norm_num) e) h1
  have a : e ≤ Int.log 2 r := by
    rw [← Int.zpow_le_iff_le_log (by norm_num) hr]
    exact_mod_cast h1
  have b : Int.log 2 r < e + 1 := by
    rw [← Int.lt_zpow_iff_log_lt (by norm_num) hr]
    exact_mod_cast h2
  omega

/-- Zero is a `float`. -/
theorem roundFloat_zero : roundFloat 0 = 0 := by
  simp only [roundFloat, if_true]

/-- Two is a `float`. -/
theorem roundFloat_two : roundFloat 2 = 2 := by
  have hl : Int.log 2 |(2 : ℚ)| = 1 := by
    rw [abs_of_pos (by norm_num)]
    exact log_two_eq 2 1 (by norm_num) (by norm_num)
  have hf : ⌊(2 : ℚ) / 2 ^ ((1 : ℤ) - 23)⌋ = 2 ^ 23 :=
    floorQ _ _ (by norm_num) (by norm_num)
  have h2 : (2 : ℚ) ≠ 0 := by norm_num
  simp only [roundFloat, if_neg h2, hl, hf]
  norm_num

/-- The rational `1 - 2^-30` is not a `float`: it is rounded up to one. -/
theorem roundFloat_below_one : roundFloat (1 - 1 / 2 ^ 30) = 1 := by
  have hl : Int.log 2 |(1 - 1 / 2 ^ 30 : ℚ)| = -1 := by
    rw [abs_of_pos (by norm_num)]
    exact log_two_eq _ (-1) (by norm_num) (by norm_num)
  have hf : ⌊(1 - 1 / 2 ^ 30 : ℚ) / 2 ^ ((-1 : ℤ) - 23)⌋ = 2 ^ 24 - 1 :=
    floorQ _ _ (by norm_num) (by norm_num)
  have h2 : (1 - 1 / 2 ^ 30 : ℚ) ≠ 0 := by norm_num
  simp only [roundFloat, if_neg h2, hl, hf]
  norm_num

/-- C23 fails in `float` arithmetic.  On the 2 by 2 checker `exTexChecker` (`REPEAT`
wrapping, nearest filter, for which `Sample` is `NearestSample`), at
`u = -2^-30`, `v = 0`: `u - floor(u) = 1 - 2^-30` is rounded to `1.0f`, outside the
range `[0, 1)` that the comment of the `REPEAT` branch states, so the sample reads
column `x = 2 = width` and returns black, which is no texel of the checker.  At
`u + 1`, which is `1.0f` as a `float`, the sample returns the red texel `(0, 0)`. -/
theorem sample_repeat_rounds_to_one :
    exTexChecker.wrapMode = TextureWrapMode.REPEAT ∧
    (∀ u v : ℚ, exTexChecker.Sample u v = exTexChecker.NearestSample u v) ∧
    Texture.WrapCoordinates.rounded roundFloat exTexChecker (-1 / 2 ^ 30) 0 = (1, 0) ∧
    Texture.NearestSample.rounded roundFloat exTexChecker (-1 / 2 ^ 30) 0 = Color.black ∧
    roundFloat (-1 / 2 ^ 30 + 1) = 1 ∧
    Texture.NearestSample.rounded roundFloat exTexChecker (roundFloat (-1 / 2 ^ 30 + 1)) 0
      = Color.red ∧
    (Color.red : Color ℚ) ≠ Color.black ∧
    (∀ x y : ℤ, 0 ≤ x ∧ x < 2 ∧ 0 ≤ y ∧ y < 2 → exTexChecker.GetPixel x y ≠ Color.black) := by
  have fu : ⌊(-1 / 2 ^ 30 : ℚ)⌋ = -1 := floorQ _ _ (by norm_num) (by norm_num)
  have f0 : ⌊(0 : ℚ)⌋ = 0 := Int.floor_zero
  have f1 : ⌊(1 : ℚ)⌋ = 1 := Int.floor_one
  have eu : (-1 / 2 ^ 30 : ℚ) - ((-1 : ℤ) : ℚ) = 1 - 1 / 2 ^ 30 := by norm_num
  have e0 : (0 : ℚ) - ((0 : ℤ) : ℚ) = 0 := by norm_num
  have e1 : (1 : ℚ) - ((1 : ℤ) : ℚ) = 0 := by norm_num
  have ru : roundFloat (-1 / 2 ^ 30 + 1) = 1 := by
    have e : (-1 / 2 ^ 30 + 1 : ℚ) = 1 - 1 / 2 ^ 30 := by norm_num
    rw [e, roundFloat_below_one]
  have hw : Texture.WrapCoordinates.rounded roundFloat exTexChecker (-1 / 2 ^ 30) 0 = (1, 0) := by
    simp only [Texture.WrapCoordinates.rounded, exTexChecker, fu, f0, eu, e0,
      roundFloat_below_one, roundFloat_zero]
  have hw1 : Texture.WrapCoordinates.rounded roundFloat exTexChecker 1 0 = (0, 0) := by
    simp only [Texture.WrapCoordinates.rounded, exTexChecker, f1, f0, e1, e0, roundFloat_zero]
  have w2 : ((exTexChecker.width : ℤ) : ℚ) = 2 := by norm_num [exTexChecker]
  have h2 : ((exTexChecker.height : ℤ) : ℚ) = 2 := by norm_num [exTexChecker]
  have t2 : toInt (2 : ℚ) = 2 := by
    have h := toInt_intCast (F := ℚ) 2
    exact_mod_cast h
  have t0 : toInt (0 : ℚ) = 0 := by
    have h := toInt_intCast (F := ℚ) 0
    exact_mod_cast h
  have hred : (Color.red : Color ℚ) ≠ Color.black := by
    intro h
    have := congrArg Color.r h
    norm_num [Color.red, Color.black] at this
  have hgreen : (Color.green : Color ℚ) ≠ Color.black := by
    intro h
    have := congrArg Color.g h
    norm_num [Color.green, Color.black] at this
  have gp : ∀ x y : ℤ, exTexChecker.GetPixel x y
      = if 0 ≤ x ∧ x < 2 ∧ 0 ≤ y ∧ y < 2 then
          (if (y * 2 + x).toNat = 0 ∨ (y * 2 + x).toNat = 3 then Color.red else Color.green)
        else Color.black :=
    fun x y => Texture.GetPixel_eq exTexChecker _ rfl x y
  refine ⟨rfl, ?_, hw, ?_, ru, ?_, hred, ?_⟩
  · intro u v
    simp [Texture.Sample, exTexChecker]
  · simp only [Texture.NearestSample.rounded, hw, w2, h2, roundFloat_two, one_mul, zero_mul,
      roundFloat_zero, t2, t0]
    rw [gp]
    norm_num
  · rw [ru]
    simp only [Texture.NearestSample.rounded, hw1, w2, h2, roundFloat_two, zero_mul,
      roundFloat_zero, t0]
    rw [gp]
    norm_num
  · rintro x y ⟨hx0, hx1, hy0, hy1⟩
    have hx : x = 0 ∨ x = 1 := by omega
    have hy : y = 0 ∨ y = 1 := by omega
    have n1 : Int.toNat 1 = 1 := rfl
    have n2 : Int.toNat 2 = 2 := rfl
    have n3 : Int.toNat 3 = 3 := rfl
    rcases hx with rfl | rfl <;> rcases hy with rfl | rfl <;>
      (rw [gp]; norm_num [hred, hgreen, n1, n2, n3])

end Instances

end XYHSoftRenderer
